import Mathlib

/-!
# Vector floating-point emitter of dynarmic (x64 back end)

The emitters of `src/backend_x64/emit_x64_vector_floating_point.cpp` are embedded as Lean
functions that append host instructions to a code buffer (`Emit`), one Lean line per C++ line.
What an emitted sequence computes is obtained by running it on a small model of the host
(`Machine`, `step`, `run`).  The floating-point arithmetic of the host and the software helper
library are parameters (`Env`); bitwise and comparison instructions are interpreted concretely.
-/

namespace Dynarmic

/-! ## Bit-level helpers -/

/-- All-ones pattern of width `w`. -/
def ones (w : Nat) : Nat := 2 ^ w - 1

/-- Lane `i` (lanes of width `w`, lane 0 lowest) of a register value. -/
def lane (w i v : Nat) : Nat := (v >>> (w * i)) % 2 ^ w

/-- Register value whose lanes `0 .. n-1` (width `w`) are `f 0 .. f (n-1)`. -/
def ofLanes (w : Nat) (f : Nat → Nat) : Nat → Nat
  | 0 => 0
  | n + 1 => ofLanes w f n + (f n % 2 ^ w) <<< (w * n)

/-- Lane-wise binary operation on 128-bit registers. -/
def mapLanes2 (w : Nat) (f : Nat → Nat → Nat) (a b : Nat) : Nat :=
  ofLanes w (fun i => f (lane w i a) (lane w i b)) (128 / w)

/-- Lane-wise unary operation on 128-bit registers. -/
def mapLanes (w : Nat) (f : Nat → Nat) (a : Nat) : Nat :=
  ofLanes w (fun i => f (lane w i a)) (128 / w)

/-- Bitwise complement of a 128-bit register. -/
def not128 (v : Nat) : Nat := ones 128 ^^^ (v % 2 ^ 128)

/-- The lanes of a 128-bit register as a `VectorArray<FPT>`. -/
def toLanes (fsize v : Nat) : List Nat := (List.range (128 / fsize)).map (fun i => lane fsize i v)

/-- The 128-bit register holding a `VectorArray<FPT>`. -/
def fromLanes (fsize : Nat) (l : List Nat) : Nat := ofLanes fsize (fun i => l.getD i 0) (128 / fsize)

/-! ## Floating-point formats (`common/fp/info.h`, `common/fp/util.h`) -/

/-- Modelled from the spec: `FP::FPInfo<FPT>::exponent_width` is missing from the sources;
IEEE 754 binary16/32/64 have 5, 8 and 11 exponent bits. -/
def exponent_width (fsize : Nat) : Nat := if fsize = 16 then 5 else if fsize = 32 then 8 else 11

/-- Modelled from the spec: `FP::FPInfo<FPT>::explicit_mantissa_width` is missing from the
sources; the mantissa field is what the sign and the exponent leave. -/
def explicit_mantissa_width (fsize : Nat) : Nat := fsize - 1 - exponent_width fsize

/-- Exponent field of a lane. -/
def exponentField (fsize x : Nat) : Nat :=
  (x >>> explicit_mantissa_width fsize) % 2 ^ exponent_width fsize

/-- Mantissa field of a lane. -/
def mantissaField (fsize x : Nat) : Nat := x % 2 ^ explicit_mantissa_width fsize

/-- Sign bit of a lane. -/
def signBit (fsize x : Nat) : Bool := (x >>> (fsize - 1)) % 2 = 1

/-- Modelled from the spec: `FP::FPInfo<FPT>::DefaultNaN()` is missing from the sources; the
spec gives `0x7FC00000` per f32 lane and `0x7FF8000000000000` per f64 lane. -/
def DefaultNaN (fsize : Nat) : Nat := if fsize = 32 then 0x7FC00000 else 0x7FF8000000000000

/-- Modelled from the spec: `FP::IsNaN` is missing from the sources; a NaN has its exponent
all ones and a non-zero mantissa. -/
def IsNaN (fsize x : Nat) : Bool :=
  exponentField fsize x = ones (exponent_width fsize) && mantissaField fsize x != 0

/-- The quiet bit (top mantissa bit) of a format. -/
def quietBit (fsize : Nat) : Nat := 2 ^ (explicit_mantissa_width fsize - 1)

/-- Modelled from the spec: `FP::IsQNaN` is missing from the sources; a quiet NaN is a NaN
whose top mantissa bit is set. -/
def IsQNaN (fsize x : Nat) : Bool :=
  IsNaN fsize x && (x >>> (explicit_mantissa_width fsize - 1)) % 2 = 1

/-- Modelled from the spec: `FP::IsSNaN` is missing from the sources; a signalling NaN is a NaN
whose top mantissa bit is clear. -/
def IsSNaN (fsize x : Nat) : Bool :=
  IsNaN fsize x && (x >>> (explicit_mantissa_width fsize - 1)) % 2 = 0

/-- Modelled from the spec: `FP::ProcessNaNs` is missing from the sources; the spec gives the
ARM NaN-propagation rule: the first signalling NaN (quieted), else the first quiet NaN, and
`none` when no operand is a NaN. -/
def ProcessNaNs (fsize : Nat) (ops : List Nat) : Option Nat :=
  match ops.find? (fun x => IsSNaN fsize x) with
  | some s => some (s ||| quietBit fsize)
  | none => ops.find? (fun x => IsQNaN fsize x)

/-- Rounding modes of `FP::RoundingMode` (the five the spec lists). -/
inductive RoundingMode
  | ToNearest_TieEven
  | TowardsPlusInfinity
  | TowardsMinusInfinity
  | TowardsZero
  | ToNearest_TieAwayFromZero
  deriving DecidableEq, Repr, Fintype

/-! ## Indexers and the default NaN handler -/

/-- The three indexer classes of the file. -/
inductive Indexer
  | Default
  | Paired
  | PairedLower
  deriving DecidableEq, Repr

/-- `DefaultIndexer::operator()`: lane `i` of every operand array. -/
def DefaultIndexer (i : Nat) (ops : List (List Nat)) : Option (List Nat) :=
  ops.mapM (fun a => a[i]?)

/-- `PairedIndexer::operator()`; `none` stands for `UNREACHABLE()` or an out-of-range read. -/
def PairedIndexer (i : Nat) (a b : List Nat) : Option (List Nat) :=
  let halfway := a.length / 2
  let which_array := i / halfway
  let i := i % halfway
  match which_array with
  | 0 => do pure [← a[2 * i]?, ← a[2 * i + 1]?]
  | 1 => do pure [← b[2 * i]?, ← b[2 * i + 1]?]
  | _ => none

/-- `PairedLowerIndexer::operator()`; `none` stands for `UNREACHABLE()` or an out-of-range
read. -/
def PairedLowerIndexer (i : Nat) (a b : List Nat) : Option (List Nat) :=
  let array_size := a.length
  if array_size = 4 then
    match i with
    | 0 => do pure [← a[0]?, ← a[1]?]
    | 1 => do pure [← b[0]?, ← b[1]?]
    | _ => some [0, 0]
  else if array_size = 2 then
    if i = 0 then do pure [← a[0]?, ← b[0]?]
    else some [0, 0]
  else none

/-- Application of an indexer to the operand arrays `values[1..]`. -/
def Indexer.apply : Indexer → Nat → List (List Nat) → Option (List Nat)
  | .Default, i, ops => DefaultIndexer i ops
  | .Paired, i, [a, b] => PairedIndexer i a b
  | .PairedLower, i, [a, b] => PairedLowerIndexer i a b
  | _, _, _ => none

/-- Body of the loop of `NaNHandler::GetDefaultImpl` for one `elementi`. -/
def GetDefaultImpl.body (fsize : Nat) (ix : Indexer) (ops : List (List Nat))
    (result : List Nat) (elementi : Nat) : Option (List Nat) := do
  let current_values ← ix.apply elementi ops
  match ProcessNaNs fsize current_values with
  | some r => pure (result.set elementi r)
  | none =>
    if IsNaN fsize (result.getD elementi 0) then
      pure (result.set elementi (DefaultNaN fsize))
    else
      pure result

/-- `NaNHandler::GetDefaultImpl`: the default handler, on `values` (`values[0]` the result). -/
def GetDefaultImpl (fsize : Nat) (ix : Indexer) (values : List (List Nat)) :
    Option (List (List Nat)) :=
  match values with
  | [] => none
  | result :: ops => do
    let result ← (List.range result.length).foldlM (GetDefaultImpl.body fsize ix ops) result
    pure (result :: ops)

/-! ## Host instructions -/

/-- General-purpose registers the emitters name. -/
inductive Gpr
  | rsp
  | rax
  | r15
  | ABI_PARAM (n : Nat)
  | scratch (n : Nat)
  deriving DecidableEq, Repr

/-- Memory operand `ptr[base + disp]`. -/
structure Address where
  base : Gpr
  disp : Int
  deriving DecidableEq, Repr

/-- Source operand of an SSE/AVX instruction: a register or a 128-bit pool constant
`MConst(xword, lo, hi)`. -/
inductive Operand
  | xmm (r : Nat)
  | MConst (lo hi : Nat)
  deriving DecidableEq, Repr

/-- Two-operand SSE mnemonics (`dst := op dst src`); `FCODE(name)` carries `fsize`. -/
inductive Sse
  | movaps
  | movdqa
  | pcmpeqw
  | andps
  | andpd
  | andnps
  | orps
  | xorps
  | pand
  | por
  | pxor
  | cmpordp (fsize : Nat)
  | cmpunordp (fsize : Nat)
  | cmpeqp (fsize : Nat)
  | cmpneqp (fsize : Nat)
  | cmpltp (fsize : Nat)
  | cmplep (fsize : Nat)
  | addp (fsize : Nat)
  | subp (fsize : Nat)
  | mulp (fsize : Nat)
  | divp (fsize : Nat)
  | maxp (fsize : Nat)
  | minp (fsize : Nat)
  | haddp (fsize : Nat)
  | punpcklqdq
  | movapd
  | punpckldq
  | unpcklpd
  | movhlps
  | cvtdq2ps
  | pshufd (imm : Nat)
  deriving DecidableEq, Repr

/-- Three-operand VEX mnemonics (`dst := op src1 src2`). -/
inductive Avx
  | vcmpeqp (fsize : Nat)
  | vcmpunordp (fsize : Nat)
  | vcmpeq_uqp (fsize : Nat)
  | vandp (fsize : Nat)
  | vorp (fsize : Nat)
  | vmaxp (fsize : Nat)
  | vminp (fsize : Nat)
  | vaddp (fsize : Nat)
  | vsubp (fsize : Nat)
  | vhaddp (fsize : Nat)
  | vunpcklps
  | vpblendw (imm : Nat)
  deriving DecidableEq, Repr

/-- Two-operand VEX/EVEX mnemonics (`dst := op src`), with their immediate where they have
one. -/
inductive Vex2
  | vmovapd
  | vpermilps (imm : Nat)
  | vpsrld (imm : Nat)
  | vcvtudq2ps
  | vcvtuqq2pd
  | vcvtqq2pd
  deriving DecidableEq, Repr

/-- Host functions the emitted code calls. -/
inductive Callee
  | NaNHandler (fsize : Nat) (ix : Indexer) (narg : Nat)
  | FPMulAdd (fsize : Nat)
  | FPRoundInt (fsize : Nat) (rounding : RoundingMode) (exact : Bool)
  | FPToFixed (fsize : Nat) (unsigned_ : Bool) (fbits : Nat) (rounding : RoundingMode)
  | FPRecipEstimate (fsize : Nat)
  | FPRecipStepFused (fsize : Nat)
  | FPRSqrtEstimate (fsize : Nat)
  | FPRSqrtStepFused (fsize : Nat)
  deriving DecidableEq, Repr

/-- Host instructions, and the register-allocator events that are interleaved with them.
`mov_FPCR dst` is `mov dst, ctx.FPCR()`, `mov_store_FPCR a` is `mov qword[a], ctx.FPCR()` and
`lea_fpsr_exc dst` is `lea dst, [r15 + offsetof_fpsr_exc]`: the two emission-time constants are
kept symbolic in the code and supplied when it runs. -/
inductive Instr
  | sse (op : Sse) (dst : Nat) (src : Operand)
  | avx (op : Avx) (dst src1 : Nat) (src2 : Operand)
  | vblendvp (fsize dst src1 : Nat) (src2 : Operand) (mask : Nat)
  | vfmadd231p (fsize dst src2 src3 : Nat)
  | roundp (fsize dst src imm : Nat)
  | vex2 (op : Vex2) (dst : Nat) (src : Operand)
  | psrld (dst imm : Nat)
  | cvtsi2sd (dst : Nat) (src : Gpr)
  | movq (dst : Gpr) (src : Nat)
  | pextrq (dst : Gpr) (src imm : Nat)
  | ptest (a b : Nat)
  | vptest (a b : Nat)
  | movmskps (dst : Gpr) (src : Nat)
  | cmp (r : Gpr) (imm : Int)
  | jnz (label : Nat)
  | jmp (label : Nat)
  | L (label : Nat)
  | sub (r : Gpr) (imm : Int)
  | add (r : Gpr) (imm : Int)
  | lea (dst : Gpr) (addr : Address)
  | lea_fpsr_exc (dst : Gpr)
  | mov_FPCR (dst : Gpr)
  | mov_store (addr : Address) (src : Gpr)
  | mov_store_FPCR (addr : Address)
  | movaps_store (addr : Address) (src : Nat)
  | movaps_load (dst : Nat) (addr : Address)
  | CallFunction (fn : Callee)
  | ABI_PushCallerSaveRegistersAndAdjustStackExcept (except : Nat)
  | ABI_PopCallerSaveRegistersAndAdjustStackExcept (except : Nat)
  | UseXmm (r arg : Nat)
  | UseScratchXmm (r arg : Nat)
  | EndOfAllocScope
  | HostCall
  | DefineValue (r : Nat)
  deriving DecidableEq, Repr

/-! ## Emission state -/

/-- CPU features queried through `code.DoesCpuSupport`. -/
inductive Cpu
  | tSSE41
  | tAVX
  | tFMA
  | tAVX512VL
  | tAVX512DQ
  deriving DecidableEq, Repr

/-- The facts about the code generator that the emitters read: host features and the ABI
(`_WIN32`). -/
structure BlockOfCode where
  tSSE41 : Bool
  tAVX : Bool
  tFMA : Bool
  tAVX512VL : Bool
  tAVX512DQ : Bool
  win32 : Bool
  deriving DecidableEq, Repr, Fintype

/-- `BlockOfCode::DoesCpuSupport`. -/
def BlockOfCode.DoesCpuSupport (code : BlockOfCode) : Cpu → Bool
  | .tSSE41 => code.tSSE41
  | .tAVX => code.tAVX
  | .tFMA => code.tFMA
  | .tAVX512VL => code.tAVX512VL
  | .tAVX512DQ => code.tAVX512DQ

/-- Modelled from the spec: `ABI_SHADOW_SPACE` (`backend_x64/abi.h`) is missing from the
sources; shadow space is reserved on Windows only (32 bytes). -/
def ABI_SHADOW_SPACE (code : BlockOfCode) : Int := if code.win32 then 32 else 0

/-- The guest FP control bits the emitters read at emission time. -/
structure EmitContext where
  FPSCR_DN : Bool
  FPSCR_FTZ : Bool
  FPSCR_RMode : RoundingMode
  AccurateNaN : Bool
  deriving DecidableEq, Repr, Fintype

/-- Code buffer (near and far region, cursor) and register-allocator counters. -/
structure EmitState where
  near : List Instr := []
  far : List Instr := []
  inFar : Bool := false
  switches : List Bool := []
  nextXmm : Nat := 0
  nextGpr : Nat := 0
  nextLabel : Nat := 0
  deriving DecidableEq, Repr

/-- Ways an emitter aborts: `UNREACHABLE()` and a failed `lut.at`. -/
inductive EmitError
  | unreachable
  | out_of_range
  deriving DecidableEq, Repr

/-- Emitters are state transformers over the code buffer and the allocator that may abort. -/
abbrev Emit := StateT EmitState (Except EmitError)

/-- Append one instruction at the cursor. -/
def emit (i : Instr) : Emit Unit :=
  modify fun s => if s.inFar then { s with far := s.far ++ [i] } else { s with near := s.near ++ [i] }

/-- Append instructions at the cursor, in order (a `for` loop that emits one instruction per
iteration). -/
def emitAll (l : List Instr) : Emit Unit :=
  modify fun s => if s.inFar then { s with far := s.far ++ l } else { s with near := s.near ++ l }

/-- `code.SwitchToFarCode()`. -/
def SwitchToFarCode : Emit Unit :=
  modify fun s => { s with inFar := true, switches := s.switches ++ [true] }

/-- `code.SwitchToNearCode()`. -/
def SwitchToNearCode : Emit Unit :=
  modify fun s => { s with inFar := false, switches := s.switches ++ [false] }

/-- A fresh `Xbyak::Label`. -/
def newLabel : Emit Nat :=
  modifyGet fun s => (s.nextLabel, { s with nextLabel := s.nextLabel + 1 })

/-- Modelled from the spec: `reg_alloc.ScratchXmm()` (the allocator is missing from the
sources) gives a fresh writable register. -/
def ScratchXmm : Emit Nat :=
  modifyGet fun s => (s.nextXmm, { s with nextXmm := s.nextXmm + 1 })

/-- Modelled from the spec: `reg_alloc.ScratchGpr()` gives a fresh writable register. -/
def ScratchGpr : Emit Gpr :=
  modifyGet fun s => (Gpr.scratch s.nextGpr, { s with nextGpr := s.nextGpr + 1 })

/-- Modelled from the spec: `reg_alloc.UseXmm(args[arg])` gives a register bound to the
argument, read-only for this instruction. -/
def UseXmm (arg : Nat) : Emit Nat := do
  let r ← ScratchXmm
  emit (.UseXmm r arg)
  pure r

/-- Modelled from the spec: `reg_alloc.UseScratchXmm(args[arg])` gives a writable register
initialised from the argument. -/
def UseScratchXmm (arg : Nat) : Emit Nat := do
  let r ← ScratchXmm
  emit (.UseScratchXmm r arg)
  pure r

/-- `reg_alloc.EndOfAllocScope()`. -/
def EndOfAllocScope : Emit Unit := emit .EndOfAllocScope

/-- `reg_alloc.HostCall(nullptr)`. -/
def HostCall : Emit Unit := emit .HostCall

/-- `reg_alloc.DefineValue(inst, reg)`. -/
def DefineValue (r : Nat) : Emit Unit := emit (.DefineValue r)

/-- The host register `xmm0`. -/
def xmm0 : Nat := 0

/-- The code an emitter produces in a fresh block. -/
def emitted (e : Emit Unit) : Except EmitError EmitState := (e.run {}).map Prod.snd

/-! ## The emitters of `emit_x64_vector_floating_point.cpp` -/

/-- `NaNHandler<fsize, Indexer, narg>::GetDefault()`. -/
def NaNHandler.GetDefault (fsize : Nat) (ix : Indexer) (narg : Nat) : Callee :=
  .NaNHandler fsize ix narg

/-- `HandleNaNs<fsize, nargs>`, with `xmms = {result, operands...}`. -/
def HandleNaNs (fsize : Nat) (code : BlockOfCode) (xmms : List Nat)
    (nan_mask : Nat) (nan_handler : Callee) : Emit Unit := do
  if code.DoesCpuSupport .tSSE41 then
    emit (.ptest nan_mask nan_mask)
  else
    let bitmask ← ScratchGpr
    emit (.movmskps bitmask nan_mask)
    emit (.cmp bitmask 0)

  let end_ ← newLabel
  let nan ← newLabel

  emit (.jnz nan)
  emit (.L end_)

  SwitchToFarCode
  emit (.L nan)

  let result := xmms.headD 0

  emit (.sub .rsp 8)
  emit (.ABI_PushCallerSaveRegistersAndAdjustStackExcept result)

  let stack_space : Int := xmms.length * 16
  emit (.sub .rsp (stack_space + ABI_SHADOW_SPACE code))
  emitAll ((List.range xmms.length).map fun (i : Nat) =>
    .movaps_store ⟨.rsp, ABI_SHADOW_SPACE code + i * 16⟩ (xmms.getD i 0))
  emit (.lea (.ABI_PARAM 1) ⟨.rsp, ABI_SHADOW_SPACE code + 0 * 16⟩)
  emit (.mov_FPCR (.ABI_PARAM 2))

  emit (.CallFunction nan_handler)

  emit (.movaps_load result ⟨.rsp, ABI_SHADOW_SPACE code + 0 * 16⟩)
  emit (.add .rsp (stack_space + ABI_SHADOW_SPACE code))
  emit (.ABI_PopCallerSaveRegistersAndAdjustStackExcept result)
  emit (.add .rsp 8)
  emit (.jmp end_)
  SwitchToNearCode

/-- `GetNaNVector<fsize>`. -/
def GetNaNVector (fsize : Nat) : Operand :=
  if fsize = 32 then .MConst 0x7fc000007fc00000 0x7fc000007fc00000
  else .MConst 0x7ff8000000000000 0x7ff8000000000000

/-- `GetNegativeZeroVector<fsize>`. -/
def GetNegativeZeroVector (fsize : Nat) : Operand :=
  if fsize = 32 then .MConst 0x8000000080000000 0x8000000080000000
  else .MConst 0x8000000000000000 0x8000000000000000

/-- `GetSmallestNormalVector<fsize>`. -/
def GetSmallestNormalVector (fsize : Nat) : Operand :=
  if fsize = 32 then .MConst 0x0080000000800000 0x0080000000800000
  else .MConst 0x0010000000000000 0x0010000000000000

/-- `ForceToDefaultNaN<fsize>`. -/
def ForceToDefaultNaN (fsize : Nat) (ctx : EmitContext) (result : Nat) : Emit Unit := do
  if ctx.FPSCR_DN then
    let nan_mask ← ScratchXmm
    let tmp ← ScratchXmm
    emit (.sse .pcmpeqw tmp (.xmm tmp))
    emit (.sse .movaps nan_mask (.xmm result))
    emit (.sse (.cmpordp fsize) nan_mask (.xmm nan_mask))
    emit (.sse .andps result (.xmm nan_mask))
    emit (.sse .xorps nan_mask (.xmm tmp))
    emit (.sse .andps nan_mask (GetNaNVector fsize))
    emit (.sse .orps result (.xmm nan_mask))

/-- `DenormalsAreZero<fsize>`. -/
def DenormalsAreZero (fsize : Nat) (ctx : EmitContext) (to_daz : List Nat) (tmp : Nat) :
    Emit Unit := do
  if ctx.FPSCR_FTZ then
    if ctx.FPSCR_RMode ≠ .TowardsMinusInfinity then
      emit (.sse .movaps tmp (GetNegativeZeroVector fsize))
    else
      emit (.sse .xorps tmp (.xmm tmp))
    emitAll (to_daz.map fun xmm => .sse (.addp fsize) xmm (.xmm tmp))

/-- The `Function` argument of `EmitTwoOpVectorOperation`: a member function of the code
generator taking the result register, or a lambda taking `(result, xmm_a)`. -/
inductive TwoOpFunction
  | member (fn : Nat → Instr)
  | lambda (fn : Nat → Nat → Emit Unit)

/-- The `Function` argument of `EmitThreeOpVectorOperation`: a member function of the code
generator such as `&Xbyak::CodeGenerator::addps`, or a lambda taking `(result, xmm_b)`. -/
inductive ThreeOpFunction
  | member (fn : Nat → Operand → Instr)
  | lambda (fn : Nat → Nat → Emit Unit)

/-- `EmitTwoOpVectorOperation<fsize, Indexer>`. -/
def EmitTwoOpVectorOperation (fsize : Nat) (code : BlockOfCode) (ctx : EmitContext)
    (fn : TwoOpFunction) (nan_handler : Callee) : Emit Unit := do
  if !ctx.AccurateNaN || ctx.FPSCR_DN then
    let result ←
      match fn with
      | .member fn => do
        let result ← UseScratchXmm 0
        emit (fn result)
        pure result
      | .lambda fn => do
        let xmm_a ← UseXmm 0
        let result ← ScratchXmm
        fn result xmm_a
        pure result

    ForceToDefaultNaN fsize ctx result

    DefineValue result
    return

  let result ← ScratchXmm
  let xmm_a ← UseXmm 0
  let nan_mask ← ScratchXmm

  match fn with
  | .member fn =>
    emit (.sse .movaps result (.xmm xmm_a))
    emit (fn result)
  | .lambda fn =>
    fn result xmm_a

  if code.DoesCpuSupport .tAVX then
    emit (.avx (.vcmpunordp fsize) nan_mask result (.xmm result))
  else
    emit (.sse .movaps nan_mask (.xmm result))
    emit (.sse (.cmpunordp fsize) nan_mask (.xmm nan_mask))

  HandleNaNs fsize code [result, xmm_a] nan_mask nan_handler

  DefineValue result

/-- `EmitThreeOpVectorOperation<fsize, Indexer>`. -/
def EmitThreeOpVectorOperation (fsize : Nat) (code : BlockOfCode) (ctx : EmitContext)
    (fn : ThreeOpFunction) (nan_handler : Callee) : Emit Unit := do
  if !ctx.AccurateNaN || ctx.FPSCR_DN then
    let xmm_a ← UseScratchXmm 0
    let xmm_b ← UseXmm 1

    match fn with
    | .member fn => emit (fn xmm_a (.xmm xmm_b))
    | .lambda fn => fn xmm_a xmm_b

    ForceToDefaultNaN fsize ctx xmm_a

    DefineValue xmm_a
    return

  let result ← ScratchXmm
  let xmm_a ← UseXmm 0
  let xmm_b ← UseXmm 1
  let nan_mask ← ScratchXmm

  emit (.sse .movaps nan_mask (.xmm xmm_b))
  emit (.sse .movaps result (.xmm xmm_a))
  emit (.sse (.cmpunordp fsize) nan_mask (.xmm xmm_a))
  match fn with
  | .member fn => emit (fn result (.xmm xmm_b))
  | .lambda fn => fn result xmm_b
  emit (.sse (.cmpunordp fsize) nan_mask (.xmm result))

  HandleNaNs fsize code [result, xmm_a, xmm_b] nan_mask nan_handler

  DefineValue result

/-- `EmitTwoOpFallback`. -/
def EmitTwoOpFallback (code : BlockOfCode) (fn : Callee) : Emit Unit := do
  let arg1 ← UseXmm 0
  EndOfAllocScope
  HostCall

  let stack_space : Int := 2 * 16
  emit (.sub .rsp (stack_space + ABI_SHADOW_SPACE code))
  emit (.lea (.ABI_PARAM 1) ⟨.rsp, ABI_SHADOW_SPACE code + 0 * 16⟩)
  emit (.lea (.ABI_PARAM 2) ⟨.rsp, ABI_SHADOW_SPACE code + 1 * 16⟩)
  emit (.mov_FPCR (.ABI_PARAM 3))
  emit (.lea_fpsr_exc (.ABI_PARAM 4))

  emit (.movaps_store ⟨.ABI_PARAM 2, 0⟩ arg1)
  emit (.CallFunction fn)
  emit (.movaps_load xmm0 ⟨.rsp, ABI_SHADOW_SPACE code + 0 * 16⟩)

  emit (.add .rsp (stack_space + ABI_SHADOW_SPACE code))

  DefineValue xmm0

/-- `EmitThreeOpFallback`. -/
def EmitThreeOpFallback (code : BlockOfCode) (fn : Callee) : Emit Unit := do
  let arg1 ← UseXmm 0
  let arg2 ← UseXmm 1
  EndOfAllocScope
  HostCall

  let stack_space : Int := if code.win32 then 4 * 16 else 3 * 16
  if code.win32 then
    emit (.sub .rsp (stack_space + ABI_SHADOW_SPACE code))
    emit (.lea (.ABI_PARAM 1) ⟨.rsp, ABI_SHADOW_SPACE code + 1 * 16⟩)
    emit (.lea (.ABI_PARAM 2) ⟨.rsp, ABI_SHADOW_SPACE code + 2 * 16⟩)
    emit (.lea (.ABI_PARAM 3) ⟨.rsp, ABI_SHADOW_SPACE code + 3 * 16⟩)
    emit (.mov_FPCR (.ABI_PARAM 4))
    emit (.lea_fpsr_exc .rax)
    emit (.mov_store ⟨.rsp, ABI_SHADOW_SPACE code + 0⟩ .rax)
  else
    emit (.sub .rsp (stack_space + ABI_SHADOW_SPACE code))
    emit (.lea (.ABI_PARAM 1) ⟨.rsp, ABI_SHADOW_SPACE code + 0 * 16⟩)
    emit (.lea (.ABI_PARAM 2) ⟨.rsp, ABI_SHADOW_SPACE code + 1 * 16⟩)
    emit (.lea (.ABI_PARAM 3) ⟨.rsp, ABI_SHADOW_SPACE code + 2 * 16⟩)
    emit (.mov_FPCR (.ABI_PARAM 4))
    emit (.lea_fpsr_exc (.ABI_PARAM 5))

  emit (.movaps_store ⟨.ABI_PARAM 2, 0⟩ arg1)
  emit (.movaps_store ⟨.ABI_PARAM 3, 0⟩ arg2)
  emit (.CallFunction fn)

  if code.win32 then
    emit (.movaps_load xmm0 ⟨.rsp, ABI_SHADOW_SPACE code + 1 * 16⟩)
  else
    emit (.movaps_load xmm0 ⟨.rsp, ABI_SHADOW_SPACE code + 0 * 16⟩)

  emit (.add .rsp (stack_space + ABI_SHADOW_SPACE code))

  DefineValue xmm0

/-- `EmitFourOpFallbackWithoutRegAlloc`. -/
def EmitFourOpFallbackWithoutRegAlloc (code : BlockOfCode)
    (result arg1 arg2 arg3 : Nat) (fn : Callee) : Emit Unit := do
  let stack_space : Int := if code.win32 then 5 * 16 else 4 * 16
  if code.win32 then
    emit (.sub .rsp (stack_space + ABI_SHADOW_SPACE code))
    emit (.lea (.ABI_PARAM 1) ⟨.rsp, ABI_SHADOW_SPACE code + 1 * 16⟩)
    emit (.lea (.ABI_PARAM 2) ⟨.rsp, ABI_SHADOW_SPACE code + 2 * 16⟩)
    emit (.lea (.ABI_PARAM 3) ⟨.rsp, ABI_SHADOW_SPACE code + 3 * 16⟩)
    emit (.lea (.ABI_PARAM 4) ⟨.rsp, ABI_SHADOW_SPACE code + 4 * 16⟩)
    emit (.mov_store_FPCR ⟨.rsp, ABI_SHADOW_SPACE code + 0⟩)
    emit (.lea_fpsr_exc .rax)
    emit (.mov_store ⟨.rsp, ABI_SHADOW_SPACE code + 8⟩ .rax)
  else
    emit (.sub .rsp (stack_space + ABI_SHADOW_SPACE code))
    emit (.lea (.ABI_PARAM 1) ⟨.rsp, ABI_SHADOW_SPACE code + 0 * 16⟩)
    emit (.lea (.ABI_PARAM 2) ⟨.rsp, ABI_SHADOW_SPACE code + 1 * 16⟩)
    emit (.lea (.ABI_PARAM 3) ⟨.rsp, ABI_SHADOW_SPACE code + 2 * 16⟩)
    emit (.lea (.ABI_PARAM 4) ⟨.rsp, ABI_SHADOW_SPACE code + 3 * 16⟩)
    emit (.mov_FPCR (.ABI_PARAM 5))
    emit (.lea_fpsr_exc (.ABI_PARAM 6))

  emit (.movaps_store ⟨.ABI_PARAM 2, 0⟩ arg1)
  emit (.movaps_store ⟨.ABI_PARAM 3, 0⟩ arg2)
  emit (.movaps_store ⟨.ABI_PARAM 4, 0⟩ arg3)
  emit (.CallFunction fn)

  if code.win32 then
    emit (.movaps_load result ⟨.rsp, ABI_SHADOW_SPACE code + 1 * 16⟩)
  else
    emit (.movaps_load result ⟨.rsp, ABI_SHADOW_SPACE code + 0 * 16⟩)

  emit (.add .rsp (stack_space + ABI_SHADOW_SPACE code))

/-- `EmitFourOpFallback`. -/
def EmitFourOpFallback (code : BlockOfCode) (fn : Callee) : Emit Unit := do
  let arg1 ← UseXmm 0
  let arg2 ← UseXmm 1
  let arg3 ← UseXmm 2
  EndOfAllocScope
  HostCall

  EmitFourOpFallbackWithoutRegAlloc code xmm0 arg1 arg2 arg3 fn

  DefineValue xmm0

/-- `EmitX64::EmitFPVectorAdd32`. -/
def EmitFPVectorAdd32 (code : BlockOfCode) (ctx : EmitContext) : Emit Unit :=
  EmitThreeOpVectorOperation 32 code ctx (.member (.sse (.addp 32))) (NaNHandler.GetDefault 32 .Default 3)

/-- `EmitX64::EmitFPVectorAdd64`. -/
def EmitFPVectorAdd64 (code : BlockOfCode) (ctx : EmitContext) : Emit Unit :=
  EmitThreeOpVectorOperation 64 code ctx (.member (.sse (.addp 64))) (NaNHandler.GetDefault 64 .Default 3)

/-- `EmitX64::EmitFPVectorDiv32`. -/
def EmitFPVectorDiv32 (code : BlockOfCode) (ctx : EmitContext) : Emit Unit :=
  EmitThreeOpVectorOperation 32 code ctx (.member (.sse (.divp 32))) (NaNHandler.GetDefault 32 .Default 3)

/-- `EmitX64::EmitFPVectorDiv64`. -/
def EmitFPVectorDiv64 (code : BlockOfCode) (ctx : EmitContext) : Emit Unit :=
  EmitThreeOpVectorOperation 64 code ctx (.member (.sse (.divp 64))) (NaNHandler.GetDefault 64 .Default 3)

/-- `EmitFPVectorMax<fsize>`. -/
def EmitFPVectorMax (fsize : Nat) (code : BlockOfCode) (ctx : EmitContext) : Emit Unit := do
  if ctx.FPSCR_DN then
    let result ← UseScratchXmm 0
    let xmm_b ← if ctx.FPSCR_FTZ then UseScratchXmm 1 else UseXmm 1

    let mask ← ScratchXmm
    let anded ← ScratchXmm
    let nan_mask ← ScratchXmm

    DenormalsAreZero fsize ctx [result, xmm_b] mask

    if code.DoesCpuSupport .tAVX then
      emit (.avx (.vcmpeqp fsize) mask result (.xmm xmm_b))
      emit (.avx (.vcmpunordp fsize) nan_mask result (.xmm xmm_b))
      emit (.avx (.vandp fsize) anded result (.xmm xmm_b))
      emit (.avx (.vmaxp fsize) result result (.xmm xmm_b))
      emit (.vblendvp fsize result result (.xmm anded) mask)
      emit (.vblendvp fsize result result (GetNaNVector fsize) nan_mask)
    else
      emit (.sse .movaps mask (.xmm result))
      emit (.sse .movaps anded (.xmm result))
      emit (.sse .movaps nan_mask (.xmm result))
      emit (.sse (.cmpneqp fsize) mask (.xmm xmm_b))
      emit (.sse (.cmpordp fsize) nan_mask (.xmm xmm_b))

      emit (.sse .andps anded (.xmm xmm_b))
      emit (.sse (.maxp fsize) result (.xmm xmm_b))

      emit (.sse .andps result (.xmm mask))
      emit (.sse .andnps mask (.xmm anded))
      emit (.sse .orps result (.xmm mask))

      emit (.sse .andps result (.xmm nan_mask))
      emit (.sse .andnps nan_mask (GetNaNVector fsize))
      emit (.sse .orps result (.xmm nan_mask))

    DefineValue result

    return

  EmitThreeOpVectorOperation fsize code ctx (.lambda fun result xmm_b => do
    let mask ← ScratchXmm
    let anded ← ScratchXmm

    let xmm_b ←
      if ctx.FPSCR_FTZ then do
        let prev_xmm_b := xmm_b
        let xmm_b ← ScratchXmm
        emit (.sse .movaps xmm_b (.xmm prev_xmm_b))
        DenormalsAreZero fsize ctx [result, xmm_b] mask
        pure xmm_b
      else pure xmm_b

    if code.DoesCpuSupport .tAVX then
      emit (.avx (.vcmpeqp fsize) mask result (.xmm xmm_b))
      emit (.avx (.vandp fsize) anded result (.xmm xmm_b))
      emit (.avx (.vmaxp fsize) result result (.xmm xmm_b))
      emit (.vblendvp fsize result result (.xmm anded) mask)
    else
      emit (.sse .movaps mask (.xmm result))
      emit (.sse .movaps anded (.xmm result))
      emit (.sse (.cmpneqp fsize) mask (.xmm xmm_b))

      emit (.sse .andps anded (.xmm xmm_b))
      emit (.sse (.maxp fsize) result (.xmm xmm_b))

      emit (.sse .andps result (.xmm mask))
      emit (.sse .andnps mask (.xmm anded))
      emit (.sse .orps result (.xmm mask)))
    (NaNHandler.GetDefault fsize .Default 3)

/-- `EmitX64::EmitFPVectorMax32`. -/
def EmitFPVectorMax32 (code : BlockOfCode) (ctx : EmitContext) : Emit Unit :=
  EmitFPVectorMax 32 code ctx

/-- `EmitX64::EmitFPVectorMax64`. -/
def EmitFPVectorMax64 (code : BlockOfCode) (ctx : EmitContext) : Emit Unit :=
  EmitFPVectorMax 64 code ctx

/-- `EmitFPVectorMin<fsize>`. -/
def EmitFPVectorMin (fsize : Nat) (code : BlockOfCode) (ctx : EmitContext) : Emit Unit := do
  if ctx.FPSCR_DN then
    let result ← UseScratchXmm 0
    let xmm_b ← if ctx.FPSCR_FTZ then UseScratchXmm 1 else UseXmm 1

    let mask ← ScratchXmm
    let ored ← ScratchXmm
    let nan_mask ← ScratchXmm

    DenormalsAreZero fsize ctx [result, xmm_b] mask

    if code.DoesCpuSupport .tAVX then
      emit (.avx (.vcmpeqp fsize) mask result (.xmm xmm_b))
      emit (.avx (.vcmpunordp fsize) nan_mask result (.xmm xmm_b))
      emit (.avx (.vorp fsize) ored result (.xmm xmm_b))
      emit (.avx (.vminp fsize) result result (.xmm xmm_b))
      emit (.vblendvp fsize result result (.xmm ored) mask)
      emit (.vblendvp fsize result result (GetNaNVector fsize) nan_mask)
    else
      emit (.sse .movaps mask (.xmm result))
      emit (.sse .movaps ored (.xmm result))
      emit (.sse .movaps nan_mask (.xmm result))
      emit (.sse (.cmpneqp fsize) mask (.xmm xmm_b))
      emit (.sse (.cmpordp fsize) nan_mask (.xmm xmm_b))

      emit (.sse .orps ored (.xmm xmm_b))
      emit (.sse (.minp fsize) result (.xmm xmm_b))

      emit (.sse .andps result (.xmm mask))
      emit (.sse .andnps mask (.xmm ored))
      emit (.sse .orps result (.xmm mask))

      emit (.sse .andps result (.xmm nan_mask))
      emit (.sse .andnps nan_mask (GetNaNVector fsize))
      emit (.sse .orps result (.xmm nan_mask))

    DefineValue result

    return

  EmitThreeOpVectorOperation fsize code ctx (.lambda fun result xmm_b => do
    let mask ← ScratchXmm
    let ored ← ScratchXmm

    let xmm_b ←
      if ctx.FPSCR_FTZ then do
        let prev_xmm_b := xmm_b
        let xmm_b ← ScratchXmm
        emit (.sse .movaps xmm_b (.xmm prev_xmm_b))
        DenormalsAreZero fsize ctx [result, xmm_b] mask
        pure xmm_b
      else pure xmm_b

    if code.DoesCpuSupport .tAVX then
      emit (.avx (.vcmpeqp fsize) mask result (.xmm xmm_b))
      emit (.avx (.vorp fsize) ored result (.xmm xmm_b))
      emit (.avx (.vminp fsize) result result (.xmm xmm_b))
      emit (.vblendvp fsize result result (.xmm ored) mask)
    else
      emit (.sse .movaps mask (.xmm result))
      emit (.sse .movaps ored (.xmm result))
      emit (.sse (.cmpneqp fsize) mask (.xmm xmm_b))

      emit (.sse .orps ored (.xmm xmm_b))
      emit (.sse (.minp fsize) result (.xmm xmm_b))

      emit (.sse .andps result (.xmm mask))
      emit (.sse .andnps mask (.xmm ored))
      emit (.sse .orps result (.xmm mask)))
    (NaNHandler.GetDefault fsize .Default 3)

/-- `EmitX64::EmitFPVectorMin32`. -/
def EmitFPVectorMin32 (code : BlockOfCode) (ctx : EmitContext) : Emit Unit :=
  EmitFPVectorMin 32 code ctx

/-- `EmitX64::EmitFPVectorMin64`. -/
def EmitFPVectorMin64 (code : BlockOfCode) (ctx : EmitContext) : Emit Unit :=
  EmitFPVectorMin 64 code ctx

/-- `EmitX64::EmitFPVectorMul32`. -/
def EmitFPVectorMul32 (code : BlockOfCode) (ctx : EmitContext) : Emit Unit :=
  EmitThreeOpVectorOperation 32 code ctx (.member (.sse (.mulp 32))) (NaNHandler.GetDefault 32 .Default 3)

/-- `EmitX64::EmitFPVectorMul64`. -/
def EmitFPVectorMul64 (code : BlockOfCode) (ctx : EmitContext) : Emit Unit :=
  EmitThreeOpVectorOperation 64 code ctx (.member (.sse (.mulp 64))) (NaNHandler.GetDefault 64 .Default 3)

/-- `EmitFPVectorMulAdd<fsize>`; `fallback_fn` is the lane loop over `FP::FPMulAdd`. -/
def EmitFPVectorMulAdd (fsize : Nat) (code : BlockOfCode) (ctx : EmitContext) : Emit Unit := do
  let fallback_fn := Callee.FPMulAdd fsize

  if code.DoesCpuSupport .tFMA && code.DoesCpuSupport .tAVX then
    let result ← ScratchXmm
    let xmm_a ← UseXmm 0
    let xmm_b ← UseXmm 1
    let xmm_c ← UseXmm 2
    let tmp ← ScratchXmm

    let end_ ← newLabel
    let fallback ← newLabel

    emit (.sse .movaps result (.xmm xmm_a))
    emit (.vfmadd231p fsize result xmm_b xmm_c)

    emit (.sse .movaps tmp (GetNegativeZeroVector fsize))
    emit (.sse .andnps tmp (.xmm result))
    emit (.avx (.vcmpeq_uqp fsize) tmp tmp (GetSmallestNormalVector fsize))
    emit (.vptest tmp tmp)
    emit (.jnz fallback)
    emit (.L end_)

    SwitchToFarCode
    emit (.L fallback)
    emit (.sub .rsp 8)
    emit (.ABI_PushCallerSaveRegistersAndAdjustStackExcept result)
    EmitFourOpFallbackWithoutRegAlloc code result xmm_a xmm_b xmm_c fallback_fn
    emit (.ABI_PopCallerSaveRegistersAndAdjustStackExcept result)
    emit (.add .rsp 8)
    emit (.jmp end_)
    SwitchToNearCode

    DefineValue result
    return

  EmitFourOpFallback code fallback_fn

/-- `EmitX64::EmitFPVectorMulAdd32`. -/
def EmitFPVectorMulAdd32 (code : BlockOfCode) (ctx : EmitContext) : Emit Unit :=
  EmitFPVectorMulAdd 32 code ctx

/-- `EmitX64::EmitFPVectorMulAdd64`. -/
def EmitFPVectorMulAdd64 (code : BlockOfCode) (ctx : EmitContext) : Emit Unit :=
  EmitFPVectorMulAdd 64 code ctx

/-- `EmitX64::EmitFPVectorPairedAdd32`. -/
def EmitFPVectorPairedAdd32 (code : BlockOfCode) (ctx : EmitContext) : Emit Unit :=
  EmitThreeOpVectorOperation 32 code ctx (.member (.sse (.haddp 32))) (NaNHandler.GetDefault 32 .Paired 3)

/-- `EmitX64::EmitFPVectorPairedAdd64`. -/
def EmitFPVectorPairedAdd64 (code : BlockOfCode) (ctx : EmitContext) : Emit Unit :=
  EmitThreeOpVectorOperation 64 code ctx (.member (.sse (.haddp 64))) (NaNHandler.GetDefault 64 .Paired 3)

/-- `EmitX64::EmitFPVectorPairedAddLower32`. -/
def EmitFPVectorPairedAddLower32 (code : BlockOfCode) (ctx : EmitContext) : Emit Unit :=
  EmitThreeOpVectorOperation 32 code ctx (.lambda fun result xmm_b => do
    let zero ← ScratchXmm
    emit (.sse .xorps zero (.xmm zero))
    emit (.sse .punpcklqdq result (.xmm xmm_b))
    emit (.sse (.haddp 32) result (.xmm zero)))
    (NaNHandler.GetDefault 32 .PairedLower 3)

/-- `EmitX64::EmitFPVectorPairedAddLower64`. -/
def EmitFPVectorPairedAddLower64 (code : BlockOfCode) (ctx : EmitContext) : Emit Unit :=
  EmitThreeOpVectorOperation 64 code ctx (.lambda fun result xmm_b => do
    let zero ← ScratchXmm
    emit (.sse .xorps zero (.xmm zero))
    emit (.sse .punpcklqdq result (.xmm xmm_b))
    emit (.sse (.haddp 64) result (.xmm zero)))
    (NaNHandler.GetDefault 64 .PairedLower 3)

/-- `mp::cartesian_product` of two lists, first component varying slowest. -/
def cartesian_product {α β : Type} (l1 : List α) (l2 : List β) : List (α × β) :=
  l1.flatMap fun a => l2.map fun b => (a, b)

/-- The `rounding_list` of `EmitFPVectorRoundInt` and `EmitFPVectorToFixed`. -/
def rounding_list : List RoundingMode :=
  [.ToNearest_TieEven, .TowardsPlusInfinity, .TowardsMinusInfinity, .TowardsZero,
   .ToNearest_TieAwayFromZero]

/-- `lut.at(key)`: the entry of a key, aborting when there is none. -/
def lut_at {κ : Type} [BEq κ] (lut : List (κ × Callee)) (key : κ) : Emit Callee :=
  match lut.lookup key with
  | some v => pure v
  | none => throw .out_of_range

/-- The lookup table of `EmitFPVectorRoundInt<fsize>`: one lane loop over `FP::FPRoundInt` per
`(rounding_mode, exact)`. -/
def RoundInt.lut (fsize : Nat) : List ((RoundingMode × Bool) × Callee) :=
  (cartesian_product rounding_list [true, false]).map fun arg =>
    (arg, .FPRoundInt fsize arg.1 arg.2)

/-- The immediate of `roundps`/`roundpd` chosen by the switch of `EmitFPVectorRoundInt`;
`none` is the `UNREACHABLE()` default. -/
def RoundInt.round_imm : RoundingMode → Option Nat
  | .ToNearest_TieEven => some 0b00
  | .TowardsPlusInfinity => some 0b10
  | .TowardsMinusInfinity => some 0b01
  | .TowardsZero => some 0b11
  | _ => none

/-- `EmitFPVectorRoundInt<fsize>`; `rounding` and `exact` are the immediate arguments 1 and 2
of the instruction. -/
def EmitFPVectorRoundInt (fsize : Nat) (code : BlockOfCode) (ctx : EmitContext)
    (rounding : RoundingMode) (exact : Bool) : Emit Unit := do
  if code.DoesCpuSupport .tSSE41 && rounding ≠ .ToNearest_TieAwayFromZero && !exact then
    let round_imm ←
      match RoundInt.round_imm rounding with
      | some imm => pure imm
      | none => throw .unreachable

    EmitTwoOpVectorOperation fsize code ctx (.lambda fun result xmm_a =>
      emit (.roundp fsize result xmm_a round_imm))
      (NaNHandler.GetDefault fsize .Default 2)

    return

  EmitTwoOpFallback code (← lut_at (RoundInt.lut fsize) (rounding, exact))

/-- `EmitX64::EmitFPVectorRoundInt32`. -/
def EmitFPVectorRoundInt32 (code : BlockOfCode) (ctx : EmitContext)
    (rounding : RoundingMode) (exact : Bool) : Emit Unit :=
  EmitFPVectorRoundInt 32 code ctx rounding exact

/-- `EmitX64::EmitFPVectorRoundInt64`. -/
def EmitFPVectorRoundInt64 (code : BlockOfCode) (ctx : EmitContext)
    (rounding : RoundingMode) (exact : Bool) : Emit Unit :=
  EmitFPVectorRoundInt 64 code ctx rounding exact

/-- `EmitX64::EmitFPVectorSub32`. -/
def EmitFPVectorSub32 (code : BlockOfCode) (ctx : EmitContext) : Emit Unit :=
  EmitThreeOpVectorOperation 32 code ctx (.member (.sse (.subp 32))) (NaNHandler.GetDefault 32 .Default 3)

/-- `EmitX64::EmitFPVectorSub64`. -/
def EmitFPVectorSub64 (code : BlockOfCode) (ctx : EmitContext) : Emit Unit :=
  EmitThreeOpVectorOperation 64 code ctx (.member (.sse (.subp 64))) (NaNHandler.GetDefault 64 .Default 3)

/-- The lookup table of `EmitFPVectorToFixed<fsize, unsigned_>`: one lane loop over
`FP::FPToFixed` per `(fbits, rounding_mode)`, `fbits` ranging over
`std::make_index_sequence<fsize>`. -/
def ToFixed.lut (fsize : Nat) (unsigned_ : Bool) : List ((Nat × RoundingMode) × Callee) :=
  (cartesian_product (List.range fsize) rounding_list).map fun arg =>
    (arg, .FPToFixed fsize unsigned_ arg.1 arg.2)

/-- `EmitFPVectorToFixed<fsize, unsigned_>`; `fbits` and `rounding` are the immediate arguments
1 and 2 of the instruction. -/
def EmitFPVectorToFixed (fsize : Nat) (unsigned_ : Bool) (code : BlockOfCode)
    (fbits : Nat) (rounding : RoundingMode) : Emit Unit := do
  EmitTwoOpFallback code (← lut_at (ToFixed.lut fsize unsigned_) (fbits, rounding))

/-- `EmitX64::EmitFPVectorToSignedFixed32`. -/
def EmitFPVectorToSignedFixed32 (code : BlockOfCode)
    (fbits : Nat) (rounding : RoundingMode) : Emit Unit :=
  EmitFPVectorToFixed 32 false code fbits rounding

/-- `EmitX64::EmitFPVectorToSignedFixed64`. -/
def EmitFPVectorToSignedFixed64 (code : BlockOfCode)
    (fbits : Nat) (rounding : RoundingMode) : Emit Unit :=
  EmitFPVectorToFixed 64 false code fbits rounding

/-- `EmitX64::EmitFPVectorToUnsignedFixed32`. -/
def EmitFPVectorToUnsignedFixed32 (code : BlockOfCode)
    (fbits : Nat) (rounding : RoundingMode) : Emit Unit :=
  EmitFPVectorToFixed 32 true code fbits rounding

/-- `EmitX64::EmitFPVectorToUnsignedFixed64`. -/
def EmitFPVectorToUnsignedFixed64 (code : BlockOfCode)
    (fbits : Nat) (rounding : RoundingMode) : Emit Unit :=
  EmitFPVectorToFixed 64 true code fbits rounding

/-- `EmitX64::EmitFPVectorAbs16`. -/
def EmitFPVectorAbs16 : Emit Unit := do
  let a ← UseScratchXmm 0
  let mask := Operand.MConst 0x7FFF7FFF7FFF7FFF 0x7FFF7FFF7FFF7FFF

  emit (.sse .pand a mask)

  DefineValue a

/-- `EmitX64::EmitFPVectorAbs32`. -/
def EmitFPVectorAbs32 : Emit Unit := do
  let a ← UseScratchXmm 0
  let mask := Operand.MConst 0x7FFFFFFF7FFFFFFF 0x7FFFFFFF7FFFFFFF

  emit (.sse .andps a mask)

  DefineValue a

/-- `EmitX64::EmitFPVectorAbs64`. -/
def EmitFPVectorAbs64 : Emit Unit := do
  let a ← UseScratchXmm 0
  let mask := Operand.MConst 0x7FFFFFFFFFFFFFFF 0x7FFFFFFFFFFFFFFF

  emit (.sse .andpd a mask)

  DefineValue a

/-- `EmitX64::EmitFPVectorEqual32`. -/
def EmitFPVectorEqual32 : Emit Unit := do
  let a ← UseScratchXmm 0
  let b ← UseXmm 1

  emit (.sse (.cmpeqp 32) a (.xmm b))

  DefineValue a

/-- `EmitX64::EmitFPVectorEqual64`. -/
def EmitFPVectorEqual64 : Emit Unit := do
  let a ← UseScratchXmm 0
  let b ← UseXmm 1

  emit (.sse (.cmpeqp 64) a (.xmm b))

  DefineValue a

/-- `EmitX64::EmitFPVectorGreater32`. -/
def EmitFPVectorGreater32 : Emit Unit := do
  let a ← UseXmm 0
  let b ← UseScratchXmm 1

  emit (.sse (.cmpltp 32) b (.xmm a))

  DefineValue b

/-- `EmitX64::EmitFPVectorGreater64`. -/
def EmitFPVectorGreater64 : Emit Unit := do
  let a ← UseXmm 0
  let b ← UseScratchXmm 1

  emit (.sse (.cmpltp 64) b (.xmm a))

  DefineValue b

/-- `EmitX64::EmitFPVectorGreaterEqual32`. -/
def EmitFPVectorGreaterEqual32 : Emit Unit := do
  let a ← UseXmm 0
  let b ← UseScratchXmm 1

  emit (.sse (.cmplep 32) b (.xmm a))

  DefineValue b

/-- `EmitX64::EmitFPVectorGreaterEqual64`. -/
def EmitFPVectorGreaterEqual64 : Emit Unit := do
  let a ← UseXmm 0
  let b ← UseScratchXmm 1

  emit (.sse (.cmplep 64) b (.xmm a))

  DefineValue b

/-- `EmitX64::EmitFPVectorNeg16`. -/
def EmitFPVectorNeg16 : Emit Unit := do
  let a ← UseScratchXmm 0
  let mask := Operand.MConst 0x8000800080008000 0x8000800080008000

  emit (.sse .pxor a mask)

  DefineValue a

/-- `EmitX64::EmitFPVectorNeg32`. -/
def EmitFPVectorNeg32 : Emit Unit := do
  let a ← UseScratchXmm 0
  let mask := Operand.MConst 0x8000000080000000 0x8000000080000000

  emit (.sse .pxor a mask)

  DefineValue a

/-- `EmitX64::EmitFPVectorNeg64`. -/
def EmitFPVectorNeg64 : Emit Unit := do
  let a ← UseScratchXmm 0
  let mask := Operand.MConst 0x8000000000000000 0x8000000000000000

  emit (.sse .pxor a mask)

  DefineValue a

/-- `EmitRecipEstimate<FPT>` (`fsize` the width of `FPT`). -/
def EmitRecipEstimate (fsize : Nat) (code : BlockOfCode) : Emit Unit :=
  EmitTwoOpFallback code (.FPRecipEstimate fsize)

/-- `EmitX64::EmitFPVectorRecipEstimate32`. -/
def EmitFPVectorRecipEstimate32 (code : BlockOfCode) : Emit Unit := EmitRecipEstimate 32 code

/-- `EmitX64::EmitFPVectorRecipEstimate64`. -/
def EmitFPVectorRecipEstimate64 (code : BlockOfCode) : Emit Unit := EmitRecipEstimate 64 code

/-- `EmitRecipStepFused<FPT>`. -/
def EmitRecipStepFused (fsize : Nat) (code : BlockOfCode) : Emit Unit :=
  EmitThreeOpFallback code (.FPRecipStepFused fsize)

/-- `EmitX64::EmitFPVectorRecipStepFused32`. -/
def EmitFPVectorRecipStepFused32 (code : BlockOfCode) : Emit Unit := EmitRecipStepFused 32 code

/-- `EmitX64::EmitFPVectorRecipStepFused64`. -/
def EmitFPVectorRecipStepFused64 (code : BlockOfCode) : Emit Unit := EmitRecipStepFused 64 code

/-- `EmitRSqrtEstimate<FPT>`. -/
def EmitRSqrtEstimate (fsize : Nat) (code : BlockOfCode) : Emit Unit :=
  EmitTwoOpFallback code (.FPRSqrtEstimate fsize)

/-- `EmitX64::EmitFPVectorRSqrtEstimate32`. -/
def EmitFPVectorRSqrtEstimate32 (code : BlockOfCode) : Emit Unit := EmitRSqrtEstimate 32 code

/-- `EmitX64::EmitFPVectorRSqrtEstimate64`. -/
def EmitFPVectorRSqrtEstimate64 (code : BlockOfCode) : Emit Unit := EmitRSqrtEstimate 64 code

/-- `EmitRSqrtStepFused<FPT>`. -/
def EmitRSqrtStepFused (fsize : Nat) (code : BlockOfCode) : Emit Unit :=
  EmitThreeOpFallback code (.FPRSqrtStepFused fsize)

/-- `EmitX64::EmitFPVectorRSqrtStepFused32`. -/
def EmitFPVectorRSqrtStepFused32 (code : BlockOfCode) : Emit Unit := EmitRSqrtStepFused 32 code

/-- `EmitX64::EmitFPVectorRSqrtStepFused64`. -/
def EmitFPVectorRSqrtStepFused64 (code : BlockOfCode) : Emit Unit := EmitRSqrtStepFused 64 code

/-- `EmitX64::EmitFPVectorS32ToSingle`. -/
def EmitFPVectorS32ToSingle : Emit Unit := do
  let xmm ← UseScratchXmm 0

  emit (.sse .cvtdq2ps xmm (.xmm xmm))

  DefineValue xmm

/-- `EmitX64::EmitFPVectorS64ToDouble`. -/
def EmitFPVectorS64ToDouble (code : BlockOfCode) : Emit Unit := do
  let xmm ← UseScratchXmm 0

  if code.DoesCpuSupport .tAVX512VL && code.DoesCpuSupport .tAVX512DQ then
    emit (.vex2 .vcvtqq2pd xmm (.xmm xmm))
  else if code.DoesCpuSupport .tSSE41 then
    let xmm_tmp ← ScratchXmm
    let tmp ← ScratchGpr

    -- First quadword
    emit (.movq tmp xmm)
    emit (.cvtsi2sd xmm tmp)

    -- Second quadword
    emit (.pextrq tmp xmm 1)
    emit (.cvtsi2sd xmm_tmp tmp)

    -- Combine
    emit (.sse .unpcklpd xmm (.xmm xmm_tmp))
  else
    let high_xmm ← ScratchXmm
    let xmm_tmp ← ScratchXmm
    let tmp ← ScratchGpr

    -- First quadword
    emit (.sse .movhlps high_xmm (.xmm xmm))
    emit (.movq tmp xmm)
    emit (.cvtsi2sd xmm tmp)

    -- Second quadword
    emit (.movq tmp high_xmm)
    emit (.cvtsi2sd xmm_tmp tmp)

    -- Combine
    emit (.sse .unpcklpd xmm (.xmm xmm_tmp))

  DefineValue xmm

/-- `EmitX64::EmitFPVectorU32ToSingle`. -/
def EmitFPVectorU32ToSingle (code : BlockOfCode) (ctx : EmitContext) : Emit Unit := do
  let xmm ← UseScratchXmm 0

  if code.DoesCpuSupport .tAVX512DQ && code.DoesCpuSupport .tAVX512VL then
    emit (.vex2 .vcvtudq2ps xmm (.xmm xmm))
  else
    let mem_4B000000 := Operand.MConst 0x4B0000004B000000 0x4B0000004B000000
    let mem_53000000 := Operand.MConst 0x5300000053000000 0x5300000053000000
    let mem_D3000080 := Operand.MConst 0xD3000080D3000080 0xD3000080D3000080

    let tmp ← ScratchXmm

    if code.DoesCpuSupport .tAVX then
      emit (.avx (.vpblendw 0b10101010) tmp xmm mem_4B000000)
      emit (.vex2 (.vpsrld 16) xmm (.xmm xmm))
      emit (.avx (.vpblendw 0b10101010) xmm xmm mem_53000000)
      emit (.avx (.vaddp 32) xmm xmm mem_D3000080)
      emit (.avx (.vaddp 32) xmm tmp (.xmm xmm))
    else
      let mem_0xFFFF := Operand.MConst 0x0000FFFF0000FFFF 0x0000FFFF0000FFFF

      emit (.sse .movdqa tmp mem_0xFFFF)

      emit (.sse .pand tmp (.xmm xmm))
      emit (.sse .por tmp mem_4B000000)
      emit (.psrld xmm 16)
      emit (.sse .por xmm mem_53000000)
      emit (.sse (.addp 32) xmm mem_D3000080)
      emit (.sse (.addp 32) xmm (.xmm tmp))

  if ctx.FPSCR_RMode = .TowardsMinusInfinity then
    emit (.sse .pand xmm (.MConst 0x7FFFFFFF7FFFFFFF 0x7FFFFFFF7FFFFFFF))

  DefineValue xmm

/-- `EmitX64::EmitFPVectorU64ToDouble`. -/
def EmitFPVectorU64ToDouble (code : BlockOfCode) (ctx : EmitContext) : Emit Unit := do
  let xmm ← UseScratchXmm 0

  if code.DoesCpuSupport .tAVX512DQ && code.DoesCpuSupport .tAVX512VL then
    emit (.vex2 .vcvtuqq2pd xmm (.xmm xmm))
  else
    let unpack := Operand.MConst 0x4530000043300000 0
    let subtrahend := Operand.MConst 0x4330000000000000 0x4530000000000000

    let unpack_reg ← ScratchXmm
    let subtrahend_reg ← ScratchXmm
    let tmp1 ← ScratchXmm

    if code.DoesCpuSupport .tAVX then
      emit (.vex2 .vmovapd unpack_reg unpack)
      emit (.vex2 .vmovapd subtrahend_reg subtrahend)

      emit (.avx .vunpcklps tmp1 xmm (.xmm unpack_reg))
      emit (.avx (.vsubp 64) tmp1 tmp1 (.xmm subtrahend_reg))

      emit (.vex2 (.vpermilps 0b01001110) xmm (.xmm xmm))

      emit (.avx .vunpcklps xmm xmm (.xmm unpack_reg))
      emit (.avx (.vsubp 64) xmm xmm (.xmm subtrahend_reg))

      emit (.avx (.vhaddp 64) xmm tmp1 (.xmm xmm))
    else
      let tmp2 ← ScratchXmm

      emit (.sse .movapd unpack_reg unpack)
      emit (.sse .movapd subtrahend_reg subtrahend)

      emit (.sse (.pshufd 0b01001110) tmp1 (.xmm xmm))

      emit (.sse .punpckldq xmm (.xmm unpack_reg))
      emit (.sse (.subp 64) xmm (.xmm subtrahend_reg))
      emit (.sse (.pshufd 0b01001110) tmp2 (.xmm xmm))
      emit (.sse (.addp 64) xmm (.xmm tmp2))

      emit (.sse .punpckldq tmp1 (.xmm unpack_reg))
      emit (.sse (.subp 64) tmp1 (.xmm subtrahend_reg))

      emit (.sse (.pshufd 0b01001110) unpack_reg (.xmm tmp1))
      emit (.sse (.addp 64) unpack_reg (.xmm tmp1))

      emit (.sse .unpcklpd xmm (.xmm unpack_reg))

  if ctx.FPSCR_RMode = .TowardsMinusInfinity then
    emit (.sse .pand xmm (.MConst 0x7FFFFFFFFFFFFFFF 0x7FFFFFFFFFFFFFFF))

  DefineValue xmm

/-! ## Host model -/

/-- The parts of the host that the sources do not define: the floating-point arithmetic of the
SSE/AVX units (lane functions on bit patterns; `cvtu w` and `cvts w` convert an unsigned and a
two's-complement `w`-bit integer to the float of the same width), the scalar helper library
`FP::*`, and what a call leaves in the volatile registers. -/
structure Env where
  addp : Nat → Nat → Nat → Nat
  subp : Nat → Nat → Nat → Nat
  mulp : Nat → Nat → Nat → Nat
  divp : Nat → Nat → Nat → Nat
  maxp : Nat → Nat → Nat → Nat
  minp : Nat → Nat → Nat → Nat
  fmadd : Nat → Nat → Nat → Nat → Nat
  roundp : Nat → Nat → Nat → Nat
  FPMulAdd : Nat → Nat → Nat → Nat → Nat → Nat
  FPRoundInt : Nat → Nat → Nat → RoundingMode → Bool → Nat
  FPToFixed : Nat → Nat → Nat → Bool → Nat → RoundingMode → Nat
  FPRecipEstimate : Nat → Nat → Nat → Nat
  FPRecipStepFused : Nat → Nat → Nat → Nat → Nat
  FPRSqrtEstimate : Nat → Nat → Nat → Nat
  FPRSqrtStepFused : Nat → Nat → Nat → Nat → Nat
  clobberXmm : Nat → Nat
  clobberGpr : Gpr → Int
  callerSaveFrame : Int
  FPCR : Nat
  offsetof_fpsr_exc : Int
  cvtu : Nat → Nat → Nat
  cvts : Nat → Nat → Nat

/-- State of the host while it runs an emitted block. -/
structure Machine where
  xmm : Nat → Nat
  gpr : Gpr → Int
  mem : Int → Nat
  zf : Bool
  args : Nat → Nat
  defined : Option Nat
  saved : List ((Nat → Nat) × (Gpr → Int))
  calls : List Callee

/-- Write an XMM register. -/
def Machine.setXmm (m : Machine) (r v : Nat) : Machine :=
  { m with xmm := fun k => if k = r then v else m.xmm k }

/-- Write a general-purpose register. -/
def Machine.setGpr (m : Machine) (r : Gpr) (v : Int) : Machine :=
  { m with gpr := fun k => if k = r then v else m.gpr k }

/-- Write a memory cell (a 16-byte slot or a quadword, keyed by its address). -/
def Machine.setMem (m : Machine) (a : Int) (v : Nat) : Machine :=
  { m with mem := fun k => if k = a then v else m.mem k }

/-- Value of a source operand. -/
def Machine.operand (m : Machine) : Operand → Nat
  | .xmm r => m.xmm r
  | .MConst lo hi => lo + hi * 2 ^ 64

/-- Effective address of a memory operand. -/
def Machine.ea (m : Machine) (a : Address) : Int := m.gpr a.base + a.disp

/-- Both lanes are zeros (of either sign). -/
def bothZero (w x y : Nat) : Bool := x % 2 ^ (w - 1) = 0 && y % 2 ^ (w - 1) = 0

/-- Ordered equality of two lanes: neither is a NaN and they are equal as numbers. -/
def fpEq (w x y : Nat) : Bool := !IsNaN w x && !IsNaN w y && (x == y || bothZero w x y)

/-- Position of a non-NaN lane on the number line (sign and magnitude). -/
def fpKey (w x : Nat) : Int := if signBit w x then -((x % 2 ^ (w - 1) : Nat) : Int) else ((x % 2 ^ (w - 1) : Nat) : Int)

/-- Ordered less-than of two lanes. -/
def fpLt (w x y : Nat) : Bool := !IsNaN w x && !IsNaN w y && decide (fpKey w x < fpKey w y)

/-- Ordered less-or-equal of two lanes. -/
def fpLe (w x y : Nat) : Bool := !IsNaN w x && !IsNaN w y && decide (fpKey w x ≤ fpKey w y)

/-- All ones when the condition holds, zero otherwise. -/
def boolMask (w : Nat) (b : Bool) : Nat := if b then ones w else 0

/-- Horizontal add `haddp`: the lower half of the result sums adjacent pairs of the destination,
the upper half adjacent pairs of the source. -/
def haddp (w : Nat) (add : Nat → Nat → Nat) (d s : Nat) : Nat :=
  ofLanes w (fun i =>
    if i < 128 / w / 2 then add (lane w (2 * i) d) (lane w (2 * i + 1) d)
    else add (lane w (2 * (i - 128 / w / 2)) s) (lane w (2 * (i - 128 / w / 2) + 1) s)) (128 / w)

/-- Interleave of the two low doublewords of `d` and `s` (`punpckldq`, `unpcklps`):
`[d0, s0, d1, s1]`. -/
def unpackLow32 (d s : Nat) : Nat :=
  ofLanes 32 (fun i => if i % 2 = 0 then lane 32 (i / 2) d else lane 32 (i / 2) s) 4

/-- Doubleword shuffle by an immediate (`pshufd`, 128-bit `vpermilps`): result lane `i` is the
source lane selected by bits `2i+1:2i` of the immediate. -/
def shuffle32 (imm s : Nat) : Nat :=
  ofLanes 32 (fun i => lane 32 ((imm >>> (2 * i)) % 4) s) 4

/-- Word blend by an immediate (`vpblendw`): word `i` comes from `b` where bit `i` of the
immediate is set, from `a` elsewhere. -/
def blendw (imm a b : Nat) : Nat :=
  ofLanes 16 (fun i => if (imm >>> i) % 2 = 1 then lane 16 i b else lane 16 i a) 8

/-- Semantics of the two-operand SSE instructions: new destination from old destination and
source. -/
def sseSem (env : Env) : Sse → Nat → Nat → Nat
  | .movaps, _, s => s
  | .movdqa, _, s => s
  | .pcmpeqw, d, s => mapLanes2 16 (fun x y => boolMask 16 (x == y)) d s
  | .andps, d, s => d &&& s
  | .andpd, d, s => d &&& s
  | .pand, d, s => d &&& s
  | .andnps, d, s => not128 d &&& s
  | .orps, d, s => d ||| s
  | .por, d, s => d ||| s
  | .xorps, d, s => d ^^^ s
  | .pxor, d, s => d ^^^ s
  | .cmpordp w, d, s => mapLanes2 w (fun x y => boolMask w (!IsNaN w x && !IsNaN w y)) d s
  | .cmpunordp w, d, s => mapLanes2 w (fun x y => boolMask w (IsNaN w x || IsNaN w y)) d s
  | .cmpeqp w, d, s => mapLanes2 w (fun x y => boolMask w (fpEq w x y)) d s
  | .cmpneqp w, d, s => mapLanes2 w (fun x y => boolMask w (!fpEq w x y)) d s
  | .cmpltp w, d, s => mapLanes2 w (fun x y => boolMask w (fpLt w x y)) d s
  | .cmplep w, d, s => mapLanes2 w (fun x y => boolMask w (fpLe w x y)) d s
  | .addp w, d, s => mapLanes2 w (env.addp w) d s
  | .subp w, d, s => mapLanes2 w (env.subp w) d s
  | .mulp w, d, s => mapLanes2 w (env.mulp w) d s
  | .divp w, d, s => mapLanes2 w (env.divp w) d s
  | .maxp w, d, s => mapLanes2 w (env.maxp w) d s
  | .minp w, d, s => mapLanes2 w (env.minp w) d s
  | .haddp w, d, s => haddp w (env.addp w) d s
  | .punpcklqdq, d, s => d % 2 ^ 64 + (s % 2 ^ 64) * 2 ^ 64
  | .movapd, _, s => s
  | .punpckldq, d, s => unpackLow32 d s
  | .unpcklpd, d, s => d % 2 ^ 64 + (s % 2 ^ 64) * 2 ^ 64
  | .movhlps, d, s => (s / 2 ^ 64) % 2 ^ 64 + ((d / 2 ^ 64) % 2 ^ 64) * 2 ^ 64
  | .cvtdq2ps, _, s => mapLanes 32 (env.cvts 32) s
  | .pshufd imm, _, s => shuffle32 imm s

/-- Semantics of the three-operand VEX instructions: destination from the two sources. -/
def avxSem (env : Env) : Avx → Nat → Nat → Nat
  | .vcmpeqp w, a, b => mapLanes2 w (fun x y => boolMask w (fpEq w x y)) a b
  | .vcmpunordp w, a, b => mapLanes2 w (fun x y => boolMask w (IsNaN w x || IsNaN w y)) a b
  | .vcmpeq_uqp w, a, b =>
    mapLanes2 w (fun x y => boolMask w (IsNaN w x || IsNaN w y || fpEq w x y)) a b
  | .vandp _, a, b => a &&& b
  | .vorp _, a, b => a ||| b
  | .vmaxp w, a, b => mapLanes2 w (env.maxp w) a b
  | .vminp w, a, b => mapLanes2 w (env.minp w) a b
  | .vaddp w, a, b => mapLanes2 w (env.addp w) a b
  | .vsubp w, a, b => mapLanes2 w (env.subp w) a b
  | .vhaddp w, a, b => haddp w (env.addp w) a b
  | .vunpcklps, a, b => unpackLow32 a b
  | .vpblendw imm, a, b => blendw imm a b

/-- Semantics of the two-operand VEX/EVEX instructions: destination from the source. -/
def vex2Sem (env : Env) : Vex2 → Nat → Nat
  | .vmovapd, s => s
  | .vpermilps imm, s => shuffle32 imm s
  | .vpsrld imm, s => mapLanes 32 (fun x => x >>> imm) s
  | .vcvtudq2ps, s => mapLanes 32 (env.cvtu 32) s
  | .vcvtuqq2pd, s => mapLanes 64 (env.cvtu 64) s
  | .vcvtqq2pd, s => mapLanes 64 (env.cvts 64) s

/-- Variable blend `vblendvp`: per lane, the second source where the mask has its sign bit set,
the first source elsewhere. -/
def blendv (w a b mask : Nat) : Nat :=
  ofLanes w (fun i => if signBit w (lane w i mask) then lane w i b else lane w i a) (128 / w)

/-- Sign bits of the four 32-bit lanes (`movmskps`). -/
def movmsk (v : Nat) : Nat := ofLanes 1 (fun i => lane 32 i v >>> 31) 4

/-- The `n`-th integer parameter (from 1) as the callee finds it: in `ABI_PARAMn`, or on
Windows beyond the fourth, in the stack slot above the shadow space. -/
def abiParam (code : BlockOfCode) (m : Machine) (n : Nat) : Int :=
  if code.win32 && decide (4 < n) then (m.mem (m.gpr .rsp + 32 + 8 * ((n : Int) - 5)) : Int)
  else m.gpr (.ABI_PARAM n)

/-- Store the arrays `values[k..]` to consecutive 16-byte slots from `p`. -/
def storeArrays (fsize : Nat) (p : Int) : List (List Nat) → Nat → (Int → Nat) → (Int → Nat)
  | [], _, mem => mem
  | v :: vs, k, mem =>
    storeArrays fsize p vs (k + 1) (fun a => if a = p + 16 * (k : Int) then fromLanes fsize v else mem a)

/-- Memory after a call of `fn`: the callee reads its operands through the pointer parameters
and writes its result array; `none` when the callee fails. -/
def callMem (env : Env) (code : BlockOfCode) (m : Machine) : Callee → Option (Int → Nat)
  | .NaNHandler fsize ix narg =>
    let p := abiParam code m 1
    let values := (List.range narg).map (fun k => toLanes fsize (m.mem (p + 16 * (k : Int))))
    (GetDefaultImpl fsize ix values).map (fun vs => storeArrays fsize p vs 0 m.mem)
  | .FPMulAdd w =>
    let addend := m.mem (abiParam code m 2)
    let op1 := m.mem (abiParam code m 3)
    let op2 := m.mem (abiParam code m 4)
    let fpcr := (abiParam code m 5).toNat
    some (fun a => if a = abiParam code m 1 then
      ofLanes w (fun i => env.FPMulAdd w (lane w i addend) (lane w i op1) (lane w i op2) fpcr) (128 / w)
      else m.mem a)
  | .FPRoundInt w rounding exact =>
    let fpcr := (abiParam code m 3).toNat
    some (fun a => if a = abiParam code m 1 then
      mapLanes w (fun x => env.FPRoundInt w x fpcr rounding exact) (m.mem (abiParam code m 2))
      else m.mem a)
  | .FPToFixed w unsigned_ fbits rounding =>
    let fpcr := (abiParam code m 3).toNat
    some (fun a => if a = abiParam code m 1 then
      mapLanes w (fun x => env.FPToFixed w x fbits unsigned_ fpcr rounding) (m.mem (abiParam code m 2))
      else m.mem a)
  | .FPRecipEstimate w =>
    let fpcr := (abiParam code m 3).toNat
    some (fun a => if a = abiParam code m 1 then
      mapLanes w (fun x => env.FPRecipEstimate w x fpcr) (m.mem (abiParam code m 2))
      else m.mem a)
  | .FPRSqrtEstimate w =>
    let fpcr := (abiParam code m 3).toNat
    some (fun a => if a = abiParam code m 1 then
      mapLanes w (fun x => env.FPRSqrtEstimate w x fpcr) (m.mem (abiParam code m 2))
      else m.mem a)
  | .FPRecipStepFused w =>
    let fpcr := (abiParam code m 4).toNat
    some (fun a => if a = abiParam code m 1 then
      mapLanes2 w (fun x y => env.FPRecipStepFused w x y fpcr)
        (m.mem (abiParam code m 2)) (m.mem (abiParam code m 3))
      else m.mem a)
  | .FPRSqrtStepFused w =>
    let fpcr := (abiParam code m 4).toNat
    some (fun a => if a = abiParam code m 1 then
      mapLanes2 w (fun x y => env.FPRSqrtStepFused w x y fpcr)
        (m.mem (abiParam code m 2)) (m.mem (abiParam code m 3))
      else m.mem a)

/-- One instruction. Jumps and labels leave the state alone: `run` follows them. -/
def step (env : Env) (code : BlockOfCode) : Instr → Machine → Option Machine
  | .sse op dst src, m => some (m.setXmm dst (sseSem env op (m.xmm dst) (m.operand src)))
  | .avx op dst src1 src2, m => some (m.setXmm dst (avxSem env op (m.xmm src1) (m.operand src2)))
  | .vblendvp w dst src1 src2 mask, m =>
    some (m.setXmm dst (blendv w (m.xmm src1) (m.operand src2) (m.xmm mask)))
  | .vfmadd231p w dst src2 src3, m =>
    some (m.setXmm dst (ofLanes w (fun i =>
      env.fmadd w (lane w i (m.xmm dst)) (lane w i (m.xmm src2)) (lane w i (m.xmm src3))) (128 / w)))
  | .roundp w dst src imm, m => some (m.setXmm dst (mapLanes w (env.roundp w imm) (m.xmm src)))
  | .vex2 op dst src, m => some (m.setXmm dst (vex2Sem env op (m.operand src)))
  | .psrld dst imm, m => some (m.setXmm dst (mapLanes 32 (fun x => x >>> imm) (m.xmm dst)))
  | .cvtsi2sd dst src, m =>
    some (m.setXmm dst (env.cvts 64 ((m.gpr src).toNat % 2 ^ 64) % 2 ^ 64
      + ((m.xmm dst / 2 ^ 64) % 2 ^ 64) * 2 ^ 64))
  | .movq dst src, m => some (m.setGpr dst ((m.xmm src % 2 ^ 64 : Nat) : Int))
  | .pextrq dst src imm, m => some (m.setGpr dst ((lane 64 (imm % 2) (m.xmm src) : Nat) : Int))
  | .ptest a b, m => some { m with zf := decide ((m.xmm a &&& m.xmm b) % 2 ^ 128 = 0) }
  | .vptest a b, m => some { m with zf := decide ((m.xmm a &&& m.xmm b) % 2 ^ 128 = 0) }
  | .movmskps dst src, m => some (m.setGpr dst (movmsk (m.xmm src)))
  | .cmp r imm, m => some { m with zf := decide (m.gpr r = imm) }
  | .jnz _, m => some m
  | .jmp _, m => some m
  | .L _, m => some m
  | .sub r imm, m => some { m.setGpr r (m.gpr r - imm) with zf := decide (m.gpr r - imm = 0) }
  | .add r imm, m => some { m.setGpr r (m.gpr r + imm) with zf := decide (m.gpr r + imm = 0) }
  | .lea dst addr, m => some (m.setGpr dst (m.ea addr))
  | .lea_fpsr_exc dst, m => some (m.setGpr dst (m.gpr .r15 + env.offsetof_fpsr_exc))
  | .mov_FPCR dst, m => some (m.setGpr dst env.FPCR)
  | .mov_store addr src, m => some (m.setMem (m.ea addr) (m.gpr src).toNat)
  | .mov_store_FPCR addr, m => some (m.setMem (m.ea addr) env.FPCR)
  | .movaps_store addr src, m => some (m.setMem (m.ea addr) (m.xmm src % 2 ^ 128))
  | .movaps_load dst addr, m => some (m.setXmm dst (m.mem (m.ea addr)))
  | .CallFunction fn, m =>
    (callMem env code m fn).map (fun mem =>
      { m with
        mem := mem
        xmm := env.clobberXmm
        gpr := fun r => if r = .rsp ∨ r = .r15 then m.gpr r else env.clobberGpr r
        calls := m.calls ++ [fn] })
  | .ABI_PushCallerSaveRegistersAndAdjustStackExcept _, m =>
    some { m.setGpr .rsp (m.gpr .rsp - env.callerSaveFrame) with saved := (m.xmm, m.gpr) :: m.saved }
  | .ABI_PopCallerSaveRegistersAndAdjustStackExcept except, m =>
    match m.saved with
    | [] => none
    | (x, g) :: rest =>
      some { m with
        xmm := fun r => if r = except then m.xmm r else x r
        gpr := fun r => if r = .rsp then m.gpr .rsp + env.callerSaveFrame else g r
        saved := rest }
  | .UseXmm r arg, m => some (m.setXmm r (m.args arg))
  | .UseScratchXmm r arg, m => some (m.setXmm r (m.args arg))
  | .EndOfAllocScope, m => some m
  | .HostCall, m => some m
  | .DefineValue r, m => some { m with defined := some (m.xmm r % 2 ^ 128) }

/-- The code that follows the binding of label `l` in a region. -/
def afterLabel (l : Nat) : List Instr → Option (List Instr)
  | [] => none
  | i :: rest => if i = .L l then some rest else afterLabel l rest

/-- Run emitted code: `rest` is what remains of the region the cursor is in (`inFar`).
Execution ends at the end of the near region; `none` when the fuel runs out, a label is
unbound, a callee fails or control falls off the far region. -/
def run (env : Env) (code : BlockOfCode) (near far : List Instr) :
    Nat → Bool → List Instr → Machine → Option Machine
  | 0, _, _, _ => none
  | _ + 1, inFar, [], m => if inFar then none else some m
  | fuel + 1, inFar, i :: rest, m =>
    let goto (l : Nat) : Option Machine :=
      match afterLabel l near with
      | some r => run env code near far fuel false r m
      | none =>
        match afterLabel l far with
        | some r => run env code near far fuel true r m
        | none => none
    match i with
    | .jmp l => goto l
    | .jnz l => if m.zf then run env code near far fuel inFar rest m else goto l
    | i => (step env code i m).bind (run env code near far fuel inFar rest)

/-- Run the block an emitter produced, from the start of its near region. -/
def runBlock (env : Env) (code : BlockOfCode) (s : EmitState) (m : Machine) : Option Machine :=
  run env code s.near s.far (s.near.length + s.far.length + 1) false s.near m

/-- Straight-line execution: every instruction in order, no jump followed. -/
def execList (env : Env) (code : BlockOfCode) : List Instr → Machine → Option Machine
  | [], m => some m
  | i :: rest, m => (step env code i m).bind (execList env code rest)

/-- Jump instructions. -/
def Instr.isJump : Instr → Bool
  | .jmp _ => true
  | .jnz _ => true
  | _ => false

/-- Calls of host functions. -/
def Instr.isCall : Instr → Bool
  | .CallFunction _ => true
  | _ => false

/-- The code buffer of a fresh block whose allocator has handed out `n` XMM registers. -/
def EmitState.fresh (n : Nat) : EmitState := { nextXmm := n }

/-- The instructions `ForceToDefaultNaN<fsize>` emits under `DN`, for given registers. -/
def ForceToDefaultNaN.code (fsize result nan_mask tmp : Nat) : List Instr :=
  [ .sse .pcmpeqw tmp (.xmm tmp),
    .sse .movaps nan_mask (.xmm result),
    .sse (.cmpordp fsize) nan_mask (.xmm nan_mask),
    .sse .andps result (.xmm nan_mask),
    .sse .xorps nan_mask (.xmm tmp),
    .sse .andps nan_mask (GetNaNVector fsize),
    .sse .orps result (.xmm nan_mask) ]

/-- What default-NaN quieting does to one lane. -/
def forceLane (fsize x : Nat) : Nat := if IsNaN fsize x then DefaultNaN fsize else x

/-! ## A concrete host: IEEE 754 arithmetic with the SSE NaN rules

Used to evaluate emitted code on concrete operands. Values are handled exactly, as integer
multiples of the smallest subnormal, and rounded once. `MXCSR.FTZ` and `MXCSR.DAZ` are taken
to be clear. -/

/-- Number of binary digits of `t`, for `t < 2 ^ fuel`. -/
def bitLength : Nat → Nat → Nat
  | 0, _ => 0
  | fuel + 1, t => if t = 0 then 0 else bitLength fuel (t / 2) + 1

/-- Magnitude of a finite lane in units of the smallest subnormal. -/
def fpMag (w x : Nat) : Nat :=
  if exponentField w x = 0 then mantissaField w x
  else (2 ^ explicit_mantissa_width w + mantissaField w x) * 2 ^ (exponentField w x - 1)

/-- Bit pattern of infinity (sign clear). -/
def fpInf (w : Nat) : Nat := ones (exponent_width w) * 2 ^ explicit_mantissa_width w

/-- A lane with the given sign and magnitude bits. -/
def withSign (w : Nat) (sign : Bool) (bits : Nat) : Nat := if sign then 2 ^ (w - 1) + bits else bits

/-- Whether the discarded part `r` of `2 ^ k` units rounds the kept part `q` up. -/
def roundsUp (rm : RoundingMode) (sign : Bool) (q r k : Nat) : Bool :=
  match rm with
  | .ToNearest_TieEven => decide (2 ^ k < 2 * r) || (decide (2 ^ k = 2 * r) && q % 2 = 1)
  | .ToNearest_TieAwayFromZero => decide (0 < k) && decide (2 ^ k ≤ 2 * r)
  | .TowardsPlusInfinity => r != 0 && !sign
  | .TowardsMinusInfinity => r != 0 && sign
  | .TowardsZero => false

/-- The lane nearest (in mode `rm`) to the non-zero value `t / 2 ^ sh`, in units of the smallest
subnormal, with the given sign. -/
def fpRound (w : Nat) (rm : RoundingMode) (sign : Bool) (t sh : Nat) : Nat :=
  let M := explicit_mantissa_width w
  let k := max sh (bitLength (t + 1) t - (M + 1))
  let q := t / 2 ^ k
  let r := t % 2 ^ k
  let q1 := if roundsUp rm sign q r k then q + 1 else q
  let bits := (k - sh) * 2 ^ M + q1
  if bits < fpInf w then withSign w sign bits
  else
    match rm, sign with
    | .TowardsZero, _ => withSign w sign (fpInf w - 1)
    | .TowardsPlusInfinity, true => withSign w sign (fpInf w - 1)
    | .TowardsMinusInfinity, false => withSign w sign (fpInf w - 1)
    | _, _ => withSign w sign (fpInf w)

/-- A NaN made quiet. -/
def quieten (w x : Nat) : Nat := x ||| quietBit w

/-- The QNaN floating-point indefinite of the SSE unit (sign set). -/
def x86Indefinite (w : Nat) : Nat := 2 ^ (w - 1) + fpInf w + quietBit w

/-- Whether a lane is an infinity. -/
def isInf (w x : Nat) : Bool := x % 2 ^ (w - 1) = fpInf w

/-- Round the exact signed value `s / 2 ^ sh`; an exact zero takes the sign `zsign`. -/
def fpOfInt (w : Nat) (rm : RoundingMode) (s : Int) (sh : Nat) (zsign : Bool) : Nat :=
  if s = 0 then withSign w zsign 0 else fpRound w rm (decide (s < 0)) s.natAbs sh

/-- Signed exact value of a finite lane in units of the smallest subnormal. -/
def fpVal (w x : Nat) : Int := if signBit w x then -(fpMag w x : Int) else (fpMag w x : Int)

/-- Lane addition of the SSE unit (`addps`/`addpd`) in rounding mode `rm`. -/
def x86add (rm : RoundingMode) (w x y : Nat) : Nat :=
  if IsNaN w x then quieten w x
  else if IsNaN w y then quieten w y
  else if isInf w x then (if isInf w y && (signBit w x != signBit w y) then x86Indefinite w else x)
  else if isInf w y then y
  else fpOfInt w rm (fpVal w x + fpVal w y) 0
    (if signBit w x == signBit w y then signBit w x else rm == .TowardsMinusInfinity)

/-- Lane subtraction of the SSE unit. -/
def x86sub (rm : RoundingMode) (w x y : Nat) : Nat :=
  if IsNaN w x then quieten w x
  else if IsNaN w y then quieten w y
  else x86add rm w x (y ^^^ 2 ^ (w - 1))

/-- Scale between the unit of a product of two magnitudes and the smallest subnormal. -/
def fpScale (w : Nat) : Nat := 2 ^ (exponent_width w - 1) - 1 + explicit_mantissa_width w - 1

/-- Lane multiplication of the SSE unit. -/
def x86mul (rm : RoundingMode) (w x y : Nat) : Nat :=
  if IsNaN w x then quieten w x
  else if IsNaN w y then quieten w y
  else if isInf w x || isInf w y then
    (if x % 2 ^ (w - 1) = 0 || y % 2 ^ (w - 1) = 0 then x86Indefinite w
     else withSign w (signBit w x != signBit w y) (fpInf w))
  else fpOfInt w rm (fpVal w x * fpVal w y) (fpScale w) (signBit w x != signBit w y)

/-- Lane division of the SSE unit: the quotient is computed with 2 * fsize extra digits and a
sticky bit. -/
def x86div (rm : RoundingMode) (w x y : Nat) : Nat :=
  let sign := signBit w x != signBit w y
  if IsNaN w x then quieten w x
  else if IsNaN w y then quieten w y
  else if isInf w x then (if isInf w y then x86Indefinite w else withSign w sign (fpInf w))
  else if isInf w y then withSign w sign 0
  else if fpMag w y = 0 then (if fpMag w x = 0 then x86Indefinite w else withSign w sign (fpInf w))
  else if fpMag w x = 0 then withSign w sign 0
  else
    let n := fpMag w x * 2 ^ (fpScale w + 2 * w)
    let t := 2 * (n / fpMag w y) + (if n % fpMag w y = 0 then 0 else 1)
    fpRound w rm sign t (2 * w + 1)

/-- Lane maximum of the SSE unit: the source unless the destination is greater. -/
def x86max (w x y : Nat) : Nat := if fpLt w y x then x else y

/-- Lane minimum of the SSE unit: the source unless the destination is smaller. -/
def x86min (w x y : Nat) : Nat := if fpLt w x y then x else y

/-- Lane fused multiply-add `src2 * src3 + dst` of the FMA unit. -/
def x86fmadd (rm : RoundingMode) (w acc b c : Nat) : Nat :=
  let psign := signBit w b != signBit w c
  if IsNaN w b then quieten w b
  else if IsNaN w c then quieten w c
  else if IsNaN w acc then quieten w acc
  else if isInf w b || isInf w c then
    (if b % 2 ^ (w - 1) = 0 || c % 2 ^ (w - 1) = 0 then x86Indefinite w
     else if isInf w acc && (signBit w acc != psign) then x86Indefinite w
     else withSign w psign (fpInf w))
  else if isInf w acc then acc
  else fpOfInt w rm (fpVal w b * fpVal w c + fpVal w acc * 2 ^ fpScale w) (fpScale w)
    (if signBit w acc == psign then psign else rm == .TowardsMinusInfinity)

/-- Rounding mode selected by the immediate of `roundps`/`roundpd` (bits 1:0). -/
def roundImmMode (imm : Nat) : RoundingMode :=
  match imm % 4 with
  | 0 => .ToNearest_TieEven
  | 1 => .TowardsMinusInfinity
  | 2 => .TowardsPlusInfinity
  | _ => .TowardsZero

/-- Lane round-to-integral of the SSE4.1 unit. -/
def x86round (w imm x : Nat) : Nat :=
  if IsNaN w x then quieten w x
  else if isInf w x then x
  else
    let sign := signBit w x
    let q := fpMag w x / 2 ^ fpScale w
    let r := fpMag w x % 2 ^ fpScale w
    let n := if roundsUp (roundImmMode imm) sign q r (fpScale w) then q + 1 else q
    fpOfInt w .TowardsZero (if sign then -((n * 2 ^ fpScale w : Nat) : Int) else ((n * 2 ^ fpScale w : Nat) : Int)) 0 sign

/-- The concrete host used for examples: SSE/FMA arithmetic in rounding mode `rm`. The helper
library and the register contents a call leaves behind are not determined by the sources;
they are fixed here to constants, and no statement below depends on them. -/
def x86Env (rm : RoundingMode) : Env where
  addp := x86add rm
  subp := x86sub rm
  mulp := x86mul rm
  divp := x86div rm
  maxp := x86max
  minp := x86min
  fmadd := x86fmadd rm
  roundp := x86round
  FPMulAdd := fun _ _ _ _ _ => 0
  FPRoundInt := fun _ _ _ _ _ => 0
  FPToFixed := fun _ _ _ _ _ _ => 0
  FPRecipEstimate := fun _ _ _ => 0
  FPRecipStepFused := fun _ _ _ _ => 0
  FPRSqrtEstimate := fun _ _ _ => 0
  FPRSqrtStepFused := fun _ _ _ _ => 0
  clobberXmm := fun _ => 0
  clobberGpr := fun _ => 0
  callerSaveFrame := 256
  FPCR := 0
  offsetof_fpsr_exc := 0
  cvtu := fun w x => fpOfInt w rm ((x : Int) * 2 ^ fpScale w) 0 false
  cvts := fun w x =>
    fpOfInt w rm ((if x < 2 ^ (w - 1) then (x : Int) else (x : Int) - 2 ^ w) * 2 ^ fpScale w) 0
      false

/-- A machine with every register and memory cell zero and the given IR argument values. -/
def Machine.init (args : List Nat) : Machine where
  xmm := fun _ => 0
  gpr := fun _ => 0
  mem := fun _ => 0
  zf := false
  args := fun i => args.getD i 0
  defined := none
  saved := []
  calls := []

/-- A host with AVX, FMA and SSE4.1 on the SysV ABI. -/
def BlockOfCode.avx : BlockOfCode :=
  { tSSE41 := true, tAVX := true, tFMA := true, tAVX512VL := false, tAVX512DQ := false, win32 := false }

/-- A host with SSE2 only on the SysV ABI. -/
def BlockOfCode.sse2 : BlockOfCode :=
  { tSSE41 := false, tAVX := false, tFMA := false, tAVX512VL := false, tAVX512DQ := false, win32 := false }

/-- A 128-bit register from four 32-bit lanes. -/
def vec32 (a b c d : Nat) : Nat := a + b * 2 ^ 32 + c * 2 ^ 64 + d * 2 ^ 96

/-- A 128-bit register from two 64-bit lanes. -/
def vec64 (a b : Nat) : Nat := a + b * 2 ^ 64

/-- The code an emitter produces when started in state `s`. -/
def emittedFrom (s : EmitState) (e : Emit Unit) : Except EmitError EmitState :=
  (e.run s).map Prod.snd

/-- Sample guest FP control: `DN` set. -/
def EmitContext.dn : EmitContext :=
  { FPSCR_DN := true, FPSCR_FTZ := false, FPSCR_RMode := .ToNearest_TieEven,
    AccurateNaN := true }

/-- Sample guest FP control: `DN` clear, accurate NaN propagation requested. -/
def EmitContext.accurate : EmitContext :=
  { FPSCR_DN := false, FPSCR_FTZ := false, FPSCR_RMode := .ToNearest_TieEven,
    AccurateNaN := true }

/-- Sample guest FP control: `DN` clear, accurate NaN propagation not requested. -/
def EmitContext.fast : EmitContext :=
  { FPSCR_DN := false, FPSCR_FTZ := false, FPSCR_RMode := .ToNearest_TieEven,
    AccurateNaN := false }

/-- Sample guest FP control: `DN` and `FTZ` set. -/
def EmitContext.dn_ftz : EmitContext :=
  { FPSCR_DN := true, FPSCR_FTZ := true, FPSCR_RMode := .ToNearest_TieEven,
    AccurateNaN := true }

/-- The `(fsize, imm)` of every `roundps`/`roundpd` in a piece of code, in order. -/
def roundps_of (l : List Instr) : List (Nat × Nat) :=
  l.filterMap fun
    | .roundp w _ _ imm => some (w, imm)
    | _ => none

/-- The host functions a piece of code calls, in order. -/
def calls_of (l : List Instr) : List Callee :=
  l.filterMap fun
    | .CallFunction fn => some fn
    | _ => none

/-- The jumps of a piece of code, in order. -/
def jumps_of (l : List Instr) : List Instr := l.filter Instr.isJump

/-- Equality of emission results is decidable. -/
instance instDecidableEqEmitResult : DecidableEq (Except EmitError EmitState)
  | .ok a, .ok b => if h : a = b then isTrue (by rw [h]) else isFalse (fun h2 => h (by cases h2; rfl))
  | .error a, .error b =>
    if h : a = b then isTrue (by rw [h]) else isFalse (fun h2 => h (by cases h2; rfl))
  | .ok _, .error _ => isFalse (fun h => by cases h)
  | .error _, .ok _ => isFalse (fun h => by cases h)

/-! ## The emitted code, spelled out

Lists of the instructions the emitters above append, as functions of the registers and labels
they obtained. The emission lemmas below prove that the emitters produce exactly these. -/

/-- The instructions `DenormalsAreZero<fsize>` emits. -/
def DenormalsAreZero.code (fsize : Nat) (ctx : EmitContext) (to_daz : List Nat) (tmp : Nat) :
    List Instr :=
  if ctx.FPSCR_FTZ then
    (if ctx.FPSCR_RMode ≠ .TowardsMinusInfinity then
      [Instr.sse .movaps tmp (GetNegativeZeroVector fsize)]
     else [Instr.sse .xorps tmp (.xmm tmp)])
    ++ to_daz.map fun xmm => Instr.sse (.addp fsize) xmm (.xmm tmp)
  else []

/-- The near-region instructions of `HandleNaNs`: the test of the mask, the jump and the label
the far code returns to. -/
def HandleNaNs.near (code : BlockOfCode) (nan_mask gpr lbl : Nat) : List Instr :=
  (if code.DoesCpuSupport .tSSE41 then [Instr.ptest nan_mask nan_mask]
   else [Instr.movmskps (.scratch gpr) nan_mask, Instr.cmp (.scratch gpr) 0])
  ++ [Instr.jnz (lbl + 1), Instr.L lbl]

/-- The far-region instructions of `HandleNaNs`. -/
def HandleNaNs.far (code : BlockOfCode) (xmms : List Nat) (nan_handler : Callee) (lbl : Nat) :
    List Instr :=
  [Instr.L (lbl + 1),
   Instr.sub .rsp 8,
   Instr.ABI_PushCallerSaveRegistersAndAdjustStackExcept (xmms.headD 0),
   Instr.sub .rsp ((xmms.length : Int) * 16 + ABI_SHADOW_SPACE code)]
  ++ ((List.range xmms.length).map fun (i : Nat) =>
    Instr.movaps_store ⟨.rsp, ABI_SHADOW_SPACE code + i * 16⟩ (xmms.getD i 0))
  ++ [Instr.lea (.ABI_PARAM 1) ⟨.rsp, ABI_SHADOW_SPACE code + 0 * 16⟩,
      Instr.mov_FPCR (.ABI_PARAM 2),
      Instr.CallFunction nan_handler,
      Instr.movaps_load (xmms.headD 0) ⟨.rsp, ABI_SHADOW_SPACE code + 0 * 16⟩,
      Instr.add .rsp ((xmms.length : Int) * 16 + ABI_SHADOW_SPACE code),
      Instr.ABI_PopCallerSaveRegistersAndAdjustStackExcept (xmms.headD 0),
      Instr.add .rsp 8,
      Instr.jmp lbl]

/-- The state `EmitThreeOpVectorOperation` leaves in a fresh block, when its function argument
emits `F result xmm_b n` (with `n` registers handed out before it) and takes `k` scratch
registers. -/
def EmitThreeOpVectorOperation.state (fsize : Nat) (code : BlockOfCode) (ctx : EmitContext)
    (F : Nat → Nat → Nat → List Instr) (k : Nat) (nan_handler : Callee) : EmitState :=
  if !ctx.AccurateNaN || ctx.FPSCR_DN then
    { near := [Instr.UseScratchXmm 0 0, Instr.UseXmm 1 1] ++ F 0 1 2
        ++ (if ctx.FPSCR_DN then ForceToDefaultNaN.code fsize 0 (2 + k) (3 + k) else [])
        ++ [Instr.DefineValue 0],
      nextXmm := if ctx.FPSCR_DN then 4 + k else 2 + k }
  else
    { near := [Instr.UseXmm 1 0, Instr.UseXmm 2 1, Instr.sse .movaps 3 (.xmm 2),
          Instr.sse .movaps 0 (.xmm 1), Instr.sse (.cmpunordp fsize) 3 (.xmm 1)]
        ++ F 0 2 4 ++ [Instr.sse (.cmpunordp fsize) 3 (.xmm 0)]
        ++ HandleNaNs.near code 3 0 0 ++ [Instr.DefineValue 0],
      far := HandleNaNs.far code [0, 1, 2] nan_handler 0,
      switches := [true, false],
      nextXmm := 4 + k,
      nextGpr := if code.DoesCpuSupport .tSSE41 then 0 else 1,
      nextLabel := 2 }

/-- The state `EmitTwoOpVectorOperation` leaves in a fresh block, when its lambda emits
`F result xmm_a`. -/
def EmitTwoOpVectorOperation.state (fsize : Nat) (code : BlockOfCode) (ctx : EmitContext)
    (F : Nat → Nat → List Instr) (nan_handler : Callee) : EmitState :=
  if !ctx.AccurateNaN || ctx.FPSCR_DN then
    { near := [Instr.UseXmm 0 0] ++ F 1 0
        ++ (if ctx.FPSCR_DN then ForceToDefaultNaN.code fsize 1 2 3 else [])
        ++ [Instr.DefineValue 1],
      nextXmm := if ctx.FPSCR_DN then 4 else 2 }
  else
    { near := [Instr.UseXmm 1 0] ++ F 0 1
        ++ (if code.DoesCpuSupport .tAVX then [Instr.avx (.vcmpunordp fsize) 2 0 (.xmm 0)]
            else [Instr.sse .movaps 2 (.xmm 0), Instr.sse (.cmpunordp fsize) 2 (.xmm 2)])
        ++ HandleNaNs.near code 2 0 0 ++ [Instr.DefineValue 0],
      far := HandleNaNs.far code [0, 1] nan_handler 0,
      switches := [true, false],
      nextXmm := 3,
      nextGpr := if code.DoesCpuSupport .tSSE41 then 0 else 1,
      nextLabel := 2 }

/-- The zero-correcting max (`isMax`) or min sequence shared by the lambdas of
`EmitFPVectorMax` and `EmitFPVectorMin`: `comb` receives the AND (max) or OR (min) of the
operands and replaces the host result on lanes that compare equal. -/
def MinMax.core (isMax avx : Bool) (fsize result xmm_b mask comb : Nat) : List Instr :=
  if avx then
    [Instr.avx (.vcmpeqp fsize) mask result (.xmm xmm_b),
     Instr.avx (if isMax then .vandp fsize else .vorp fsize) comb result (.xmm xmm_b),
     Instr.avx (if isMax then .vmaxp fsize else .vminp fsize) result result (.xmm xmm_b),
     Instr.vblendvp fsize result result (.xmm comb) mask]
  else
    [Instr.sse .movaps mask (.xmm result),
     Instr.sse .movaps comb (.xmm result),
     Instr.sse (.cmpneqp fsize) mask (.xmm xmm_b),
     Instr.sse (if isMax then .andps else .orps) comb (.xmm xmm_b),
     Instr.sse (if isMax then .maxp fsize else .minp fsize) result (.xmm xmm_b),
     Instr.sse .andps result (.xmm mask),
     Instr.sse .andnps mask (.xmm comb),
     Instr.sse .orps result (.xmm mask)]

/-- The sequence of the `DN` branch of `EmitFPVectorMax` (`isMax`) and `EmitFPVectorMin`. -/
def MinMax.coreDN (isMax avx : Bool) (fsize result xmm_b mask comb nan_mask : Nat) :
    List Instr :=
  if avx then
    [Instr.avx (.vcmpeqp fsize) mask result (.xmm xmm_b),
     Instr.avx (.vcmpunordp fsize) nan_mask result (.xmm xmm_b),
     Instr.avx (if isMax then .vandp fsize else .vorp fsize) comb result (.xmm xmm_b),
     Instr.avx (if isMax then .vmaxp fsize else .vminp fsize) result result (.xmm xmm_b),
     Instr.vblendvp fsize result result (.xmm comb) mask,
     Instr.vblendvp fsize result result (GetNaNVector fsize) nan_mask]
  else
    [Instr.sse .movaps mask (.xmm result),
     Instr.sse .movaps comb (.xmm result),
     Instr.sse .movaps nan_mask (.xmm result),
     Instr.sse (.cmpneqp fsize) mask (.xmm xmm_b),
     Instr.sse (.cmpordp fsize) nan_mask (.xmm xmm_b),
     Instr.sse (if isMax then .andps else .orps) comb (.xmm xmm_b),
     Instr.sse (if isMax then .maxp fsize else .minp fsize) result (.xmm xmm_b),
     Instr.sse .andps result (.xmm mask),
     Instr.sse .andnps mask (.xmm comb),
     Instr.sse .orps result (.xmm mask),
     Instr.sse .andps result (.xmm nan_mask),
     Instr.sse .andnps nan_mask (GetNaNVector fsize),
     Instr.sse .orps result (.xmm nan_mask)]

/-- The code of the lambda `EmitFPVectorMax`/`EmitFPVectorMin` pass to
`EmitThreeOpVectorOperation`, with `n` registers handed out before it. -/
def MinMax.lambda (isMax : Bool) (fsize : Nat) (code : BlockOfCode) (ctx : EmitContext)
    (result xmm_b n : Nat) : List Instr :=
  if ctx.FPSCR_FTZ then
    [Instr.sse .movaps (n + 2) (.xmm xmm_b)]
      ++ DenormalsAreZero.code fsize ctx [result, n + 2] n
      ++ MinMax.core isMax (code.DoesCpuSupport .tAVX) fsize result (n + 2) n (n + 1)
  else MinMax.core isMax (code.DoesCpuSupport .tAVX) fsize result xmm_b n (n + 1)

/-- The state `EmitFPVectorMax` (`isMax`) or `EmitFPVectorMin` leaves in a fresh block. -/
def MinMax.state (isMax : Bool) (fsize : Nat) (code : BlockOfCode) (ctx : EmitContext) :
    EmitState :=
  if ctx.FPSCR_DN then
    { near := [if ctx.FPSCR_FTZ then Instr.UseScratchXmm 0 0 else Instr.UseScratchXmm 0 0,
          if ctx.FPSCR_FTZ then Instr.UseScratchXmm 1 1 else Instr.UseXmm 1 1]
        ++ DenormalsAreZero.code fsize ctx [0, 1] 2
        ++ MinMax.coreDN isMax (code.DoesCpuSupport .tAVX) fsize 0 1 2 3 4
        ++ [Instr.DefineValue 0],
      nextXmm := 5 }
  else
    EmitThreeOpVectorOperation.state fsize code ctx (MinMax.lambda isMax fsize code ctx)
      (if ctx.FPSCR_FTZ then 3 else 2) (NaNHandler.GetDefault fsize .Default 3)

/-- The code of the lambda of `EmitFPVectorPairedAddLower32/64`. -/
def PairedAddLower.lambda (fsize result xmm_b n : Nat) : List Instr :=
  [Instr.sse .xorps n (.xmm n),
   Instr.sse .punpcklqdq result (.xmm xmm_b),
   Instr.sse (.haddp fsize) result (.xmm n)]

/-- The instructions `EmitFourOpFallbackWithoutRegAlloc` emits. -/
def EmitFourOpFallbackWithoutRegAlloc.code (code : BlockOfCode) (result arg1 arg2 arg3 : Nat)
    (fn : Callee) : List Instr :=
  (if code.win32 then
    [Instr.sub .rsp (5 * 16 + ABI_SHADOW_SPACE code),
     Instr.lea (.ABI_PARAM 1) ⟨.rsp, ABI_SHADOW_SPACE code + 1 * 16⟩,
     Instr.lea (.ABI_PARAM 2) ⟨.rsp, ABI_SHADOW_SPACE code + 2 * 16⟩,
     Instr.lea (.ABI_PARAM 3) ⟨.rsp, ABI_SHADOW_SPACE code + 3 * 16⟩,
     Instr.lea (.ABI_PARAM 4) ⟨.rsp, ABI_SHADOW_SPACE code + 4 * 16⟩,
     Instr.mov_store_FPCR ⟨.rsp, ABI_SHADOW_SPACE code + 0⟩,
     Instr.lea_fpsr_exc .rax,
     Instr.mov_store ⟨.rsp, ABI_SHADOW_SPACE code + 8⟩ .rax]
   else
    [Instr.sub .rsp (4 * 16 + ABI_SHADOW_SPACE code),
     Instr.lea (.ABI_PARAM 1) ⟨.rsp, ABI_SHADOW_SPACE code + 0 * 16⟩,
     Instr.lea (.ABI_PARAM 2) ⟨.rsp, ABI_SHADOW_SPACE code + 1 * 16⟩,
     Instr.lea (.ABI_PARAM 3) ⟨.rsp, ABI_SHADOW_SPACE code + 2 * 16⟩,
     Instr.lea (.ABI_PARAM 4) ⟨.rsp, ABI_SHADOW_SPACE code + 3 * 16⟩,
     Instr.mov_FPCR (.ABI_PARAM 5),
     Instr.lea_fpsr_exc (.ABI_PARAM 6)])
  ++ [Instr.movaps_store ⟨.ABI_PARAM 2, 0⟩ arg1,
      Instr.movaps_store ⟨.ABI_PARAM 3, 0⟩ arg2,
      Instr.movaps_store ⟨.ABI_PARAM 4, 0⟩ arg3,
      Instr.CallFunction fn,
      Instr.movaps_load result ⟨.rsp, ABI_SHADOW_SPACE code + (if code.win32 then 1 else 0) * 16⟩,
      Instr.add .rsp ((if code.win32 then 5 else 4) * 16 + ABI_SHADOW_SPACE code)]

/-- The state `EmitFPVectorMulAdd` leaves in a fresh block. -/
def EmitFPVectorMulAdd.state (fsize : Nat) (code : BlockOfCode) : EmitState :=
  if code.DoesCpuSupport .tFMA && code.DoesCpuSupport .tAVX then
    { near := [Instr.UseXmm 1 0, Instr.UseXmm 2 1, Instr.UseXmm 3 2,
          Instr.sse .movaps 0 (.xmm 1),
          Instr.vfmadd231p fsize 0 2 3,
          Instr.sse .movaps 4 (GetNegativeZeroVector fsize),
          Instr.sse .andnps 4 (.xmm 0),
          Instr.avx (.vcmpeq_uqp fsize) 4 4 (GetSmallestNormalVector fsize),
          Instr.vptest 4 4,
          Instr.jnz 1,
          Instr.L 0,
          Instr.DefineValue 0],
      far := [Instr.L 1, Instr.sub .rsp 8,
          Instr.ABI_PushCallerSaveRegistersAndAdjustStackExcept 0]
        ++ EmitFourOpFallbackWithoutRegAlloc.code code 0 1 2 3 (.FPMulAdd fsize)
        ++ [Instr.ABI_PopCallerSaveRegistersAndAdjustStackExcept 0, Instr.add .rsp 8,
            Instr.jmp 0],
      switches := [true, false],
      nextXmm := 5,
      nextLabel := 2 }
  else
    { near := [Instr.UseXmm 0 0, Instr.UseXmm 1 1, Instr.UseXmm 2 2,
          Instr.EndOfAllocScope, Instr.HostCall]
        ++ EmitFourOpFallbackWithoutRegAlloc.code code xmm0 0 1 2 (.FPMulAdd fsize)
        ++ [Instr.DefineValue xmm0],
      nextXmm := 3 }

/-- The state `EmitTwoOpFallback` leaves in a fresh block. -/
def EmitTwoOpFallback.state (code : BlockOfCode) (fn : Callee) : EmitState :=
  { near := [Instr.UseXmm 0 0, Instr.EndOfAllocScope, Instr.HostCall,
      Instr.sub .rsp (2 * 16 + ABI_SHADOW_SPACE code),
      Instr.lea (.ABI_PARAM 1) ⟨.rsp, ABI_SHADOW_SPACE code + 0 * 16⟩,
      Instr.lea (.ABI_PARAM 2) ⟨.rsp, ABI_SHADOW_SPACE code + 1 * 16⟩,
      Instr.mov_FPCR (.ABI_PARAM 3),
      Instr.lea_fpsr_exc (.ABI_PARAM 4),
      Instr.movaps_store ⟨.ABI_PARAM 2, 0⟩ 0,
      Instr.CallFunction fn,
      Instr.movaps_load xmm0 ⟨.rsp, ABI_SHADOW_SPACE code + 0 * 16⟩,
      Instr.add .rsp (2 * 16 + ABI_SHADOW_SPACE code),
      Instr.DefineValue xmm0],
    nextXmm := 1 }

/-- The opcodes whose emitter is an instance of `EmitThreeOpVectorOperation` with a member
function or with the lambda of `PairedAddLower`. -/
inductive ThreeOpOpcode
  | FPVectorAdd32
  | FPVectorAdd64
  | FPVectorDiv32
  | FPVectorDiv64
  | FPVectorMul32
  | FPVectorMul64
  | FPVectorSub32
  | FPVectorSub64
  | FPVectorPairedAdd32
  | FPVectorPairedAdd64
  | FPVectorPairedAddLower32
  | FPVectorPairedAddLower64
  deriving DecidableEq, Repr, Fintype

/-- The emitter of an opcode. -/
def ThreeOpOpcode.emit : ThreeOpOpcode → BlockOfCode → EmitContext → Emit Unit
  | .FPVectorAdd32 => EmitFPVectorAdd32
  | .FPVectorAdd64 => EmitFPVectorAdd64
  | .FPVectorDiv32 => EmitFPVectorDiv32
  | .FPVectorDiv64 => EmitFPVectorDiv64
  | .FPVectorMul32 => EmitFPVectorMul32
  | .FPVectorMul64 => EmitFPVectorMul64
  | .FPVectorSub32 => EmitFPVectorSub32
  | .FPVectorSub64 => EmitFPVectorSub64
  | .FPVectorPairedAdd32 => EmitFPVectorPairedAdd32
  | .FPVectorPairedAdd64 => EmitFPVectorPairedAdd64
  | .FPVectorPairedAddLower32 => EmitFPVectorPairedAddLower32
  | .FPVectorPairedAddLower64 => EmitFPVectorPairedAddLower64

/-- The `fsize` template argument of an opcode. -/
def ThreeOpOpcode.fsize : ThreeOpOpcode → Nat
  | .FPVectorAdd32 | .FPVectorDiv32 | .FPVectorMul32 | .FPVectorSub32
  | .FPVectorPairedAdd32 | .FPVectorPairedAddLower32 => 32
  | _ => 64

/-- The `Indexer` template argument of an opcode. -/
def ThreeOpOpcode.indexer : ThreeOpOpcode → Indexer
  | .FPVectorPairedAdd32 | .FPVectorPairedAdd64 => .Paired
  | .FPVectorPairedAddLower32 | .FPVectorPairedAddLower64 => .PairedLower
  | _ => .Default

/-- The host instruction of an opcode emitted through a member function. -/
def ThreeOpOpcode.sse : ThreeOpOpcode → Option Sse
  | .FPVectorAdd32 => some (.addp 32)
  | .FPVectorAdd64 => some (.addp 64)
  | .FPVectorDiv32 => some (.divp 32)
  | .FPVectorDiv64 => some (.divp 64)
  | .FPVectorMul32 => some (.mulp 32)
  | .FPVectorMul64 => some (.mulp 64)
  | .FPVectorSub32 => some (.subp 32)
  | .FPVectorSub64 => some (.subp 64)
  | .FPVectorPairedAdd32 => some (.haddp 32)
  | .FPVectorPairedAdd64 => some (.haddp 64)
  | _ => none

/-- The code the function argument of an opcode emits. -/
def ThreeOpOpcode.F (op : ThreeOpOpcode) (result xmm_b n : Nat) : List Instr :=
  match op.sse with
  | some i => [Instr.sse i result (.xmm xmm_b)]
  | none => PairedAddLower.lambda op.fsize result xmm_b n

/-- The number of scratch registers the function argument of an opcode takes. -/
def ThreeOpOpcode.k (op : ThreeOpOpcode) : Nat :=
  match op.sse with
  | some _ => 0
  | none => 1

/-- The state the emitter of an opcode leaves in a fresh block. -/
def ThreeOpOpcode.state (op : ThreeOpOpcode) (code : BlockOfCode) (ctx : EmitContext) :
    EmitState :=
  EmitThreeOpVectorOperation.state op.fsize code ctx op.F op.k
    (NaNHandler.GetDefault op.fsize op.indexer 3)

/-- What the default NaN handler leaves in one result lane, given the operands the indexer
selected for it and the lane the host computed. -/
def handlerLane (fsize : Nat) (current_values : List Nat) (r : Nat) : Nat :=
  match ProcessNaNs fsize current_values with
  | some v => v
  | none => if IsNaN fsize r then DefaultNaN fsize else r

/-- The XMM register an instruction writes, for the instructions that touch nothing but XMM
registers. -/
def Instr.xmmDst : Instr → Option Nat
  | .sse _ dst _ => some dst
  | .avx _ dst _ _ => some dst
  | .vblendvp _ dst _ _ _ => some dst
  | .vfmadd231p _ dst _ _ => some dst
  | .roundp _ dst _ _ => some dst
  | .vex2 _ dst _ => some dst
  | .psrld dst _ => some dst
  | .cvtsi2sd dst _ => some dst
  | _ => none

/-- Two machine states agree on everything but the XMM registers. -/
def Machine.sameButXmm (m m1 : Machine) : Prop :=
  m1.gpr = m.gpr ∧ m1.mem = m.mem ∧ m1.zf = m.zf ∧ m1.args = m.args ∧ m1.defined = m.defined ∧
    m1.saved = m.saved ∧ m1.calls = m.calls

/-- Lane of the zero-corrected maximum (`isMax`) or minimum the `Max`/`Min` sequences compute:
the AND (for max) or OR (for min) of the operand lanes where they compare equal, the host's
`maxp`/`minp` elsewhere. -/
def minmaxLane (env : Env) (isMax : Bool) (w x y : Nat) : Nat :=
  if fpEq w x y then (if isMax then x &&& y else x ||| y)
  else (if isMax then env.maxp w x y else env.minp w x y) % 2 ^ w

/-- Lane of an operand after `DenormalsAreZero`: with `FTZ` the host's sum of the lane and a
zero (negative unless the rounding mode is towards minus infinity), the lane itself otherwise. -/
def dazLane (env : Env) (ctx : EmitContext) (w x : Nat) : Nat :=
  if ctx.FPSCR_FTZ then
    env.addp w x (if ctx.FPSCR_RMode ≠ .TowardsMinusInfinity then 2 ^ (w - 1) else 0) % 2 ^ w
  else x

/-- Lane of the value `EmitFPVectorMax` (`isMax`) or `EmitFPVectorMin` defines, in terms of the
operand lanes `a` and `b`: under `DN` a NaN operand gives the default NaN; without `DN`, the
default handler post-processes the lane when accurate NaNs are requested. -/
def MinMax.resultLane (env : Env) (ctx : EmitContext) (isMax : Bool) (w a b : Nat) : Nat :=
  if ctx.FPSCR_DN then
    (if IsNaN w (dazLane env ctx w a) || IsNaN w (dazLane env ctx w b) then DefaultNaN w
     else minmaxLane env isMax w (dazLane env ctx w a) (dazLane env ctx w b))
  else if ctx.AccurateNaN then
    handlerLane w [a, b] (minmaxLane env isMax w (dazLane env ctx w a) (dazLane env ctx w b))
  else minmaxLane env isMax w (dazLane env ctx w a) (dazLane env ctx w b)

/-- The facts that tell the two paths of `EmitTwoOpVectorOperation` and
`EmitThreeOpVectorOperation` apart, for the state `s` an instance leaves. The far region is
used exactly when DN=0 and AccurateNaN=1. On that accurate path the near region computes a
NaN mask with `cmpunordp`, tests it with the code of `HandleNaNs` and jumps, and the far region
is the spill-and-call code of `HandleNaNs` for `nan_handler`, with the result register first
among the spilled. On the simple path there is no far region, no jump and no call, and the
near region ends with what `ForceToDefaultNaN` emits for the result register, followed by the
definition of the value. -/
def PathSelection (fsize : Nat) (code : BlockOfCode) (ctx : EmitContext) (s : EmitState)
    (nan_handler : Callee) : Prop :=
  (s.far ≠ [] ↔ (ctx.FPSCR_DN = false ∧ ctx.AccurateNaN = true)) ∧
  ((ctx.FPSCR_DN = false ∧ ctx.AccurateNaN = true) →
    ∃ xmms nan_mask result body,
      s.far = HandleNaNs.far code xmms nan_handler 0 ∧ xmms.head? = some result ∧
      calls_of s.far = [nan_handler] ∧ jumps_of s.near = [Instr.jnz 1] ∧
      (∃ i ∈ body, ∃ src, i = Instr.sse (.cmpunordp fsize) nan_mask src ∨
        i = Instr.avx (.vcmpunordp fsize) nan_mask result src) ∧
      s.near = body ++ HandleNaNs.near code nan_mask 0 0 ++ [Instr.DefineValue result]) ∧
  (¬(ctx.FPSCR_DN = false ∧ ctx.AccurateNaN = true) →
    s.far = [] ∧ jumps_of s.near = [] ∧ calls_of s.near = [] ∧
    ∃ result body n s1,
      emittedFrom (.fresh n) (ForceToDefaultNaN fsize ctx result) = .ok s1 ∧
      s.near = body ++ s1.near ++ [Instr.DefineValue result])

/-- The value the host instructions of an opcode leave in the result register, from the operand
registers `a` and `b`. -/
def ThreeOpOpcode.host (env : Env) (op : ThreeOpOpcode) (a b : Nat) : Nat :=
  match op.sse with
  | some i => sseSem env i a b
  | none => sseSem env (.haddp op.fsize) (sseSem env .punpcklqdq a b) 0

/-- Whether the first conditional jump of a piece of code is taken when the code is run from
`m`; `none` when there is no such jump or an instruction before it fails. -/
def branchTaken (env : Env) (code : BlockOfCode) : List Instr → Machine → Option Bool
  | [], _ => none
  | i :: rest, m =>
    match i with
    | .jnz _ => some (!m.zf)
    | i => (step env code i m).bind (branchTaken env code rest)

/-- The register `vfmadd231p` leaves: per lane, the host's fused `op1 * op2 + addend`. -/
def vfmadd231p_result (env : Env) (w addend op1 op2 : Nat) : Nat :=
  ofLanes w (fun i => env.fmadd w (lane w i addend) (lane w i op1) (lane w i op2)) (128 / w)

/-- The emitter of `FPVectorAbs` for a lane width (`EmitFPVectorAbs16/32/64`). -/
def EmitFPVectorAbs (w : Nat) : Emit Unit :=
  if w = 16 then EmitFPVectorAbs16 else if w = 32 then EmitFPVectorAbs32 else EmitFPVectorAbs64

/-- The emitter of `FPVectorNeg` for a lane width (`EmitFPVectorNeg16/32/64`). -/
def EmitFPVectorNeg (w : Nat) : Emit Unit :=
  if w = 16 then EmitFPVectorNeg16 else if w = 32 then EmitFPVectorNeg32 else EmitFPVectorNeg64

/-- The pool constant with `2 ^ (w - 1) - 1` in every lane (`w` = 16, 32, 64): all bits but the
top bit of each lane. -/
def signClearMask (w : Nat) : Nat :=
  if w = 16 then 0x7FFF7FFF7FFF7FFF7FFF7FFF7FFF7FFF
  else if w = 32 then 0x7FFFFFFF7FFFFFFF7FFFFFFF7FFFFFFF
  else 0x7FFFFFFFFFFFFFFF7FFFFFFFFFFFFFFF

/-- The pool constant with `2 ^ (w - 1)` in every lane (`w` = 16, 32, 64): the top bit of each
lane. -/
def signMask (w : Nat) : Nat :=
  if w = 16 then 0x80008000800080008000800080008000
  else if w = 32 then 0x80000000800000008000000080000000
  else 0x80000000000000008000000000000000

/-- The comparison opcodes of the file. -/
inductive CompareOpcode
  | FPVectorEqual32
  | FPVectorEqual64
  | FPVectorGreater32
  | FPVectorGreater64
  | FPVectorGreaterEqual32
  | FPVectorGreaterEqual64
  deriving DecidableEq, Repr

/-- The emitter of a comparison opcode. -/
def CompareOpcode.emit : CompareOpcode → Emit Unit
  | .FPVectorEqual32 => EmitFPVectorEqual32
  | .FPVectorEqual64 => EmitFPVectorEqual64
  | .FPVectorGreater32 => EmitFPVectorGreater32
  | .FPVectorGreater64 => EmitFPVectorGreater64
  | .FPVectorGreaterEqual32 => EmitFPVectorGreaterEqual32
  | .FPVectorGreaterEqual64 => EmitFPVectorGreaterEqual64

/-- The lane width of a comparison opcode. -/
def CompareOpcode.fsize : CompareOpcode → Nat
  | .FPVectorEqual32 | .FPVectorGreater32 | .FPVectorGreaterEqual32 => 32
  | _ => 64

/-- The ordered relation a comparison opcode decides on the lanes `a` and `b` of its first and
second IR argument: `a = b`, `a > b`, `a >= b` as numbers, false when either is a NaN. -/
def CompareOpcode.holds (op : CompareOpcode) (a b : Nat) : Bool :=
  !IsNaN op.fsize a && !IsNaN op.fsize b &&
    match op with
    | .FPVectorEqual32 | .FPVectorEqual64 => a == b || bothZero op.fsize a b
    | .FPVectorGreater32 | .FPVectorGreater64 => decide (fpKey op.fsize a > fpKey op.fsize b)
    | .FPVectorGreaterEqual32 | .FPVectorGreaterEqual64 =>
      decide (fpKey op.fsize a ≥ fpKey op.fsize b)

/-- The state the emitter of a comparison opcode leaves in a fresh block: `Equal` compares into
the register of the first argument; `Greater` and `GreaterEqual` compare the second argument
with the first (`cmplt`, `cmple`) into the register of the second. -/
def CompareOpcode.state : CompareOpcode → EmitState
  | .FPVectorEqual32 =>
    { near := [.UseScratchXmm 0 0, .UseXmm 1 1, .sse (.cmpeqp 32) 0 (.xmm 1), .DefineValue 0],
      nextXmm := 2 }
  | .FPVectorEqual64 =>
    { near := [.UseScratchXmm 0 0, .UseXmm 1 1, .sse (.cmpeqp 64) 0 (.xmm 1), .DefineValue 0],
      nextXmm := 2 }
  | .FPVectorGreater32 =>
    { near := [.UseXmm 0 0, .UseScratchXmm 1 1, .sse (.cmpltp 32) 1 (.xmm 0), .DefineValue 1],
      nextXmm := 2 }
  | .FPVectorGreater64 =>
    { near := [.UseXmm 0 0, .UseScratchXmm 1 1, .sse (.cmpltp 64) 1 (.xmm 0), .DefineValue 1],
      nextXmm := 2 }
  | .FPVectorGreaterEqual32 =>
    { near := [.UseXmm 0 0, .UseScratchXmm 1 1, .sse (.cmplep 32) 1 (.xmm 0), .DefineValue 1],
      nextXmm := 2 }
  | .FPVectorGreaterEqual64 =>
    { near := [.UseXmm 0 0, .UseScratchXmm 1 1, .sse (.cmplep 64) 1 (.xmm 0), .DefineValue 1],
      nextXmm := 2 }

/-- The reads of `PairedIndexer::operator()` on arrays of `n` lanes, in program order: a pair
`(k, j)` stands for `a[j]` when `k = 0` and for `b[j]` when `k = 1`; `none` stands for
`UNREACHABLE()`. -/
def PairedIndexer.reads (n i : Nat) : Option (List (Nat × Nat)) :=
  let halfway := n / 2
  let which_array := i / halfway
  let i := i % halfway
  match which_array with
  | 0 => some [(0, 2 * i), (0, 2 * i + 1)]
  | 1 => some [(1, 2 * i), (1, 2 * i + 1)]
  | _ => none

/-- The three software-fallback emitters of the file. -/
inductive Fallback
  | TwoOp
  | ThreeOp
  | FourOp
  deriving DecidableEq, Repr

/-- The emitter of a fallback shape. -/
def Fallback.emit : Fallback → BlockOfCode → Callee → Emit Unit
  | .TwoOp => EmitTwoOpFallback
  | .ThreeOp => EmitThreeOpFallback
  | .FourOp => EmitFourOpFallback

/-- The number of vector operands of a fallback shape. -/
def Fallback.operands : Fallback → Nat
  | .TwoOp => 1
  | .ThreeOp => 2
  | .FourOp => 3

/-- The code a fallback emitter emits before the call of the helper. -/
def Fallback.setup (code : BlockOfCode) : Fallback → List Instr
  | .TwoOp =>
    [Instr.UseXmm 0 0, Instr.EndOfAllocScope, Instr.HostCall,
     Instr.sub .rsp (2 * 16 + ABI_SHADOW_SPACE code),
     Instr.lea (.ABI_PARAM 1) ⟨.rsp, ABI_SHADOW_SPACE code + 0 * 16⟩,
     Instr.lea (.ABI_PARAM 2) ⟨.rsp, ABI_SHADOW_SPACE code + 1 * 16⟩,
     Instr.mov_FPCR (.ABI_PARAM 3),
     Instr.lea_fpsr_exc (.ABI_PARAM 4),
     Instr.movaps_store ⟨.ABI_PARAM 2, 0⟩ 0]
  | .ThreeOp =>
    [Instr.UseXmm 0 0, Instr.UseXmm 1 1, Instr.EndOfAllocScope, Instr.HostCall] ++
    (if code.win32 then
      [Instr.sub .rsp (4 * 16 + ABI_SHADOW_SPACE code),
       Instr.lea (.ABI_PARAM 1) ⟨.rsp, ABI_SHADOW_SPACE code + 1 * 16⟩,
       Instr.lea (.ABI_PARAM 2) ⟨.rsp, ABI_SHADOW_SPACE code + 2 * 16⟩,
       Instr.lea (.ABI_PARAM 3) ⟨.rsp, ABI_SHADOW_SPACE code + 3 * 16⟩,
       Instr.mov_FPCR (.ABI_PARAM 4),
       Instr.lea_fpsr_exc .rax,
       Instr.mov_store ⟨.rsp, ABI_SHADOW_SPACE code + 0⟩ .rax]
     else
      [Instr.sub .rsp (3 * 16 + ABI_SHADOW_SPACE code),
       Instr.lea (.ABI_PARAM 1) ⟨.rsp, ABI_SHADOW_SPACE code + 0 * 16⟩,
       Instr.lea (.ABI_PARAM 2) ⟨.rsp, ABI_SHADOW_SPACE code + 1 * 16⟩,
       Instr.lea (.ABI_PARAM 3) ⟨.rsp, ABI_SHADOW_SPACE code + 2 * 16⟩,
       Instr.mov_FPCR (.ABI_PARAM 4),
       Instr.lea_fpsr_exc (.ABI_PARAM 5)]) ++
    [Instr.movaps_store ⟨.ABI_PARAM 2, 0⟩ 0,
     Instr.movaps_store ⟨.ABI_PARAM 3, 0⟩ 1]
  | .FourOp =>
    [Instr.UseXmm 0 0, Instr.UseXmm 1 1, Instr.UseXmm 2 2, Instr.EndOfAllocScope,
     Instr.HostCall] ++
    (if code.win32 then
      [Instr.sub .rsp (5 * 16 + ABI_SHADOW_SPACE code),
       Instr.lea (.ABI_PARAM 1) ⟨.rsp, ABI_SHADOW_SPACE code + 1 * 16⟩,
       Instr.lea (.ABI_PARAM 2) ⟨.rsp, ABI_SHADOW_SPACE code + 2 * 16⟩,
       Instr.lea (.ABI_PARAM 3) ⟨.rsp, ABI_SHADOW_SPACE code + 3 * 16⟩,
       Instr.lea (.ABI_PARAM 4) ⟨.rsp, ABI_SHADOW_SPACE code + 4 * 16⟩,
       Instr.mov_store_FPCR ⟨.rsp, ABI_SHADOW_SPACE code + 0⟩,
       Instr.lea_fpsr_exc .rax,
       Instr.mov_store ⟨.rsp, ABI_SHADOW_SPACE code + 8⟩ .rax]
     else
      [Instr.sub .rsp (4 * 16 + ABI_SHADOW_SPACE code),
       Instr.lea (.ABI_PARAM 1) ⟨.rsp, ABI_SHADOW_SPACE code + 0 * 16⟩,
       Instr.lea (.ABI_PARAM 2) ⟨.rsp, ABI_SHADOW_SPACE code + 1 * 16⟩,
       Instr.lea (.ABI_PARAM 3) ⟨.rsp, ABI_SHADOW_SPACE code + 2 * 16⟩,
       Instr.lea (.ABI_PARAM 4) ⟨.rsp, ABI_SHADOW_SPACE code + 3 * 16⟩,
       Instr.mov_FPCR (.ABI_PARAM 5),
       Instr.lea_fpsr_exc (.ABI_PARAM 6)]) ++
    [Instr.movaps_store ⟨.ABI_PARAM 2, 0⟩ 0,
     Instr.movaps_store ⟨.ABI_PARAM 3, 0⟩ 1,
     Instr.movaps_store ⟨.ABI_PARAM 4, 0⟩ 2]

/-- The displacement from `rsp` of the slot the result is reloaded from. -/
def Fallback.resultSlot (code : BlockOfCode) : Fallback → Int
  | .TwoOp => ABI_SHADOW_SPACE code + 0 * 16
  | _ => ABI_SHADOW_SPACE code + (if code.win32 then 1 else 0) * 16

/-- The stack space a fallback emitter reserves. -/
def Fallback.stackSpace (code : BlockOfCode) : Fallback → Int
  | .TwoOp => 2 * 16 + ABI_SHADOW_SPACE code
  | .ThreeOp => (if code.win32 then 4 else 3) * 16 + ABI_SHADOW_SPACE code
  | .FourOp => (if code.win32 then 5 else 4) * 16 + ABI_SHADOW_SPACE code

/-- The state a fallback emitter leaves in a fresh block. -/
def Fallback.state (sh : Fallback) (code : BlockOfCode) (fn : Callee) : EmitState :=
  { near := sh.setup code ++
      [Instr.CallFunction fn,
       Instr.movaps_load xmm0 ⟨.rsp, sh.resultSlot code⟩,
       Instr.add .rsp (sh.stackSpace code),
       Instr.DefineValue xmm0],
    nextXmm := sh.operands }

/-- The state in which straight-line code reaches its first `CallFunction`, with the callee;
`none` when there is no call or an instruction before it fails. -/
def atCall (env : Env) (code : BlockOfCode) : List Instr → Machine → Option (Machine × Callee)
  | [], _ => none
  | i :: rest, m =>
    match i with
    | .CallFunction fn => some (m, fn)
    | i => (step env code i m).bind (atCall env code rest)

/-- The scalar helpers of the `FP::` library, as opposed to the NaN handlers. -/
def Callee.isHelper : Callee → Bool
  | .NaNHandler _ _ _ => false
  | _ => true

/-- The opcodes `emit_x64_vector_floating_point.cpp` has an emitter for, with the immediate
arguments the emitter reads. -/
inductive Opcode
  | FPVectorAbs16
  | FPVectorAbs32
  | FPVectorAbs64
  | FPVectorAdd32
  | FPVectorAdd64
  | FPVectorDiv32
  | FPVectorDiv64
  | FPVectorEqual32
  | FPVectorEqual64
  | FPVectorGreater32
  | FPVectorGreater64
  | FPVectorGreaterEqual32
  | FPVectorGreaterEqual64
  | FPVectorMax32
  | FPVectorMax64
  | FPVectorMin32
  | FPVectorMin64
  | FPVectorMul32
  | FPVectorMul64
  | FPVectorMulAdd32
  | FPVectorMulAdd64
  | FPVectorNeg16
  | FPVectorNeg32
  | FPVectorNeg64
  | FPVectorPairedAdd32
  | FPVectorPairedAdd64
  | FPVectorPairedAddLower32
  | FPVectorPairedAddLower64
  | FPVectorRecipEstimate32
  | FPVectorRecipEstimate64
  | FPVectorRecipStepFused32
  | FPVectorRecipStepFused64
  | FPVectorRoundInt32 (rounding : RoundingMode) (exact : Bool)
  | FPVectorRoundInt64 (rounding : RoundingMode) (exact : Bool)
  | FPVectorRSqrtEstimate32
  | FPVectorRSqrtEstimate64
  | FPVectorRSqrtStepFused32
  | FPVectorRSqrtStepFused64
  | FPVectorS32ToSingle
  | FPVectorS64ToDouble
  | FPVectorSub32
  | FPVectorSub64
  | FPVectorToSignedFixed32 (fbits : Nat) (rounding : RoundingMode)
  | FPVectorToSignedFixed64 (fbits : Nat) (rounding : RoundingMode)
  | FPVectorToUnsignedFixed32 (fbits : Nat) (rounding : RoundingMode)
  | FPVectorToUnsignedFixed64 (fbits : Nat) (rounding : RoundingMode)
  | FPVectorU32ToSingle
  | FPVectorU64ToDouble
  deriving DecidableEq, Repr

/-- The emitter `EmitX64::Emit<opcode>` of an opcode. -/
def Opcode.emit : Opcode → BlockOfCode → EmitContext → Emit Unit
  | .FPVectorAbs16, _, _ => EmitFPVectorAbs16
  | .FPVectorAbs32, _, _ => EmitFPVectorAbs32
  | .FPVectorAbs64, _, _ => EmitFPVectorAbs64
  | .FPVectorAdd32, code, ctx => EmitFPVectorAdd32 code ctx
  | .FPVectorAdd64, code, ctx => EmitFPVectorAdd64 code ctx
  | .FPVectorDiv32, code, ctx => EmitFPVectorDiv32 code ctx
  | .FPVectorDiv64, code, ctx => EmitFPVectorDiv64 code ctx
  | .FPVectorEqual32, _, _ => EmitFPVectorEqual32
  | .FPVectorEqual64, _, _ => EmitFPVectorEqual64
  | .FPVectorGreater32, _, _ => EmitFPVectorGreater32
  | .FPVectorGreater64, _, _ => EmitFPVectorGreater64
  | .FPVectorGreaterEqual32, _, _ => EmitFPVectorGreaterEqual32
  | .FPVectorGreaterEqual64, _, _ => EmitFPVectorGreaterEqual64
  | .FPVectorMax32, code, ctx => EmitFPVectorMax32 code ctx
  | .FPVectorMax64, code, ctx => EmitFPVectorMax64 code ctx
  | .FPVectorMin32, code, ctx => EmitFPVectorMin32 code ctx
  | .FPVectorMin64, code, ctx => EmitFPVectorMin64 code ctx
  | .FPVectorMul32, code, ctx => EmitFPVectorMul32 code ctx
  | .FPVectorMul64, code, ctx => EmitFPVectorMul64 code ctx
  | .FPVectorMulAdd32, code, ctx => EmitFPVectorMulAdd32 code ctx
  | .FPVectorMulAdd64, code, ctx => EmitFPVectorMulAdd64 code ctx
  | .FPVectorNeg16, _, _ => EmitFPVectorNeg16
  | .FPVectorNeg32, _, _ => EmitFPVectorNeg32
  | .FPVectorNeg64, _, _ => EmitFPVectorNeg64
  | .FPVectorPairedAdd32, code, ctx => EmitFPVectorPairedAdd32 code ctx
  | .FPVectorPairedAdd64, code, ctx => EmitFPVectorPairedAdd64 code ctx
  | .FPVectorPairedAddLower32, code, ctx => EmitFPVectorPairedAddLower32 code ctx
  | .FPVectorPairedAddLower64, code, ctx => EmitFPVectorPairedAddLower64 code ctx
  | .FPVectorRecipEstimate32, code, _ => EmitFPVectorRecipEstimate32 code
  | .FPVectorRecipEstimate64, code, _ => EmitFPVectorRecipEstimate64 code
  | .FPVectorRecipStepFused32, code, _ => EmitFPVectorRecipStepFused32 code
  | .FPVectorRecipStepFused64, code, _ => EmitFPVectorRecipStepFused64 code
  | .FPVectorRoundInt32 rounding exact, code, ctx => EmitFPVectorRoundInt32 code ctx rounding exact
  | .FPVectorRoundInt64 rounding exact, code, ctx => EmitFPVectorRoundInt64 code ctx rounding exact
  | .FPVectorRSqrtEstimate32, code, _ => EmitFPVectorRSqrtEstimate32 code
  | .FPVectorRSqrtEstimate64, code, _ => EmitFPVectorRSqrtEstimate64 code
  | .FPVectorRSqrtStepFused32, code, _ => EmitFPVectorRSqrtStepFused32 code
  | .FPVectorRSqrtStepFused64, code, _ => EmitFPVectorRSqrtStepFused64 code
  | .FPVectorS32ToSingle, _, _ => EmitFPVectorS32ToSingle
  | .FPVectorS64ToDouble, code, _ => EmitFPVectorS64ToDouble code
  | .FPVectorSub32, code, ctx => EmitFPVectorSub32 code ctx
  | .FPVectorSub64, code, ctx => EmitFPVectorSub64 code ctx
  | .FPVectorToSignedFixed32 fbits rounding, code, _ =>
    EmitFPVectorToSignedFixed32 code fbits rounding
  | .FPVectorToSignedFixed64 fbits rounding, code, _ =>
    EmitFPVectorToSignedFixed64 code fbits rounding
  | .FPVectorToUnsignedFixed32 fbits rounding, code, _ =>
    EmitFPVectorToUnsignedFixed32 code fbits rounding
  | .FPVectorToUnsignedFixed64 fbits rounding, code, _ =>
    EmitFPVectorToUnsignedFixed64 code fbits rounding
  | .FPVectorU32ToSingle, code, ctx => EmitFPVectorU32ToSingle code ctx
  | .FPVectorU64ToDouble, code, ctx => EmitFPVectorU64ToDouble code ctx

/-- The register of a source operand, when it is a register. -/
def Operand.regs : Operand → List Nat
  | .xmm r => [r]
  | .MConst _ _ => []

/-- Whether a two-operand SSE instruction reads its destination (the moves, the conversion and
the shuffle do not). -/
def Sse.readsDst : Sse → Bool
  | .movaps | .movdqa | .movapd | .cvtdq2ps | .pshufd _ => false
  | _ => true

/-- The XMM registers an instruction takes as a source. The allocator events are not
instructions and have none. -/
def Instr.sources : Instr → List Nat
  | .sse op dst src => (if op.readsDst then [dst] else []) ++ src.regs
  | .avx _ _ src1 src2 => src1 :: src2.regs
  | .vblendvp _ _ src1 src2 mask => src1 :: src2.regs ++ [mask]
  | .vfmadd231p _ dst src2 src3 => [dst, src2, src3]
  | .roundp _ _ src _ => [src]
  | .vex2 _ _ src => src.regs
  | .psrld dst _ => [dst]
  | .cvtsi2sd dst _ => [dst]
  | .movq _ src => [src]
  | .pextrq _ src _ => [src]
  | .ptest a b => [a, b]
  | .vptest a b => [a, b]
  | .movmskps _ src => [src]
  | .movaps_store _ src => [src]
  | _ => []

/-- The registers a block obtained from `UseXmm`. -/
def usedRegs (l : List Instr) : List Nat :=
  l.filterMap fun
    | .UseXmm r _ => some r
    | _ => none

/-- The instructions emitted after the first `EndOfAllocScope`; none when the emitter never
calls it. -/
def afterScope : List Instr → List Instr
  | [] => []
  | .EndOfAllocScope :: rest => rest
  | _ :: rest => afterScope rest

/-- The instructions emitted after `EndOfAllocScope` that take a register obtained from
`UseXmm` as a source. -/
def readsAfterScope (l : List Instr) : List Instr :=
  (afterScope l).filter fun i => i.sources.any fun r => decide (r ∈ usedRegs l)

/-- Whether an emission result never calls `EndOfAllocScope`, or is the block `alt`. -/
def scopeOk (alt : EmitState) : Except EmitError EmitState → Bool
  | .ok s => decide ((Instr.EndOfAllocScope ∉ s.near ∧ Instr.EndOfAllocScope ∉ s.far) ∨ s = alt)
  | .error _ => true

/-- Whether an emission result never calls `EndOfAllocScope`. -/
def noScopeEnd : Except EmitError EmitState → Bool
  | .ok s => decide (Instr.EndOfAllocScope ∉ s.near ∧ Instr.EndOfAllocScope ∉ s.far)
  | .error _ => true

/-- The emitter of the unsigned conversion to the float of `w` bits: `U32ToSingle` for
`w = 32`, `U64ToDouble` otherwise. -/
def UnsignedToFloat.emit (w : Nat) (code : BlockOfCode) (ctx : EmitContext) : Emit Unit :=
  if w = 32 then EmitFPVectorU32ToSingle code ctx else EmitFPVectorU64ToDouble code ctx

/-- The conversion proper of `EmitFPVectorU32ToSingle` (`w = 32`) and `EmitFPVectorU64ToDouble`:
the instructions between the argument and the sign mask, on the register `0` the argument is
in. -/
def UnsignedToFloat.body (w : Nat) (code : BlockOfCode) : List Instr :=
  if w = 32 then
    if code.DoesCpuSupport .tAVX512DQ && code.DoesCpuSupport .tAVX512VL then
      [Instr.vex2 .vcvtudq2ps 0 (.xmm 0)]
    else if code.DoesCpuSupport .tAVX then
      [Instr.avx (.vpblendw 0b10101010) 1 0 (.MConst 0x4B0000004B000000 0x4B0000004B000000),
       Instr.vex2 (.vpsrld 16) 0 (.xmm 0),
       Instr.avx (.vpblendw 0b10101010) 0 0 (.MConst 0x5300000053000000 0x5300000053000000),
       Instr.avx (.vaddp 32) 0 0 (.MConst 0xD3000080D3000080 0xD3000080D3000080),
       Instr.avx (.vaddp 32) 0 1 (.xmm 0)]
    else
      [Instr.sse .movdqa 1 (.MConst 0x0000FFFF0000FFFF 0x0000FFFF0000FFFF),
       Instr.sse .pand 1 (.xmm 0),
       Instr.sse .por 1 (.MConst 0x4B0000004B000000 0x4B0000004B000000),
       Instr.psrld 0 16,
       Instr.sse .por 0 (.MConst 0x5300000053000000 0x5300000053000000),
       Instr.sse (.addp 32) 0 (.MConst 0xD3000080D3000080 0xD3000080D3000080),
       Instr.sse (.addp 32) 0 (.xmm 1)]
  else
    if code.DoesCpuSupport .tAVX512DQ && code.DoesCpuSupport .tAVX512VL then
      [Instr.vex2 .vcvtuqq2pd 0 (.xmm 0)]
    else if code.DoesCpuSupport .tAVX then
      [Instr.vex2 .vmovapd 1 (.MConst 0x4530000043300000 0),
       Instr.vex2 .vmovapd 2 (.MConst 0x4330000000000000 0x4530000000000000),
       Instr.avx .vunpcklps 3 0 (.xmm 1),
       Instr.avx (.vsubp 64) 3 3 (.xmm 2),
       Instr.vex2 (.vpermilps 0b01001110) 0 (.xmm 0),
       Instr.avx .vunpcklps 0 0 (.xmm 1),
       Instr.avx (.vsubp 64) 0 0 (.xmm 2),
       Instr.avx (.vhaddp 64) 0 3 (.xmm 0)]
    else
      [Instr.sse .movapd 1 (.MConst 0x4530000043300000 0),
       Instr.sse .movapd 2 (.MConst 0x4330000000000000 0x4530000000000000),
       Instr.sse (.pshufd 0b01001110) 3 (.xmm 0),
       Instr.sse .punpckldq 0 (.xmm 1),
       Instr.sse (.subp 64) 0 (.xmm 2),
       Instr.sse (.pshufd 0b01001110) 4 (.xmm 0),
       Instr.sse (.addp 64) 0 (.xmm 4),
       Instr.sse .punpckldq 3 (.xmm 1),
       Instr.sse (.subp 64) 3 (.xmm 2),
       Instr.sse (.pshufd 0b01001110) 1 (.xmm 3),
       Instr.sse (.addp 64) 1 (.xmm 3),
       Instr.sse .unpcklpd 0 (.xmm 1)]

/-- The sign mask `EmitFPVectorU32ToSingle` and `EmitFPVectorU64ToDouble` emit when
`RMode = TowardsMinusInfinity`. -/
def UnsignedToFloat.mask (w : Nat) : Instr :=
  if w = 32 then Instr.sse .pand 0 (.MConst 0x7FFFFFFF7FFFFFFF 0x7FFFFFFF7FFFFFFF)
  else Instr.sse .pand 0 (.MConst 0x7FFFFFFFFFFFFFFF 0x7FFFFFFFFFFFFFFF)

/-- The state `EmitFPVectorU32ToSingle` (`w = 32`) or `EmitFPVectorU64ToDouble` leaves in a
fresh block. -/
def UnsignedToFloat.state (w : Nat) (code : BlockOfCode) (ctx : EmitContext) : EmitState :=
  { near := Instr.UseScratchXmm 0 0 :: UnsignedToFloat.body w code ++
      (if ctx.FPSCR_RMode = .TowardsMinusInfinity then [UnsignedToFloat.mask w] else []) ++
      [Instr.DefineValue 0],
    nextXmm :=
      if code.DoesCpuSupport .tAVX512DQ && code.DoesCpuSupport .tAVX512VL then 1
      else if w = 32 then 2
      else if code.DoesCpuSupport .tAVX then 4 else 5 }

/-- The value the block of an emitter defines when it is run from `m`; `none` when the
emission aborts, the run fails or no value is defined. -/
def definedBy (env : Env) (code : BlockOfCode) (e : Emit Unit) (m : Machine) : Option Nat :=
  match emitted e with
  | .ok s => (runBlock env code s m).bind (fun m1 => m1.defined)
  | .error _ => none

/-- Modelled from the spec: the host rounding control (`MXCSR.RC`) is set outside
`emit_x64_vector_floating_point.cpp`. The blocks of this file leave the rounding of `addps`,
`vcvtudq2ps`, ... to it, and their results are to equal the scalar reference "under the same
FPCR" for every `RMode`, so a block runs on the host arithmetic whose rounding mode is the
guest `RMode`. -/
def hostOf (ctx : EmitContext) : Env := x86Env ctx.FPSCR_RMode

/-- Whether `x` is a finite lane of `w` bits with sign `s` and magnitude `t` (in units of the
smallest subnormal). -/
def FpIs (w x : Nat) (s : Bool) (t : Nat) : Prop :=
  IsNaN w x = false ∧ isInf w x = false ∧ signBit w x = s ∧ fpMag w x = t ∧ x < 2 ^ w

/-- The low-half term of the `U64ToDouble` bit trick for the 64-bit lane `i` of `x`. -/
def u64Low (env : Env) (x i : Nat) : Nat :=
  env.subp 64 (lane 32 (2 * i) x + 0x43300000 * 2 ^ 32) 0x4330000000000000 % 2 ^ 64

/-- The high-half term of the `U64ToDouble` bit trick for the 64-bit lane `i` of `x`. -/
def u64High (env : Env) (x i : Nat) : Nat :=
  env.subp 64 (lane 32 (2 * i + 1) x + 0x45300000 * 2 ^ 32) 0x4530000000000000 % 2 ^ 64

/-- The contexts in which the operation templates take their simple path:
`!ctx.AccurateNaN() || ctx.FPSCR_DN()`. -/
def EmitContext.simple (ctx : EmitContext) : Bool := !ctx.AccurateNaN || ctx.FPSCR_DN

/-- Whether an opcode is a fused multiply-add, whose emitter tests the fused result and goes to
the far region whatever the guest FP control is. -/
def Opcode.isMulAdd : Opcode → Bool
  | .FPVectorMulAdd32 | .FPVectorMulAdd64 => true
  | _ => false

/-- Whether the emitter of an opcode is on a simple (non-accurate) path. -/
def Opcode.simplePath (op : Opcode) (ctx : EmitContext) : Bool := !op.isMulAdd && ctx.simple

/-- Whether the jumps of a block are those of one excursion to the far region: with an empty
far region no jump at all; otherwise the far region starts with a label `lf` and ends with
`jmp le`, which is its only jump, and the only jump of the near region is `jnz lf`, with `le`
bound right after it. -/
def jumpShape (s : EmitState) : Bool :=
  match s.far with
  | [] => decide (jumps_of s.near = [])
  | .L lf :: rest =>
    match rest.getLast? with
    | some (.jmp le) =>
      decide (jumps_of s.near = [Instr.jnz lf]) && decide (jumps_of s.far = [Instr.jmp le]) &&
        decide ((Instr.jnz lf, Instr.L le) ∈ s.near.zip s.near.tail)
    | _ => false
  | _ => false

/-- The cursor of the assembler as a state machine over the log of its switches (`true` for
`SwitchToFarCode`, `false` for `SwitchToNearCode`), from the state `st` (`true` for Far): the
state it ends in, `none` when `SwitchToFarCode` is issued in Far or `SwitchToNearCode` in
Near. -/
def cursorRun : Bool → List Bool → Option Bool
  | st, [] => some st
  | false, true :: rest => cursorRun true rest
  | true, false :: rest => cursorRun false rest
  | _, _ :: _ => none

/-- The shape of a block checked for every emitter: its jumps, an empty far region on a simple
path (`b`), and the cursor. -/
def blockShape (b : Bool) (s : EmitState) : Bool :=
  jumpShape s && (!b || s.far.isEmpty) && !s.inFar &&
    decide (cursorRun false s.switches = some false) &&
    decide (s.switches = [] ∨ s.switches = [true, false]) &&
    decide (s.switches = [] ↔ s.far = [])

/-- A check of the block an emission gives, when it gives one. -/
def okAnd (p : EmitState → Bool) : Except EmitError EmitState → Bool
  | .ok s => p s
  | .error _ => true

/-! ## The IR emitter of the A32 front end (`frontend/A32/ir_emitter.cpp`) -/

/-- Modelled from the spec: `A32::LocationDescriptor` (`frontend/A32/location_descriptor.h`)
is missing from the sources. The emitter reads three things of the current location: the guest
`PC()` (a `u32`), `TFlag()` and `EFlag()`. -/
structure A32.LocationDescriptor where
  PC : Nat
  TFlag : Bool
  EFlag : Bool
  deriving DecidableEq, Repr

/-- Modelled from the spec: `A32::Reg` (`frontend/A32/types.h`) is missing from the sources.
The guest registers `R0` to `R15` by number. -/
abbrev A32.Reg := Nat

/-- The register `A32::Reg::PC`, which is `R15`. -/
def A32.Reg.PC : A32.Reg := 15

/-- Modelled from the spec: `A32::ExtReg` (`frontend/A32/types.h`) is missing from the
sources. The enumerators `S0` to `S31` and `D0` to `D31` by their position in the
enumeration. -/
abbrev A32.ExtReg := Nat

/-- Modelled from the spec: `A32::IsSingleExtReg` (missing from the sources) holds of `S0` to
`S31`. -/
def A32.IsSingleExtReg (reg : A32.ExtReg) : Bool := decide (reg ≤ 31)

/-- Modelled from the spec: `A32::IsDoubleExtReg` (missing from the sources) holds of `D0` to
`D31`. -/
def A32.IsDoubleExtReg (reg : A32.ExtReg) : Bool := decide (32 ≤ reg ∧ reg ≤ 63)

/-- Modelled from the spec: `A32::CoprocReg` (missing from the sources), the coprocessor
registers `C0` to `C15` by number. -/
abbrev A32.CoprocReg := Nat

/-- The IR opcodes `frontend/A32/ir_emitter.cpp` names, and the four opcodes of the base-class
constructors it calls (`And`, `ByteReverseHalf`, `ByteReverseWord`, `ByteReverseDual`). -/
inductive IR.Opcode
  | A32GetRegister
  | A32GetExtendedRegister32
  | A32GetExtendedRegister64
  | A32SetRegister
  | A32SetExtendedRegister32
  | A32SetExtendedRegister64
  | A32BXWritePC
  | A32CallSupervisor
  | A32ExceptionRaised
  | A32GetCpsr
  | A32SetCpsr
  | A32SetCpsrNZCV
  | A32SetCpsrNZCVQ
  | A32GetCFlag
  | A32SetNFlag
  | A32SetZFlag
  | A32SetCFlag
  | A32SetVFlag
  | A32OrQFlag
  | A32GetGEFlags
  | A32SetGEFlags
  | A32SetGEFlagsCompressed
  | A32GetFpscr
  | A32SetFpscr
  | A32GetFpscrNZCV
  | A32SetFpscrNZCV
  | A32ClearExclusive
  | A32SetExclusive
  | A32ReadMemory8
  | A32ReadMemory16
  | A32ReadMemory32
  | A32ReadMemory64
  | A32WriteMemory8
  | A32WriteMemory16
  | A32WriteMemory32
  | A32WriteMemory64
  | A32ExclusiveWriteMemory8
  | A32ExclusiveWriteMemory16
  | A32ExclusiveWriteMemory32
  | A32ExclusiveWriteMemory64
  | A32CoprocInternalOperation
  | A32CoprocSendOneWord
  | A32CoprocSendTwoWords
  | A32CoprocGetOneWord
  | A32CoprocGetTwoWords
  | A32CoprocLoadWords
  | A32CoprocStoreWords
  | And32
  | ByteReverseHalf
  | ByteReverseWord
  | ByteReverseDual
  deriving DecidableEq, Repr

/-- Modelled from the spec: `IR::Value` (`frontend/ir/value.h`) is missing from the sources.
An operand of a node: the handle of the node that defines it (its position in the block), a
guest register, an immediate, or the bytes of a `CoprocessorInfo`. -/
inductive IR.Value
  | inst (index : Nat)
  | reg (r : A32.Reg)
  | extreg (r : A32.ExtReg)
  | imm8 (v : Nat)
  | imm32 (v : Nat)
  | imm64 (v : Nat)
  | coproc (info : List Nat)
  deriving DecidableEq, Repr

/-- An IR node: an opcode and its operands in order. -/
structure IR.Inst where
  op : IR.Opcode
  args : List IR.Value
  deriving DecidableEq, Repr

/-- An IR block: its nodes in order. -/
abbrev IR.Block := List IR.Inst

/-- A failed `ASSERT` or `ASSERT_MSG`. -/
inductive IRError
  | assertion
  deriving DecidableEq, Repr

/-- Calls of the emitter transform the block and may abort; the block is still there to look
at after an abort. -/
abbrev IREmit := ExceptT IRError (StateM IR.Block)

/-- The outcome of a call on the block `b`: its result or the abort, and the block it
leaves. -/
def emitIR {α : Type} (e : IREmit α) (b : IR.Block) : Except IRError α × IR.Block :=
  Id.run ((ExceptT.run e).run b)

/-- Modelled from the spec: `ASSERT` (`common/assert.h`) is missing from the sources; a failed
assertion is fatal. -/
def ASSERT (c : Bool) : IREmit Unit := if c then pure () else throw .assertion

/-- Modelled from the spec: `IR::IREmitter::Inst` (the base class, `frontend/ir/ir_emitter.h`)
is missing from the sources. It appends one node to the block and returns the handle of that
node. -/
def IR.IREmitter.Inst (op : IR.Opcode) (args : List IR.Value) : IREmit IR.Value := do
  let b ← get
  set (b ++ [IR.Inst.mk op args])
  pure (.inst b.length)

/-- Modelled from the spec: `IR::IREmitter::Imm8` (base class), a `u8` immediate; no node. -/
def IR.IREmitter.Imm8 (v : Nat) : IR.Value := .imm8 (v % 2 ^ 8)

/-- Modelled from the spec: `IR::IREmitter::Imm32` (base class), a `u32` immediate; no
node. -/
def IR.IREmitter.Imm32 (v : Nat) : IR.Value := .imm32 (v % 2 ^ 32)

/-- Modelled from the spec: `IR::IREmitter::Imm64` (base class), a `u64` immediate; no
node. -/
def IR.IREmitter.Imm64 (v : Nat) : IR.Value := .imm64 (v % 2 ^ 64)

/-- Modelled from the spec: `IR::IREmitter::And` (base class) on 32-bit operands, one `And32`
node. -/
def IR.IREmitter.And (a b : IR.Value) : IREmit IR.Value := IR.IREmitter.Inst .And32 [a, b]

/-- Modelled from the spec: `IR::IREmitter::ByteReverseHalf` (base class), one node. -/
def IR.IREmitter.ByteReverseHalf (a : IR.Value) : IREmit IR.Value :=
  IR.IREmitter.Inst .ByteReverseHalf [a]

/-- Modelled from the spec: `IR::IREmitter::ByteReverseWord` (base class), one node. -/
def IR.IREmitter.ByteReverseWord (a : IR.Value) : IREmit IR.Value :=
  IR.IREmitter.Inst .ByteReverseWord [a]

/-- Modelled from the spec: `IR::IREmitter::ByteReverseDual` (base class), one node. -/
def IR.IREmitter.ByteReverseDual (a : IR.Value) : IREmit IR.Value :=
  IR.IREmitter.Inst .ByteReverseDual [a]

/-- `static_cast<u8>`. -/
def u8 (v : Nat) : Nat := v % 2 ^ 8

/-- `IREmitter::PC`. -/
def A32.IREmitter.PC (current_location : A32.LocationDescriptor) : Nat :=
  let offset := if current_location.TFlag then 4 else 8
  (current_location.PC + offset) % 2 ^ 32

/-- `IREmitter::AlignPC`: `pc - pc % alignment` in `size_t` arithmetic (64 bits), cast to
`u32`; `none` for the division by zero. -/
def A32.IREmitter.AlignPC (current_location : A32.LocationDescriptor) (alignment : Nat) :
    Option Nat :=
  let pc := A32.IREmitter.PC current_location
  if alignment = 0 then none
  else some ((pc + 2 ^ 64 - pc % alignment) % 2 ^ 64 % 2 ^ 32)

/-- `IREmitter::GetRegister`. -/
def A32.IREmitter.GetRegister (current_location : A32.LocationDescriptor) (reg : A32.Reg) :
    IREmit IR.Value :=
  if reg = A32.Reg.PC then pure (IR.IREmitter.Imm32 (A32.IREmitter.PC current_location))
  else IR.IREmitter.Inst .A32GetRegister [.reg reg]

/-- `IREmitter::GetExtendedRegister`. -/
def A32.IREmitter.GetExtendedRegister (reg : A32.ExtReg) : IREmit IR.Value :=
  if A32.IsSingleExtReg reg then IR.IREmitter.Inst .A32GetExtendedRegister32 [.extreg reg]
  else if A32.IsDoubleExtReg reg then IR.IREmitter.Inst .A32GetExtendedRegister64 [.extreg reg]
  else throw .assertion

/-- `IREmitter::SetRegister`. -/
def A32.IREmitter.SetRegister (reg : A32.Reg) (value : IR.Value) : IREmit Unit := do
  ASSERT (decide (reg ≠ A32.Reg.PC))
  let _ ← IR.IREmitter.Inst .A32SetRegister [.reg reg, value]

/-- `IREmitter::SetExtendedRegister`. -/
def A32.IREmitter.SetExtendedRegister (reg : A32.ExtReg) (value : IR.Value) : IREmit Unit := do
  if A32.IsSingleExtReg reg then
    let _ ← IR.IREmitter.Inst .A32SetExtendedRegister32 [.extreg reg, value]
  else if A32.IsDoubleExtReg reg then
    let _ ← IR.IREmitter.Inst .A32SetExtendedRegister64 [.extreg reg, value]
  else throw .assertion

/-- `IREmitter::BranchWritePC`. -/
def A32.IREmitter.BranchWritePC (current_location : A32.LocationDescriptor) (value : IR.Value) :
    IREmit Unit := do
  if !current_location.TFlag then
    let new_pc ← IR.IREmitter.And value (IR.IREmitter.Imm32 0xFFFFFFFC)
    let _ ← IR.IREmitter.Inst .A32SetRegister [.reg A32.Reg.PC, new_pc]
  else
    let new_pc ← IR.IREmitter.And value (IR.IREmitter.Imm32 0xFFFFFFFE)
    let _ ← IR.IREmitter.Inst .A32SetRegister [.reg A32.Reg.PC, new_pc]

/-- `IREmitter::ALUWritePC`. -/
def A32.IREmitter.ALUWritePC (current_location : A32.LocationDescriptor) (value : IR.Value) :
    IREmit Unit :=
  A32.IREmitter.BranchWritePC current_location value

/-- `IREmitter::BXWritePC`. -/
def A32.IREmitter.BXWritePC (value : IR.Value) : IREmit Unit := do
  let _ ← IR.IREmitter.Inst .A32BXWritePC [value]

/-- `IREmitter::LoadWritePC`. -/
def A32.IREmitter.LoadWritePC (value : IR.Value) : IREmit Unit :=
  A32.IREmitter.BXWritePC value

/-- `IREmitter::CallSupervisor`. -/
def A32.IREmitter.CallSupervisor (value : IR.Value) : IREmit Unit := do
  let _ ← IR.IREmitter.Inst .A32CallSupervisor [value]

/-- `IREmitter::ExceptionRaised`; the exception by its enumerator value. -/
def A32.IREmitter.ExceptionRaised (current_location : A32.LocationDescriptor)
    (exception : Nat) : IREmit Unit := do
  let _ ← IR.IREmitter.Inst .A32ExceptionRaised
    [IR.IREmitter.Imm32 current_location.PC, IR.IREmitter.Imm64 exception]

/-- `IREmitter::GetCpsr`. -/
def A32.IREmitter.GetCpsr : IREmit IR.Value := IR.IREmitter.Inst .A32GetCpsr []

/-- `IREmitter::SetCpsr`. -/
def A32.IREmitter.SetCpsr (value : IR.Value) : IREmit Unit := do
  let _ ← IR.IREmitter.Inst .A32SetCpsr [value]

/-- `IREmitter::SetCpsrNZCV`. -/
def A32.IREmitter.SetCpsrNZCV (value : IR.Value) : IREmit Unit := do
  let _ ← IR.IREmitter.Inst .A32SetCpsrNZCV [value]

/-- `IREmitter::SetCpsrNZCVQ`. -/
def A32.IREmitter.SetCpsrNZCVQ (value : IR.Value) : IREmit Unit := do
  let _ ← IR.IREmitter.Inst .A32SetCpsrNZCVQ [value]

/-- `IREmitter::GetCFlag`. -/
def A32.IREmitter.GetCFlag : IREmit IR.Value := IR.IREmitter.Inst .A32GetCFlag []

/-- `IREmitter::SetNFlag`. -/
def A32.IREmitter.SetNFlag (value : IR.Value) : IREmit Unit := do
  let _ ← IR.IREmitter.Inst .A32SetNFlag [value]

/-- `IREmitter::SetZFlag`. -/
def A32.IREmitter.SetZFlag (value : IR.Value) : IREmit Unit := do
  let _ ← IR.IREmitter.Inst .A32SetZFlag [value]

/-- `IREmitter::SetCFlag`. -/
def A32.IREmitter.SetCFlag (value : IR.Value) : IREmit Unit := do
  let _ ← IR.IREmitter.Inst .A32SetCFlag [value]

/-- `IREmitter::SetVFlag`. -/
def A32.IREmitter.SetVFlag (value : IR.Value) : IREmit Unit := do
  let _ ← IR.IREmitter.Inst .A32SetVFlag [value]

/-- `IREmitter::OrQFlag`. -/
def A32.IREmitter.OrQFlag (value : IR.Value) : IREmit Unit := do
  let _ ← IR.IREmitter.Inst .A32OrQFlag [value]

/-- `IREmitter::GetGEFlags`. -/
def A32.IREmitter.GetGEFlags : IREmit IR.Value := IR.IREmitter.Inst .A32GetGEFlags []

/-- `IREmitter::SetGEFlags`. -/
def A32.IREmitter.SetGEFlags (value : IR.Value) : IREmit Unit := do
  let _ ← IR.IREmitter.Inst .A32SetGEFlags [value]

/-- `IREmitter::SetGEFlagsCompressed`. -/
def A32.IREmitter.SetGEFlagsCompressed (value : IR.Value) : IREmit Unit := do
  let _ ← IR.IREmitter.Inst .A32SetGEFlagsCompressed [value]

/-- `IREmitter::GetFpscr`. -/
def A32.IREmitter.GetFpscr : IREmit IR.Value := IR.IREmitter.Inst .A32GetFpscr []

/-- `IREmitter::SetFpscr`. -/
def A32.IREmitter.SetFpscr (new_fpscr : IR.Value) : IREmit Unit := do
  let _ ← IR.IREmitter.Inst .A32SetFpscr [new_fpscr]

/-- `IREmitter::GetFpscrNZCV`. -/
def A32.IREmitter.GetFpscrNZCV : IREmit IR.Value := IR.IREmitter.Inst .A32GetFpscrNZCV []

/-- `IREmitter::SetFpscrNZCV`. -/
def A32.IREmitter.SetFpscrNZCV (new_fpscr_nzcv : IR.Value) : IREmit Unit := do
  let _ ← IR.IREmitter.Inst .A32SetFpscrNZCV [new_fpscr_nzcv]

/-- `IREmitter::ClearExclusive`. -/
def A32.IREmitter.ClearExclusive : IREmit Unit := do
  let _ ← IR.IREmitter.Inst .A32ClearExclusive []

/-- `IREmitter::SetExclusive`. -/
def A32.IREmitter.SetExclusive (vaddr : IR.Value) (byte_size : Nat) : IREmit Unit := do
  ASSERT (byte_size == 1 || byte_size == 2 || byte_size == 4 || byte_size == 8 ||
    byte_size == 16)
  let _ ← IR.IREmitter.Inst .A32SetExclusive [vaddr, IR.IREmitter.Imm8 (u8 byte_size)]

/-- `IREmitter::ReadMemory8`. -/
def A32.IREmitter.ReadMemory8 (vaddr : IR.Value) : IREmit IR.Value :=
  IR.IREmitter.Inst .A32ReadMemory8 [vaddr]

/-- `IREmitter::ReadMemory16`. -/
def A32.IREmitter.ReadMemory16 (current_location : A32.LocationDescriptor) (vaddr : IR.Value) :
    IREmit IR.Value := do
  let value ← IR.IREmitter.Inst .A32ReadMemory16 [vaddr]
  if current_location.EFlag then IR.IREmitter.ByteReverseHalf value else pure value

/-- `IREmitter::ReadMemory32`. -/
def A32.IREmitter.ReadMemory32 (current_location : A32.LocationDescriptor) (vaddr : IR.Value) :
    IREmit IR.Value := do
  let value ← IR.IREmitter.Inst .A32ReadMemory32 [vaddr]
  if current_location.EFlag then IR.IREmitter.ByteReverseWord value else pure value

/-- `IREmitter::ReadMemory64`. -/
def A32.IREmitter.ReadMemory64 (current_location : A32.LocationDescriptor) (vaddr : IR.Value) :
    IREmit IR.Value := do
  let value ← IR.IREmitter.Inst .A32ReadMemory64 [vaddr]
  if current_location.EFlag then IR.IREmitter.ByteReverseDual value else pure value

/-- `IREmitter::WriteMemory8`. -/
def A32.IREmitter.WriteMemory8 (vaddr value : IR.Value) : IREmit Unit := do
  let _ ← IR.IREmitter.Inst .A32WriteMemory8 [vaddr, value]

/-- `IREmitter::WriteMemory16`. -/
def A32.IREmitter.WriteMemory16 (current_location : A32.LocationDescriptor)
    (vaddr value : IR.Value) : IREmit Unit := do
  if current_location.EFlag then
    let v ← IR.IREmitter.ByteReverseHalf value
    let _ ← IR.IREmitter.Inst .A32WriteMemory16 [vaddr, v]
  else
    let _ ← IR.IREmitter.Inst .A32WriteMemory16 [vaddr, value]

/-- `IREmitter::WriteMemory32`. -/
def A32.IREmitter.WriteMemory32 (current_location : A32.LocationDescriptor)
    (vaddr value : IR.Value) : IREmit Unit := do
  if current_location.EFlag then
    let v ← IR.IREmitter.ByteReverseWord value
    let _ ← IR.IREmitter.Inst .A32WriteMemory32 [vaddr, v]
  else
    let _ ← IR.IREmitter.Inst .A32WriteMemory32 [vaddr, value]

/-- `IREmitter::WriteMemory64`. -/
def A32.IREmitter.WriteMemory64 (current_location : A32.LocationDescriptor)
    (vaddr value : IR.Value) : IREmit Unit := do
  if current_location.EFlag then
    let v ← IR.IREmitter.ByteReverseDual value
    let _ ← IR.IREmitter.Inst .A32WriteMemory64 [vaddr, v]
  else
    let _ ← IR.IREmitter.Inst .A32WriteMemory64 [vaddr, value]

/-- `IREmitter::ExclusiveWriteMemory8`. -/
def A32.IREmitter.ExclusiveWriteMemory8 (vaddr value : IR.Value) : IREmit IR.Value :=
  IR.IREmitter.Inst .A32ExclusiveWriteMemory8 [vaddr, value]

/-- `IREmitter::ExclusiveWriteMemory16`. -/
def A32.IREmitter.ExclusiveWriteMemory16 (current_location : A32.LocationDescriptor)
    (vaddr value : IR.Value) : IREmit IR.Value := do
  if current_location.EFlag then
    let v ← IR.IREmitter.ByteReverseHalf value
    IR.IREmitter.Inst .A32ExclusiveWriteMemory16 [vaddr, v]
  else
    IR.IREmitter.Inst .A32ExclusiveWriteMemory16 [vaddr, value]

/-- `IREmitter::ExclusiveWriteMemory32`. -/
def A32.IREmitter.ExclusiveWriteMemory32 (current_location : A32.LocationDescriptor)
    (vaddr value : IR.Value) : IREmit IR.Value := do
  if current_location.EFlag then
    let v ← IR.IREmitter.ByteReverseWord value
    IR.IREmitter.Inst .A32ExclusiveWriteMemory32 [vaddr, v]
  else
    IR.IREmitter.Inst .A32ExclusiveWriteMemory32 [vaddr, value]

/-- `IREmitter::ExclusiveWriteMemory64`. -/
def A32.IREmitter.ExclusiveWriteMemory64 (current_location : A32.LocationDescriptor)
    (vaddr value_lo value_hi : IR.Value) : IREmit IR.Value := do
  if current_location.EFlag then
    let vlo ← IR.IREmitter.ByteReverseWord value_lo
    let vhi ← IR.IREmitter.ByteReverseWord value_hi
    IR.IREmitter.Inst .A32ExclusiveWriteMemory64 [vaddr, vlo, vhi]
  else
    IR.IREmitter.Inst .A32ExclusiveWriteMemory64 [vaddr, value_lo, value_hi]

/-- `IREmitter::CoprocInternalOperation`. -/
def A32.IREmitter.CoprocInternalOperation (coproc_no : Nat) (two : Bool) (opc1 : Nat)
    (CRd CRn CRm : A32.CoprocReg) (opc2 : Nat) : IREmit Unit := do
  ASSERT (decide (coproc_no ≤ 15))
  let coproc_info := [u8 coproc_no, u8 (if two then 1 else 0), u8 opc1, u8 CRd, u8 CRn,
    u8 CRm, u8 opc2]
  let _ ← IR.IREmitter.Inst .A32CoprocInternalOperation [.coproc coproc_info]

/-- `IREmitter::CoprocSendOneWord`. -/
def A32.IREmitter.CoprocSendOneWord (coproc_no : Nat) (two : Bool) (opc1 : Nat)
    (CRn CRm : A32.CoprocReg) (opc2 : Nat) (word : IR.Value) : IREmit Unit := do
  ASSERT (decide (coproc_no ≤ 15))
  let coproc_info := [u8 coproc_no, u8 (if two then 1 else 0), u8 opc1, u8 CRn, u8 CRm,
    u8 opc2]
  let _ ← IR.IREmitter.Inst .A32CoprocSendOneWord [.coproc coproc_info, word]

/-- `IREmitter::CoprocSendTwoWords`. -/
def A32.IREmitter.CoprocSendTwoWords (coproc_no : Nat) (two : Bool) (opc : Nat)
    (CRm : A32.CoprocReg) (word1 word2 : IR.Value) : IREmit Unit := do
  ASSERT (decide (coproc_no ≤ 15))
  let coproc_info := [u8 coproc_no, u8 (if two then 1 else 0), u8 opc, u8 CRm]
  let _ ← IR.IREmitter.Inst .A32CoprocSendTwoWords [.coproc coproc_info, word1, word2]

/-- `IREmitter::CoprocGetOneWord`. -/
def A32.IREmitter.CoprocGetOneWord (coproc_no : Nat) (two : Bool) (opc1 : Nat)
    (CRn CRm : A32.CoprocReg) (opc2 : Nat) : IREmit IR.Value := do
  ASSERT (decide (coproc_no ≤ 15))
  let coproc_info := [u8 coproc_no, u8 (if two then 1 else 0), u8 opc1, u8 CRn, u8 CRm,
    u8 opc2]
  IR.IREmitter.Inst .A32CoprocGetOneWord [.coproc coproc_info]

/-- `IREmitter::CoprocGetTwoWords`. -/
def A32.IREmitter.CoprocGetTwoWords (coproc_no : Nat) (two : Bool) (opc : Nat)
    (CRm : A32.CoprocReg) : IREmit IR.Value := do
  ASSERT (decide (coproc_no ≤ 15))
  let coproc_info := [u8 coproc_no, u8 (if two then 1 else 0), u8 opc, u8 CRm]
  IR.IREmitter.Inst .A32CoprocGetTwoWords [.coproc coproc_info]

/-- `IREmitter::CoprocLoadWords`. -/
def A32.IREmitter.CoprocLoadWords (coproc_no : Nat) (two long_transfer : Bool)
    (CRd : A32.CoprocReg) (address : IR.Value) (has_option : Bool) (option : Nat) :
    IREmit Unit := do
  ASSERT (decide (coproc_no ≤ 15))
  let coproc_info := [u8 coproc_no, u8 (if two then 1 else 0),
    u8 (if long_transfer then 1 else 0), u8 CRd, u8 (if has_option then 1 else 0), u8 option]
  let _ ← IR.IREmitter.Inst .A32CoprocLoadWords [.coproc coproc_info, address]

/-- `IREmitter::CoprocStoreWords`. -/
def A32.IREmitter.CoprocStoreWords (coproc_no : Nat) (two long_transfer : Bool)
    (CRd : A32.CoprocReg) (address : IR.Value) (has_option : Bool) (option : Nat) :
    IREmit Unit := do
  ASSERT (decide (coproc_no ≤ 15))
  let coproc_info := [u8 coproc_no, u8 (if two then 1 else 0),
    u8 (if long_transfer then 1 else 0), u8 CRd, u8 (if has_option then 1 else 0), u8 option]
  let _ ← IR.IREmitter.Inst .A32CoprocStoreWords [.coproc coproc_info, address]

/-- The calls of the constructors of `frontend/A32/ir_emitter.cpp`, with their arguments. -/
inductive A32.Call
  | GetRegister (reg : A32.Reg)
  | GetExtendedRegister (reg : A32.ExtReg)
  | SetRegister (reg : A32.Reg) (value : IR.Value)
  | SetExtendedRegister (reg : A32.ExtReg) (value : IR.Value)
  | ALUWritePC (value : IR.Value)
  | BranchWritePC (value : IR.Value)
  | BXWritePC (value : IR.Value)
  | LoadWritePC (value : IR.Value)
  | CallSupervisor (value : IR.Value)
  | ExceptionRaised (exception : Nat)
  | GetCpsr
  | SetCpsr (value : IR.Value)
  | SetCpsrNZCV (value : IR.Value)
  | SetCpsrNZCVQ (value : IR.Value)
  | GetCFlag
  | SetNFlag (value : IR.Value)
  | SetZFlag (value : IR.Value)
  | SetCFlag (value : IR.Value)
  | SetVFlag (value : IR.Value)
  | OrQFlag (value : IR.Value)
  | GetGEFlags
  | SetGEFlags (value : IR.Value)
  | SetGEFlagsCompressed (value : IR.Value)
  | GetFpscr
  | SetFpscr (new_fpscr : IR.Value)
  | GetFpscrNZCV
  | SetFpscrNZCV (new_fpscr_nzcv : IR.Value)
  | ClearExclusive
  | SetExclusive (vaddr : IR.Value) (byte_size : Nat)
  | ReadMemory8 (vaddr : IR.Value)
  | ReadMemory16 (vaddr : IR.Value)
  | ReadMemory32 (vaddr : IR.Value)
  | ReadMemory64 (vaddr : IR.Value)
  | WriteMemory8 (vaddr value : IR.Value)
  | WriteMemory16 (vaddr value : IR.Value)
  | WriteMemory32 (vaddr value : IR.Value)
  | WriteMemory64 (vaddr value : IR.Value)
  | ExclusiveWriteMemory8 (vaddr value : IR.Value)
  | ExclusiveWriteMemory16 (vaddr value : IR.Value)
  | ExclusiveWriteMemory32 (vaddr value : IR.Value)
  | ExclusiveWriteMemory64 (vaddr value_lo value_hi : IR.Value)
  | CoprocInternalOperation (coproc_no : Nat) (two : Bool) (opc1 : Nat)
      (CRd CRn CRm : A32.CoprocReg) (opc2 : Nat)
  | CoprocSendOneWord (coproc_no : Nat) (two : Bool) (opc1 : Nat) (CRn CRm : A32.CoprocReg)
      (opc2 : Nat) (word : IR.Value)
  | CoprocSendTwoWords (coproc_no : Nat) (two : Bool) (opc : Nat) (CRm : A32.CoprocReg)
      (word1 word2 : IR.Value)
  | CoprocGetOneWord (coproc_no : Nat) (two : Bool) (opc1 : Nat) (CRn CRm : A32.CoprocReg)
      (opc2 : Nat)
  | CoprocGetTwoWords (coproc_no : Nat) (two : Bool) (opc : Nat) (CRm : A32.CoprocReg)
  | CoprocLoadWords (coproc_no : Nat) (two long_transfer : Bool) (CRd : A32.CoprocReg)
      (address : IR.Value) (has_option : Bool) (option : Nat)
  | CoprocStoreWords (coproc_no : Nat) (two long_transfer : Bool) (CRd : A32.CoprocReg)
      (address : IR.Value) (has_option : Bool) (option : Nat)
  deriving Repr

/-- The result of a constructor that returns nothing. -/
def noResult (e : IREmit Unit) : IREmit (Option IR.Value) := do
  e
  pure none

/-- The result of a constructor that returns a value. -/
def withResult (e : IREmit IR.Value) : IREmit (Option IR.Value) := do
  let v ← e
  pure (some v)

/-- The constructor a call names, applied to its arguments; the result is the value the
constructor returns, if it returns one. -/
def A32.Call.run (current_location : A32.LocationDescriptor) :
    A32.Call → IREmit (Option IR.Value)
  | .GetRegister reg => withResult (A32.IREmitter.GetRegister current_location reg)
  | .GetExtendedRegister reg => withResult (A32.IREmitter.GetExtendedRegister reg)
  | .SetRegister reg value => noResult (A32.IREmitter.SetRegister reg value)
  | .SetExtendedRegister reg value => noResult (A32.IREmitter.SetExtendedRegister reg value)
  | .ALUWritePC value => noResult (A32.IREmitter.ALUWritePC current_location value)
  | .BranchWritePC value => noResult (A32.IREmitter.BranchWritePC current_location value)
  | .BXWritePC value => noResult (A32.IREmitter.BXWritePC value)
  | .LoadWritePC value => noResult (A32.IREmitter.LoadWritePC value)
  | .CallSupervisor value => noResult (A32.IREmitter.CallSupervisor value)
  | .ExceptionRaised exception =>
    noResult (A32.IREmitter.ExceptionRaised current_location exception)
  | .GetCpsr => withResult A32.IREmitter.GetCpsr
  | .SetCpsr value => noResult (A32.IREmitter.SetCpsr value)
  | .SetCpsrNZCV value => noResult (A32.IREmitter.SetCpsrNZCV value)
  | .SetCpsrNZCVQ value => noResult (A32.IREmitter.SetCpsrNZCVQ value)
  | .GetCFlag => withResult A32.IREmitter.GetCFlag
  | .SetNFlag value => noResult (A32.IREmitter.SetNFlag value)
  | .SetZFlag value => noResult (A32.IREmitter.SetZFlag value)
  | .SetCFlag value => noResult (A32.IREmitter.SetCFlag value)
  | .SetVFlag value => noResult (A32.IREmitter.SetVFlag value)
  | .OrQFlag value => noResult (A32.IREmitter.OrQFlag value)
  | .GetGEFlags => withResult A32.IREmitter.GetGEFlags
  | .SetGEFlags value => noResult (A32.IREmitter.SetGEFlags value)
  | .SetGEFlagsCompressed value => noResult (A32.IREmitter.SetGEFlagsCompressed value)
  | .GetFpscr => withResult A32.IREmitter.GetFpscr
  | .SetFpscr new_fpscr => noResult (A32.IREmitter.SetFpscr new_fpscr)
  | .GetFpscrNZCV => withResult A32.IREmitter.GetFpscrNZCV
  | .SetFpscrNZCV new_fpscr_nzcv => noResult (A32.IREmitter.SetFpscrNZCV new_fpscr_nzcv)
  | .ClearExclusive => noResult A32.IREmitter.ClearExclusive
  | .SetExclusive vaddr byte_size => noResult (A32.IREmitter.SetExclusive vaddr byte_size)
  | .ReadMemory8 vaddr => withResult (A32.IREmitter.ReadMemory8 vaddr)
  | .ReadMemory16 vaddr => withResult (A32.IREmitter.ReadMemory16 current_location vaddr)
  | .ReadMemory32 vaddr => withResult (A32.IREmitter.ReadMemory32 current_location vaddr)
  | .ReadMemory64 vaddr => withResult (A32.IREmitter.ReadMemory64 current_location vaddr)
  | .WriteMemory8 vaddr value => noResult (A32.IREmitter.WriteMemory8 vaddr value)
  | .WriteMemory16 vaddr value =>
    noResult (A32.IREmitter.WriteMemory16 current_location vaddr value)
  | .WriteMemory32 vaddr value =>
    noResult (A32.IREmitter.WriteMemory32 current_location vaddr value)
  | .WriteMemory64 vaddr value =>
    noResult (A32.IREmitter.WriteMemory64 current_location vaddr value)
  | .ExclusiveWriteMemory8 vaddr value =>
    withResult (A32.IREmitter.ExclusiveWriteMemory8 vaddr value)
  | .ExclusiveWriteMemory16 vaddr value =>
    withResult (A32.IREmitter.ExclusiveWriteMemory16 current_location vaddr value)
  | .ExclusiveWriteMemory32 vaddr value =>
    withResult (A32.IREmitter.ExclusiveWriteMemory32 current_location vaddr value)
  | .ExclusiveWriteMemory64 vaddr value_lo value_hi =>
    withResult (A32.IREmitter.ExclusiveWriteMemory64 current_location vaddr value_lo value_hi)
  | .CoprocInternalOperation coproc_no two opc1 CRd CRn CRm opc2 =>
    noResult (A32.IREmitter.CoprocInternalOperation coproc_no two opc1 CRd CRn CRm opc2)
  | .CoprocSendOneWord coproc_no two opc1 CRn CRm opc2 word =>
    noResult (A32.IREmitter.CoprocSendOneWord coproc_no two opc1 CRn CRm opc2 word)
  | .CoprocSendTwoWords coproc_no two opc CRm word1 word2 =>
    noResult (A32.IREmitter.CoprocSendTwoWords coproc_no two opc CRm word1 word2)
  | .CoprocGetOneWord coproc_no two opc1 CRn CRm opc2 =>
    withResult (A32.IREmitter.CoprocGetOneWord coproc_no two opc1 CRn CRm opc2)
  | .CoprocGetTwoWords coproc_no two opc CRm =>
    withResult (A32.IREmitter.CoprocGetTwoWords coproc_no two opc CRm)
  | .CoprocLoadWords coproc_no two long_transfer CRd address has_option option =>
    noResult (A32.IREmitter.CoprocLoadWords coproc_no two long_transfer CRd address has_option
      option)
  | .CoprocStoreWords coproc_no two long_transfer CRd address has_option option =>
    noResult (A32.IREmitter.CoprocStoreWords coproc_no two long_transfer CRd address has_option
      option)

/-- Whether the constructor a call names returns a value (its C++ return type is not
`void`). -/
def A32.Call.hasResult : A32.Call → Bool
  | .GetRegister _ | .GetExtendedRegister _ | .GetCpsr | .GetCFlag | .GetGEFlags | .GetFpscr
  | .GetFpscrNZCV | .ReadMemory8 _ | .ReadMemory16 _ | .ReadMemory32 _ | .ReadMemory64 _
  | .ExclusiveWriteMemory8 _ _ | .ExclusiveWriteMemory16 _ _ | .ExclusiveWriteMemory32 _ _
  | .ExclusiveWriteMemory64 _ _ _ | .CoprocGetOneWord _ _ _ _ _ _
  | .CoprocGetTwoWords _ _ _ _ => true
  | _ => false

/-- The number of nodes a call is found to append when it succeeds: one, but for the read of
`PC` (none), the writes of `PC` through `BranchWritePC` (two) and the memory accesses of more
than a byte under the `E` flag (one more per byte-reversed value). -/
def A32.Call.nodes (current_location : A32.LocationDescriptor) : A32.Call → Nat
  | .GetRegister reg => if reg = A32.Reg.PC then 0 else 1
  | .ALUWritePC _ | .BranchWritePC _ => 2
  | .ReadMemory16 _ | .ReadMemory32 _ | .ReadMemory64 _
  | .WriteMemory16 _ _ | .WriteMemory32 _ _ | .WriteMemory64 _ _
  | .ExclusiveWriteMemory16 _ _ | .ExclusiveWriteMemory32 _ _ =>
    if current_location.EFlag then 2 else 1
  | .ExclusiveWriteMemory64 _ _ _ => if current_location.EFlag then 3 else 1
  | _ => 1

/-- Whether the assertions of the constructor a call names hold of its arguments. -/
def A32.Call.asserted : A32.Call → Bool
  | .GetExtendedRegister reg | .SetExtendedRegister reg _ =>
    A32.IsSingleExtReg reg || A32.IsDoubleExtReg reg
  | .SetRegister reg _ => decide (reg ≠ A32.Reg.PC)
  | .SetExclusive _ byte_size => decide (byte_size ∈ [1, 2, 4, 8, 16])
  | .CoprocInternalOperation coproc_no _ _ _ _ _ _
  | .CoprocSendOneWord coproc_no _ _ _ _ _ _
  | .CoprocSendTwoWords coproc_no _ _ _ _ _
  | .CoprocGetOneWord coproc_no _ _ _ _ _
  | .CoprocGetTwoWords coproc_no _ _ _
  | .CoprocLoadWords coproc_no _ _ _ _ _ _
  | .CoprocStoreWords coproc_no _ _ _ _ _ _ => decide (coproc_no ≤ 15)
  | _ => true

/-- Whether a call names one of the seven coprocessor constructors. -/
def A32.Call.isCoproc : A32.Call → Bool
  | .CoprocInternalOperation _ _ _ _ _ _ _
  | .CoprocSendOneWord _ _ _ _ _ _ _
  | .CoprocSendTwoWords _ _ _ _ _ _
  | .CoprocGetOneWord _ _ _ _ _ _
  | .CoprocGetTwoWords _ _ _ _
  | .CoprocLoadWords _ _ _ _ _ _ _
  | .CoprocStoreWords _ _ _ _ _ _ _ => true
  | _ => false

/-- Modelled from the spec: the state the IR is run on (the back end that gives the nodes
their meaning is missing from the sources): the guest registers and the results of the nodes
run so far, by position in the block. -/
structure IR.State where
  regs : A32.Reg → Nat
  results : List Nat

/-- The value of an operand: an immediate, or the result of the node a handle refers to. -/
def IR.Value.eval (σ : IR.State) : IR.Value → Option Nat
  | .imm8 v => some v
  | .imm32 v => some v
  | .imm64 v => some v
  | .inst i => σ.results[i]?
  | _ => none

/-- Modelled from the spec: the meaning of the nodes that read and write guest registers and
of `And32` (bitwise AND of the operands); a node that returns nothing has result `0`. Other
nodes are given no meaning here. -/
def IR.Inst.exec (σ : IR.State) (i : IR.Inst) : Option IR.State :=
  match i.op, i.args with
  | .And32, [a, b] =>
    (a.eval σ).bind fun va => (b.eval σ).bind fun vb =>
      some { σ with results := σ.results ++ [va &&& vb] }
  | .A32GetRegister, [.reg r] => some { σ with results := σ.results ++ [σ.regs r] }
  | .A32SetRegister, [.reg r, v] =>
    (v.eval σ).bind fun x =>
      some { regs := Function.update σ.regs r x, results := σ.results ++ [0] }
  | _, _ => none

/-- Running nodes in order. -/
def IR.Block.exec : IR.Block → IR.State → Option IR.State
  | [], σ => some σ
  | i :: rest, σ => (i.exec σ).bind (IR.Block.exec rest)

/-- The number of byte fields the initialiser of `coproc_info` lists in the constructor a call
names; `0` for a constructor that builds no `CoprocessorInfo`. -/
def A32.Call.packed : A32.Call → Nat
  | .CoprocInternalOperation _ _ _ _ _ _ _ => 7
  | .CoprocSendOneWord _ _ _ _ _ _ _ => 6
  | .CoprocSendTwoWords _ _ _ _ _ _ => 4
  | .CoprocGetOneWord _ _ _ _ _ _ => 6
  | .CoprocGetTwoWords _ _ _ _ => 4
  | .CoprocLoadWords _ _ _ _ _ _ _ => 6
  | .CoprocStoreWords _ _ _ _ _ _ _ => 6
  | _ => 0

/-! ## The host stack pointer -/

/-- An adjustment of the host stack pointer by emitted code: `sub rsp, n`, `add rsp, n`, and
`ABI_PushCallerSaveRegistersAndAdjustStackExcept` and its `Pop` counterpart with the register
they except. -/
inductive StackOp
  | sub (n : Int)
  | add (n : Int)
  | push (except : Nat)
  | pop (except : Nat)
  deriving DecidableEq, Repr

/-- The stack adjustment an instruction makes, if it makes one. -/
def Instr.stackOp : Instr → Option StackOp
  | .sub .rsp n => some (.sub n)
  | .add .rsp n => some (.add n)
  | .ABI_PushCallerSaveRegistersAndAdjustStackExcept e => some (.push e)
  | .ABI_PopCallerSaveRegistersAndAdjustStackExcept e => some (.pop e)
  | _ => none

/-- The stack adjustments of a piece of code, in order. -/
def stackOps (l : List Instr) : List StackOp := l.filterMap Instr.stackOp

/-- Whether an instruction that is not a stack adjustment has `rsp` as its destination. -/
def Instr.writesRsp : Instr → Bool
  | .movq dst _ => decide (dst = .rsp)
  | .pextrq dst _ _ => decide (dst = .rsp)
  | .movmskps dst _ => decide (dst = .rsp)
  | .lea dst _ => decide (dst = .rsp)
  | .lea_fpsr_exc dst => decide (dst = .rsp)
  | .mov_FPCR dst => decide (dst = .rsp)
  | _ => false

/-- Whether stack adjustments are undone in reverse order and by equal amounts: every
`add rsp, n` closes the latest adjustment still pending, which is a `sub rsp, n` of the same
amount, every caller-save pop closes a caller-save push with the same excepted register, and
nothing is left pending at the end. -/
def nested : List StackOp → List StackOp → Bool
  | [], pending => pending.isEmpty
  | .sub n :: rest, pending => nested rest (.sub n :: pending)
  | .push e :: rest, pending => nested rest (.push e :: pending)
  | .add n :: rest, .sub k :: pending => decide (n = k) && nested rest pending
  | .pop e :: rest, .push k :: pending => decide (e = k) && nested rest pending
  | _, _ => false

/-- The bytes a pending stack adjustment has taken off `rsp`. -/
def StackOp.bytes (env : Env) : StackOp → Int
  | .sub n => n
  | .push _ => env.callerSaveFrame
  | _ => 0

/-- The bytes the pending stack adjustments have taken off `rsp`. -/
def pendingBytes (env : Env) (pending : List StackOp) : Int :=
  (pending.map (StackOp.bytes env)).sum

/-- The code a jump to label `l` continues with: the code after the binding of `l` in the
near region, or else in the far region (as `run` looks it up). -/
def jumpTarget (near far : List Instr) (l : Nat) : Option (List Instr) :=
  match afterLabel l near with
  | some r => some r
  | none => afterLabel l far

/-- Whether every jump of `rest` is taken with no stack adjustment pending: the code after
the jump and the code at its target are each nested on their own. -/
def jumpsBalanced (near far : List Instr) : List Instr → Bool
  | [] => true
  | i :: rest =>
    (match i with
      | .jmp l | .jnz l =>
        nested (stackOps rest) [] &&
          (match jumpTarget near far l with
            | some r => nested (stackOps r) []
            | none => true)
      | _ => true) && jumpsBalanced near far rest

/-- The stack discipline checked for every emitted block: in either region the adjustments
of `rsp` are nested and nothing else writes `rsp`, and jumps are taken with no adjustment
pending. -/
def stackBalanced (_ : Bool) (s : EmitState) : Bool :=
  nested (stackOps s.near) [] && nested (stackOps s.far) [] &&
    s.near.all (fun i => !i.writesRsp) && s.far.all (fun i => !i.writesRsp) &&
    jumpsBalanced s.near s.far s.near && jumpsBalanced s.near s.far s.far

/-! ## Lanes -/

theorem ofLanes_lt (w : Nat) (f : Nat → Nat) (n : Nat) : ofLanes w f n < 2 ^ (w * n) := by
  induction n with
  | zero => simp [ofLanes]
  | succ n ih =>
    simp only [ofLanes, Nat.shiftLeft_eq]
    have h1 : f n % 2 ^ w < 2 ^ w := Nat.mod_lt _ (by positivity)
    have h2 : 2 ^ (w * (n + 1)) = 2 ^ (w * n) * 2 ^ w := by rw [← pow_add]; ring_nf
    have h3 : 0 < 2 ^ (w * n) := by positivity
    rw [h2]
    nlinarith

theorem lane_ofLanes (w : Nat) (f : Nat → Nat) (n i : Nat) (hi : i < n) :
    lane w i (ofLanes w f n) = f i % 2 ^ w := by
  induction n with
  | zero => omega
  | succ n ih =>
    simp only [ofLanes, lane, Nat.shiftLeft_eq, Nat.shiftRight_eq_div_pow]
    by_cases h : i = n
    · subst h
      have hlt := ofLanes_lt w f i
      rw [Nat.add_mul_div_right _ _ (by positivity), Nat.div_eq_of_lt hlt]
      simp
    · have ih2 := ih (by omega)
      simp only [lane, Nat.shiftRight_eq_div_pow] at ih2
      obtain ⟨k, hk⟩ : ∃ k, n = i + 1 + k := ⟨n - i - 1, by omega⟩
      have h3 : 2 ^ (w * n) = 2 ^ (w * i) * (2 ^ w * 2 ^ (w * k)) := by
        rw [hk, ← pow_add, ← pow_add]; ring_nf
      have h4 : f n % 2 ^ w * (2 ^ (w * i) * (2 ^ w * 2 ^ (w * k)))
          = 2 ^ (w * i) * (2 ^ w * (f n % 2 ^ w * 2 ^ (w * k))) := by ring
      rw [h3, h4, Nat.add_mul_div_left _ _ (by positivity), Nat.add_mul_mod_self_left, ih2]

theorem lane_lt (w i v : Nat) : lane w i v < 2 ^ w := Nat.mod_lt _ (by positivity)

theorem lane_mapLanes2 (w i : Nat) (f : Nat → Nat → Nat) (a b : Nat) (hi : i < 128 / w) :
    lane w i (mapLanes2 w f a b) = f (lane w i a) (lane w i b) % 2 ^ w :=
  lane_ofLanes w _ _ i hi

theorem lane_mapLanes (w i : Nat) (f : Nat → Nat) (a : Nat) (hi : i < 128 / w) :
    lane w i (mapLanes w f a) = f (lane w i a) % 2 ^ w :=
  lane_ofLanes w _ _ i hi

theorem lane_and (w i a b : Nat) : lane w i (a &&& b) = lane w i a &&& lane w i b := by
  apply Nat.eq_of_testBit_eq
  intro j
  simp only [lane, Nat.testBit_mod_two_pow, Nat.testBit_and, Nat.testBit_shiftRight]
  by_cases h : j < w <;> simp [h]

theorem lane_or (w i a b : Nat) : lane w i (a ||| b) = lane w i a ||| lane w i b := by
  apply Nat.eq_of_testBit_eq
  intro j
  simp only [lane, Nat.testBit_mod_two_pow, Nat.testBit_or, Nat.testBit_shiftRight]
  by_cases h : j < w <;> simp [h]

theorem lane_xor (w i a b : Nat) : lane w i (a ^^^ b) = lane w i a ^^^ lane w i b := by
  apply Nat.eq_of_testBit_eq
  intro j
  simp only [lane, Nat.testBit_mod_two_pow, Nat.testBit_xor, Nat.testBit_shiftRight]
  by_cases h : j < w <;> simp [h]

theorem lane_mod128 (w i v : Nat) (hi : w * (i + 1) ≤ 128) : lane w i (v % 2 ^ 128) = lane w i v := by
  apply Nat.eq_of_testBit_eq
  intro j
  simp only [lane, Nat.testBit_mod_two_pow, Nat.testBit_shiftRight]
  by_cases h : j < w
  · have : w * i + j < 128 := by
      have : w * (i + 1) = w * i + w := by ring
      omega
    simp [h, this]
  · simp [h]

theorem lane_ones128 (w i : Nat) (hi : w * (i + 1) ≤ 128) : lane w i (ones 128) = ones w := by
  apply Nat.eq_of_testBit_eq
  intro j
  simp only [lane, ones, Nat.testBit_mod_two_pow, Nat.testBit_shiftRight, Nat.testBit_two_pow_sub_one]
  by_cases h : j < w
  · have : w * i + j < 128 := by
      have : w * (i + 1) = w * i + w := by ring
      omega
    simp [h, this]
  · simp [h]

theorem lane_not128 (w i v : Nat) (hi : w * (i + 1) ≤ 128) :
    lane w i (not128 v) = ones w ^^^ lane w i v := by
  rw [not128, lane_xor, lane_ones128 w i hi, lane_mod128 w i v hi]

theorem and_ones (w x : Nat) (hx : x < 2 ^ w) : x &&& ones w = x :=
  Nat.and_pow_two_sub_one_of_lt_two_pow hx

theorem ones_and (w x : Nat) (hx : x < 2 ^ w) : ones w &&& x = x := by
  rw [Nat.and_comm]; exact and_ones w x hx

theorem ones_lt (w : Nat) : ones w < 2 ^ w := by
  have : 0 < 2 ^ w := by positivity
  unfold ones; omega

theorem boolMask_lt (w : Nat) (b : Bool) : boolMask w b < 2 ^ w := by
  cases b
  · simp [boolMask]
  · simpa [boolMask] using ones_lt w

theorem boolMask_mod (w : Nat) (b : Bool) : boolMask w b % 2 ^ w = boolMask w b :=
  Nat.mod_eq_of_lt (boolMask_lt w b)

theorem lane_mul_le (w i : Nat) (hi : i < 128 / w) : w * (i + 1) ≤ 128 := by
  have h1 : i + 1 ≤ 128 / w := hi
  calc w * (i + 1) ≤ w * (128 / w) := Nat.mul_le_mul_left w h1
    _ ≤ 128 := Nat.mul_div_le 128 w

/-! ## Straight-line code -/

theorem execList_append (env : Env) (code : BlockOfCode) (l1 l2 : List Instr) (m : Machine) :
    execList env code (l1 ++ l2) m = (execList env code l1 m).bind (execList env code l2) := by
  induction l1 generalizing m with
  | nil => simp [execList]
  | cons i rest ih =>
    simp only [List.cons_append, execList]
    cases step env code i m with
    | none => simp
    | some m1 => simp [ih]

theorem run_straight (env : Env) (code : BlockOfCode) (near far : List Instr) (fuel : Nat)
    (l : List Instr) (m : Machine) (hj : ∀ i ∈ l, i.isJump = false) (hf : l.length < fuel) :
    run env code near far fuel false l m = execList env code l m := by
  induction l generalizing fuel m with
  | nil =>
    cases fuel with
    | zero => simp at hf
    | succ f => simp [run, execList]
  | cons i rest ih =>
    cases fuel with
    | zero => simp at hf
    | succ f =>
      have hi : i.isJump = false := hj i (by simp)
      have hrest : ∀ j ∈ rest, j.isJump = false := fun j hjm => hj j (by simp [hjm])
      have hlen : rest.length < f := by simpa using hf
      cases i <;> simp [Instr.isJump] at hi <;> simp only [run, execList] <;>
        (cases step env code _ m with
         | none => simp
         | some m1 => simp [ih f m1 hrest hlen])

/-! ## ForceToDefaultNaN -/

theorem pcmpeqw_self (v : Nat) : mapLanes2 16 (fun x y => boolMask 16 (x == y)) v v = ones 128 := by
  simp only [mapLanes2, beq_self_eq_true, boolMask, if_true]
  decide

theorem operand_xmm (m : Machine) (r : Nat) : m.operand (.xmm r) = m.xmm r := rfl

theorem operand_GetNaNVector (m : Machine) (fsize : Nat) :
    m.operand (GetNaNVector fsize) =
      if fsize = 32 then 0x7fc000007fc000007fc000007fc00000 else 0x7ff80000000000007ff8000000000000 := by
  unfold GetNaNVector
  split <;> rfl

theorem lane_NaNVector (m : Machine) (fsize i : Nat) (hf : fsize = 32 ∨ fsize = 64)
    (hi : i < 128 / fsize) :
    lane fsize i (m.operand (GetNaNVector fsize)) = DefaultNaN fsize := by
  rw [operand_GetNaNVector]
  rcases hf with rfl | rfl
  · have : i < 4 := hi
    interval_cases i <;> decide
  · have : i < 2 := hi
    interval_cases i <;> decide

theorem DefaultNaN_lt (fsize : Nat) (hf : fsize = 32 ∨ fsize = 64) : DefaultNaN fsize < 2 ^ fsize := by
  rcases hf with rfl | rfl <;> decide

theorem ForceToDefaultNaN_code_sem (env : Env) (code : BlockOfCode) (fsize result nan_mask tmp : Nat)
    (hf : fsize = 32 ∨ fsize = 64) (h1 : nan_mask ≠ result) (h2 : tmp ≠ result)
    (h3 : tmp ≠ nan_mask) (m : Machine) :
    ∃ m1, execList env code (ForceToDefaultNaN.code fsize result nan_mask tmp) m = some m1
      ∧ (∀ i, i < 128 / fsize →
          lane fsize i (m1.xmm result) = forceLane fsize (lane fsize i (m.xmm result)))
      ∧ (∀ r, r ≠ result → r ≠ nan_mask → r ≠ tmp → m1.xmm r = m.xmm r)
      ∧ m1.gpr = m.gpr ∧ m1.mem = m.mem ∧ m1.args = m.args ∧ m1.defined = m.defined
      ∧ m1.saved = m.saved ∧ m1.calls = m.calls := by
  refine ⟨_, rfl, ?_, ?_, rfl, rfl, rfl, rfl, rfl, rfl⟩
  · intro i hi
    have hle := lane_mul_le fsize i hi
    have hx := lane_lt fsize i (m.xmm result)
    have hd := DefaultNaN_lt fsize hf
    simp only [Machine.setXmm, operand_xmm, sseSem, if_true, if_neg h1, if_neg h2, if_neg h3,
      if_neg (Ne.symm h1), if_neg (Ne.symm h2), if_neg (Ne.symm h3), pcmpeqw_self]
    rw [lane_or, lane_and, lane_and, lane_xor, lane_mapLanes2 _ _ _ _ _ hi,
      lane_ones128 _ _ hle, boolMask_mod]
    rw [lane_NaNVector _ fsize i hf hi]
    unfold forceLane
    cases hnan : IsNaN fsize (lane fsize i (m.xmm result))
    · simp [boolMask, and_ones _ _ hx]
    · simp [boolMask, ones_and _ _ hd]
  · intro r hr1 hr2 hr3
    simp [Machine.setXmm, hr1, hr2, hr3]


theorem ForceToDefaultNaN_emits (fsize : Nat) (ctx : EmitContext) (result n : Nat) :
    emittedFrom (.fresh n) (ForceToDefaultNaN fsize ctx result) =
      .ok (if ctx.FPSCR_DN then
        { near := ForceToDefaultNaN.code fsize result n (n + 1), nextXmm := n + 2 }
      else .fresh n) := by
  cases hdn : ctx.FPSCR_DN <;>
  simp [emittedFrom, EmitState.fresh, ForceToDefaultNaN, hdn, ForceToDefaultNaN.code, ScratchXmm,
    emit, StateT.run, bind, StateT.bind, modify, modifyGet, MonadStateOf.modifyGet,
    StateT.modifyGet, pure, StateT.pure, Except.bind, Except.pure, Except.map, Functor.map]

/-- C1: `ForceToDefaultNaN` for fsize 32 and 64, applied to an allocated register `result`.
With DN=1 the emitted sequence leaves every lane of the register that is not a NaN unchanged
and replaces every NaN lane by the default NaN; with DN=0 nothing is emitted and running the
(empty) code leaves the machine as it is. -/
theorem ForceToDefaultNaN_spec (env : Env) (code : BlockOfCode) (ctx : EmitContext)
    (fsize n result : Nat) (hf : fsize = 32 ∨ fsize = 64) (hr : result < n) (m : Machine) :
    ∃ s, emittedFrom (.fresh n) (ForceToDefaultNaN fsize ctx result) = .ok s ∧
      (ctx.FPSCR_DN = true →
        ∃ m1, runBlock env code s m = some m1 ∧
          ∀ i, i < 128 / fsize →
            (IsNaN fsize (lane fsize i (m.xmm result)) = false →
              lane fsize i (m1.xmm result) = lane fsize i (m.xmm result)) ∧
            (IsNaN fsize (lane fsize i (m.xmm result)) = true →
              lane fsize i (m1.xmm result) = DefaultNaN fsize)) ∧
      (ctx.FPSCR_DN = false → s.near = [] ∧ s.far = [] ∧ runBlock env code s m = some m) := by
  refine ⟨_, ForceToDefaultNaN_emits fsize ctx result n, ?_, ?_⟩
  · intro hdn
    obtain ⟨m1, hm1, hl, -⟩ := ForceToDefaultNaN_code_sem env code fsize result n (n + 1) hf
      (by omega) (by omega) (by omega) m
    refine ⟨m1, ?_, ?_⟩
    · simp only [hdn, if_true, runBlock]
      rw [run_straight _ _ _ _ _ _ _ (by simp [ForceToDefaultNaN.code, Instr.isJump])
        (by simp [ForceToDefaultNaN.code])]
      exact hm1
    · intro i hi
      rw [hl i hi]
      unfold forceLane
      constructor <;> intro h <;> simp [h]
  · intro hdn
    simp [hdn, EmitState.fresh, runBlock, run]

/-- Witness of C1: f32 with DN=1, the result register 0 holding
`[1.0, sNaN 0x7F800001, +inf, qNaN 0xFFC12345]`. -/
theorem ForceToDefaultNaN_spec_witness :
    ∃ s, emittedFrom (.fresh 1) (ForceToDefaultNaN 32 .dn 0) = .ok s ∧
      (EmitContext.dn.FPSCR_DN = true →
        ∃ m1, runBlock (x86Env .ToNearest_TieEven) .sse2 s
            ((Machine.init []).setXmm 0 (vec32 0x3F800000 0x7F800001 0x7F800000 0xFFC12345)) = some m1 ∧
          ∀ i, i < 128 / 32 →
            (IsNaN 32 (lane 32 i (((Machine.init []).setXmm 0
                (vec32 0x3F800000 0x7F800001 0x7F800000 0xFFC12345)).xmm 0)) = false →
              lane 32 i (m1.xmm 0) = lane 32 i (((Machine.init []).setXmm 0
                (vec32 0x3F800000 0x7F800001 0x7F800000 0xFFC12345)).xmm 0)) ∧
            (IsNaN 32 (lane 32 i (((Machine.init []).setXmm 0
                (vec32 0x3F800000 0x7F800001 0x7F800000 0xFFC12345)).xmm 0)) = true →
              lane 32 i (m1.xmm 0) = DefaultNaN 32)) ∧
      (EmitContext.dn.FPSCR_DN = false → s.near = [] ∧ s.far = [] ∧
        runBlock (x86Env .ToNearest_TieEven) .sse2 s
          ((Machine.init []).setXmm 0 (vec32 0x3F800000 0x7F800001 0x7F800000 0xFFC12345)) =
          some ((Machine.init []).setXmm 0 (vec32 0x3F800000 0x7F800001 0x7F800000 0xFFC12345))) :=
  ForceToDefaultNaN_spec (x86Env .ToNearest_TieEven) .sse2 .dn 32 1 0 (Or.inl rfl) (by decide)
    ((Machine.init []).setXmm 0 (vec32 0x3F800000 0x7F800001 0x7F800000 0xFFC12345))

/-! ## Lookup tables -/

theorem lookup_map_self {κ : Type} [BEq κ] [LawfulBEq κ] (f : κ → Callee) (l : List κ) (k : κ) :
    (l.map fun x => (x, f x)).lookup k = if k ∈ l then some (f k) else none := by
  induction l with
  | nil => simp
  | cons a rest ih =>
    simp only [List.map_cons, List.lookup_cons, List.mem_cons]
    by_cases h : k = a
    · subst h; simp
    · have : (k == a) = false := by simpa using h
      simp [this, ih, h]

theorem mem_cartesian_product {α β : Type} (l1 : List α) (l2 : List β) (a : α) (b : β) :
    (a, b) ∈ cartesian_product l1 l2 ↔ a ∈ l1 ∧ b ∈ l2 := by
  simp [cartesian_product, List.mem_flatMap]

theorem mem_rounding_list (r : RoundingMode) : r ∈ rounding_list := by
  cases r <;> simp [rounding_list]

theorem ToFixed_lut_lookup (fsize : Nat) (unsigned_ : Bool) (fbits : Nat) (rounding : RoundingMode) :
    (ToFixed.lut fsize unsigned_).lookup (fbits, rounding) =
      if fbits < fsize then some (.FPToFixed fsize unsigned_ fbits rounding) else none := by
  have h := lookup_map_self (fun arg : Nat × RoundingMode => Callee.FPToFixed fsize unsigned_ arg.1 arg.2)
    (cartesian_product (List.range fsize) rounding_list) (fbits, rounding)
  simpa [ToFixed.lut, mem_cartesian_product, mem_rounding_list] using h

theorem RoundInt_lut_lookup (fsize : Nat) (rounding : RoundingMode) (exact : Bool) :
    (RoundInt.lut fsize).lookup (rounding, exact) = some (.FPRoundInt fsize rounding exact) := by
  have h := lookup_map_self (fun arg : RoundingMode × Bool => Callee.FPRoundInt fsize arg.1 arg.2)
    (cartesian_product rounding_list [true, false]) (rounding, exact)
  simpa [RoundInt.lut, mem_cartesian_product, mem_rounding_list] using h

/-! ## Emission: the emitters produce the code spelled out above -/

theorem ThreeOpOpcode_emitted_eq (op : ThreeOpOpcode) (code : BlockOfCode) (ctx : EmitContext) :
    emitted (op.emit code ctx) = .ok (op.state code ctx) := by
  have h : ∀ (op : ThreeOpOpcode) (sse41 win dn acc : Bool),
      emitted (op.emit ⟨sse41, false, false, false, false, win⟩
        ⟨dn, false, .ToNearest_TieEven, acc⟩) =
      .ok (op.state ⟨sse41, false, false, false, false, win⟩
        ⟨dn, false, .ToNearest_TieEven, acc⟩) := by decide!
  obtain ⟨sse41, avx, fma, vl, dq, win⟩ := code
  obtain ⟨dn, ftz, rm, acc⟩ := ctx
  cases op
  · exact h .FPVectorAdd32 sse41 win dn acc
  · exact h .FPVectorAdd64 sse41 win dn acc
  · exact h .FPVectorDiv32 sse41 win dn acc
  · exact h .FPVectorDiv64 sse41 win dn acc
  · exact h .FPVectorMul32 sse41 win dn acc
  · exact h .FPVectorMul64 sse41 win dn acc
  · exact h .FPVectorSub32 sse41 win dn acc
  · exact h .FPVectorSub64 sse41 win dn acc
  · exact h .FPVectorPairedAdd32 sse41 win dn acc
  · exact h .FPVectorPairedAdd64 sse41 win dn acc
  · exact h .FPVectorPairedAddLower32 sse41 win dn acc
  · exact h .FPVectorPairedAddLower64 sse41 win dn acc

theorem MinMax.emitted_max (fsize : Nat) (hf : fsize = 32 ∨ fsize = 64) (code : BlockOfCode)
    (ctx : EmitContext) :
    emitted (EmitFPVectorMax fsize code ctx) = .ok (MinMax.state true fsize code ctx) := by
  have h : ∀ fsize ∈ [32, 64], ∀ (sse41 avx win dn ftz acc : Bool) (rm : RoundingMode),
      emitted (EmitFPVectorMax fsize ⟨sse41, avx, false, false, false, win⟩ ⟨dn, ftz, rm, acc⟩) =
      .ok (MinMax.state true fsize ⟨sse41, avx, false, false, false, win⟩ ⟨dn, ftz, rm, acc⟩) := by
    decide!
  obtain ⟨sse41, avx, fma, vl, dq, win⟩ := code
  obtain ⟨dn, ftz, rm, acc⟩ := ctx
  rcases hf with rfl | rfl
  · exact h 32 (by simp) sse41 avx win dn ftz acc rm
  · exact h 64 (by simp) sse41 avx win dn ftz acc rm

theorem MinMax.emitted_min (fsize : Nat) (hf : fsize = 32 ∨ fsize = 64) (code : BlockOfCode)
    (ctx : EmitContext) :
    emitted (EmitFPVectorMin fsize code ctx) = .ok (MinMax.state false fsize code ctx) := by
  have h : ∀ fsize ∈ [32, 64], ∀ (sse41 avx win dn ftz acc : Bool) (rm : RoundingMode),
      emitted (EmitFPVectorMin fsize ⟨sse41, avx, false, false, false, win⟩ ⟨dn, ftz, rm, acc⟩) =
      .ok (MinMax.state false fsize ⟨sse41, avx, false, false, false, win⟩ ⟨dn, ftz, rm, acc⟩) := by
    decide!
  obtain ⟨sse41, avx, fma, vl, dq, win⟩ := code
  obtain ⟨dn, ftz, rm, acc⟩ := ctx
  rcases hf with rfl | rfl
  · exact h 32 (by simp) sse41 avx win dn ftz acc rm
  · exact h 64 (by simp) sse41 avx win dn ftz acc rm

theorem EmitFPVectorMulAdd_emitted_eq (fsize : Nat) (hf : fsize = 32 ∨ fsize = 64)
    (code : BlockOfCode) (ctx : EmitContext) :
    emitted (EmitFPVectorMulAdd fsize code ctx) = .ok (EmitFPVectorMulAdd.state fsize code) := by
  have h : ∀ fsize ∈ [32, 64], ∀ (avx fma win : Bool),
      emitted (EmitFPVectorMulAdd fsize ⟨false, avx, fma, false, false, win⟩
        ⟨false, false, .ToNearest_TieEven, false⟩) =
      .ok (EmitFPVectorMulAdd.state fsize ⟨false, avx, fma, false, false, win⟩) := by
    decide!
  obtain ⟨sse41, avx, fma, vl, dq, win⟩ := code
  obtain ⟨dn, ftz, rm, acc⟩ := ctx
  rcases hf with rfl | rfl
  · exact h 32 (by simp) avx fma win
  · exact h 64 (by simp) avx fma win

theorem EmitFPVectorRoundInt_emitted_eq (fsize : Nat) (hf : fsize = 32 ∨ fsize = 64)
    (code : BlockOfCode) (ctx : EmitContext) (rounding : RoundingMode) (exact : Bool) :
    emitted (EmitFPVectorRoundInt fsize code ctx rounding exact) =
      .ok (match RoundInt.round_imm rounding with
        | some imm =>
          if code.DoesCpuSupport .tSSE41 && !exact then
            EmitTwoOpVectorOperation.state fsize code ctx
              (fun result xmm_a => [Instr.roundp fsize result xmm_a imm])
              (NaNHandler.GetDefault fsize .Default 2)
          else EmitTwoOpFallback.state code (.FPRoundInt fsize rounding exact)
        | none => EmitTwoOpFallback.state code (.FPRoundInt fsize rounding exact)) := by
  have h : ∀ fsize ∈ [32, 64], ∀ (sse41 avx win dn acc exact : Bool) (rounding : RoundingMode),
      emitted (EmitFPVectorRoundInt fsize ⟨sse41, avx, false, false, false, win⟩
        ⟨dn, false, .ToNearest_TieEven, acc⟩ rounding exact) =
      .ok (match RoundInt.round_imm rounding with
        | some imm =>
          if BlockOfCode.DoesCpuSupport ⟨sse41, avx, false, false, false, win⟩ .tSSE41 && !exact then
            EmitTwoOpVectorOperation.state fsize ⟨sse41, avx, false, false, false, win⟩
              ⟨dn, false, .ToNearest_TieEven, acc⟩
              (fun result xmm_a => [Instr.roundp fsize result xmm_a imm])
              (NaNHandler.GetDefault fsize .Default 2)
          else EmitTwoOpFallback.state ⟨sse41, avx, false, false, false, win⟩
            (.FPRoundInt fsize rounding exact)
        | none => EmitTwoOpFallback.state ⟨sse41, avx, false, false, false, win⟩
            (.FPRoundInt fsize rounding exact)) := by
    decide!
  obtain ⟨sse41, avx, fma, vl, dq, win⟩ := code
  obtain ⟨dn, ftz, rm, acc⟩ := ctx
  rcases hf with rfl | rfl
  · exact h 32 (by simp) sse41 avx win dn acc exact rounding
  · exact h 64 (by simp) sse41 avx win dn acc exact rounding

theorem EmitTwoOpFallback_emitted_eq (code : BlockOfCode) (fn : Callee) :
    emitted (EmitTwoOpFallback code fn) = .ok (EmitTwoOpFallback.state code fn) := rfl

theorem lut_at_apply {κ : Type} [BEq κ] (lut : List (κ × Callee)) (key : κ) (v : Callee)
    (h : lut.lookup key = some v) (s : EmitState) : lut_at lut key s = .ok (v, s) := by
  simp only [lut_at, h]
  rfl

theorem lut_at_apply_none {κ : Type} [BEq κ] (lut : List (κ × Callee)) (key : κ)
    (h : lut.lookup key = none) (s : EmitState) : lut_at lut key s = .error .out_of_range := by
  simp only [lut_at, h]
  rfl

theorem bind_apply {α β : Type} (x : Emit α) (f : α → Emit β) (s : EmitState) :
    (x >>= f) s = (x s).bind (fun p => f p.1 p.2) := rfl

theorem EmitFPVectorToFixed_eq (fsize : Nat) (unsigned_ : Bool) (code : BlockOfCode)
    (fbits : Nat) (rounding : RoundingMode) (h : fbits < fsize) :
    EmitFPVectorToFixed fsize unsigned_ code fbits rounding =
      EmitTwoOpFallback code (.FPToFixed fsize unsigned_ fbits rounding) := by
  funext s
  have hl := ToFixed_lut_lookup fsize unsigned_ fbits rounding
  rw [if_pos h] at hl
  simp only [EmitFPVectorToFixed, bind_apply, lut_at_apply _ _ _ hl]
  rfl

theorem EmitFPVectorToFixed_error (fsize : Nat) (unsigned_ : Bool) (code : BlockOfCode)
    (fbits : Nat) (rounding : RoundingMode) (h : fsize ≤ fbits) (s : EmitState) :
    EmitFPVectorToFixed fsize unsigned_ code fbits rounding s = .error .out_of_range := by
  have hl := ToFixed_lut_lookup fsize unsigned_ fbits rounding
  rw [if_neg (by omega)] at hl
  simp only [EmitFPVectorToFixed, bind_apply, lut_at_apply_none _ _ hl]
  rfl

/-- C10: the dispatch table of `EmitFPVectorToFixed` (any fsize, in particular 32 and 64; signed
and unsigned). Every key `(fbits, rounding)` with `fbits < fsize` has an entry, and it is the
lane loop calling `FPToFixed` with exactly that `fbits` and rounding mode, which is the one
function the emitted fallback calls; a key with `fbits >= fsize` has no entry and `lut.at`
aborts the emission. -/
theorem EmitFPVectorToFixed_lut (env : Env) (code : BlockOfCode)
    (fsize : Nat) (unsigned_ : Bool) (fbits : Nat) (rounding : RoundingMode) (m : Machine) :
    (fbits < fsize →
      (ToFixed.lut fsize unsigned_).lookup (fbits, rounding)
        = some (.FPToFixed fsize unsigned_ fbits rounding) ∧
      (∃ s, emitted (EmitFPVectorToFixed fsize unsigned_ code fbits rounding) = .ok s ∧
        emitted (EmitTwoOpFallback code (.FPToFixed fsize unsigned_ fbits rounding)) = .ok s ∧
        calls_of (s.near ++ s.far) = [.FPToFixed fsize unsigned_ fbits rounding]) ∧
      (callMem env code m (.FPToFixed fsize unsigned_ fbits rounding)).map
          (fun mem => mem (abiParam code m 1))
        = some (mapLanes fsize
            (fun x => env.FPToFixed fsize x fbits unsigned_ (abiParam code m 3).toNat rounding)
            (m.mem (abiParam code m 2)))) ∧
    (fsize ≤ fbits →
      (ToFixed.lut fsize unsigned_).lookup (fbits, rounding) = none ∧
      emitted (EmitFPVectorToFixed fsize unsigned_ code fbits rounding)
        = .error .out_of_range) := by
  constructor
  · intro h
    have hl := ToFixed_lut_lookup fsize unsigned_ fbits rounding
    rw [if_pos h] at hl
    refine ⟨hl, ?_, ?_⟩
    · rw [EmitFPVectorToFixed_eq _ _ _ _ _ h]
      exact ⟨_, EmitTwoOpFallback_emitted_eq _ _, EmitTwoOpFallback_emitted_eq _ _, rfl⟩
    · simp [callMem]
  · intro h
    have hl := ToFixed_lut_lookup fsize unsigned_ fbits rounding
    rw [if_neg (by omega)] at hl
    refine ⟨hl, ?_⟩
    unfold emitted
    rw [show (EmitFPVectorToFixed fsize unsigned_ code fbits rounding).run {} =
      EmitFPVectorToFixed fsize unsigned_ code fbits rounding {} from rfl,
      EmitFPVectorToFixed_error _ _ _ _ _ h]
    rfl

/-- Witness of C10: unsigned f32 conversion with `fbits = 31` has its entry, with `fbits = 32`
`lut.at` fails. -/
theorem EmitFPVectorToFixed_lut_witness :
    (ToFixed.lut 32 true).lookup (31, RoundingMode.TowardsZero)
        = some (.FPToFixed 32 true 31 .TowardsZero) ∧
    emitted (EmitFPVectorToFixed 32 true .sse2 32 .TowardsZero) = .error .out_of_range :=
  ⟨((EmitFPVectorToFixed_lut (x86Env .ToNearest_TieEven) .sse2 32 true 31 .TowardsZero
      (Machine.init [])).1 (by decide)).1,
   ((EmitFPVectorToFixed_lut (x86Env .ToNearest_TieEven) .sse2 32 true 32 .TowardsZero
      (Machine.init [])).2 (by decide)).2⟩

/-- C9: `EmitFPVectorRoundInt` (fsize 32 and 64) never aborts; it emits `roundps`/`roundpd`
(exactly one) if and only if the host has SSE4.1, `exact` is false and the rounding mode is not
ties-away, that is, is one of the other four. The immediate is then 0b00, 0b10, 0b01, 0b11 for
nearest-even, +infinity, -infinity and towards-zero, so the `UNREACHABLE()` default is not
reached, and the only function that may be called is the NaN handler of the accurate path; in
every other case the emitted code is the two-operand software fallback calling the
`FPRoundInt` loop for that `(rounding, exact)` and contains no `roundp`. -/
theorem EmitFPVectorRoundInt_spec (fsize : Nat) (hf : fsize = 32 ∨ fsize = 64)
    (code : BlockOfCode) (ctx : EmitContext) (rounding : RoundingMode) (exact : Bool) :
    ∃ s, emitted (EmitFPVectorRoundInt fsize code ctx rounding exact) = .ok s ∧
      ((code.DoesCpuSupport .tSSE41 = true ∧ exact = false ∧
          rounding ≠ .ToNearest_TieAwayFromZero) →
        roundps_of (s.near ++ s.far) =
          [(fsize, match rounding with
            | .ToNearest_TieEven => 0b00
            | .TowardsPlusInfinity => 0b10
            | .TowardsMinusInfinity => 0b01
            | _ => 0b11)] ∧
        calls_of (s.near ++ s.far) =
          (if ctx.FPSCR_DN = false ∧ ctx.AccurateNaN = true
            then [.NaNHandler fsize .Default 2] else [])) ∧
      (¬(code.DoesCpuSupport .tSSE41 = true ∧ exact = false ∧
          rounding ≠ .ToNearest_TieAwayFromZero) →
        emitted (EmitTwoOpFallback code (.FPRoundInt fsize rounding exact)) = .ok s ∧
        roundps_of (s.near ++ s.far) = [] ∧
        calls_of (s.near ++ s.far) = [.FPRoundInt fsize rounding exact]) := by
  refine ⟨_, EmitFPVectorRoundInt_emitted_eq fsize hf code ctx rounding exact, ?_, ?_⟩
  · rintro ⟨h1, h2, h3⟩
    subst h2
    obtain ⟨dn, ftz, rm, acc⟩ := ctx
    cases rounding <;> simp at h3 <;>
      simp only [RoundInt.round_imm, h1, Bool.not_false, Bool.and_self, if_true] <;>
      cases dn <;> cases acc <;> cases hav : code.DoesCpuSupport .tAVX <;>
      simp [EmitTwoOpVectorOperation.state, hav, h1, roundps_of, calls_of, HandleNaNs.near,
        HandleNaNs.far, ForceToDefaultNaN.code, NaNHandler.GetDefault, List.range,
        List.range.loop]
  · intro h
    have hfb : (match RoundInt.round_imm rounding with
        | some imm =>
          if code.DoesCpuSupport .tSSE41 && !exact then
            EmitTwoOpVectorOperation.state fsize code ctx
              (fun result xmm_a => [Instr.roundp fsize result xmm_a imm])
              (NaNHandler.GetDefault fsize .Default 2)
          else EmitTwoOpFallback.state code (.FPRoundInt fsize rounding exact)
        | none => EmitTwoOpFallback.state code (.FPRoundInt fsize rounding exact))
        = EmitTwoOpFallback.state code (.FPRoundInt fsize rounding exact) := by
      cases rounding <;> cases exact <;> cases hs : code.DoesCpuSupport .tSSE41 <;>
        simp_all [RoundInt.round_imm]
    rw [hfb]
    exact ⟨EmitTwoOpFallback_emitted_eq _ _, rfl, rfl⟩

/-- Witness of C9: f32 on an SSE4.1 host, towards zero, not exact. -/
theorem EmitFPVectorRoundInt_spec_witness :
    ∃ s, emitted (EmitFPVectorRoundInt 32 .avx .fast .TowardsZero false) = .ok s ∧
      roundps_of (s.near ++ s.far) = [(32, 0b11)] :=
  let ⟨s, hs, h1, _⟩ := EmitFPVectorRoundInt_spec 32 (Or.inl rfl) .avx .fast .TowardsZero false
  ⟨s, hs, (h1 ⟨rfl, rfl, by decide⟩).1⟩

/-! ## The default NaN handler -/

theorem set_getD_self (l : List Nat) (i : Nat) : l.set i (l.getD i 0) = l := by
  apply List.ext_getElem?
  intro j
  by_cases hj : i = j
  · subst hj
    by_cases hlen : i < l.length
    · simp [List.getElem?_set, hlen, List.getD_eq_getElem?_getD, List.getElem?_eq_getElem hlen]
    · have h2 : l[i]? = none := List.getElem?_eq_none (by omega)
      simp [List.getElem?_set, hlen, h2]
  · simp [List.getElem?_set, hj]

theorem GetDefaultImpl.body_eq (fsize : Nat) (ix : Indexer) (ops : List (List Nat))
    (result : List Nat) (elementi : Nat) (cur : List Nat) (h : ix.apply elementi ops = some cur) :
    GetDefaultImpl.body fsize ix ops result elementi =
      some (result.set elementi (handlerLane fsize cur (result.getD elementi 0))) := by
  unfold GetDefaultImpl.body handlerLane
  rw [h]
  simp only [Option.bind_eq_bind, Option.some_bind]
  cases hp : ProcessNaNs fsize cur with
  | some r => rfl
  | none =>
    by_cases hn : IsNaN fsize (result.getD elementi 0) = true
    · simp only [hn, if_true]
      rfl
    · simp only [hn, Bool.false_eq_true, if_false, set_getD_self]
      rfl

theorem GetDefaultImpl.loop_spec (fsize : Nat) (ix : Indexer) (ops : List (List Nat))
    (result : List Nat) (n : Nat) (hn : n ≤ result.length)
    (hix : ∀ i, i < n → ∃ cur, ix.apply i ops = some cur) :
    ∃ r, (List.range n).foldlM (GetDefaultImpl.body fsize ix ops) result = some r ∧
      r.length = result.length ∧
      (∀ i, i < n → ∀ cur, ix.apply i ops = some cur →
        r[i]? = some (handlerLane fsize cur (result.getD i 0))) ∧
      (∀ i, n ≤ i → r[i]? = result[i]?) := by
  induction n with
  | zero => exact ⟨result, by simp, rfl, by simp, by simp⟩
  | succ n ih =>
    obtain ⟨r, hr, hlen, hlt, hge⟩ := ih (by omega) (fun i hi => hix i (by omega))
    obtain ⟨cur, hcur⟩ := hix n (by omega)
    have hrn : r.getD n 0 = result.getD n 0 := by
      simp [List.getD_eq_getElem?_getD, hge n (le_refl n)]
    have hb := GetDefaultImpl.body_eq fsize ix ops r n cur hcur
    rw [hrn] at hb
    refine ⟨r.set n (handlerLane fsize cur (result.getD n 0)), ?_, ?_, ?_, ?_⟩
    · rw [List.range_succ, List.foldlM_append, hr]
      simp only [Option.some_bind, Option.bind_eq_bind, List.foldlM_cons, List.foldlM_nil, hb]
      rfl
    · simp [hlen]
    · intro i hi cur2 hcur2
      by_cases hin : i = n
      · subst hin
        rw [hcur] at hcur2
        cases hcur2
        simp [List.getElem?_set, hlen]
        omega
      · have hi2 : i < n := by omega
        simp [List.getElem?_set, Ne.symm hin, hlt i hi2 cur2 hcur2]
    · intro i hi
      have hne : n ≠ i := by omega
      simp [List.getElem?_set, hne, hge i (by omega)]

/-- C6: the default NaN handler `NaNHandler::GetDefaultImpl`, for any indexer and any number of
operand arrays for which the indexer produces a tuple at every lane of `values[0]`. The handler
returns; the operand arrays `values[1..]` are the ones it was given; and for every lane `i` of
`values[0]`, with `cur` the operands the indexer selects for `i`: if `ProcessNaNs cur` is
`some r` the lane becomes `r`, otherwise if the lane is a NaN it becomes the default NaN, and
otherwise it is unchanged. -/
theorem GetDefaultImpl_spec (fsize : Nat) (ix : Indexer) (result : List Nat)
    (ops : List (List Nat))
    (hix : ∀ i, i < result.length → ∃ cur, ix.apply i ops = some cur) :
    ∃ r, GetDefaultImpl fsize ix (result :: ops) = some (r :: ops) ∧
      r.length = result.length ∧
      ∀ i, i < result.length → ∀ cur, ix.apply i ops = some cur →
        (∀ v, ProcessNaNs fsize cur = some v → r[i]? = some v) ∧
        (ProcessNaNs fsize cur = none → IsNaN fsize (result.getD i 0) = true →
          r[i]? = some (DefaultNaN fsize)) ∧
        (ProcessNaNs fsize cur = none → IsNaN fsize (result.getD i 0) = false →
          r[i]? = result[i]?) := by
  obtain ⟨r, hr, hlen, hlt, -⟩ :=
    GetDefaultImpl.loop_spec fsize ix ops result result.length (le_refl _) hix
  refine ⟨r, ?_, hlen, ?_⟩
  · simp [GetDefaultImpl, hr]
  · intro i hi cur hcur
    have h := hlt i hi cur hcur
    refine ⟨?_, ?_, ?_⟩
    · intro v hv
      rw [h]
      simp only [handlerLane, hv]
    · intro hp hnan
      rw [h]
      simp only [handlerLane, hp, hnan, if_true]
    · intro hp hnan
      rw [h]
      simp only [handlerLane, hp, hnan, Bool.false_eq_true, if_false]
      simp [List.getD_eq_getElem?_getD, List.getElem?_eq_getElem hi]

/-- Witness of C6: the f32 handler with `DefaultIndexer` on a result `[3.0, qNaN, +inf, NaN]`
and operands `a = [1.0, sNaN, 2.0, +inf]`, `b = [2.0, 3.0, +inf, -inf]`. -/
theorem GetDefaultImpl_spec_witness :
    ∃ r, GetDefaultImpl 32 .Default
        ([0x40400000, 0x7FC00001, 0x7F800000, 0xFFC00000] ::
          [[0x3F800000, 0x7F800001, 0x40000000, 0x7F800000],
           [0x40000000, 0x40400000, 0x7F800000, 0xFF800000]]) =
        some (r :: [[0x3F800000, 0x7F800001, 0x40000000, 0x7F800000],
           [0x40000000, 0x40400000, 0x7F800000, 0xFF800000]]) ∧
      r.length = 4 :=
  let ⟨r, h1, h2, _⟩ := GetDefaultImpl_spec 32 .Default
    [0x40400000, 0x7FC00001, 0x7F800000, 0xFFC00000]
    [[0x3F800000, 0x7F800001, 0x40000000, 0x7F800000],
     [0x40000000, 0x40400000, 0x7F800000, 0xFF800000]]
    (by
      intro i hi
      have hi4 : i < 4 := hi
      interval_cases i <;> exact ⟨_, rfl⟩)
  ⟨r, h1, h2⟩

/-! ## Running code -/

theorem Machine.sameButXmm_refl (m : Machine) : m.sameButXmm m :=
  ⟨rfl, rfl, rfl, rfl, rfl, rfl, rfl⟩

theorem Machine.sameButXmm_trans {m m1 m2 : Machine} (h1 : m.sameButXmm m1)
    (h2 : m1.sameButXmm m2) : m.sameButXmm m2 := by
  obtain ⟨a1, a2, a3, a4, a5, a6, a7⟩ := h1
  obtain ⟨b1, b2, b3, b4, b5, b6, b7⟩ := h2
  exact ⟨b1.trans a1, b2.trans a2, b3.trans a3, b4.trans a4, b5.trans a5, b6.trans a6,
    b7.trans a7⟩

theorem step_xmmDst (env : Env) (code : BlockOfCode) (i : Instr) (d : Nat)
    (h : i.xmmDst = some d) (m : Machine) :
    ∃ v, step env code i m = some (m.setXmm d v) := by
  cases i <;> simp [Instr.xmmDst] at h <;> subst h <;> exact ⟨_, rfl⟩

theorem xmmDst_not_jump (i : Instr) (d : Nat) (h : i.xmmDst = some d) : i.isJump = false := by
  cases i <;> simp [Instr.xmmDst] at h <;> rfl

theorem execList_xmmOnly (env : Env) (code : BlockOfCode) (l : List Instr)
    (h : ∀ i ∈ l, ∃ d, i.xmmDst = some d) (m : Machine) :
    ∃ m1, execList env code l m = some m1 ∧ m.sameButXmm m1 ∧
      ∀ r, (∀ i ∈ l, i.xmmDst ≠ some r) → m1.xmm r = m.xmm r := by
  induction l generalizing m with
  | nil => exact ⟨m, rfl, m.sameButXmm_refl, fun _ _ => rfl⟩
  | cons i rest ih =>
    obtain ⟨d, hd⟩ := h i (by simp)
    obtain ⟨v, hv⟩ := step_xmmDst env code i d hd m
    obtain ⟨m1, hm1, hs, hx⟩ := ih (fun j hj => h j (by simp [hj])) (m.setXmm d v)
    refine ⟨m1, ?_, ?_, ?_⟩
    · simp [execList, hv, hm1]
    · exact Machine.sameButXmm_trans ⟨rfl, rfl, rfl, rfl, rfl, rfl, rfl⟩ hs
    · intro r hr
      rw [hx r (fun j hj => hr j (by simp [hj]))]
      have hne : r ≠ d := by
        intro hrd
        exact hr i (by simp) (by rw [hd, hrd])
      simp [Machine.setXmm, hne]

theorem afterLabel_append_of_not_mem (l : Nat) (l1 l2 : List Instr) (h : Instr.L l ∉ l1) :
    afterLabel l (l1 ++ l2) = afterLabel l l2 := by
  induction l1 with
  | nil => rfl
  | cons i rest ih =>
    have hi : i ≠ Instr.L l := fun hc => h (by simp [hc])
    have hr : Instr.L l ∉ rest := fun hc => h (by simp [hc])
    simp [afterLabel, hi, ih hr]

theorem afterLabel_eq_none (l : Nat) (l1 : List Instr) (h : Instr.L l ∉ l1) :
    afterLabel l l1 = none := by
  have := afterLabel_append_of_not_mem l l1 [] h
  simpa [afterLabel] using this

theorem xmmOnly_no_label (l : Nat) (F : List Instr) (h : ∀ i ∈ F, ∃ d, i.xmmDst = some d) :
    Instr.L l ∉ F := by
  intro hc
  obtain ⟨d, hd⟩ := h _ hc
  simp [Instr.xmmDst] at hd

theorem run_append (env : Env) (code : BlockOfCode) (near far : List Instr) (fuel : Nat)
    (inFar : Bool) (l1 l2 : List Instr) (m : Machine) (hj : ∀ i ∈ l1, i.isJump = false) :
    run env code near far (fuel + l1.length) inFar (l1 ++ l2) m =
      (execList env code l1 m).bind (run env code near far fuel inFar l2) := by
  induction l1 generalizing m with
  | nil => simp [execList]
  | cons i rest ih =>
    have hi : i.isJump = false := hj i (by simp)
    have hrest : ∀ j ∈ rest, j.isJump = false := fun j hjm => hj j (by simp [hjm])
    have hfuel : fuel + (i :: rest).length = (fuel + rest.length) + 1 := by simp; omega
    rw [hfuel]
    cases i <;> simp [Instr.isJump] at hi <;> simp only [List.cons_append, run, execList] <;>
      (cases step env code _ m with
       | none => simp
       | some m1 => simp [ih m1 hrest])

theorem run_mono (env : Env) (code : BlockOfCode) (near far : List Instr) (fuel k : Nat)
    (inFar : Bool) (l : List Instr) (m m1 : Machine)
    (h : run env code near far fuel inFar l m = some m1) :
    run env code near far (fuel + k) inFar l m = some m1 := by
  induction fuel generalizing inFar l m with
  | zero => simp [run] at h
  | succ f ih =>
    have hf : f + 1 + k = (f + k) + 1 := by omega
    rw [hf]
    cases l with
    | nil => simpa [run] using h
    | cons i rest =>
      cases i <;> simp only [run] at h ⊢ <;>
      first
      | (cases hs : step env code _ m with
         | none => simp [hs] at h
         | some m2 =>
           simp only [hs, Option.some_bind, Option.bind_eq_bind] at h ⊢
           exact ih _ _ _ h)
      | (by_cases hz : m.zf = true
         · simp only [hz, if_true] at h ⊢
           exact ih _ _ _ h
         · simp only [hz, if_false] at h ⊢
           cases hn : afterLabel _ near with
           | some r =>
             simp only [hn] at h ⊢
             exact ih _ _ _ h
           | none =>
             cases hfar : afterLabel _ far with
             | some r =>
               simp only [hn, hfar] at h ⊢
               exact ih _ _ _ h
             | none => simp [hn, hfar] at h)
      | (cases hn : afterLabel _ near with
         | some r =>
           simp only [hn] at h ⊢
           exact ih _ _ _ h
         | none =>
           cases hfar : afterLabel _ far with
           | some r =>
             simp only [hn, hfar] at h ⊢
             exact ih _ _ _ h
           | none => simp [hn, hfar] at h)

/-! ## Max and Min -/

theorem signBit_boolMask (w : Nat) (hf : w = 32 ∨ w = 64) (c : Bool) :
    signBit w (boolMask w c) = c := by
  rcases hf with rfl | rfl <;> cases c <;> decide

theorem lane_blendv (w a b mask i : Nat) (hi : i < 128 / w) :
    lane w i (blendv w a b mask) =
      if signBit w (lane w i mask) then lane w i b else lane w i a := by
  unfold blendv
  rw [lane_ofLanes _ _ _ _ hi]
  split
  · exact Nat.mod_eq_of_lt (lane_lt _ _ _)
  · exact Nat.mod_eq_of_lt (lane_lt _ _ _)

theorem ones_xor_self (w : Nat) : ones w ^^^ ones w = 0 := Nat.xor_self _

theorem mod_and_ones (w x : Nat) : x % 2 ^ w &&& ones w = x % 2 ^ w :=
  and_ones w _ (Nat.mod_lt _ (by positivity))

theorem MinMax.core_sem (env : Env) (code : BlockOfCode) (isMax avx : Bool)
    (fsize result xmm_b mask comb : Nat) (hf : fsize = 32 ∨ fsize = 64)
    (h1 : xmm_b ≠ result) (h2 : mask ≠ result) (h3 : comb ≠ result) (h4 : mask ≠ xmm_b)
    (h5 : comb ≠ xmm_b) (h6 : comb ≠ mask) (m : Machine) :
    ∃ m1, execList env code (MinMax.core isMax avx fsize result xmm_b mask comb) m = some m1 ∧
      (∀ i, i < 128 / fsize → lane fsize i (m1.xmm result) =
        minmaxLane env isMax fsize (lane fsize i (m.xmm result)) (lane fsize i (m.xmm xmm_b))) ∧
      (∀ r, r ≠ result → r ≠ mask → r ≠ comb → m1.xmm r = m.xmm r) ∧ m.sameButXmm m1 := by
  cases avx <;> cases isMax <;>
    refine ⟨_, rfl, ?_, ?_, ⟨rfl, rfl, rfl, rfl, rfl, rfl, rfl⟩⟩
  all_goals first
    | (intro r hr1 hr2 hr3
       simp [Machine.setXmm, hr1, hr2, hr3])
    | (intro i hi
       have hle := lane_mul_le fsize i hi
       have hx := lane_lt fsize i (m.xmm result)
       have hy := lane_lt fsize i (m.xmm xmm_b)
       simp only [Machine.setXmm, operand_xmm, sseSem, avxSem, if_true, if_neg h1, if_neg h2,
         if_neg h3, if_neg h4, if_neg h5, if_neg h6, if_neg (Ne.symm h1), if_neg (Ne.symm h2),
         if_neg (Ne.symm h3), if_neg (Ne.symm h4), if_neg (Ne.symm h5), if_neg (Ne.symm h6),
         Bool.false_eq_true, if_false]
       unfold minmaxLane
       simp only [lane_blendv _ _ _ _ _ hi, lane_or, lane_and, lane_not128 _ _ _ hle,
         lane_mapLanes2 _ _ _ _ _ hi, boolMask_mod, signBit_boolMask _ hf, if_true,
         Bool.false_eq_true, if_false]
       try (cases hEq : fpEq fsize (lane fsize i (m.xmm result)) (lane fsize i (m.xmm xmm_b)) <;>
         simp [boolMask, and_ones, ones_and, mod_and_ones, hx, hy, Nat.and_lt_two_pow,
           Nat.or_lt_two_pow]))

theorem MinMax.coreDN_sem (env : Env) (code : BlockOfCode) (isMax avx : Bool)
    (fsize result xmm_b mask comb nan_mask : Nat) (hf : fsize = 32 ∨ fsize = 64)
    (h1 : xmm_b ≠ result) (h2 : mask ≠ result) (h3 : comb ≠ result) (h4 : mask ≠ xmm_b)
    (h5 : comb ≠ xmm_b) (h6 : comb ≠ mask) (h7 : nan_mask ≠ result) (h8 : nan_mask ≠ xmm_b)
    (h9 : nan_mask ≠ mask) (h10 : nan_mask ≠ comb) (m : Machine) :
    ∃ m1, execList env code (MinMax.coreDN isMax avx fsize result xmm_b mask comb nan_mask) m =
        some m1 ∧
      (∀ i, i < 128 / fsize → lane fsize i (m1.xmm result) =
        if IsNaN fsize (lane fsize i (m.xmm result)) || IsNaN fsize (lane fsize i (m.xmm xmm_b))
        then DefaultNaN fsize
        else minmaxLane env isMax fsize (lane fsize i (m.xmm result))
          (lane fsize i (m.xmm xmm_b))) ∧
      (∀ r, r ≠ result → r ≠ mask → r ≠ comb → r ≠ nan_mask → m1.xmm r = m.xmm r) ∧
      m.sameButXmm m1 := by
  cases avx <;> cases isMax <;>
    refine ⟨_, rfl, ?_, ?_, ⟨rfl, rfl, rfl, rfl, rfl, rfl, rfl⟩⟩
  all_goals first
    | (intro r hr1 hr2 hr3 hr4
       simp [Machine.setXmm, hr1, hr2, hr3, hr4])
    | (intro i hi
       have hle := lane_mul_le fsize i hi
       have hx := lane_lt fsize i (m.xmm result)
       have hy := lane_lt fsize i (m.xmm xmm_b)
       have hd := DefaultNaN_lt fsize hf
       simp only [Machine.setXmm, operand_xmm, sseSem, avxSem, if_true, if_neg h1, if_neg h2,
         if_neg h3, if_neg h4, if_neg h5, if_neg h6, if_neg h7, if_neg h8, if_neg h9, if_neg h10,
         if_neg (Ne.symm h1), if_neg (Ne.symm h2),
         if_neg (Ne.symm h3), if_neg (Ne.symm h4), if_neg (Ne.symm h5), if_neg (Ne.symm h6),
         if_neg (Ne.symm h7), if_neg (Ne.symm h8), if_neg (Ne.symm h9), if_neg (Ne.symm h10),
         Bool.false_eq_true, if_false]
       unfold minmaxLane
       simp only [lane_blendv _ _ _ _ _ hi, lane_or, lane_and, lane_not128 _ _ _ hle,
         lane_mapLanes2 _ _ _ _ _ hi, boolMask_mod, signBit_boolMask _ hf, if_true,
         Bool.false_eq_true, if_false, lane_NaNVector _ fsize i hf hi]
       try (cases hN1 : IsNaN fsize (lane fsize i (m.xmm result)) <;>
         cases hN2 : IsNaN fsize (lane fsize i (m.xmm xmm_b)) <;>
         cases hEq : fpEq fsize (lane fsize i (m.xmm result)) (lane fsize i (m.xmm xmm_b)) <;>
         simp [boolMask, and_ones, ones_and, mod_and_ones, hx, hy, hd, Nat.and_lt_two_pow,
           Nat.or_lt_two_pow]))

theorem operand_GetNegativeZeroVector (m : Machine) (fsize : Nat) :
    m.operand (GetNegativeZeroVector fsize) =
      if fsize = 32 then 0x80000000800000008000000080000000
      else 0x80000000000000008000000000000000 := by
  unfold GetNegativeZeroVector
  split <;> rfl

theorem lane_NegativeZeroVector (m : Machine) (fsize i : Nat) (hf : fsize = 32 ∨ fsize = 64)
    (hi : i < 128 / fsize) :
    lane fsize i (m.operand (GetNegativeZeroVector fsize)) = 2 ^ (fsize - 1) := by
  rw [operand_GetNegativeZeroVector]
  rcases hf with rfl | rfl
  · have : i < 4 := hi
    interval_cases i <;> decide
  · have : i < 2 := hi
    interval_cases i <;> decide

theorem lane_zero (w i : Nat) : lane w i 0 = 0 := by simp [lane]

theorem DenormalsAreZero_code_sem (env : Env) (code : BlockOfCode) (ctx : EmitContext)
    (fsize a b tmp : Nat) (hf : fsize = 32 ∨ fsize = 64) (h1 : b ≠ a) (h2 : tmp ≠ a)
    (h3 : tmp ≠ b) (m : Machine) :
    ∃ m1, execList env code (DenormalsAreZero.code fsize ctx [a, b] tmp) m = some m1 ∧
      (∀ i, i < 128 / fsize →
        lane fsize i (m1.xmm a) = dazLane env ctx fsize (lane fsize i (m.xmm a)) ∧
        lane fsize i (m1.xmm b) = dazLane env ctx fsize (lane fsize i (m.xmm b))) ∧
      (∀ r, r ≠ a → r ≠ b → r ≠ tmp → m1.xmm r = m.xmm r) ∧ m.sameButXmm m1 := by
  unfold DenormalsAreZero.code dazLane
  cases hftz : ctx.FPSCR_FTZ
  · exact ⟨m, rfl, fun i _ => ⟨rfl, rfl⟩, fun _ _ _ _ => rfl, m.sameButXmm_refl⟩
  · by_cases hrm : ctx.FPSCR_RMode ≠ .TowardsMinusInfinity
    · simp only [if_true, if_pos hrm]
      refine ⟨_, rfl, ?_, ?_, ⟨rfl, rfl, rfl, rfl, rfl, rfl, rfl⟩⟩
      · intro i hi
        simp only [Machine.setXmm, operand_xmm, sseSem, if_true, if_neg h1, if_neg h2,
          if_neg h3, if_neg (Ne.symm h1), if_neg (Ne.symm h2), if_neg (Ne.symm h3),
          lane_mapLanes2 _ _ _ _ _ hi, lane_NegativeZeroVector _ fsize i hf hi]
        exact ⟨trivial, trivial⟩
      · intro r hr1 hr2 hr3
        simp [Machine.setXmm, hr1, hr2, hr3]
    · simp only [if_true, if_neg hrm]
      refine ⟨_, rfl, ?_, ?_, ⟨rfl, rfl, rfl, rfl, rfl, rfl, rfl⟩⟩
      · intro i hi
        simp only [Machine.setXmm, operand_xmm, sseSem, if_true, if_neg h1, if_neg h2,
          if_neg h3, if_neg (Ne.symm h1), if_neg (Ne.symm h2), if_neg (Ne.symm h3),
          lane_mapLanes2 _ _ _ _ _ hi, Nat.xor_self, lane_zero]
        exact ⟨trivial, trivial⟩
      · intro r hr1 hr2 hr3
        simp [Machine.setXmm, hr1, hr2, hr3]

theorem MinMax.lambda_sem (env : Env) (code : BlockOfCode) (ctx : EmitContext) (isMax : Bool)
    (fsize result xmm_b n : Nat) (hf : fsize = 32 ∨ fsize = 64) (h1 : xmm_b ≠ result)
    (h2 : result < n) (h3 : xmm_b < n) (m : Machine) :
    ∃ m1, execList env code (MinMax.lambda isMax fsize code ctx result xmm_b n) m = some m1 ∧
      (∀ i, i < 128 / fsize → lane fsize i (m1.xmm result) =
        minmaxLane env isMax fsize (dazLane env ctx fsize (lane fsize i (m.xmm result)))
          (dazLane env ctx fsize (lane fsize i (m.xmm xmm_b)))) ∧
      (∀ r, r ≠ result → r ≠ n → r ≠ n + 1 → r ≠ n + 2 → m1.xmm r = m.xmm r) ∧
      m.sameButXmm m1 := by
  unfold MinMax.lambda
  cases hftz : ctx.FPSCR_FTZ
  · obtain ⟨m1, hm1, hl, hk, hs⟩ := MinMax.core_sem env code isMax (code.DoesCpuSupport .tAVX)
      fsize result xmm_b n (n + 1) hf h1 (by omega) (by omega) (by omega) (by omega) (by omega) m
    refine ⟨m1, by simpa using hm1, ?_, fun r hr1 hr2 hr3 _ => hk r hr1 hr2 hr3, hs⟩
    intro i hi
    simp [dazLane, hftz, hl i hi]
  · obtain ⟨m1, hm1, hl1, hk1, hs1⟩ := DenormalsAreZero_code_sem env code ctx fsize result
      (n + 2) n hf (by omega) (by omega) (by omega)
      (m.setXmm (n + 2) (m.xmm xmm_b))
    obtain ⟨m2, hm2, hl2, hk2, hs2⟩ := MinMax.core_sem env code isMax
      (code.DoesCpuSupport .tAVX) fsize result (n + 2) n (n + 1) hf (by omega) (by omega)
      (by omega) (by omega) (by omega) (by omega) m1
    refine ⟨m2, ?_, ?_, ?_, ?_⟩
    · have h0 : execList env code [Instr.sse .movaps (n + 2) (.xmm xmm_b)] m =
          some (m.setXmm (n + 2) (m.xmm xmm_b)) := rfl
      simp only [if_true]
      rw [execList_append, execList_append, h0, Option.some_bind, hm1, Option.some_bind]
      exact hm2
    · intro i hi
      rw [hl2 i hi, (hl1 i hi).1, (hl1 i hi).2]
      have hne : result ≠ n + 2 := by omega
      simp [Machine.setXmm, hne]
    · intro r hr1 hr2 hr3 hr4
      rw [hk2 r hr1 hr2 hr3, hk1 r hr1 hr4 hr2]
      simp [Machine.setXmm, hr4]
    · exact Machine.sameButXmm_trans
        (Machine.sameButXmm_trans ⟨rfl, rfl, rfl, rfl, rfl, rfl, rfl⟩ hs1) hs2

/-! ## The simple path -/

theorem runBlock_straight (env : Env) (code : BlockOfCode) (s : EmitState) (m : Machine)
    (hj : ∀ i ∈ s.near, i.isJump = false) :
    runBlock env code s m = execList env code s.near m :=
  run_straight env code s.near s.far _ s.near m hj (by omega)

theorem ForceToDefaultNaN_code_xmmOnly (fsize result nan_mask tmp : Nat) :
    ∀ i ∈ ForceToDefaultNaN.code fsize result nan_mask tmp, ∃ d, i.xmmDst = some d := by
  intro i hi
  simp only [ForceToDefaultNaN.code, List.mem_cons, List.mem_singleton, List.not_mem_nil,
    or_false] at hi
  rcases hi with rfl | rfl | rfl | rfl | rfl | rfl | rfl <;> exact ⟨_, rfl⟩

theorem force_sem (env : Env) (code : BlockOfCode) (fsize : Nat) (dn : Bool)
    (result nan_mask tmp : Nat) (hf : fsize = 32 ∨ fsize = 64) (h1 : nan_mask ≠ result)
    (h2 : tmp ≠ result) (h3 : tmp ≠ nan_mask) (m : Machine) :
    ∃ m1, execList env code
        (if dn then ForceToDefaultNaN.code fsize result nan_mask tmp else []) m = some m1 ∧
      (∀ i, i < 128 / fsize → lane fsize i (m1.xmm result) =
        if dn then forceLane fsize (lane fsize i (m.xmm result))
        else lane fsize i (m.xmm result)) ∧
      m1.calls = m.calls := by
  cases dn
  · exact ⟨m, rfl, fun _ _ => rfl, rfl⟩
  · obtain ⟨m1, hm1, hl, -, -, -, -, -, -, hc⟩ :=
      ForceToDefaultNaN_code_sem env code fsize result nan_mask tmp hf h1 h2 h3 m
    exact ⟨m1, hm1, fun i hi => by simpa using hl i hi, hc⟩

theorem force_no_jump (fsize : Nat) (dn : Bool) (result nan_mask tmp : Nat) :
    ∀ i ∈ (if dn then ForceToDefaultNaN.code fsize result nan_mask tmp else []),
      i.isJump = false := by
  intro i hi
  cases dn
  · simp at hi
  · obtain ⟨d, hd⟩ := ForceToDefaultNaN_code_xmmOnly fsize result nan_mask tmp i (by simpa using hi)
    exact xmmDst_not_jump i d hd

theorem EmitThreeOpVectorOperation_simple_run (env : Env) (code : BlockOfCode) (fsize : Nat)
    (ctx : EmitContext) (F : Nat → Nat → Nat → List Instr) (k : Nat) (nan_handler : Callee)
    (hf : fsize = 32 ∨ fsize = 64) (hs : (!ctx.AccurateNaN || ctx.FPSCR_DN) = true)
    (hF : ∀ i ∈ F 0 1 2, ∃ d, i.xmmDst = some d) (m : Machine) :
    ∃ mF m1,
      execList env code (F 0 1 2) ((m.setXmm 0 (m.args 0)).setXmm 1 (m.args 1)) = some mF ∧
      runBlock env code (EmitThreeOpVectorOperation.state fsize code ctx F k nan_handler) m =
        some m1 ∧
      m1.calls = m.calls ∧
      ∃ v, m1.defined = some v ∧ ∀ i, i < 128 / fsize → lane fsize i v =
        if ctx.FPSCR_DN then forceLane fsize (lane fsize i (mF.xmm 0))
        else lane fsize i (mF.xmm 0) := by
  obtain ⟨mF, hmF, hsF, -⟩ := execList_xmmOnly env code (F 0 1 2) hF
    ((m.setXmm 0 (m.args 0)).setXmm 1 (m.args 1))
  obtain ⟨mT, hmT, hlT, hcT⟩ := force_sem env code fsize ctx.FPSCR_DN 0 (2 + k) (3 + k) hf
    (by omega) (by omega) (by omega) mF
  refine ⟨mF, { mT with defined := some (mT.xmm 0 % 2 ^ 128) }, hmF, ?_, ?_, _, rfl, ?_⟩
  · rw [runBlock_straight]
    · simp only [EmitThreeOpVectorOperation.state, hs, if_true]
      have h0 : execList env code [Instr.UseScratchXmm 0 0, Instr.UseXmm 1 1] m =
          some ((m.setXmm 0 (m.args 0)).setXmm 1 (m.args 1)) := rfl
      rw [execList_append, execList_append, execList_append, h0, Option.some_bind, hmF,
        Option.some_bind, hmT, Option.some_bind]
      rfl
    · simp only [EmitThreeOpVectorOperation.state, hs, if_true]
      intro i hi
      simp only [List.mem_append, List.mem_cons, List.mem_singleton, List.not_mem_nil,
        or_false] at hi
      rcases hi with (((rfl | rfl) | hi) | hi) | rfl
      · rfl
      · rfl
      · obtain ⟨d, hd⟩ := hF i hi
        exact xmmDst_not_jump i d hd
      · exact force_no_jump fsize ctx.FPSCR_DN 0 (2 + k) (3 + k) i hi
      · rfl
  · show mT.calls = m.calls
    rw [hcT, hsF.2.2.2.2.2.2]
    rfl
  · intro i hi
    rw [lane_mod128 _ _ _ (lane_mul_le fsize i hi)]
    exact hlT i hi

theorem EmitTwoOpVectorOperation_simple_run (env : Env) (code : BlockOfCode) (fsize : Nat)
    (ctx : EmitContext) (F : Nat → Nat → List Instr) (nan_handler : Callee)
    (hf : fsize = 32 ∨ fsize = 64) (hs : (!ctx.AccurateNaN || ctx.FPSCR_DN) = true)
    (hF : ∀ i ∈ F 1 0, ∃ d, i.xmmDst = some d) (m : Machine) :
    ∃ mF m1,
      execList env code (F 1 0) (m.setXmm 0 (m.args 0)) = some mF ∧
      runBlock env code (EmitTwoOpVectorOperation.state fsize code ctx F nan_handler) m =
        some m1 ∧
      m1.calls = m.calls ∧
      ∃ v, m1.defined = some v ∧ ∀ i, i < 128 / fsize → lane fsize i v =
        if ctx.FPSCR_DN then forceLane fsize (lane fsize i (mF.xmm 1))
        else lane fsize i (mF.xmm 1) := by
  obtain ⟨mF, hmF, hsF, -⟩ := execList_xmmOnly env code (F 1 0) hF (m.setXmm 0 (m.args 0))
  obtain ⟨mT, hmT, hlT, hcT⟩ := force_sem env code fsize ctx.FPSCR_DN 1 2 3 hf
    (by omega) (by omega) (by omega) mF
  refine ⟨mF, { mT with defined := some (mT.xmm 1 % 2 ^ 128) }, hmF, ?_, ?_, _, rfl, ?_⟩
  · rw [runBlock_straight]
    · simp only [EmitTwoOpVectorOperation.state, hs, if_true]
      have h0 : execList env code [Instr.UseXmm 0 0] m = some (m.setXmm 0 (m.args 0)) := rfl
      rw [execList_append, execList_append, execList_append, h0, Option.some_bind, hmF,
        Option.some_bind, hmT, Option.some_bind]
      rfl
    · simp only [EmitTwoOpVectorOperation.state, hs, if_true]
      intro i hi
      simp only [List.mem_append, List.mem_cons, List.mem_singleton, List.not_mem_nil,
        or_false] at hi
      rcases hi with ((rfl | hi) | hi) | rfl
      · rfl
      · obtain ⟨d, hd⟩ := hF i hi
        exact xmmDst_not_jump i d hd
      · exact force_no_jump fsize ctx.FPSCR_DN 1 2 3 i hi
      · rfl
  · show mT.calls = m.calls
    rw [hcT, hsF.2.2.2.2.2.2]
    rfl
  · intro i hi
    rw [lane_mod128 _ _ _ (lane_mul_le fsize i hi)]
    exact hlT i hi

/-! ## The handler call of the far region -/

theorem toLanes_getElem? (fsize v i : Nat) (hi : i < 128 / fsize) :
    (toLanes fsize v)[i]? = some (lane fsize i v) := by
  simp [toLanes, hi]

theorem toLanes_length (fsize v : Nat) : (toLanes fsize v).length = 128 / fsize := by
  simp [toLanes]

theorem GetDefaultImpl_toLanes (fsize x a b : Nat) :
    ∃ r, GetDefaultImpl fsize .Default [toLanes fsize x, toLanes fsize a, toLanes fsize b] =
        some [r, toLanes fsize a, toLanes fsize b] ∧
      ∀ i, i < 128 / fsize →
        r.getD i 0 = handlerLane fsize [lane fsize i a, lane fsize i b] (lane fsize i x) := by
  have hix : ∀ i, i < (toLanes fsize x).length →
      Indexer.apply .Default i [toLanes fsize a, toLanes fsize b] =
        some [lane fsize i a, lane fsize i b] := by
    intro i hi
    rw [toLanes_length] at hi
    simp [Indexer.apply, DefaultIndexer, List.mapM, List.mapM.loop, toLanes_getElem? _ _ _ hi]
  obtain ⟨r, hr, -, hlt, -⟩ := GetDefaultImpl.loop_spec fsize .Default
    [toLanes fsize a, toLanes fsize b] (toLanes fsize x) (toLanes fsize x).length (le_refl _)
    (fun i hi => ⟨_, hix i hi⟩)
  refine ⟨r, by simp [GetDefaultImpl, hr], ?_⟩
  intro i hi
  have h := hlt i (by rw [toLanes_length]; exact hi) _ (hix i (by rw [toLanes_length]; exact hi))
  simp [List.getD_eq_getElem?_getD, h, toLanes_getElem? _ _ _ hi]

theorem quietBit_lt (fsize : Nat) (hf : fsize = 32 ∨ fsize = 64) : quietBit fsize < 2 ^ fsize := by
  rcases hf with rfl | rfl <;> decide

theorem handlerLane_lt (fsize a b r : Nat) (hf : fsize = 32 ∨ fsize = 64) (ha : a < 2 ^ fsize)
    (hb : b < 2 ^ fsize) (hr : r < 2 ^ fsize) : handlerLane fsize [a, b] r < 2 ^ fsize := by
  have hq := quietBit_lt fsize hf
  have hd := DefaultNaN_lt fsize hf
  unfold handlerLane ProcessNaNs
  simp only [List.find?_cons, List.find?_nil]
  cases IsSNaN fsize a <;> cases IsSNaN fsize b <;> cases IsQNaN fsize a <;>
    cases IsQNaN fsize b <;> cases IsNaN fsize r <;>
    simp [ha, hb, hr, hd, Nat.or_lt_two_pow, hq]

theorem handlerLane_of_not_nan (fsize a b r : Nat) (ha : IsNaN fsize a = false)
    (hb : IsNaN fsize b = false) (hr : IsNaN fsize r = false) :
    handlerLane fsize [a, b] r = r := by
  simp [handlerLane, ProcessNaNs, IsSNaN, IsQNaN, ha, hb, hr]

theorem IsNaN_boolMask (w : Nat) (hf : w = 32 ∨ w = 64) (c : Bool) :
    IsNaN w (boolMask w c) = c := by
  rcases hf with rfl | rfl <;> cases c <;> decide

theorem ofLanes_eq_zero_iff (w : Nat) (f : Nat → Nat) (n : Nat) :
    ofLanes w f n = 0 ↔ ∀ i, i < n → f i % 2 ^ w = 0 := by
  induction n with
  | zero => simp [ofLanes]
  | succ n ih =>
    simp only [ofLanes, Nat.add_eq_zero_iff, ih, Nat.shiftLeft_eq, Nat.mul_eq_zero]
    constructor
    · rintro ⟨h1, h2⟩ i hi
      rcases Nat.lt_succ_iff_lt_or_eq.mp hi with h | rfl
      · exact h1 i h
      · rcases h2 with h2 | h2
        · exact h2
        · exact absurd h2 (by positivity)
    · intro h
      exact ⟨fun i hi => h i (by omega), Or.inl (h n (by omega))⟩

theorem boolMask_eq_zero (w : Nat) (hw : 0 < w) (c : Bool) : boolMask w c = 0 ↔ c = false := by
  cases c
  · simp [boolMask]
  · have : 1 < 2 ^ w := Nat.one_lt_two_pow (by omega)
    simp [boolMask, ones]
    omega

theorem mapLanes2_boolMask_eq_zero (w : Nat) (hw : 0 < w) (g : Nat → Nat → Bool) (a b : Nat) :
    mapLanes2 w (fun x y => boolMask w (g x y)) a b = 0 ↔
      ∀ i, i < 128 / w → g (lane w i a) (lane w i b) = false := by
  unfold mapLanes2
  rw [ofLanes_eq_zero_iff]
  simp only [boolMask_mod, boolMask_eq_zero w hw]

theorem mapLanes2_lt (w : Nat) (hf : w = 32 ∨ w = 64) (g : Nat → Nat → Nat) (a b : Nat) :
    mapLanes2 w g a b < 2 ^ 128 := by
  have h := ofLanes_lt w (fun i => g (lane w i a) (lane w i b)) (128 / w)
  rcases hf with rfl | rfl <;> exact h

theorem lane32_of_lane64 (i v : Nat) : lane 32 i v = lane 32 (i % 2) (lane 64 (i / 2) v) := by
  apply Nat.eq_of_testBit_eq
  intro j
  simp only [lane, Nat.testBit_mod_two_pow, Nat.testBit_shiftRight]
  by_cases h : j < 32
  · have h1 : 32 * (i % 2) + j < 64 := by omega
    have h2 : 64 * (i / 2) + (32 * (i % 2) + j) = 32 * i + j := by omega
    simp [h, h1, h2]
  · simp [h]

theorem movmsk_boolMask_eq_zero (fsize : Nat) (hf : fsize = 32 ∨ fsize = 64)
    (g : Nat → Nat → Bool) (a b : Nat) :
    movmsk (mapLanes2 fsize (fun x y => boolMask fsize (g x y)) a b) = 0 ↔
      ∀ i, i < 128 / fsize → g (lane fsize i a) (lane fsize i b) = false := by
  unfold movmsk
  rw [ofLanes_eq_zero_iff]
  rcases hf with rfl | rfl
  · constructor
    · intro h i hi
      have h1 := h i hi
      rw [lane_mapLanes2 _ _ _ _ _ hi, boolMask_mod] at h1
      revert h1
      cases g (lane 32 i a) (lane 32 i b) <;> decide
    · intro h i hi
      rw [lane_mapLanes2 _ _ _ _ _ hi, boolMask_mod, h i hi]
      decide
  · constructor
    · intro h i hi
      have hi2 : i < 2 := hi
      have h1 := h (2 * i) (by omega)
      rw [lane32_of_lane64, lane_mapLanes2 _ _ _ _ _ (by omega : 2 * i / 2 < 128 / 64),
        boolMask_mod] at h1
      have e1 : 2 * i / 2 = i := by omega
      have e2 : 2 * i % 2 = 0 := by omega
      rw [e1, e2] at h1
      revert h1
      cases g (lane 64 i a) (lane 64 i b) <;> decide
    · intro h i hi
      have hi2 : i / 2 < 128 / 64 := by
        have : i < 4 := hi
        omega
      rw [lane32_of_lane64, lane_mapLanes2 _ _ _ _ _ hi2, boolMask_mod, h _ hi2]
      have : i % 2 = 0 ∨ i % 2 = 1 := by omega
      rcases this with e | e <;> rw [e] <;> decide

theorem HandleNaNs.far_eq (code : BlockOfCode) (h : Callee) :
    HandleNaNs.far code [0, 1, 2] h 0 =
      Instr.L 1 ::
        ([Instr.sub .rsp 8,
          Instr.ABI_PushCallerSaveRegistersAndAdjustStackExcept 0,
          Instr.sub .rsp (3 * 16 + ABI_SHADOW_SPACE code),
          Instr.movaps_store ⟨.rsp, ABI_SHADOW_SPACE code + 0 * 16⟩ 0,
          Instr.movaps_store ⟨.rsp, ABI_SHADOW_SPACE code + 1 * 16⟩ 1,
          Instr.movaps_store ⟨.rsp, ABI_SHADOW_SPACE code + 2 * 16⟩ 2,
          Instr.lea (.ABI_PARAM 1) ⟨.rsp, ABI_SHADOW_SPACE code + 0 * 16⟩,
          Instr.mov_FPCR (.ABI_PARAM 2)] ++
         Instr.CallFunction h ::
         [Instr.movaps_load 0 ⟨.rsp, ABI_SHADOW_SPACE code + 0 * 16⟩,
          Instr.add .rsp (3 * 16 + ABI_SHADOW_SPACE code),
          Instr.ABI_PopCallerSaveRegistersAndAdjustStackExcept 0,
          Instr.add .rsp 8]) ++ [Instr.jmp 0] := rfl

theorem HandleNaNs.spill_sem (env : Env) (code : BlockOfCode) (m : Machine) :
    ∃ mA g, execList env code
        [Instr.sub .rsp 8,
          Instr.ABI_PushCallerSaveRegistersAndAdjustStackExcept 0,
          Instr.sub .rsp (3 * 16 + ABI_SHADOW_SPACE code),
          Instr.movaps_store ⟨.rsp, ABI_SHADOW_SPACE code + 0 * 16⟩ 0,
          Instr.movaps_store ⟨.rsp, ABI_SHADOW_SPACE code + 1 * 16⟩ 1,
          Instr.movaps_store ⟨.rsp, ABI_SHADOW_SPACE code + 2 * 16⟩ 2,
          Instr.lea (.ABI_PARAM 1) ⟨.rsp, ABI_SHADOW_SPACE code + 0 * 16⟩,
          Instr.mov_FPCR (.ABI_PARAM 2)] m = some mA ∧
      mA.gpr (.ABI_PARAM 1) = mA.gpr .rsp + (ABI_SHADOW_SPACE code + 0 * 16) ∧
      mA.mem (mA.gpr (.ABI_PARAM 1) + 16 * ((0 : Nat) : Int)) = m.xmm 0 % 2 ^ 128 ∧
      mA.mem (mA.gpr (.ABI_PARAM 1) + 16 * ((1 : Nat) : Int)) = m.xmm 1 % 2 ^ 128 ∧
      mA.mem (mA.gpr (.ABI_PARAM 1) + 16 * ((2 : Nat) : Int)) = m.xmm 2 % 2 ^ 128 ∧
      mA.saved = (m.xmm, g) :: m.saved ∧ mA.calls = m.calls ∧ mA.defined = m.defined ∧
      mA.args = m.args := by
  refine ⟨_, _, rfl, ?_, ?_, ?_, ?_, rfl, rfl, rfl, rfl⟩
  · simp [Machine.setGpr, Machine.setMem, Machine.ea]
  · simp [Machine.setGpr, Machine.setMem, Machine.ea]
  · simp [Machine.setGpr, Machine.setMem, Machine.ea]
    split_ifs <;> first | rfl | omega
  · simp [Machine.setGpr, Machine.setMem, Machine.ea]
    intro h
    omega

theorem HandleNaNs.call_sem (env : Env) (code : BlockOfCode) (fsize : Nat) (mA : Machine)
    (x0 x1 x2 : Nat)
    (h0 : mA.mem (mA.gpr (.ABI_PARAM 1) + 16 * ((0 : Nat) : Int)) = x0)
    (h1 : mA.mem (mA.gpr (.ABI_PARAM 1) + 16 * ((1 : Nat) : Int)) = x1)
    (h2 : mA.mem (mA.gpr (.ABI_PARAM 1) + 16 * ((2 : Nat) : Int)) = x2) :
    ∃ r mem, step env code (.CallFunction (.NaNHandler fsize .Default 3)) mA =
        some { mA with
          mem := mem
          xmm := env.clobberXmm
          gpr := fun r => if r = .rsp ∨ r = .r15 then mA.gpr r else env.clobberGpr r
          calls := mA.calls ++ [.NaNHandler fsize .Default 3] } ∧
      mem (mA.gpr (.ABI_PARAM 1)) = fromLanes fsize r ∧
      ∀ i, i < 128 / fsize →
        r.getD i 0 = handlerLane fsize [lane fsize i x1, lane fsize i x2] (lane fsize i x0) := by
  obtain ⟨r, hr, hl⟩ := GetDefaultImpl_toLanes fsize x0 x1 x2
  have hp : abiParam code mA 1 = mA.gpr (.ABI_PARAM 1) := by simp [abiParam]
  have hrange : List.range 3 = [0, 1, 2] := rfl
  refine ⟨r, storeArrays fsize (mA.gpr (.ABI_PARAM 1))
    [r, toLanes fsize x1, toLanes fsize x2] 0 mA.mem, ?_, ?_, hl⟩
  · simp only [step, callMem, hp, hrange, List.map, h0, h1, h2, hr, Option.map_some']
  · simp only [storeArrays]
    split_ifs <;> first | rfl | omega

theorem HandleNaNs.reload_sem (env : Env) (code : BlockOfCode) (mC : Machine) (x : Nat → Nat)
    (g : Gpr → Int) (rest : List ((Nat → Nat) × (Gpr → Int))) (hs : mC.saved = (x, g) :: rest) :
    ∃ m1, execList env code
        [Instr.movaps_load 0 ⟨.rsp, ABI_SHADOW_SPACE code + 0 * 16⟩,
          Instr.add .rsp (3 * 16 + ABI_SHADOW_SPACE code),
          Instr.ABI_PopCallerSaveRegistersAndAdjustStackExcept 0,
          Instr.add .rsp 8] mC = some m1 ∧
      m1.xmm 0 = mC.mem (mC.gpr .rsp + (ABI_SHADOW_SPACE code + 0 * 16)) ∧
      (∀ r, r ≠ 0 → m1.xmm r = x r) ∧ m1.calls = mC.calls ∧ m1.defined = mC.defined ∧
      m1.args = mC.args ∧ m1.saved = rest := by
  simp only [execList, step, Machine.setXmm, Machine.setGpr, hs, Option.some_bind,
    Option.bind_eq_bind]
  refine ⟨_, rfl, ?_, ?_, rfl, rfl, rfl, rfl⟩
  · simp [Machine.ea]
  · intro r hr
    simp [hr]

theorem HandleNaNs.body_sem (env : Env) (code : BlockOfCode) (fsize : Nat)
    (hf : fsize = 32 ∨ fsize = 64) (m : Machine) :
    ∃ m1, execList env code
        ([Instr.sub .rsp 8,
          Instr.ABI_PushCallerSaveRegistersAndAdjustStackExcept 0,
          Instr.sub .rsp (3 * 16 + ABI_SHADOW_SPACE code),
          Instr.movaps_store ⟨.rsp, ABI_SHADOW_SPACE code + 0 * 16⟩ 0,
          Instr.movaps_store ⟨.rsp, ABI_SHADOW_SPACE code + 1 * 16⟩ 1,
          Instr.movaps_store ⟨.rsp, ABI_SHADOW_SPACE code + 2 * 16⟩ 2,
          Instr.lea (.ABI_PARAM 1) ⟨.rsp, ABI_SHADOW_SPACE code + 0 * 16⟩,
          Instr.mov_FPCR (.ABI_PARAM 2)] ++
         Instr.CallFunction (.NaNHandler fsize .Default 3) ::
         [Instr.movaps_load 0 ⟨.rsp, ABI_SHADOW_SPACE code + 0 * 16⟩,
          Instr.add .rsp (3 * 16 + ABI_SHADOW_SPACE code),
          Instr.ABI_PopCallerSaveRegistersAndAdjustStackExcept 0,
          Instr.add .rsp 8]) m = some m1 ∧
      (∀ i, i < 128 / fsize → lane fsize i (m1.xmm 0) =
        handlerLane fsize [lane fsize i (m.xmm 1), lane fsize i (m.xmm 2)]
          (lane fsize i (m.xmm 0))) ∧
      (∀ r, r ≠ 0 → m1.xmm r = m.xmm r) ∧
      m1.calls = m.calls ++ [.NaNHandler fsize .Default 3] ∧ m1.defined = m.defined ∧
      m1.args = m.args ∧ m1.saved = m.saved := by
  obtain ⟨mA, g, hA, hp, hm0, hm1, hm2, hsv, hcl, hdf, harg⟩ := HandleNaNs.spill_sem env code m
  obtain ⟨r, mem, hC, hmem, hl⟩ := HandleNaNs.call_sem env code fsize mA _ _ _ hm0 hm1 hm2
  obtain ⟨m1, hB, hx0, hxr, hcl1, hdf1, harg1, hsv1⟩ := HandleNaNs.reload_sem env code
    { mA with
      mem := mem
      xmm := env.clobberXmm
      gpr := fun r => if r = .rsp ∨ r = .r15 then mA.gpr r else env.clobberGpr r
      calls := mA.calls ++ [.NaNHandler fsize .Default 3] } m.xmm g m.saved hsv
  refine ⟨m1, ?_, ?_, hxr, ?_, ?_, ?_, hsv1⟩
  · rw [execList_append, hA, Option.some_bind]
    simp only [execList, hC, Option.some_bind]
    exact hB
  · intro i hi
    have hle := lane_mul_le fsize i hi
    rw [hx0]
    simp only [if_true, true_or]
    rw [← hp, hmem]
    unfold fromLanes
    rw [lane_ofLanes _ _ _ _ hi, hl i hi, lane_mod128 _ _ _ hle, lane_mod128 _ _ _ hle,
      lane_mod128 _ _ _ hle]
    exact Nat.mod_eq_of_lt (handlerLane_lt fsize _ _ _ hf (lane_lt _ _ _) (lane_lt _ _ _)
      (lane_lt _ _ _))
  · rw [hcl1]
    show mA.calls ++ _ = _
    rw [hcl]
  · rw [hdf1]
    exact hdf
  · rw [harg1]
    exact harg

/-! ## The accurate path -/

theorem HandleNaNs.test_sem (env : Env) (code : BlockOfCode) (fsize : Nat)
    (hf : fsize = 32 ∨ fsize = 64) (g : Nat → Nat → Bool) (a b : Nat) (m : Machine)
    (hM : m.xmm 3 = mapLanes2 fsize (fun x y => boolMask fsize (g x y)) a b) :
    ∃ m1, execList env code
        (if code.DoesCpuSupport .tSSE41 then [Instr.ptest 3 3]
         else [Instr.movmskps (.scratch 0) 3, Instr.cmp (.scratch 0) 0]) m = some m1 ∧
      (m1.zf = true ↔ ∀ i, i < 128 / fsize → g (lane fsize i a) (lane fsize i b) = false) ∧
      m1.xmm = m.xmm ∧ m1.calls = m.calls ∧ m1.defined = m.defined ∧ m1.args = m.args ∧
      m1.saved = m.saved := by
  have hw : 0 < fsize := by rcases hf with rfl | rfl <;> decide
  cases code.DoesCpuSupport .tSSE41
  · refine ⟨_, rfl, ?_, rfl, rfl, rfl, rfl, rfl⟩
    simp only [Machine.setGpr, if_true, hM, decide_eq_true_eq]
    rw [← movmsk_boolMask_eq_zero fsize hf g a b]
    exact Int.natCast_eq_zero
  · refine ⟨_, rfl, ?_, rfl, rfl, rfl, rfl, rfl⟩
    simp only [hM, Nat.and_self, decide_eq_true_eq,
      Nat.mod_eq_of_lt (mapLanes2_lt fsize hf _ a b)]
    exact mapLanes2_boolMask_eq_zero fsize hw g a b

theorem run_handler_tail (env : Env) (code : BlockOfCode) (near far body : List Instr)
    (m mB : Machine) (hfar : far = Instr.L 1 :: body ++ [Instr.jmp 0])
    (hn1 : afterLabel 1 near = none) (hn0 : afterLabel 0 near = some [Instr.DefineValue 0])
    (hb : ∀ i ∈ body, i.isJump = false) (hB : execList env code body m = some mB) :
    run env code near far (far.length + 4) false
        [Instr.jnz 1, Instr.L 0, Instr.DefineValue 0] m =
      some (if m.zf then { m with defined := some (m.xmm 0 % 2 ^ 128) }
        else { mB with defined := some (mB.xmm 0 % 2 ^ 128) }) := by
  cases hz : m.zf
  · have e : far.length + 4 = (5 + body.length) + 1 := by
      rw [hfar]
      simp
      omega
    have hf1 : afterLabel 1 far = some (body ++ [Instr.jmp 0]) := by
      rw [hfar]
      simp [afterLabel]
    rw [e]
    simp only [run, hz, hn1, hf1, Bool.false_eq_true, if_false]
    rw [run_append _ _ _ _ 5 true body [Instr.jmp 0] m hb, hB, Option.some_bind]
    simp [run, hn0, step]
  · simp [run, hz, step]

theorem EmitThreeOpVectorOperation.accurate_run (env : Env) (code : BlockOfCode) (fsize : Nat)
    (ctx : EmitContext) (F : Nat → Nat → Nat → List Instr) (k : Nat)
    (hf : fsize = 32 ∨ fsize = 64) (hacc : (!ctx.AccurateNaN || ctx.FPSCR_DN) = false)
    (hF : ∀ i ∈ F 0 2 4, ∃ d, i.xmmDst = some d ∧ d ≠ 1 ∧ d ≠ 2 ∧ d ≠ 3) (m : Machine) :
    ∃ m0 mF m1, m0.xmm 0 = m.args 0 ∧ m0.xmm 2 = m.args 1 ∧
      execList env code (F 0 2 4) m0 = some mF ∧
      runBlock env code (EmitThreeOpVectorOperation.state fsize code ctx F k
        (NaNHandler.GetDefault fsize .Default 3)) m = some m1 ∧
      ((∀ i, i < 128 / fsize →
          ((IsNaN fsize (lane fsize i (m.args 1)) || IsNaN fsize (lane fsize i (m.args 0))) ||
            IsNaN fsize (lane fsize i (mF.xmm 0))) = false) →
        m1.calls = m.calls) ∧
      (¬(∀ i, i < 128 / fsize →
          ((IsNaN fsize (lane fsize i (m.args 1)) || IsNaN fsize (lane fsize i (m.args 0))) ||
            IsNaN fsize (lane fsize i (mF.xmm 0))) = false) →
        m1.calls = m.calls ++ [NaNHandler.GetDefault fsize .Default 3]) ∧
      ∃ v, m1.defined = some v ∧ ∀ i, i < 128 / fsize → lane fsize i v =
        handlerLane fsize [lane fsize i (m.args 0), lane fsize i (m.args 1)]
          (lane fsize i (mF.xmm 0)) := by
  -- the prologue
  obtain ⟨m0, hpre, h00, h02, h01, h03, hc0⟩ : ∃ m0, execList env code
      [Instr.UseXmm 1 0, Instr.UseXmm 2 1, Instr.sse .movaps 3 (.xmm 2),
        Instr.sse .movaps 0 (.xmm 1), Instr.sse (.cmpunordp fsize) 3 (.xmm 1)] m = some m0 ∧
      m0.xmm 0 = m.args 0 ∧ m0.xmm 2 = m.args 1 ∧ m0.xmm 1 = m.args 0 ∧
      m0.xmm 3 = mapLanes2 fsize (fun x y => boolMask fsize (IsNaN fsize x || IsNaN fsize y))
        (m.args 1) (m.args 0) ∧ m0.calls = m.calls :=
    ⟨_, rfl, by simp [Machine.setXmm, sseSem, Machine.operand],
      by simp [Machine.setXmm, sseSem, Machine.operand],
      by simp [Machine.setXmm, sseSem, Machine.operand],
      by simp [Machine.setXmm, sseSem, Machine.operand], rfl⟩
  -- the host operation
  obtain ⟨mF, hmF, hsF, hkF⟩ := execList_xmmOnly env code (F 0 2 4)
    (fun i hi => (hF i hi).imp (fun d h => h.1)) m0
  have hkeep : ∀ r, r = 1 ∨ r = 2 ∨ r = 3 → mF.xmm r = m0.xmm r := by
    intro r hr
    apply hkF
    intro i hi
    obtain ⟨d, hd, h1, h2, h3⟩ := hF i hi
    rw [hd]
    intro hc
    cases hc
    rcases hr with rfl | rfl | rfl
    · exact h1 rfl
    · exact h2 rfl
    · exact h3 rfl
  -- the mask and its test
  have hmask : (mF.setXmm 3 (sseSem env (.cmpunordp fsize) (mF.xmm 3) (mF.xmm 0))).xmm 3 =
      mapLanes2 fsize (fun x y => boolMask fsize
        (IsNaN fsize x || IsNaN fsize y))
        (mapLanes2 fsize (fun x y => boolMask fsize (IsNaN fsize x || IsNaN fsize y))
          (m.args 1) (m.args 0)) (mF.xmm 0) := by
    simp [Machine.setXmm, sseSem, hkeep 3 (by simp), h03]
  obtain ⟨m4, hm4, hz4, hx4, hc4, hd4, ha4, hs4⟩ := HandleNaNs.test_sem env code fsize hf _ _ _
    (mF.setXmm 3 (sseSem env (.cmpunordp fsize) (mF.xmm 3) (mF.xmm 0))) hmask
  have hzero : m4.zf = true ↔ ∀ i, i < 128 / fsize →
      ((IsNaN fsize (lane fsize i (m.args 1)) || IsNaN fsize (lane fsize i (m.args 0))) ||
        IsNaN fsize (lane fsize i (mF.xmm 0))) = false := by
    rw [hz4]
    constructor
    · intro h i hi
      have := h i hi
      rwa [lane_mapLanes2 _ _ _ _ _ hi, boolMask_mod, IsNaN_boolMask _ hf] at this
    · intro h i hi
      rw [lane_mapLanes2 _ _ _ _ _ hi, boolMask_mod, IsNaN_boolMask _ hf]
      exact h i hi
  -- the far region
  obtain ⟨mB, hmB, hlB, -, hcB, -, -, -⟩ := HandleNaNs.body_sem env code fsize hf m4
  have hx40 : m4.xmm 0 = mF.xmm 0 := by
    rw [hx4]
    simp [Machine.setXmm]
  have hx41 : m4.xmm 1 = m.args 0 := by
    rw [hx4]
    simp [Machine.setXmm, hkeep 1 (by simp), h01]
  have hx42 : m4.xmm 2 = m.args 1 := by
    rw [hx4]
    simp [Machine.setXmm, hkeep 2 (by simp), h02]
  have hcalls4 : m4.calls = m.calls := by
    rw [hc4]
    show mF.calls = m.calls
    rw [hsF.2.2.2.2.2.2, hc0]
  -- the block
  have hstate : EmitThreeOpVectorOperation.state fsize code ctx F k
      (NaNHandler.GetDefault fsize .Default 3) =
      { near := ([Instr.UseXmm 1 0, Instr.UseXmm 2 1, Instr.sse .movaps 3 (.xmm 2),
            Instr.sse .movaps 0 (.xmm 1), Instr.sse (.cmpunordp fsize) 3 (.xmm 1)]
          ++ F 0 2 4 ++ [Instr.sse (.cmpunordp fsize) 3 (.xmm 0)]
          ++ (if code.DoesCpuSupport .tSSE41 then [Instr.ptest 3 3]
              else [Instr.movmskps (.scratch 0) 3, Instr.cmp (.scratch 0) 0]))
          ++ [Instr.jnz 1, Instr.L 0, Instr.DefineValue 0],
        far := HandleNaNs.far code [0, 1, 2] (.NaNHandler fsize .Default 3) 0,
        switches := [true, false],
        nextXmm := 4 + k,
        nextGpr := if code.DoesCpuSupport .tSSE41 then 0 else 1,
        nextLabel := 2 } := by
    simp [EmitThreeOpVectorOperation.state, hacc, HandleNaNs.near, NaNHandler.GetDefault]
  have hFl : ∀ l, Instr.L l ∉ F 0 2 4 :=
    fun l => xmmOnly_no_label l _ (fun i hi => (hF i hi).imp (fun d h => h.1))
  have hFj : ∀ i ∈ F 0 2 4, i.isJump = false := by
    intro i hi
    obtain ⟨d, hd, -⟩ := hF i hi
    exact xmmDst_not_jump i d hd
  have hSj : ∀ i ∈ ([Instr.UseXmm 1 0, Instr.UseXmm 2 1, Instr.sse .movaps 3 (.xmm 2),
            Instr.sse .movaps 0 (.xmm 1), Instr.sse (.cmpunordp fsize) 3 (.xmm 1)]
          ++ F 0 2 4 ++ [Instr.sse (.cmpunordp fsize) 3 (.xmm 0)]
          ++ (if code.DoesCpuSupport .tSSE41 then [Instr.ptest 3 3]
              else [Instr.movmskps (.scratch 0) 3, Instr.cmp (.scratch 0) 0])),
      i.isJump = false ∧ (∀ l, i ≠ Instr.L l) := by
    intro i hi
    simp only [List.mem_append, List.mem_cons, List.mem_singleton, List.not_mem_nil,
      or_false] at hi
    rcases hi with ((hi | hi) | rfl) | hi
    · rcases hi with rfl | rfl | rfl | rfl | rfl <;> exact ⟨rfl, fun l h => by cases h⟩
    · exact ⟨hFj i hi, fun l h => hFl l (h ▸ hi)⟩
    · exact ⟨rfl, fun l h => by cases h⟩
    · cases hs : code.DoesCpuSupport .tSSE41
      · simp [hs] at hi
        rcases hi with rfl | rfl <;> exact ⟨rfl, fun l h => by cases h⟩
      · simp [hs] at hi
        subst hi
        exact ⟨rfl, fun l h => by cases h⟩
  have hS : execList env code ([Instr.UseXmm 1 0, Instr.UseXmm 2 1, Instr.sse .movaps 3 (.xmm 2),
            Instr.sse .movaps 0 (.xmm 1), Instr.sse (.cmpunordp fsize) 3 (.xmm 1)]
          ++ F 0 2 4 ++ [Instr.sse (.cmpunordp fsize) 3 (.xmm 0)]
          ++ (if code.DoesCpuSupport .tSSE41 then [Instr.ptest 3 3]
              else [Instr.movmskps (.scratch 0) 3, Instr.cmp (.scratch 0) 0])) m = some m4 := by
    rw [execList_append, execList_append, execList_append, hpre, Option.some_bind, hmF,
      Option.some_bind]
    exact hm4
  have hrun : runBlock env code (EmitThreeOpVectorOperation.state fsize code ctx F k
      (NaNHandler.GetDefault fsize .Default 3)) m =
      some (if m4.zf then { m4 with defined := some (m4.xmm 0 % 2 ^ 128) }
        else { mB with defined := some (mB.xmm 0 % 2 ^ 128) }) := by
    rw [hstate]
    unfold runBlock
    simp only []
    have hlen : ∀ (S : List Instr) (far : List Instr),
        (S ++ [Instr.jnz 1, Instr.L 0, Instr.DefineValue 0]).length + far.length + 1 =
          far.length + 4 + S.length := by
      intro S far
      simp
      omega
    rw [hlen, run_append _ _ _ _ _ _ _ _ _ (fun i hi => (hSj i hi).1), hS, Option.some_bind]
    apply run_handler_tail env code _ _ _ m4 mB (HandleNaNs.far_eq code _)
    · apply afterLabel_eq_none
      rw [List.mem_append]
      rintro (h | h)
      · exact (hSj _ h).2 1 rfl
      · simp at h
    · rw [afterLabel_append_of_not_mem _ _ _ (fun h => (hSj _ h).2 0 rfl)]
      simp [afterLabel]
    · intro i hi
      simp only [List.mem_append, List.mem_cons, List.mem_singleton, List.not_mem_nil,
        or_false] at hi
      rcases hi with (rfl | rfl | rfl | rfl | rfl | rfl | rfl | rfl) |
        rfl | rfl | rfl | rfl | rfl <;> rfl
    · exact hmB
  refine ⟨m0, mF, _, h00, h02, hmF, hrun, ?_, ?_, ?_⟩
  · intro h
    rw [if_pos (hzero.mpr h)]
    exact hcalls4
  · intro h
    have hz : ¬ m4.zf = true := fun hc => h (hzero.mp hc)
    rw [if_neg hz]
    show mB.calls = _
    rw [hcB, hcalls4]
    rfl
  · by_cases hz : m4.zf = true
    · refine ⟨_, by rw [if_pos hz], ?_⟩
      intro i hi
      have hn := hzero.mp hz i hi
      simp only [Bool.or_eq_false_iff] at hn
      rw [lane_mod128 _ _ _ (lane_mul_le fsize i hi), hx40,
        handlerLane_of_not_nan _ _ _ _ hn.1.2 hn.1.1 hn.2]
    · refine ⟨_, by rw [if_neg hz], ?_⟩
      intro i hi
      rw [lane_mod128 _ _ _ (lane_mul_le fsize i hi), hlB i hi, hx40, hx41, hx42]

/-! ## Max and Min: the whole block -/

theorem DenormalsAreZero_code_xmmOnly (fsize : Nat) (ctx : EmitContext) (a b tmp : Nat) :
    ∀ i ∈ DenormalsAreZero.code fsize ctx [a, b] tmp,
      ∃ d, i.xmmDst = some d ∧ (d = a ∨ d = b ∨ d = tmp) := by
  intro i hi
  unfold DenormalsAreZero.code at hi
  cases hftz : ctx.FPSCR_FTZ
  · simp [hftz] at hi
  · by_cases hrm : ctx.FPSCR_RMode ≠ .TowardsMinusInfinity
    · simp only [hftz, if_true, if_pos hrm, List.map, List.mem_append, List.mem_cons,
        List.mem_singleton, List.not_mem_nil, or_false] at hi
      rcases hi with rfl | rfl | rfl <;> simp [Instr.xmmDst]
    · simp only [hftz, if_true, if_neg hrm, List.map, List.mem_append, List.mem_cons,
        List.mem_singleton, List.not_mem_nil, or_false] at hi
      rcases hi with rfl | rfl | rfl <;> simp [Instr.xmmDst]

theorem MinMax.core_xmmOnly (isMax avx : Bool) (fsize result xmm_b mask comb : Nat) :
    ∀ i ∈ MinMax.core isMax avx fsize result xmm_b mask comb,
      ∃ d, i.xmmDst = some d ∧ (d = result ∨ d = mask ∨ d = comb) := by
  intro i hi
  cases avx <;> cases isMax <;>
    simp only [MinMax.core, if_true, Bool.false_eq_true, if_false, List.mem_cons,
      List.mem_singleton, List.not_mem_nil, or_false] at hi
  all_goals rcases hi with rfl | rfl | rfl | rfl | rfl | rfl | rfl | rfl
  all_goals simp [Instr.xmmDst]

theorem MinMax.coreDN_xmmOnly (isMax avx : Bool) (fsize result xmm_b mask comb nan_mask : Nat) :
    ∀ i ∈ MinMax.coreDN isMax avx fsize result xmm_b mask comb nan_mask,
      ∃ d, i.xmmDst = some d := by
  intro i hi
  cases avx <;> cases isMax <;>
    simp only [MinMax.coreDN, if_true, Bool.false_eq_true, if_false, List.mem_cons,
      List.mem_singleton, List.not_mem_nil, or_false] at hi
  all_goals
    rcases hi with rfl | rfl | rfl | rfl | rfl | rfl | rfl | rfl | rfl | rfl | rfl | rfl | rfl
  all_goals simp [Instr.xmmDst]

theorem MinMax.lambda_xmmOnly (isMax : Bool) (fsize : Nat) (code : BlockOfCode)
    (ctx : EmitContext) (result xmm_b n : Nat) :
    ∀ i ∈ MinMax.lambda isMax fsize code ctx result xmm_b n,
      ∃ d, i.xmmDst = some d ∧ (d = result ∨ n ≤ d) := by
  intro i hi
  unfold MinMax.lambda at hi
  cases hftz : ctx.FPSCR_FTZ
  · simp only [hftz, Bool.false_eq_true, if_false] at hi
    obtain ⟨d, hd, h⟩ := MinMax.core_xmmOnly _ _ _ _ _ _ _ i hi
    exact ⟨d, hd, by omega⟩
  · simp only [hftz, if_true, List.mem_append, List.mem_singleton] at hi
    rcases hi with (rfl | hi) | hi
    · exact ⟨n + 2, rfl, by omega⟩
    · obtain ⟨d, hd, h⟩ := DenormalsAreZero_code_xmmOnly _ _ _ _ _ i hi
      exact ⟨d, hd, by omega⟩
    · obtain ⟨d, hd, h⟩ := MinMax.core_xmmOnly _ _ _ _ _ _ _ i hi
      exact ⟨d, hd, by omega⟩

theorem MinMax.state_run (env : Env) (code : BlockOfCode) (ctx : EmitContext) (isMax : Bool)
    (fsize : Nat) (hf : fsize = 32 ∨ fsize = 64) (m : Machine) :
    ∃ m1 v, runBlock env code (MinMax.state isMax fsize code ctx) m = some m1 ∧
      m1.defined = some v ∧
      ∀ i, i < 128 / fsize → lane fsize i v =
        MinMax.resultLane env ctx isMax fsize (lane fsize i (m.args 0))
          (lane fsize i (m.args 1)) := by
  unfold MinMax.state MinMax.resultLane
  cases hdn : ctx.FPSCR_DN
  · simp only [Bool.false_eq_true, if_false]
    cases hacc : ctx.AccurateNaN
    · -- the simple path
      have hs : (!ctx.AccurateNaN || ctx.FPSCR_DN) = true := by simp [hacc]
      obtain ⟨mF, m1, hmF, hrun, -, v, hv, hl⟩ := EmitThreeOpVectorOperation_simple_run env code
        fsize ctx (MinMax.lambda isMax fsize code ctx) (if ctx.FPSCR_FTZ then 3 else 2)
        (NaNHandler.GetDefault fsize .Default 3) hf hs
        (fun i hi => (MinMax.lambda_xmmOnly _ _ _ _ _ _ _ i hi).imp (fun d h => h.1)) m
      obtain ⟨m2, hm2, hl2, -, -⟩ := MinMax.lambda_sem env code ctx isMax fsize 0 1 2 hf
        (by omega) (by omega) (by omega) ((m.setXmm 0 (m.args 0)).setXmm 1 (m.args 1))
      rw [hmF] at hm2
      cases hm2
      refine ⟨m1, v, hrun, hv, ?_⟩
      intro i hi
      rw [hl i hi, hl2 i hi]
      simp [hdn, Machine.setXmm]
    · -- the accurate path
      have hs : (!ctx.AccurateNaN || ctx.FPSCR_DN) = false := by simp [hacc, hdn]
      obtain ⟨m0, mF, m1, h00, h02, hmF, hrun, -, -, v, hv, hl⟩ :=
        EmitThreeOpVectorOperation.accurate_run env code fsize ctx
          (MinMax.lambda isMax fsize code ctx) (if ctx.FPSCR_FTZ then 3 else 2) hf hs
          (fun i hi => by
            obtain ⟨d, hd, h⟩ := MinMax.lambda_xmmOnly _ _ _ _ _ _ _ i hi
            exact ⟨d, hd, by omega, by omega, by omega⟩) m
      obtain ⟨m2, hm2, hl2, -, -⟩ := MinMax.lambda_sem env code ctx isMax fsize 0 2 4 hf
        (by omega) (by omega) (by omega) m0
      rw [hmF] at hm2
      cases hm2
      refine ⟨m1, v, hrun, hv, ?_⟩
      intro i hi
      rw [hl i hi, hl2 i hi, h00, h02]
      simp
  · simp only [if_true]
    obtain ⟨m1, hm1, hl1, -, -⟩ := DenormalsAreZero_code_sem env code ctx fsize 0 1 2 hf
      (by omega) (by omega) (by omega) ((m.setXmm 0 (m.args 0)).setXmm 1 (m.args 1))
    obtain ⟨m2, hm2, hl2, -, -⟩ := MinMax.coreDN_sem env code isMax (code.DoesCpuSupport .tAVX)
      fsize 0 1 2 3 4 hf (by omega) (by omega) (by omega) (by omega) (by omega) (by omega)
      (by omega) (by omega) (by omega) (by omega) m1
    refine ⟨{ m2 with defined := some (m2.xmm 0 % 2 ^ 128) }, _, ?_, rfl, ?_⟩
    · rw [runBlock_straight]
      · have h0 : execList env code
            [if ctx.FPSCR_FTZ then Instr.UseScratchXmm 0 0 else Instr.UseScratchXmm 0 0,
              if ctx.FPSCR_FTZ then Instr.UseScratchXmm 1 1 else Instr.UseXmm 1 1] m =
            some ((m.setXmm 0 (m.args 0)).setXmm 1 (m.args 1)) := by
          cases ctx.FPSCR_FTZ <;> rfl
        simp only []
        rw [execList_append, execList_append, execList_append, h0, Option.some_bind, hm1,
          Option.some_bind, hm2, Option.some_bind]
        rfl
      · intro i hi
        simp only [List.mem_append, List.mem_cons, List.mem_singleton, List.not_mem_nil,
          or_false] at hi
        rcases hi with (((rfl | rfl) | hi) | hi) | rfl
        · cases ctx.FPSCR_FTZ <;> rfl
        · cases ctx.FPSCR_FTZ <;> rfl
        · obtain ⟨d, hd, -⟩ := DenormalsAreZero_code_xmmOnly _ _ _ _ _ i hi
          exact xmmDst_not_jump i d hd
        · obtain ⟨d, hd⟩ := MinMax.coreDN_xmmOnly _ _ _ _ _ _ _ _ i hi
          exact xmmDst_not_jump i d hd
        · rfl
    · intro i hi
      rw [lane_mod128 _ _ _ (lane_mul_le fsize i hi), hl2 i hi, (hl1 i hi).1, (hl1 i hi).2]
      simp [Machine.setXmm]

theorem MinMax_emitted_eq (isMax : Bool) (fsize : Nat) (hf : fsize = 32 ∨ fsize = 64)
    (code : BlockOfCode) (ctx : EmitContext) :
    emitted (if isMax then EmitFPVectorMax fsize code ctx else EmitFPVectorMin fsize code ctx) =
      .ok (MinMax.state isMax fsize code ctx) := by
  cases isMax
  · exact MinMax.emitted_min fsize hf code ctx
  · exact MinMax.emitted_max fsize hf code ctx

theorem MinMax.resultLane_zeros (env : Env) (ctx : EmitContext) (isMax : Bool) (fsize a b : Nat)
    (hf : fsize = 32 ∨ fsize = 64)
    (hhost : ctx.FPSCR_FTZ = true → ∀ x, x = 0 ∨ x = 2 ^ (fsize - 1) →
      env.addp fsize x
        (if ctx.FPSCR_RMode ≠ .TowardsMinusInfinity then 2 ^ (fsize - 1) else 0) % 2 ^ fsize = x)
    (hz : (a = 0 ∧ b = 2 ^ (fsize - 1)) ∨ (a = 2 ^ (fsize - 1) ∧ b = 0)) :
    MinMax.resultLane env ctx isMax fsize a b = if isMax then 0 else 2 ^ (fsize - 1) := by
  have hdaz : ∀ x, x = 0 ∨ x = 2 ^ (fsize - 1) → dazLane env ctx fsize x = x := by
    intro x hx
    unfold dazLane
    cases hftz : ctx.FPSCR_FTZ
    · rfl
    · simp only [if_true]
      exact hhost hftz x hx
  have hn0 : IsNaN fsize 0 = false := by rcases hf with rfl | rfl <;> decide
  have hn1 : IsNaN fsize (2 ^ (fsize - 1)) = false := by rcases hf with rfl | rfl <;> decide
  have he0 : fpEq fsize 0 (2 ^ (fsize - 1)) = true := by rcases hf with rfl | rfl <;> decide
  have he1 : fpEq fsize (2 ^ (fsize - 1)) 0 = true := by rcases hf with rfl | rfl <;> decide
  have hmm : minmaxLane env isMax fsize a b = if isMax then 0 else 2 ^ (fsize - 1) := by
    unfold minmaxLane
    rcases hz with ⟨rfl, rfl⟩ | ⟨rfl, rfl⟩
    · rw [if_pos he0]
      cases isMax <;> simp
    · rw [if_pos he1]
      cases isMax <;> simp
  have hna : IsNaN fsize a = false := by
    rcases hz with ⟨rfl, rfl⟩ | ⟨rfl, rfl⟩ <;> assumption
  have hnb : IsNaN fsize b = false := by
    rcases hz with ⟨rfl, rfl⟩ | ⟨rfl, rfl⟩ <;> assumption
  have hnr : IsNaN fsize (if isMax then 0 else 2 ^ (fsize - 1)) = false := by
    cases isMax
    · simpa using hn1
    · simpa using hn0
  have hda : dazLane env ctx fsize a = a :=
    hdaz a (by rcases hz with ⟨rfl, rfl⟩ | ⟨rfl, rfl⟩ <;> simp)
  have hdb : dazLane env ctx fsize b = b :=
    hdaz b (by rcases hz with ⟨rfl, rfl⟩ | ⟨rfl, rfl⟩ <;> simp)
  unfold MinMax.resultLane
  rw [hda, hdb, hmm, hna, hnb, handlerLane_of_not_nan _ _ _ _ hna hnb hnr]
  simp

/-- C2: `EmitFPVectorMax` (`isMax`) and `EmitFPVectorMin` at fsize 32 and 64, for every host
capability set (AVX or not) and every guest control (DN=0 or DN=1, accurate NaNs or not).
The emitter succeeds, the emitted block runs to its end and defines a value, and on every lane
whose operands are (+0.0, -0.0) or (-0.0, +0.0) - bit patterns `0` and `2 ^ (fsize - 1)` - that
value is +0.0 for Max and -0.0 for Min. With FTZ=1 the operands first pass through the host
addition of a zero, which is assumed to return a zero operand unchanged. -/
theorem EmitFPVectorMaxMin_signed_zeros (env : Env) (code : BlockOfCode) (ctx : EmitContext)
    (isMax : Bool) (fsize : Nat) (hf : fsize = 32 ∨ fsize = 64) (m : Machine)
    (hhost : ctx.FPSCR_FTZ = true → ∀ x, x = 0 ∨ x = 2 ^ (fsize - 1) →
      env.addp fsize x
        (if ctx.FPSCR_RMode ≠ .TowardsMinusInfinity then 2 ^ (fsize - 1) else 0) % 2 ^ fsize = x) :
    ∃ s, emitted (if isMax then EmitFPVectorMax fsize code ctx
        else EmitFPVectorMin fsize code ctx) = .ok s ∧
      ∃ m1 v, runBlock env code s m = some m1 ∧ m1.defined = some v ∧
        ∀ i, i < 128 / fsize →
          ((lane fsize i (m.args 0) = 0 ∧ lane fsize i (m.args 1) = 2 ^ (fsize - 1)) ∨
            (lane fsize i (m.args 0) = 2 ^ (fsize - 1) ∧ lane fsize i (m.args 1) = 0)) →
          lane fsize i v = if isMax then 0 else 2 ^ (fsize - 1) := by
  obtain ⟨m1, v, hrun, hv, hl⟩ := MinMax.state_run env code ctx isMax fsize hf m
  refine ⟨_, MinMax_emitted_eq isMax fsize hf code ctx, m1, v, hrun, hv, ?_⟩
  intro i hi hz
  rw [hl i hi]
  exact MinMax.resultLane_zeros env ctx isMax fsize _ _ hf hhost hz

/-- Witness of C2: f32 Max on an AVX host with DN=1 and FTZ=1, operands
`a = [+0.0, -0.0, 1.5, 1.0]` and `b = [-0.0, +0.0, -2.0, 1.0]`: lanes 0 and 1 are +0.0. -/
theorem EmitFPVectorMaxMin_signed_zeros_witness :
    ∃ s, emitted (if true then EmitFPVectorMax 32 .avx .dn_ftz
        else EmitFPVectorMin 32 .avx .dn_ftz) = .ok s ∧
      ∃ m1 v, runBlock (x86Env .ToNearest_TieEven) .avx s
          (Machine.init [vec32 0 0x80000000 0x3FC00000 0x3F800000,
            vec32 0x80000000 0 0xC0000000 0x3F800000]) = some m1 ∧
        m1.defined = some v ∧ lane 32 0 v = 0 ∧ lane 32 1 v = 0 :=
  let ⟨s, hs, m1, v, hr, hd, hl⟩ := EmitFPVectorMaxMin_signed_zeros (x86Env .ToNearest_TieEven)
    .avx .dn_ftz true 32 (Or.inl rfl)
    (Machine.init [vec32 0 0x80000000 0x3FC00000 0x3F800000,
      vec32 0x80000000 0 0xC0000000 0x3F800000])
    (fun _ x hx => by rcases hx with rfl | rfl <;> decide!)
  ⟨s, hs, m1, v, hr, hd, hl 0 (by decide) (Or.inl ⟨by decide!, by decide!⟩),
    hl 1 (by decide) (Or.inr ⟨by decide!, by decide!⟩)⟩

/-- C3: `EmitFPVectorMax` (`isMax`) and `EmitFPVectorMin` with DN=1, at fsize 32 and 64, with
and without AVX. The emitted block runs to its end and defines a value in which every lane with
a NaN operand is exactly the default NaN, and every lane with no NaN operand is the
zero-corrected maximum or minimum `minmaxLane` of the operand lanes. The operand lanes are the
ones `DenormalsAreZero` leaves (`dazLane`), which with FTZ=0 are the operands themselves
(second part). Third part, the example: Max of `a = [+0.0, -0.0, 1.5, qNaN]` and
`b = [-0.0, +0.0, -2.0, 1.0]` on the concrete host gives `[+0.0, +0.0, 1.5, 0x7FC00000]`. -/
theorem EmitFPVectorMaxMin_default_nan (env : Env) (code : BlockOfCode) (ctx : EmitContext)
    (isMax : Bool) (fsize : Nat) (hf : fsize = 32 ∨ fsize = 64) (hdn : ctx.FPSCR_DN = true)
    (m : Machine) :
    (∃ s, emitted (if isMax then EmitFPVectorMax fsize code ctx
        else EmitFPVectorMin fsize code ctx) = .ok s ∧
      ∃ m1 v, runBlock env code s m = some m1 ∧ m1.defined = some v ∧
        (∀ i, i < 128 / fsize →
          ((IsNaN fsize (dazLane env ctx fsize (lane fsize i (m.args 0))) = true ∨
              IsNaN fsize (dazLane env ctx fsize (lane fsize i (m.args 1))) = true) →
            lane fsize i v = DefaultNaN fsize) ∧
          ((IsNaN fsize (dazLane env ctx fsize (lane fsize i (m.args 0))) = false ∧
              IsNaN fsize (dazLane env ctx fsize (lane fsize i (m.args 1))) = false) →
            lane fsize i v = minmaxLane env isMax fsize
              (dazLane env ctx fsize (lane fsize i (m.args 0)))
              (dazLane env ctx fsize (lane fsize i (m.args 1))))) ∧
        (ctx.FPSCR_FTZ = false → ∀ i, i < 128 / fsize →
          ((IsNaN fsize (lane fsize i (m.args 0)) = true ∨
              IsNaN fsize (lane fsize i (m.args 1)) = true) →
            lane fsize i v = DefaultNaN fsize) ∧
          ((IsNaN fsize (lane fsize i (m.args 0)) = false ∧
              IsNaN fsize (lane fsize i (m.args 1)) = false) →
            lane fsize i v = minmaxLane env isMax fsize (lane fsize i (m.args 0))
              (lane fsize i (m.args 1))))) ∧
    (∃ s, emitted (EmitFPVectorMax 32 code .dn) = .ok s ∧
      ∃ m1 v, runBlock (x86Env .ToNearest_TieEven) code s
          (Machine.init [vec32 0 0x80000000 0x3FC00000 0x7FC12345,
            vec32 0x80000000 0 0xC0000000 0x3F800000]) = some m1 ∧
        m1.defined = some v ∧ lane 32 0 v = 0 ∧ lane 32 1 v = 0 ∧ lane 32 2 v = 0x3FC00000 ∧
        lane 32 3 v = 0x7FC00000) := by
  constructor
  · obtain ⟨m1, v, hrun, hv, hl⟩ := MinMax.state_run env code ctx isMax fsize hf m
    have hgen : ∀ i, i < 128 / fsize →
        ((IsNaN fsize (dazLane env ctx fsize (lane fsize i (m.args 0))) = true ∨
            IsNaN fsize (dazLane env ctx fsize (lane fsize i (m.args 1))) = true) →
          lane fsize i v = DefaultNaN fsize) ∧
        ((IsNaN fsize (dazLane env ctx fsize (lane fsize i (m.args 0))) = false ∧
            IsNaN fsize (dazLane env ctx fsize (lane fsize i (m.args 1))) = false) →
          lane fsize i v = minmaxLane env isMax fsize
            (dazLane env ctx fsize (lane fsize i (m.args 0)))
            (dazLane env ctx fsize (lane fsize i (m.args 1)))) := by
      intro i hi
      rw [hl i hi]
      unfold MinMax.resultLane
      simp only [hdn, if_true]
      constructor
      · intro h
        rw [if_pos (by simpa using h)]
      · rintro ⟨h1, h2⟩
        rw [if_neg (by simp [h1, h2])]
    refine ⟨_, MinMax_emitted_eq isMax fsize hf code ctx, m1, v, hrun, hv, hgen, ?_⟩
    intro hftz i hi
    have h := hgen i hi
    simpa [dazLane, hftz] using h
  · obtain ⟨m1, v, hrun, hv, hl⟩ := MinMax.state_run (x86Env .ToNearest_TieEven) code .dn true 32
      (Or.inl rfl) (Machine.init [vec32 0 0x80000000 0x3FC00000 0x7FC12345,
        vec32 0x80000000 0 0xC0000000 0x3F800000])
    refine ⟨_, MinMax.emitted_max 32 (Or.inl rfl) code .dn, m1, v, hrun, hv, ?_, ?_, ?_, ?_⟩
    · rw [hl 0 (by decide)]
      decide!
    · rw [hl 1 (by decide)]
      decide!
    · rw [hl 2 (by decide)]
      decide!
    · rw [hl 3 (by decide)]
      decide!

/-- Witness of C3: f32 Max on an SSE2 host with DN=1, on the operands of the example. -/
theorem EmitFPVectorMaxMin_default_nan_witness :
    ∃ s, emitted (EmitFPVectorMax 32 .sse2 .dn) = .ok s ∧
      ∃ m1 v, runBlock (x86Env .ToNearest_TieEven) .sse2 s
          (Machine.init [vec32 0 0x80000000 0x3FC00000 0x7FC12345,
            vec32 0x80000000 0 0xC0000000 0x3F800000]) = some m1 ∧
        m1.defined = some v ∧ lane 32 0 v = 0 ∧ lane 32 1 v = 0 ∧ lane 32 2 v = 0x3FC00000 ∧
        lane 32 3 v = 0x7FC00000 :=
  (EmitFPVectorMaxMin_default_nan (x86Env .ToNearest_TieEven) .sse2 .dn true 32 (Or.inl rfl) rfl
    (Machine.init [])).2

/-! ## The simple path of the opcodes -/

theorem ThreeOpOpcode.F_xmmOnly (op : ThreeOpOpcode) (result xmm_b n : Nat) :
    ∀ i ∈ op.F result xmm_b n, ∃ d, i.xmmDst = some d ∧ (d = result ∨ d = n) := by
  intro i hi
  cases op <;>
    simp only [ThreeOpOpcode.F, ThreeOpOpcode.sse, PairedAddLower.lambda, List.mem_cons,
      List.mem_singleton, List.not_mem_nil, or_false] at hi
  all_goals first
    | (subst hi
       simp [Instr.xmmDst])
    | (rcases hi with rfl | rfl | rfl <;> simp [Instr.xmmDst])

theorem forceLane_spec (fsize x : Nat) :
    IsNaN fsize (forceLane fsize x) = false ∨ forceLane fsize x = DefaultNaN fsize := by
  unfold forceLane
  cases h : IsNaN fsize x
  · left
    simpa using h
  · right
    simp

theorem ThreeOpOpcode.fsize_cases (op : ThreeOpOpcode) : op.fsize = 32 ∨ op.fsize = 64 := by
  cases op <;> simp [ThreeOpOpcode.fsize]

theorem EmitFPVectorRoundInt.emitted_fast (fsize : Nat) (hf : fsize = 32 ∨ fsize = 64)
    (code : BlockOfCode) (ctx : EmitContext) (rounding : RoundingMode)
    (hsse : code.DoesCpuSupport .tSSE41 = true)
    (hr : rounding ≠ .ToNearest_TieAwayFromZero) :
    ∃ imm, emitted (EmitFPVectorRoundInt fsize code ctx rounding false) =
      .ok (EmitTwoOpVectorOperation.state fsize code ctx
        (fun result xmm_a => [Instr.roundp fsize result xmm_a imm])
        (NaNHandler.GetDefault fsize .Default 2)) := by
  have h := EmitFPVectorRoundInt_emitted_eq fsize hf code ctx rounding false
  cases rounding
  · exact ⟨_, by simpa [RoundInt.round_imm, hsse] using h⟩
  · exact ⟨_, by simpa [RoundInt.round_imm, hsse] using h⟩
  · exact ⟨_, by simpa [RoundInt.round_imm, hsse] using h⟩
  · exact ⟨_, by simpa [RoundInt.round_imm, hsse] using h⟩
  · exact absurd rfl hr

/-- C4: with DN=1, every lane of the value defined by an opcode emitted through
`EmitThreeOpVectorOperation` (Add, Sub, Mul, Div, PairedAdd, PairedAddLower, at both sizes) or
through `EmitTwoOpVectorOperation` (the `roundps`/`roundpd` path of RoundInt) is either not a
NaN or exactly the default NaN, for every host arithmetic and all operand vectors; the block
runs to its end without calling a helper. Third part, the example: f32 Add of
`a = [1.0, sNaN 0x7F800001, 2.0, +inf]` and `b = [2.0, 3.0, +inf, -inf]` on the concrete host
gives `[3.0, 0x7FC00000, +inf, 0x7FC00000]`. -/
theorem DefaultNaN_mode_lanes (env : Env) (code : BlockOfCode) (ctx : EmitContext)
    (hdn : ctx.FPSCR_DN = true) (m : Machine) :
    (∀ op : ThreeOpOpcode, ∃ s, emitted (op.emit code ctx) = .ok s ∧
      ∃ m1 v, runBlock env code s m = some m1 ∧ m1.calls = m.calls ∧ m1.defined = some v ∧
        ∀ i, i < 128 / op.fsize →
          IsNaN op.fsize (lane op.fsize i v) = false ∨
            lane op.fsize i v = DefaultNaN op.fsize) ∧
    (∀ fsize rounding, (fsize = 32 ∨ fsize = 64) → code.DoesCpuSupport .tSSE41 = true →
      rounding ≠ .ToNearest_TieAwayFromZero →
      ∃ s, emitted (EmitFPVectorRoundInt fsize code ctx rounding false) = .ok s ∧
        ∃ m1 v, runBlock env code s m = some m1 ∧ m1.calls = m.calls ∧ m1.defined = some v ∧
          ∀ i, i < 128 / fsize →
            IsNaN fsize (lane fsize i v) = false ∨ lane fsize i v = DefaultNaN fsize) ∧
    (∃ s, emitted (EmitFPVectorAdd32 code .dn) = .ok s ∧
      ∃ m1 v, runBlock (x86Env .ToNearest_TieEven) code s
          (Machine.init [vec32 0x3F800000 0x7F800001 0x40000000 0x7F800000,
            vec32 0x40000000 0x40400000 0x7F800000 0xFF800000]) = some m1 ∧
        m1.defined = some v ∧ lane 32 0 v = 0x40400000 ∧ lane 32 1 v = 0x7FC00000 ∧
        lane 32 2 v = 0x7F800000 ∧ lane 32 3 v = 0x7FC00000) := by
  have hs : (!ctx.AccurateNaN || ctx.FPSCR_DN) = true := by simp [hdn]
  refine ⟨?_, ?_, ?_⟩
  · intro op
    obtain ⟨mF, m1, -, hrun, hc, v, hv, hl⟩ := EmitThreeOpVectorOperation_simple_run env code
      op.fsize ctx op.F op.k (NaNHandler.GetDefault op.fsize op.indexer 3) op.fsize_cases hs
      (fun i hi => (op.F_xmmOnly 0 1 2 i hi).imp (fun d h => h.1)) m
    refine ⟨_, ThreeOpOpcode_emitted_eq op code ctx, m1, v, hrun, hc, hv, ?_⟩
    intro i hi
    rw [hl i hi, hdn]
    exact forceLane_spec _ _
  · intro fsize rounding hf hsse hr
    obtain ⟨imm, him⟩ := EmitFPVectorRoundInt.emitted_fast fsize hf code ctx rounding hsse hr
    obtain ⟨mF, m1, -, hrun, hc, v, hv, hl⟩ := EmitTwoOpVectorOperation_simple_run env code
      fsize ctx (fun result xmm_a => [Instr.roundp fsize result xmm_a imm])
      (NaNHandler.GetDefault fsize .Default 2) hf hs
      (fun i hi => by
        simp only [List.mem_singleton] at hi
        subst hi
        exact ⟨_, rfl⟩) m
    refine ⟨_, him, m1, v, hrun, hc, hv, ?_⟩
    intro i hi
    rw [hl i hi, hdn]
    exact forceLane_spec _ _
  · obtain ⟨mF, m1, hmF, hrun, -, v, hv, hl⟩ := EmitThreeOpVectorOperation_simple_run
      (x86Env .ToNearest_TieEven) code 32 .dn ThreeOpOpcode.FPVectorAdd32.F
      ThreeOpOpcode.FPVectorAdd32.k (NaNHandler.GetDefault 32 .Default 3) (Or.inl rfl) rfl
      (fun i hi => (ThreeOpOpcode.FPVectorAdd32.F_xmmOnly 0 1 2 i hi).imp (fun d h => h.1))
      (Machine.init [vec32 0x3F800000 0x7F800001 0x40000000 0x7F800000,
        vec32 0x40000000 0x40400000 0x7F800000 0xFF800000])
    cases hmF
    refine ⟨_, ThreeOpOpcode_emitted_eq .FPVectorAdd32 code .dn, m1, v, hrun, hv, ?_, ?_, ?_, ?_⟩
    · rw [hl 0 (by decide)]
      decide!
    · rw [hl 1 (by decide)]
      decide!
    · rw [hl 2 (by decide)]
      decide!
    · rw [hl 3 (by decide)]
      decide!

/-- Witness of C4: f32 Add on an SSE2 host with DN=1, on the operands of the example. -/
theorem DefaultNaN_mode_lanes_witness :
    ∃ s, emitted (EmitFPVectorAdd32 .sse2 .dn) = .ok s ∧
      ∃ m1 v, runBlock (x86Env .ToNearest_TieEven) .sse2 s
          (Machine.init [vec32 0x3F800000 0x7F800001 0x40000000 0x7F800000,
            vec32 0x40000000 0x40400000 0x7F800000 0xFF800000]) = some m1 ∧
        m1.defined = some v ∧ lane 32 0 v = 0x40400000 ∧ lane 32 1 v = 0x7FC00000 ∧
        lane 32 2 v = 0x7F800000 ∧ lane 32 3 v = 0x7FC00000 :=
  (DefaultNaN_mode_lanes (x86Env .ToNearest_TieEven) .sse2 .dn rfl (Machine.init [])).2.2

/-! ## Which path the emitters take -/

theorem jumps_of_append (l1 l2 : List Instr) : jumps_of (l1 ++ l2) = jumps_of l1 ++ jumps_of l2 :=
  List.filter_append _ _

theorem calls_of_append (l1 l2 : List Instr) : calls_of (l1 ++ l2) = calls_of l1 ++ calls_of l2 :=
  List.filterMap_append _ _ _

theorem xmmOnly_jumps (l : List Instr) (h : ∀ i ∈ l, ∃ d, i.xmmDst = some d) :
    jumps_of l = [] := by
  unfold jumps_of
  rw [List.filter_eq_nil_iff]
  intro i hi
  obtain ⟨d, hd⟩ := h i hi
  simp [xmmDst_not_jump i d hd]

theorem xmmOnly_calls (l : List Instr) (h : ∀ i ∈ l, ∃ d, i.xmmDst = some d) :
    calls_of l = [] := by
  unfold calls_of
  rw [List.filterMap_eq_nil_iff]
  intro i hi
  obtain ⟨d, hd⟩ := h i hi
  cases i <;> simp [Instr.xmmDst] at hd <;> rfl

theorem HandleNaNs.near_jumps (code : BlockOfCode) (nan_mask gpr lbl : Nat) :
    jumps_of (HandleNaNs.near code nan_mask gpr lbl) = [Instr.jnz (lbl + 1)] ∧
      calls_of (HandleNaNs.near code nan_mask gpr lbl) = [] := by
  unfold HandleNaNs.near
  cases code.DoesCpuSupport .tSSE41 <;> exact ⟨rfl, rfl⟩

theorem HandleNaNs.far_calls (code : BlockOfCode) (xmms : List Nat) (nan_handler : Callee)
    (lbl : Nat) :
    calls_of (HandleNaNs.far code xmms nan_handler lbl) = [nan_handler] := by
  unfold HandleNaNs.far
  rw [calls_of_append, calls_of_append]
  have h : calls_of ((List.range xmms.length).map fun (i : Nat) =>
      Instr.movaps_store ⟨.rsp, ABI_SHADOW_SPACE code + i * 16⟩ (xmms.getD i 0)) = [] := by
    unfold calls_of
    rw [List.filterMap_eq_nil_iff]
    intro i hi
    simp only [List.mem_map] at hi
    obtain ⟨j, -, rfl⟩ := hi
    rfl
  rw [h]
  rfl

theorem HandleNaNs.far_ne_nil (code : BlockOfCode) (xmms : List Nat) (nan_handler : Callee)
    (lbl : Nat) : HandleNaNs.far code xmms nan_handler lbl ≠ [] := by
  simp [HandleNaNs.far]

theorem force_xmmOnly (fsize : Nat) (dn : Bool) (result nan_mask tmp : Nat) :
    ∀ i ∈ (if dn then ForceToDefaultNaN.code fsize result nan_mask tmp else []),
      ∃ d, i.xmmDst = some d := by
  intro i hi
  cases dn
  · simp at hi
  · exact ForceToDefaultNaN_code_xmmOnly fsize result nan_mask tmp i (by simpa using hi)

theorem not_accurate_iff (ctx : EmitContext) :
    (!ctx.AccurateNaN || ctx.FPSCR_DN) = true ↔
      ¬(ctx.FPSCR_DN = false ∧ ctx.AccurateNaN = true) := by
  cases ctx.FPSCR_DN <;> cases ctx.AccurateNaN <;> simp

theorem EmitThreeOpVectorOperation_state_paths (fsize : Nat) (code : BlockOfCode)
    (ctx : EmitContext) (F : Nat → Nat → Nat → List Instr) (k : Nat) (nan_handler : Callee)
    (hF : ∀ a b c, ∀ i ∈ F a b c, ∃ d, i.xmmDst = some d) :
    PathSelection fsize code ctx
      (EmitThreeOpVectorOperation.state fsize code ctx F k nan_handler) nan_handler := by
  by_cases hc : ctx.FPSCR_DN = false ∧ ctx.AccurateNaN = true
  · have hs : ¬(!ctx.AccurateNaN || ctx.FPSCR_DN) = true := by
      rw [not_accurate_iff]
      exact not_not_intro hc
    have hst : EmitThreeOpVectorOperation.state fsize code ctx F k nan_handler =
        { near := [Instr.UseXmm 1 0, Instr.UseXmm 2 1, Instr.sse .movaps 3 (.xmm 2),
              Instr.sse .movaps 0 (.xmm 1), Instr.sse (.cmpunordp fsize) 3 (.xmm 1)]
            ++ F 0 2 4 ++ [Instr.sse (.cmpunordp fsize) 3 (.xmm 0)]
            ++ HandleNaNs.near code 3 0 0 ++ [Instr.DefineValue 0],
          far := HandleNaNs.far code [0, 1, 2] nan_handler 0,
          switches := [true, false],
          nextXmm := 4 + k,
          nextGpr := if code.DoesCpuSupport .tSSE41 then 0 else 1,
          nextLabel := 2 } := by
      unfold EmitThreeOpVectorOperation.state
      rw [if_neg hs]
    rw [hst]
    refine ⟨⟨fun _ => hc, fun _ => HandleNaNs.far_ne_nil _ _ _ _⟩, fun _ => ?_,
      fun h => absurd hc h⟩
    refine ⟨[0, 1, 2], 3, 0, _, rfl, rfl, HandleNaNs.far_calls _ _ _ _, ?_,
      ⟨Instr.sse (.cmpunordp fsize) 3 (.xmm 0), by simp, _, Or.inl rfl⟩, rfl⟩
    simp only [jumps_of_append, xmmOnly_jumps _ (hF 0 2 4), (HandleNaNs.near_jumps _ _ _ _).1]
    rfl
  · have hs : (!ctx.AccurateNaN || ctx.FPSCR_DN) = true := (not_accurate_iff ctx).mpr hc
    have hst : EmitThreeOpVectorOperation.state fsize code ctx F k nan_handler =
        { near := [Instr.UseScratchXmm 0 0, Instr.UseXmm 1 1] ++ F 0 1 2
            ++ (if ctx.FPSCR_DN then ForceToDefaultNaN.code fsize 0 (2 + k) (3 + k) else [])
            ++ [Instr.DefineValue 0],
          nextXmm := if ctx.FPSCR_DN then 4 + k else 2 + k } := by
      unfold EmitThreeOpVectorOperation.state
      rw [if_pos hs]
    rw [hst]
    have hT := force_xmmOnly fsize ctx.FPSCR_DN 0 (2 + k) (3 + k)
    refine ⟨⟨fun h => absurd rfl h, fun h => absurd h hc⟩, fun h => absurd h hc, fun _ => ?_⟩
    refine ⟨rfl, ?_, ?_, 0, [Instr.UseScratchXmm 0 0, Instr.UseXmm 1 1] ++ F 0 1 2, 2 + k, _,
      ForceToDefaultNaN_emits fsize ctx 0 (2 + k), ?_⟩
    · simp only [jumps_of_append, xmmOnly_jumps _ (hF 0 1 2), xmmOnly_jumps _ hT]
      rfl
    · simp only [calls_of_append, xmmOnly_calls _ (hF 0 1 2), xmmOnly_calls _ hT]
      rfl
    · have e : 2 + k + 1 = 3 + k := by omega
      cases hdn : ctx.FPSCR_DN <;> simp [EmitState.fresh, e]

theorem EmitTwoOpVectorOperation_state_paths (fsize : Nat) (code : BlockOfCode)
    (ctx : EmitContext) (F : Nat → Nat → List Instr) (nan_handler : Callee)
    (hF : ∀ a b, ∀ i ∈ F a b, ∃ d, i.xmmDst = some d) :
    PathSelection fsize code ctx
      (EmitTwoOpVectorOperation.state fsize code ctx F nan_handler) nan_handler := by
  by_cases hc : ctx.FPSCR_DN = false ∧ ctx.AccurateNaN = true
  · have hs : ¬(!ctx.AccurateNaN || ctx.FPSCR_DN) = true := by
      rw [not_accurate_iff]
      exact not_not_intro hc
    have hst : EmitTwoOpVectorOperation.state fsize code ctx F nan_handler =
        { near := [Instr.UseXmm 1 0] ++ F 0 1
            ++ (if code.DoesCpuSupport .tAVX then [Instr.avx (.vcmpunordp fsize) 2 0 (.xmm 0)]
                else [Instr.sse .movaps 2 (.xmm 0), Instr.sse (.cmpunordp fsize) 2 (.xmm 2)])
            ++ HandleNaNs.near code 2 0 0 ++ [Instr.DefineValue 0],
          far := HandleNaNs.far code [0, 1] nan_handler 0,
          switches := [true, false],
          nextXmm := 3,
          nextGpr := if code.DoesCpuSupport .tSSE41 then 0 else 1,
          nextLabel := 2 } := by
      unfold EmitTwoOpVectorOperation.state
      rw [if_neg hs]
    rw [hst]
    refine ⟨⟨fun _ => hc, fun _ => HandleNaNs.far_ne_nil _ _ _ _⟩, fun _ => ?_,
      fun h => absurd hc h⟩
    have hM : ∀ i ∈ (if code.DoesCpuSupport .tAVX then
          [Instr.avx (.vcmpunordp fsize) 2 0 (.xmm 0)]
        else [Instr.sse .movaps 2 (.xmm 0), Instr.sse (.cmpunordp fsize) 2 (.xmm 2)]),
        ∃ d, i.xmmDst = some d := by
      intro i hi
      cases hav : code.DoesCpuSupport .tAVX
      · simp [hav] at hi
        rcases hi with rfl | rfl <;> exact ⟨_, rfl⟩
      · simp [hav] at hi
        subst hi
        exact ⟨_, rfl⟩
    refine ⟨[0, 1], 2, 0, _, rfl, rfl, HandleNaNs.far_calls _ _ _ _, ?_, ?_, rfl⟩
    · simp only [jumps_of_append, xmmOnly_jumps _ (hF 0 1), xmmOnly_jumps _ hM,
        (HandleNaNs.near_jumps _ _ _ _).1]
      rfl
    · cases hav : code.DoesCpuSupport .tAVX
      · exact ⟨Instr.sse (.cmpunordp fsize) 2 (.xmm 2), by simp, _, Or.inl rfl⟩
      · exact ⟨Instr.avx (.vcmpunordp fsize) 2 0 (.xmm 0), by simp, _, Or.inr rfl⟩
  · have hs : (!ctx.AccurateNaN || ctx.FPSCR_DN) = true := (not_accurate_iff ctx).mpr hc
    have hst : EmitTwoOpVectorOperation.state fsize code ctx F nan_handler =
        { near := [Instr.UseXmm 0 0] ++ F 1 0
            ++ (if ctx.FPSCR_DN then ForceToDefaultNaN.code fsize 1 2 3 else [])
            ++ [Instr.DefineValue 1],
          nextXmm := if ctx.FPSCR_DN then 4 else 2 } := by
      unfold EmitTwoOpVectorOperation.state
      rw [if_pos hs]
    rw [hst]
    have hT := force_xmmOnly fsize ctx.FPSCR_DN 1 2 3
    refine ⟨⟨fun h => absurd rfl h, fun h => absurd h hc⟩, fun h => absurd h hc, fun _ => ?_⟩
    refine ⟨rfl, ?_, ?_, 1, [Instr.UseXmm 0 0] ++ F 1 0, 2, _,
      ForceToDefaultNaN_emits fsize ctx 1 2, ?_⟩
    · simp only [jumps_of_append, xmmOnly_jumps _ (hF 1 0), xmmOnly_jumps _ hT]
      rfl
    · simp only [calls_of_append, xmmOnly_calls _ (hF 1 0), xmmOnly_calls _ hT]
      rfl
    · cases hdn : ctx.FPSCR_DN <;> simp [EmitState.fresh]

/-- C5: `EmitTwoOpVectorOperation` and `EmitThreeOpVectorOperation`, at each of their uses in
the file: the twelve opcodes Add, Sub, Mul, Div, PairedAdd, PairedAddLower (first part), Max and
Min without DN (second part) and the `roundps`/`roundpd` path of RoundInt (third part). The
emitted state satisfies `PathSelection`: it has a far region exactly when DN=0 and
AccurateNaN=1, in which case the near region computes a NaN mask, runs the test of `HandleNaNs`
and jumps, and the far region calls the handler; in every other combination there is no far
region, no jump and no call, and the near region ends with the code of `ForceToDefaultNaN` for
the result and the definition of the value. -/
theorem VectorOperation_path_selection (code : BlockOfCode) (ctx : EmitContext) :
    (∀ op : ThreeOpOpcode, ∃ s, emitted (op.emit code ctx) = .ok s ∧
      PathSelection op.fsize code ctx s (NaNHandler.GetDefault op.fsize op.indexer 3)) ∧
    (∀ (isMax : Bool) (fsize : Nat), (fsize = 32 ∨ fsize = 64) → ctx.FPSCR_DN = false →
      ∃ s, emitted (if isMax then EmitFPVectorMax fsize code ctx
          else EmitFPVectorMin fsize code ctx) = .ok s ∧
        PathSelection fsize code ctx s (NaNHandler.GetDefault fsize .Default 3)) ∧
    (∀ (fsize : Nat) (rounding : RoundingMode), (fsize = 32 ∨ fsize = 64) →
      code.DoesCpuSupport .tSSE41 = true → rounding ≠ .ToNearest_TieAwayFromZero →
      ∃ s, emitted (EmitFPVectorRoundInt fsize code ctx rounding false) = .ok s ∧
        PathSelection fsize code ctx s (NaNHandler.GetDefault fsize .Default 2)) := by
  refine ⟨?_, ?_, ?_⟩
  · intro op
    exact ⟨_, ThreeOpOpcode_emitted_eq op code ctx, EmitThreeOpVectorOperation_state_paths _ _ _ _ _ _
      (fun a b c i hi => (op.F_xmmOnly a b c i hi).imp (fun d h => h.1))⟩
  · intro isMax fsize hf hdn
    refine ⟨_, MinMax_emitted_eq isMax fsize hf code ctx, ?_⟩
    have hst : MinMax.state isMax fsize code ctx =
        EmitThreeOpVectorOperation.state fsize code ctx (MinMax.lambda isMax fsize code ctx)
          (if ctx.FPSCR_FTZ then 3 else 2) (NaNHandler.GetDefault fsize .Default 3) := by
      unfold MinMax.state
      simp [hdn]
    rw [hst]
    exact EmitThreeOpVectorOperation_state_paths _ _ _ _ _ _
      (fun a b c i hi => (MinMax.lambda_xmmOnly _ _ _ _ a b c i hi).imp (fun d h => h.1))
  · intro fsize rounding hf hsse hr
    obtain ⟨imm, him⟩ := EmitFPVectorRoundInt.emitted_fast fsize hf code ctx rounding hsse hr
    refine ⟨_, him, EmitTwoOpVectorOperation_state_paths _ _ _ _ _ ?_⟩
    intro a b i hi
    simp only [List.mem_singleton] at hi
    subst hi
    exact ⟨_, rfl⟩

/-- Witness of C5: f64 RoundInt towards zero on an SSE4.1 host, with accurate NaNs requested. -/
theorem VectorOperation_path_selection_witness :
    ∃ s, emitted (EmitFPVectorRoundInt 64 .avx .accurate .TowardsZero false) = .ok s ∧
      PathSelection 64 .avx .accurate s (NaNHandler.GetDefault 64 .Default 2) :=
  (VectorOperation_path_selection .avx .accurate).2.2 64 .TowardsZero (Or.inr rfl) rfl
    (by decide)

/-! ## The accurate path of the opcodes -/

theorem handlerLane_of_ProcessNaNs (fsize : Nat) (cur : List Nat) (r n : Nat)
    (h : ProcessNaNs fsize cur = some n) : handlerLane fsize cur r = n := by
  simp [handlerLane, h]

theorem EmitThreeOpVectorOperation.accurate_outcome (env : Env) (code : BlockOfCode)
    (fsize : Nat) (ctx : EmitContext) (F : Nat → Nat → Nat → List Instr) (k : Nat)
    (hf : fsize = 32 ∨ fsize = 64) (hdn : ctx.FPSCR_DN = false) (hacc : ctx.AccurateNaN = true)
    (hF : ∀ i ∈ F 0 2 4, ∃ d, i.xmmDst = some d ∧ d ≠ 1 ∧ d ≠ 2 ∧ d ≠ 3) (m : Machine) :
    ∃ m0 mF m1 v r, m0.xmm 0 = m.args 0 ∧ m0.xmm 2 = m.args 1 ∧
      execList env code (F 0 2 4) m0 = some mF ∧
      runBlock env code (EmitThreeOpVectorOperation.state fsize code ctx F k
        (NaNHandler.GetDefault fsize .Default 3)) m = some m1 ∧
      m1.defined = some v ∧
      GetDefaultImpl fsize .Default
          [toLanes fsize (mF.xmm 0), toLanes fsize (m.args 0), toLanes fsize (m.args 1)] =
        some [r, toLanes fsize (m.args 0), toLanes fsize (m.args 1)] ∧
      (∀ i, i < 128 / fsize → lane fsize i v = r.getD i 0) ∧
      (∀ i, i < 128 / fsize → ∀ n,
        ProcessNaNs fsize [lane fsize i (m.args 0), lane fsize i (m.args 1)] = some n →
          lane fsize i v = n) ∧
      ((∀ i, i < 128 / fsize →
          IsNaN fsize (lane fsize i (m.args 0)) = false ∧
          IsNaN fsize (lane fsize i (m.args 1)) = false ∧
          IsNaN fsize (lane fsize i (mF.xmm 0)) = false) →
        m1.calls = m.calls) ∧
      (¬(∀ i, i < 128 / fsize →
          IsNaN fsize (lane fsize i (m.args 0)) = false ∧
          IsNaN fsize (lane fsize i (m.args 1)) = false ∧
          IsNaN fsize (lane fsize i (mF.xmm 0)) = false) →
        m1.calls = m.calls ++ [NaNHandler.GetDefault fsize .Default 3]) := by
  have hs : (!ctx.AccurateNaN || ctx.FPSCR_DN) = false := by simp [hdn, hacc]
  obtain ⟨m0, mF, m1, h00, h02, hmF, hrun, hc1, hc2, v, hv, hl⟩ :=
    EmitThreeOpVectorOperation.accurate_run env code fsize ctx F k hf hs hF m
  obtain ⟨r, hr, hrl⟩ := GetDefaultImpl_toLanes fsize (mF.xmm 0) (m.args 0) (m.args 1)
  have hiff : (∀ i, i < 128 / fsize →
        ((IsNaN fsize (lane fsize i (m.args 1)) || IsNaN fsize (lane fsize i (m.args 0))) ||
          IsNaN fsize (lane fsize i (mF.xmm 0))) = false) ↔
      (∀ i, i < 128 / fsize →
        IsNaN fsize (lane fsize i (m.args 0)) = false ∧
        IsNaN fsize (lane fsize i (m.args 1)) = false ∧
        IsNaN fsize (lane fsize i (mF.xmm 0)) = false) := by
    constructor
    · intro h i hi
      have := h i hi
      simp only [Bool.or_eq_false_iff] at this
      exact ⟨this.1.2, this.1.1, this.2⟩
    · intro h i hi
      obtain ⟨h1, h2, h3⟩ := h i hi
      simp [h1, h2, h3]
  refine ⟨m0, mF, m1, v, r, h00, h02, hmF, hrun, hv, hr, ?_, ?_, ?_, ?_⟩
  · intro i hi
    rw [hl i hi, hrl i hi]
  · intro i hi n hn
    rw [hl i hi]
    exact handlerLane_of_ProcessNaNs _ _ _ _ hn
  · intro h
    exact hc1 (hiff.mpr h)
  · intro h
    exact hc2 (fun hc => h (hiff.mp hc))

/-- C7: the three-operand opcodes with `DefaultIndexer` - Add, Sub, Mul, Div (first part) and
Max, Min (second part) - under DN=0 and AccurateNaN=1, for every host arithmetic and all operand
vectors `a`, `b`. The block runs to its end and defines a value `v`. With `host` the register
the host instructions computed, the default handler `GetDefaultImpl` applied to the arrays of
`host`, `a` and `b` returns an array `r`, and `v` is `r` lane for lane - whether or not the far
region ran: the handler is called exactly when some lane of `a`, `b` or `host` is a NaN. When
`ProcessNaNs` selects a NaN from the operands of a lane, that is the lane of `v`. Third part,
the example: f32 Min of `a = [+0.0, -0.0, 1.5, qNaN 0x7FC12345]` and
`b = [-0.0, +0.0, -2.0, 1.0]` on the concrete host gives `[-0.0, -0.0, -2.0, 0x7FC12345]`. -/
theorem AccurateNaN_default_handler (env : Env) (code : BlockOfCode) (ctx : EmitContext)
    (hdn : ctx.FPSCR_DN = false) (hacc : ctx.AccurateNaN = true) (m : Machine) :
    (∀ op : ThreeOpOpcode, op.indexer = .Default →
      ∃ s, emitted (op.emit code ctx) = .ok s ∧
        ∃ m1 v r, runBlock env code s m = some m1 ∧ m1.defined = some v ∧
          GetDefaultImpl op.fsize .Default
              [toLanes op.fsize (op.host env (m.args 0) (m.args 1)),
                toLanes op.fsize (m.args 0), toLanes op.fsize (m.args 1)] =
            some [r, toLanes op.fsize (m.args 0), toLanes op.fsize (m.args 1)] ∧
          (∀ i, i < 128 / op.fsize → lane op.fsize i v = r.getD i 0) ∧
          (∀ i, i < 128 / op.fsize → ∀ n,
            ProcessNaNs op.fsize [lane op.fsize i (m.args 0), lane op.fsize i (m.args 1)] =
              some n → lane op.fsize i v = n) ∧
          ((∀ i, i < 128 / op.fsize →
              IsNaN op.fsize (lane op.fsize i (m.args 0)) = false ∧
              IsNaN op.fsize (lane op.fsize i (m.args 1)) = false ∧
              IsNaN op.fsize (lane op.fsize i (op.host env (m.args 0) (m.args 1))) = false) →
            m1.calls = m.calls) ∧
          (¬(∀ i, i < 128 / op.fsize →
              IsNaN op.fsize (lane op.fsize i (m.args 0)) = false ∧
              IsNaN op.fsize (lane op.fsize i (m.args 1)) = false ∧
              IsNaN op.fsize (lane op.fsize i (op.host env (m.args 0) (m.args 1))) = false) →
            m1.calls = m.calls ++ [NaNHandler.GetDefault op.fsize .Default 3])) ∧
    (∀ (isMax : Bool) (fsize : Nat), (fsize = 32 ∨ fsize = 64) →
      ∃ s, emitted (if isMax then EmitFPVectorMax fsize code ctx
          else EmitFPVectorMin fsize code ctx) = .ok s ∧
        ∃ m1 v host r, runBlock env code s m = some m1 ∧ m1.defined = some v ∧
          (∀ i, i < 128 / fsize → lane fsize i host = minmaxLane env isMax fsize
            (dazLane env ctx fsize (lane fsize i (m.args 0)))
            (dazLane env ctx fsize (lane fsize i (m.args 1)))) ∧
          GetDefaultImpl fsize .Default
              [toLanes fsize host, toLanes fsize (m.args 0), toLanes fsize (m.args 1)] =
            some [r, toLanes fsize (m.args 0), toLanes fsize (m.args 1)] ∧
          (∀ i, i < 128 / fsize → lane fsize i v = r.getD i 0) ∧
          (∀ i, i < 128 / fsize → ∀ n,
            ProcessNaNs fsize [lane fsize i (m.args 0), lane fsize i (m.args 1)] = some n →
              lane fsize i v = n) ∧
          ((∀ i, i < 128 / fsize →
              IsNaN fsize (lane fsize i (m.args 0)) = false ∧
              IsNaN fsize (lane fsize i (m.args 1)) = false ∧
              IsNaN fsize (lane fsize i host) = false) →
            m1.calls = m.calls) ∧
          (¬(∀ i, i < 128 / fsize →
              IsNaN fsize (lane fsize i (m.args 0)) = false ∧
              IsNaN fsize (lane fsize i (m.args 1)) = false ∧
              IsNaN fsize (lane fsize i host) = false) →
            m1.calls = m.calls ++ [NaNHandler.GetDefault fsize .Default 3])) ∧
    (∃ s, emitted (EmitFPVectorMin 32 code .accurate) = .ok s ∧
      ∃ m1 v, runBlock (x86Env .ToNearest_TieEven) code s
          (Machine.init [vec32 0 0x80000000 0x3FC00000 0x7FC12345,
            vec32 0x80000000 0 0xC0000000 0x3F800000]) = some m1 ∧
        m1.defined = some v ∧ lane 32 0 v = 0x80000000 ∧ lane 32 1 v = 0x80000000 ∧
        lane 32 2 v = 0xC0000000 ∧ lane 32 3 v = 0x7FC12345) := by
  refine ⟨?_, ?_, ?_⟩
  · intro op hop
    have hF : ∀ i ∈ op.F 0 2 4, ∃ d, i.xmmDst = some d ∧ d ≠ 1 ∧ d ≠ 2 ∧ d ≠ 3 := by
      intro i hi
      obtain ⟨d, hd, h⟩ := op.F_xmmOnly 0 2 4 i hi
      exact ⟨d, hd, by omega, by omega, by omega⟩
    obtain ⟨m0, mF, m1, v, r, h00, h02, hmF, hrun, hv, hr, h1, h2, h3, h4⟩ :=
      EmitThreeOpVectorOperation.accurate_outcome env code op.fsize ctx op.F op.k
        op.fsize_cases hdn hacc hF m
    have hhost : mF.xmm 0 = op.host env (m.args 0) (m.args 1) := by
      cases op <;> simp [ThreeOpOpcode.indexer] at hop <;>
        (simp only [ThreeOpOpcode.F, ThreeOpOpcode.sse, execList, step, Option.some_bind,
           Option.bind_eq_bind, Option.some.injEq] at hmF
         subst hmF
         simp [Machine.setXmm, ThreeOpOpcode.host, ThreeOpOpcode.sse, Machine.operand, h00, h02])
    rw [hhost] at hr h3 h4
    have hst : op.state code ctx = EmitThreeOpVectorOperation.state op.fsize code ctx op.F op.k
        (NaNHandler.GetDefault op.fsize .Default 3) := by
      unfold ThreeOpOpcode.state
      rw [hop]
    exact ⟨_, ThreeOpOpcode_emitted_eq op code ctx, m1, v, r, hst ▸ hrun, hv, hr, h1, h2, h3, h4⟩
  · intro isMax fsize hf
    have hF : ∀ i ∈ MinMax.lambda isMax fsize code ctx 0 2 4,
        ∃ d, i.xmmDst = some d ∧ d ≠ 1 ∧ d ≠ 2 ∧ d ≠ 3 := by
      intro i hi
      obtain ⟨d, hd, h⟩ := MinMax.lambda_xmmOnly _ _ _ _ _ _ _ i hi
      exact ⟨d, hd, by omega, by omega, by omega⟩
    obtain ⟨m0, mF, m1, v, r, h00, h02, hmF, hrun, hv, hr, h1, h2, h3, h4⟩ :=
      EmitThreeOpVectorOperation.accurate_outcome env code fsize ctx
        (MinMax.lambda isMax fsize code ctx) (if ctx.FPSCR_FTZ then 3 else 2) hf hdn hacc hF m
    obtain ⟨m2, hm2, hl2, -, -⟩ := MinMax.lambda_sem env code ctx isMax fsize 0 2 4 hf
      (by omega) (by omega) (by omega) m0
    rw [hmF] at hm2
    cases hm2
    have hst : MinMax.state isMax fsize code ctx =
        EmitThreeOpVectorOperation.state fsize code ctx (MinMax.lambda isMax fsize code ctx)
          (if ctx.FPSCR_FTZ then 3 else 2) (NaNHandler.GetDefault fsize .Default 3) := by
      unfold MinMax.state
      simp [hdn]
    refine ⟨_, MinMax_emitted_eq isMax fsize hf code ctx, m1, v, mF.xmm 0, r, hst ▸ hrun, hv,
      ?_, hr, h1, h2, h3, h4⟩
    intro i hi
    rw [hl2 i hi, h00, h02]
  · obtain ⟨m1, v, hrun, hv, hl⟩ := MinMax.state_run (x86Env .ToNearest_TieEven) code .accurate
      false 32 (Or.inl rfl) (Machine.init [vec32 0 0x80000000 0x3FC00000 0x7FC12345,
        vec32 0x80000000 0 0xC0000000 0x3F800000])
    refine ⟨_, MinMax.emitted_min 32 (Or.inl rfl) code .accurate, m1, v, hrun, hv, ?_, ?_, ?_, ?_⟩
    · rw [hl 0 (by decide)]
      decide!
    · rw [hl 1 (by decide)]
      decide!
    · rw [hl 2 (by decide)]
      decide!
    · rw [hl 3 (by decide)]
      decide!

/-- Witness of C7: f32 Min on an SSE2 host with DN=0 and accurate NaNs, on the operands of the
example. -/
theorem AccurateNaN_default_handler_witness :
    ∃ s, emitted (EmitFPVectorMin 32 .sse2 .accurate) = .ok s ∧
      ∃ m1 v, runBlock (x86Env .ToNearest_TieEven) .sse2 s
          (Machine.init [vec32 0 0x80000000 0x3FC00000 0x7FC12345,
            vec32 0x80000000 0 0xC0000000 0x3F800000]) = some m1 ∧
        m1.defined = some v ∧ lane 32 0 v = 0x80000000 ∧ lane 32 1 v = 0x80000000 ∧
        lane 32 2 v = 0xC0000000 ∧ lane 32 3 v = 0x7FC12345 :=
  (AccurateNaN_default_handler (x86Env .ToNearest_TieEven) .sse2 .accurate rfl rfl
    (Machine.init [])).2.2

/-! ## MulAdd: the test of the fused result -/

theorem operand_GetSmallestNormalVector (m : Machine) (fsize : Nat) :
    m.operand (GetSmallestNormalVector fsize) =
      if fsize = 32 then 0x00800000008000000080000000800000
      else 0x00100000000000000010000000000000 := by
  unfold GetSmallestNormalVector
  split <;> rfl

theorem lane_SmallestNormalVector (m : Machine) (fsize i : Nat) (hf : fsize = 32 ∨ fsize = 64)
    (hi : i < 128 / fsize) :
    lane fsize i (m.operand (GetSmallestNormalVector fsize)) =
      2 ^ explicit_mantissa_width fsize := by
  rw [operand_GetSmallestNormalVector]
  rcases hf with rfl | rfl
  · have : i < 4 := hi
    interval_cases i <;> decide
  · have : i < 2 := hi
    interval_cases i <;> decide

theorem clear_sign (w x : Nat) (hf : w = 32 ∨ w = 64) :
    (ones w ^^^ 2 ^ (w - 1)) &&& x = x % 2 ^ (w - 1) := by
  rcases hf with rfl | rfl
  · have h : ones 32 ^^^ 2 ^ (32 - 1) = 2 ^ 31 - 1 := by decide
    rw [h, Nat.and_comm]
    exact Nat.and_pow_two_sub_one_eq_mod x 31
  · have h : ones 64 ^^^ 2 ^ (64 - 1) = 2 ^ 63 - 1 := by decide
    rw [h, Nat.and_comm]
    exact Nat.and_pow_two_sub_one_eq_mod x 63

theorem IsNaN_clear_sign (w x : Nat) (hf : w = 32 ∨ w = 64) :
    IsNaN w (x % 2 ^ (w - 1)) = IsNaN w x := by
  rcases hf with rfl | rfl
  · have h1 : x % 2147483648 / 8388608 % 256 = x / 8388608 % 256 := by omega
    have h2 : x % 2147483648 % 8388608 = x % 8388608 := by omega
    simp only [IsNaN, exponentField, mantissaField, explicit_mantissa_width, exponent_width,
      Nat.shiftRight_eq_div_pow]
    norm_num [h1, h2]
  · have h1 : x % 9223372036854775808 / 4503599627370496 % 2048 =
        x / 4503599627370496 % 2048 := by omega
    have h2 : x % 9223372036854775808 % 4503599627370496 = x % 4503599627370496 := by omega
    simp only [IsNaN, exponentField, mantissaField, explicit_mantissa_width, exponent_width,
      Nat.shiftRight_eq_div_pow]
    norm_num [h1, h2]

theorem eq_uq_smallest_normal (w x : Nat) (hf : w = 32 ∨ w = 64) :
    (IsNaN w (x % 2 ^ (w - 1)) || IsNaN w (2 ^ explicit_mantissa_width w) ||
        fpEq w (x % 2 ^ (w - 1)) (2 ^ explicit_mantissa_width w)) = true ↔
      (IsNaN w x = true ∨ x % 2 ^ (w - 1) = 2 ^ explicit_mantissa_width w) := by
  have hsn : IsNaN w (2 ^ explicit_mantissa_width w) = false := by
    rcases hf with rfl | rfl <;> decide
  have hbz : bothZero w (x % 2 ^ (w - 1)) (2 ^ explicit_mantissa_width w) = false := by
    have : (2 ^ explicit_mantissa_width w) % 2 ^ (w - 1) ≠ 0 := by
      rcases hf with rfl | rfl <;> decide
    simp [bothZero, this]
  rw [IsNaN_clear_sign w x hf, hsn]
  unfold fpEq
  rw [IsNaN_clear_sign w x hf, hsn, hbz]
  cases IsNaN w x <;> simp

theorem EmitFPVectorMulAdd.near_fast (fsize : Nat) (code : BlockOfCode)
    (hfma : code.DoesCpuSupport .tFMA = true) (havx : code.DoesCpuSupport .tAVX = true) :
    (EmitFPVectorMulAdd.state fsize code).near =
      [Instr.UseXmm 1 0, Instr.UseXmm 2 1, Instr.UseXmm 3 2,
        Instr.sse .movaps 0 (.xmm 1),
        Instr.vfmadd231p fsize 0 2 3,
        Instr.sse .movaps 4 (GetNegativeZeroVector fsize),
        Instr.sse .andnps 4 (.xmm 0),
        Instr.avx (.vcmpeq_uqp fsize) 4 4 (GetSmallestNormalVector fsize),
        Instr.vptest 4 4,
        Instr.jnz 1,
        Instr.L 0,
        Instr.DefineValue 0] := by
  simp [EmitFPVectorMulAdd.state, hfma, havx]

/-- C8, amended: in the FMA3+AVX path of `EmitFPVectorMulAdd` (fsize 32 and 64), the emitted
test - sign cleared with `andnps`, compared with `vcmpeq_uqp` against the smallest normal
number, `vptest`, `jnz` - takes the branch to the software fallback if and only if at least one
lane of the `vfmadd231p` result is a NaN or has magnitude exactly equal to the smallest normal
number `2 ^ explicit_mantissa_width`. -/
theorem EmitFPVectorMulAdd_branch (env : Env) (code : BlockOfCode) (ctx : EmitContext)
    (fsize : Nat) (hf : fsize = 32 ∨ fsize = 64) (hfma : code.DoesCpuSupport .tFMA = true)
    (havx : code.DoesCpuSupport .tAVX = true) (m : Machine) :
    ∃ s, emitted (EmitFPVectorMulAdd fsize code ctx) = .ok s ∧
      ∃ b, branchTaken env code s.near m = some b ∧
        (b = true ↔ ∃ i, i < 128 / fsize ∧
          (IsNaN fsize (lane fsize i
              (vfmadd231p_result env fsize (m.args 0) (m.args 1) (m.args 2))) = true ∨
            lane fsize i (vfmadd231p_result env fsize (m.args 0) (m.args 1) (m.args 2)) %
              2 ^ (fsize - 1) = 2 ^ explicit_mantissa_width fsize)) := by
  have hw : 0 < fsize := by rcases hf with rfl | rfl <;> decide
  refine ⟨_, EmitFPVectorMulAdd_emitted_eq fsize hf code ctx, ?_⟩
  rw [EmitFPVectorMulAdd.near_fast fsize code hfma havx]
  refine ⟨_, rfl, ?_⟩
  simp only [Machine.setXmm, if_true, sseSem, avxSem, operand_GetNegativeZeroVector,
    operand_GetSmallestNormalVector, Bool.not_eq_true',
    decide_eq_false_iff_not, Nat.and_self, operand_xmm, if_neg (by decide : (0 : Nat) ≠ 4),
    if_neg (by decide : (1 : Nat) ≠ 0), if_neg (by decide : (2 : Nat) ≠ 0),
    if_neg (by decide : (3 : Nat) ≠ 0), if_neg (by decide : (1 : Nat) ≠ 2),
    if_neg (by decide : (1 : Nat) ≠ 3), if_neg (by decide : (2 : Nat) ≠ 3)]
  rw [Nat.mod_eq_of_lt (mapLanes2_lt fsize hf _ _ _)]
  rw [mapLanes2_boolMask_eq_zero fsize hw]
  simp only [not_forall, Bool.not_eq_false, exists_prop]
  apply exists_congr
  intro i
  apply and_congr_right
  intro hi
  have hle := lane_mul_le fsize i hi
  have hN := lane_NegativeZeroVector m fsize i hf hi
  have hS := lane_SmallestNormalVector m fsize i hf hi
  rw [operand_GetNegativeZeroVector] at hN
  rw [operand_GetSmallestNormalVector] at hS
  rw [lane_and, lane_not128 _ _ _ hle, hN, hS, clear_sign _ _ hf]
  exact eq_uq_smallest_normal fsize _ hf

/-- Witness of C8, amended: f32 on an AVX+FMA host; the fused result of
`addend = [smallest normal, 1.0, 1.0, 1.0]`, `op1 = op2 = 0` has lane 0 equal to the smallest
normal number, and the branch is taken. -/
theorem EmitFPVectorMulAdd_branch_witness :
    ∃ s, emitted (EmitFPVectorMulAdd 32 .avx .fast) = .ok s ∧
      branchTaken (x86Env .ToNearest_TieEven) .avx s.near
        (Machine.init [vec32 0x00800000 0x3F800000 0x3F800000 0x3F800000, 0, 0]) = some true :=
  let ⟨s, hs, b, hb, hiff⟩ := EmitFPVectorMulAdd_branch (x86Env .ToNearest_TieEven) .avx .fast 32
    (Or.inl rfl) rfl rfl
    (Machine.init [vec32 0x00800000 0x3F800000 0x3F800000 0x3F800000, 0, 0])
  ⟨s, hs, by rw [hb, hiff.mpr ⟨0, by decide, Or.inr (by decide!)⟩]⟩

/-- C8 as written does not hold: f32 on an AVX+FMA host, `addend = [0x00000001, 1.0, 1.0, 1.0]`
and `op1 = op2 = 0`. Lane 0 of the `vfmadd231p` result is the subnormal `0x00000001`, whose
magnitude is strictly below the smallest normal number `2 ^ 23`, yet the emitted test does not
branch and the block ends without calling the software fallback. Conversely, with
`addend = [0x00800000, 1.0, 1.0, 1.0]` no lane of the result is below the smallest normal
number and the test branches. -/
theorem EmitFPVectorMulAdd_subnormal_counterexample :
    ∃ s, emitted (EmitFPVectorMulAdd 32 .avx .fast) = .ok s ∧
      lane 32 0 (vfmadd231p_result (x86Env .ToNearest_TieEven) 32
        (vec32 0x00000001 0x3F800000 0x3F800000 0x3F800000) 0 0) = 0x00000001 ∧
      branchTaken (x86Env .ToNearest_TieEven) .avx s.near
        (Machine.init [vec32 0x00000001 0x3F800000 0x3F800000 0x3F800000, 0, 0]) = some false ∧
      (runBlock (x86Env .ToNearest_TieEven) .avx s
        (Machine.init [vec32 0x00000001 0x3F800000 0x3F800000 0x3F800000, 0, 0])).map
          (fun m1 => m1.calls) = some [] ∧
      ¬(branchTaken (x86Env .ToNearest_TieEven) .avx s.near
          (Machine.init [vec32 0x00000001 0x3F800000 0x3F800000 0x3F800000, 0, 0]) = some true ↔
        ∃ i, i < 128 / 32 ∧ lane 32 i (vfmadd231p_result (x86Env .ToNearest_TieEven) 32
          (vec32 0x00000001 0x3F800000 0x3F800000 0x3F800000) 0 0) % 2 ^ (32 - 1) < 2 ^ 23) ∧
      ¬(branchTaken (x86Env .ToNearest_TieEven) .avx s.near
          (Machine.init [vec32 0x00800000 0x3F800000 0x3F800000 0x3F800000, 0, 0]) = some true ↔
        ∃ i, i < 128 / 32 ∧ lane 32 i (vfmadd231p_result (x86Env .ToNearest_TieEven) 32
          (vec32 0x00800000 0x3F800000 0x3F800000 0x3F800000) 0 0) % 2 ^ (32 - 1) < 2 ^ 23) := by
  refine ⟨_, EmitFPVectorMulAdd_emitted_eq 32 (Or.inl rfl) .avx .fast, by decide!, by decide!,
    by decide!, ?_, ?_⟩
  · intro h
    have h1 := h.mpr ⟨0, by decide, by decide!⟩
    revert h1
    decide!
  · intro h
    obtain ⟨i, hi, hlt⟩ := h.mp (by decide!)
    have hi4 : i < 4 := hi
    revert hlt
    interval_cases i <;> decide!

/-! ## Abs and Neg -/

theorem EmitFPVectorAbs_emitted (w : Nat) (hw : w = 16 ∨ w = 32 ∨ w = 64) :
    ∃ op, (op = Sse.pand ∨ op = Sse.andps ∨ op = Sse.andpd) ∧
      emitted (EmitFPVectorAbs w) = .ok
        { near := [Instr.UseScratchXmm 0 0,
            Instr.sse op 0 (.MConst (signClearMask w % 2 ^ 64) (signClearMask w / 2 ^ 64)),
            Instr.DefineValue 0],
          nextXmm := 1 } := by
  rcases hw with rfl | rfl | rfl
  · exact ⟨_, Or.inl rfl, by decide!⟩
  · exact ⟨_, Or.inr (Or.inl rfl), by decide!⟩
  · exact ⟨_, Or.inr (Or.inr rfl), by decide!⟩

theorem EmitFPVectorNeg_emitted (w : Nat) (hw : w = 16 ∨ w = 32 ∨ w = 64) :
    emitted (EmitFPVectorNeg w) = .ok
      { near := [Instr.UseScratchXmm 0 0,
          Instr.sse .pxor 0 (.MConst (signMask w % 2 ^ 64) (signMask w / 2 ^ 64)),
          Instr.DefineValue 0],
        nextXmm := 1 } := by
  rcases hw with rfl | rfl | rfl <;> decide!

theorem lane_signClearMask (w i : Nat) (hw : w = 16 ∨ w = 32 ∨ w = 64) (hi : i < 128 / w) :
    lane w i (signClearMask w) = 2 ^ (w - 1) - 1 := by
  rcases hw with rfl | rfl | rfl
  · have : i < 8 := hi
    interval_cases i <;> decide
  · have : i < 4 := hi
    interval_cases i <;> decide
  · have : i < 2 := hi
    interval_cases i <;> decide

theorem lane_signMask (w i : Nat) (hw : w = 16 ∨ w = 32 ∨ w = 64) (hi : i < 128 / w) :
    lane w i (signMask w) = 2 ^ (w - 1) := by
  rcases hw with rfl | rfl | rfl
  · have : i < 8 := hi
    interval_cases i <;> decide
  · have : i < 4 := hi
    interval_cases i <;> decide
  · have : i < 2 := hi
    interval_cases i <;> decide

theorem MConst_split (m : Machine) (c : Nat) (hc : c < 2 ^ 128) :
    m.operand (.MConst (c % 2 ^ 64) (c / 2 ^ 64)) = c := by
  simp only [Machine.operand]
  omega

theorem signClearMask_lt (w : Nat) : signClearMask w < 2 ^ 128 := by
  unfold signClearMask
  split_ifs <;> decide

theorem signMask_lt (w : Nat) : signMask w < 2 ^ 128 := by
  unfold signMask
  split_ifs <;> decide

/-- C16: `EmitFPVectorAbs16/32/64`. The emitted block is the argument, one bitwise AND with the
pool constant that has all bits but the top bit of every lane set, and the definition of the
value. Run on any host from any state it defines `x AND mask` for the argument `x`: every lane
keeps its low `w - 1` bits and has its top bit clear. Run again on that value it defines the
same value: `Abs(Abs(x)) = Abs(x)` bit for bit, for every `x`, NaN lanes included. -/
theorem EmitFPVectorAbs_spec (env : Env) (code : BlockOfCode) (w : Nat)
    (hw : w = 16 ∨ w = 32 ∨ w = 64) (m : Machine) :
    ∃ s, emitted (EmitFPVectorAbs w) = .ok s ∧
      ∃ m1 v, runBlock env code s m = some m1 ∧ m1.defined = some v ∧
        v = m.args 0 &&& signClearMask w ∧
        (∀ i, i < 128 / w → lane w i v = lane w i (m.args 0) % 2 ^ (w - 1)) ∧
        ∀ m2 : Machine, m2.args 0 = v →
          ∃ m3, runBlock env code s m2 = some m3 ∧ m3.defined = some v := by
  obtain ⟨op, hop, hs⟩ := EmitFPVectorAbs_emitted w hw
  have hc := signClearMask_lt w
  have hsem : ∀ x, sseSem env op x (signClearMask w) = x &&& signClearMask w := by
    intro x
    rcases hop with rfl | rfl | rfl <;> rfl
  have hlt : ∀ x, x &&& signClearMask w < 2 ^ 128 :=
    fun x => lt_of_le_of_lt Nat.and_le_right hc
  have hrun : ∀ m0 : Machine, runBlock env code
      { near := [Instr.UseScratchXmm 0 0,
          Instr.sse op 0 (.MConst (signClearMask w % 2 ^ 64) (signClearMask w / 2 ^ 64)),
          Instr.DefineValue 0],
        nextXmm := 1 } m0 =
      some { (((m0.setXmm 0 (m0.args 0)).setXmm 0 (m0.args 0 &&& signClearMask w))) with
        defined := some (m0.args 0 &&& signClearMask w) } := by
    intro m0
    have h1 : runBlock env code
        { near := [Instr.UseScratchXmm 0 0,
            Instr.sse op 0 (.MConst (signClearMask w % 2 ^ 64) (signClearMask w / 2 ^ 64)),
            Instr.DefineValue 0],
          nextXmm := 1 } m0 =
        some { (((m0.setXmm 0 (m0.args 0)).setXmm 0 (sseSem env op (m0.args 0)
            ((m0.setXmm 0 (m0.args 0)).operand
              (.MConst (signClearMask w % 2 ^ 64) (signClearMask w / 2 ^ 64)))))) with
          defined := some (sseSem env op (m0.args 0)
            ((m0.setXmm 0 (m0.args 0)).operand
              (.MConst (signClearMask w % 2 ^ 64) (signClearMask w / 2 ^ 64))) % 2 ^ 128) } := by
      simp [runBlock, run, step, Machine.setXmm]
    rw [h1, MConst_split _ _ hc, hsem, Nat.mod_eq_of_lt (hlt _)]
  refine ⟨_, hs, _, _, hrun m, rfl, rfl, ?_, ?_⟩
  · intro i hi
    rw [lane_and, lane_signClearMask w i hw hi]
    exact Nat.and_pow_two_sub_one_eq_mod _ _
  · intro m2 h2
    refine ⟨_, hrun m2, ?_⟩
    simp only [h2, Nat.and_assoc, Nat.and_self]

/-- Witness of C16: lane width 16 on the concrete host, the argument holding NaN and negative
lanes. -/
theorem EmitFPVectorAbs_spec_witness :
    ∃ s, emitted (EmitFPVectorAbs 16) = .ok s ∧
      ∃ m1 v, runBlock (x86Env .ToNearest_TieEven) .sse2 s
          (Machine.init [0xFFFF8000BC00FE017E0100003C00FFFF]) = some m1 ∧
        m1.defined = some v ∧
        v = (Machine.init [0xFFFF8000BC00FE017E0100003C00FFFF]).args 0 &&& signClearMask 16 :=
  let ⟨s, hs, m1, v, hr, hd, hv, _⟩ := EmitFPVectorAbs_spec (x86Env .ToNearest_TieEven) .sse2 16
    (Or.inl rfl) (Machine.init [0xFFFF8000BC00FE017E0100003C00FFFF])
  ⟨s, hs, m1, v, hr, hd, hv⟩

/-- C17: `EmitFPVectorNeg16/32/64`. The emitted block is the argument, one `pxor` with the pool
constant that has the top bit of every lane set, and the definition of the value. Run on any
host from any state it defines `x XOR mask` (as a 128-bit value) for the argument `x`: every
lane has exactly its top bit flipped. Run again on that value it defines `x` itself (the low
128 bits of the argument): `Neg(Neg(x)) = x` bit for bit, for every 128-bit `x`, so in
particular for every `x` without a NaN lane. -/
theorem EmitFPVectorNeg_spec (env : Env) (code : BlockOfCode) (w : Nat)
    (hw : w = 16 ∨ w = 32 ∨ w = 64) (m : Machine) :
    ∃ s, emitted (EmitFPVectorNeg w) = .ok s ∧
      ∃ m1 v, runBlock env code s m = some m1 ∧ m1.defined = some v ∧
        v = (m.args 0 ^^^ signMask w) % 2 ^ 128 ∧
        (∀ i, i < 128 / w → lane w i v = lane w i (m.args 0) ^^^ 2 ^ (w - 1)) ∧
        ∀ m2 : Machine, m2.args 0 = v →
          ∃ m3, runBlock env code s m2 = some m3 ∧ m3.defined = some (m.args 0 % 2 ^ 128) := by
  have hc := signMask_lt w
  have hrun : ∀ m0 : Machine, runBlock env code
      { near := [Instr.UseScratchXmm 0 0,
          Instr.sse .pxor 0 (.MConst (signMask w % 2 ^ 64) (signMask w / 2 ^ 64)),
          Instr.DefineValue 0],
        nextXmm := 1 } m0 =
      some { (((m0.setXmm 0 (m0.args 0)).setXmm 0 (m0.args 0 ^^^ signMask w))) with
        defined := some ((m0.args 0 ^^^ signMask w) % 2 ^ 128) } := by
    intro m0
    have h1 : runBlock env code
        { near := [Instr.UseScratchXmm 0 0,
            Instr.sse .pxor 0 (.MConst (signMask w % 2 ^ 64) (signMask w / 2 ^ 64)),
            Instr.DefineValue 0],
          nextXmm := 1 } m0 =
        some { (((m0.setXmm 0 (m0.args 0)).setXmm 0 (m0.args 0 ^^^
            ((m0.setXmm 0 (m0.args 0)).operand
              (.MConst (signMask w % 2 ^ 64) (signMask w / 2 ^ 64)))))) with
          defined := some ((m0.args 0 ^^^
            ((m0.setXmm 0 (m0.args 0)).operand
              (.MConst (signMask w % 2 ^ 64) (signMask w / 2 ^ 64)))) % 2 ^ 128) } := by
      simp [runBlock, run, step, Machine.setXmm, sseSem]
    rw [h1, MConst_split _ _ hc]
  refine ⟨_, EmitFPVectorNeg_emitted w hw, _, _, hrun m, rfl, rfl, ?_, ?_⟩
  · intro i hi
    rw [lane_mod128 _ _ _ (lane_mul_le w i hi), lane_xor, lane_signMask w i hw hi]
  · intro m2 h2
    refine ⟨_, hrun m2, ?_⟩
    simp only [h2]
    congr 1
    apply Nat.eq_of_testBit_eq
    intro j
    simp only [Nat.testBit_mod_two_pow, Nat.testBit_xor]
    by_cases hj : j < 128 <;> simp [hj]

/-- Witness of C17: lane width 64 on the concrete host. -/
theorem EmitFPVectorNeg_spec_witness :
    ∃ s, emitted (EmitFPVectorNeg 64) = .ok s ∧
      ∃ m1 v, runBlock (x86Env .ToNearest_TieEven) .sse2 s
          (Machine.init [vec64 0x3FF0000000000000 0x8000000000000000]) = some m1 ∧
        m1.defined = some v ∧
        v = ((Machine.init [vec64 0x3FF0000000000000 0x8000000000000000]).args 0 ^^^
          signMask 64) % 2 ^ 128 :=
  let ⟨s, hs, m1, v, hr, hd, hv, _⟩ := EmitFPVectorNeg_spec (x86Env .ToNearest_TieEven) .sse2 64
    (Or.inr (Or.inr rfl)) (Machine.init [vec64 0x3FF0000000000000 0x8000000000000000])
  ⟨s, hs, m1, v, hr, hd, hv⟩

/-! ## Comparisons -/

theorem CompareOpcode_emitted_eq (op : CompareOpcode) : emitted op.emit = .ok op.state := by
  cases op <;> decide!

theorem CompareOpcode_fsize_cases (op : CompareOpcode) : op.fsize = 32 ∨ op.fsize = 64 := by
  cases op <;> simp [CompareOpcode.fsize]

theorem CompareOpcode.run_lane (env : Env) (code : BlockOfCode) (op : CompareOpcode)
    (m : Machine) :
    ∃ m1 v, runBlock env code op.state m = some m1 ∧ m1.defined = some v ∧
      ∀ i, i < 128 / op.fsize → lane op.fsize i v =
        boolMask op.fsize (op.holds (lane op.fsize i (m.args 0)) (lane op.fsize i (m.args 1))) := by
  cases op <;>
    refine ⟨_, _, rfl, rfl, ?_⟩ <;>
    intro i hi <;>
    simp only [CompareOpcode.fsize] at hi <;>
    simp only [Machine.setXmm, if_true, CompareOpcode.fsize, sseSem, Machine.operand,
      if_neg (by decide : (0 : Nat) ≠ 1), if_neg (by decide : (1 : Nat) ≠ 0)] <;>
    rw [lane_mod128 _ _ _ (lane_mul_le _ i hi), lane_mapLanes2 _ _ _ _ _ hi, boolMask_mod] <;>
    congr 1 <;>
    simp only [CompareOpcode.holds, CompareOpcode.fsize, fpEq, fpLt, fpLe, gt_iff_lt, ge_iff_le]
  all_goals
    cases IsNaN _ (lane _ i (m.args 0)) <;> cases IsNaN _ (lane _ i (m.args 1)) <;> simp

/-- C18: `EmitFPVectorEqual32/64`, `EmitFPVectorGreater32/64` and
`EmitFPVectorGreaterEqual32/64`, with IR arguments `(a, b)` in that order. The emitted block is
`CompareOpcode.state`: `Equal` is `cmpeq a, b` into the register of `a`; `Greater` is
`cmplt b, a` and `GreaterEqual` is `cmple b, a`, both into the register holding `b`. Run on any
host it defines a value whose every lane is all ones when `a = b`, `a > b`, `a >= b`
respectively holds as an ordered comparison of the lanes, and all zeros otherwise; a lane with
a NaN operand is all zeros. -/
theorem CompareOpcode_spec (env : Env) (code : BlockOfCode) (op : CompareOpcode) (m : Machine) :
    ∃ s, emitted op.emit = .ok s ∧ s = op.state ∧
      ∃ m1 v, runBlock env code s m = some m1 ∧ m1.defined = some v ∧
        ∀ i, i < 128 / op.fsize →
          lane op.fsize i v =
            (if op.holds (lane op.fsize i (m.args 0)) (lane op.fsize i (m.args 1))
              then ones op.fsize else 0) ∧
          ((IsNaN op.fsize (lane op.fsize i (m.args 0)) = true ∨
              IsNaN op.fsize (lane op.fsize i (m.args 1)) = true) →
            lane op.fsize i v = 0) := by
  obtain ⟨m1, v, hrun, hv, hl⟩ := CompareOpcode.run_lane env code op m
  refine ⟨_, CompareOpcode_emitted_eq op, rfl, m1, v, hrun, hv, ?_⟩
  intro i hi
  rw [hl i hi]
  refine ⟨rfl, ?_⟩
  intro hnan
  have : op.holds (lane op.fsize i (m.args 0)) (lane op.fsize i (m.args 1)) = false := by
    unfold CompareOpcode.holds
    rcases hnan with h | h <;> simp [h]
  simp [this, boolMask]

/-! ## The paired indexers -/

theorem PairedIndexer_eq_reads (i : Nat) (a b : List Nat) :
    PairedIndexer i a b =
      (PairedIndexer.reads a.length i).bind
        (List.mapM (fun r : Nat × Nat => (if r.1 = 0 then a else b)[r.2]?)) := by
  unfold PairedIndexer PairedIndexer.reads
  rcases h : i / (a.length / 2) with _ | _ | k <;>
    simp [List.mapM, List.mapM.loop, h]

theorem list_length_two {α : Type} (a : List α) (h : a.length = 2) : ∃ x y, a = [x, y] := by
  match a, h with
  | [x, y], _ => exact ⟨x, y, rfl⟩

theorem list_length_four {α : Type} (a : List α) (h : a.length = 4) :
    ∃ x y z w, a = [x, y, z, w] := by
  match a, h with
  | [x, y, z, w], _ => exact ⟨x, y, z, w, rfl⟩

/-- C14: `PairedIndexer` on two arrays `a` and `b` of `N` lanes, `N = 4` or `N = 2`. For every
element index `i < N` it returns `(a[2i], a[2i+1])` when `i < N/2` and
`(b[2(i-N/2)], b[2(i-N/2)+1])` otherwise; the elements it reads (`PairedIndexer.reads`, of
which the result is the image) all have an index below `N`, and `UNREACHABLE()` is not
reached. Over `i = 0 .. N-1` in order, the reads are exactly `a[0], .., a[N-1], b[0], ..,
b[N-1]`: every lane of `a` and every lane of `b` is read exactly once. -/
theorem PairedIndexer_spec (N : Nat) (hN : N = 4 ∨ N = 2) (a b : List Nat)
    (ha : a.length = N) (hb : b.length = N) :
    (∀ i, i < N →
      (∃ rs, PairedIndexer.reads N i = some rs ∧ (∀ r ∈ rs, r.1 < 2 ∧ r.2 < N) ∧
        PairedIndexer i a b = rs.mapM (fun r : Nat × Nat => (if r.1 = 0 then a else b)[r.2]?)) ∧
      (i < N / 2 → ∃ p q, a[2 * i]? = some p ∧ a[2 * i + 1]? = some q ∧
        PairedIndexer i a b = some [p, q]) ∧
      (N / 2 ≤ i → ∃ p q, b[2 * (i - N / 2)]? = some p ∧ b[2 * (i - N / 2) + 1]? = some q ∧
        PairedIndexer i a b = some [p, q])) ∧
    (List.range N).mapM (PairedIndexer.reads N) =
      some ((List.range (N / 2)).map (fun i => [(0, 2 * i), (0, 2 * i + 1)]) ++
        (List.range (N / 2)).map (fun i => [(1, 2 * i), (1, 2 * i + 1)])) ∧
    ((List.range N).flatMap (fun i => (PairedIndexer.reads N i).getD [])) =
      (List.range N).map (fun j => (0, j)) ++ (List.range N).map (fun j => (1, j)) := by
  rcases hN with rfl | rfl
  · obtain ⟨a0, a1, a2, a3, rfl⟩ := list_length_four a ha
    obtain ⟨b0, b1, b2, b3, rfl⟩ := list_length_four b hb
    refine ⟨?_, by decide, by decide⟩
    intro i hi
    have hi4 : i = 0 ∨ i = 1 ∨ i = 2 ∨ i = 3 := by omega
    rcases hi4 with rfl | rfl | rfl | rfl <;>
      refine ⟨⟨_, rfl, by decide, ?_⟩, ?_, ?_⟩ <;>
      simp [PairedIndexer, List.mapM, List.mapM.loop]
  · obtain ⟨a0, a1, rfl⟩ := list_length_two a ha
    obtain ⟨b0, b1, rfl⟩ := list_length_two b hb
    refine ⟨?_, by decide, by decide⟩
    intro i hi
    have hi2 : i = 0 ∨ i = 1 := by omega
    rcases hi2 with rfl | rfl <;>
      refine ⟨⟨_, rfl, by decide, ?_⟩, ?_, ?_⟩ <;>
      simp [PairedIndexer, List.mapM, List.mapM.loop]

theorem PairedIndexer_spec_witness :
    PairedIndexer 3 [10, 11, 12, 13] [20, 21, 22, 23] = some [22, 23] ∧
      (List.range 4).flatMap (fun i => (PairedIndexer.reads 4 i).getD []) =
        (List.range 4).map (fun j => (0, j)) ++ (List.range 4).map (fun j => (1, j)) :=
  let h := PairedIndexer_spec 4 (Or.inl rfl) [10, 11, 12, 13] [20, 21, 22, 23] rfl rfl
  ⟨by
    obtain ⟨p, q, hp, hq, hr⟩ := (h.1 3 (by decide)).2.2 (by decide)
    have hp1 : p = 22 := by simpa using hp.symm
    have hq1 : q = 23 := by simpa using hq.symm
    rw [hr, hp1, hq1], h.2.2⟩

/-! ## PairedAddLower -/

theorem PairedAddLower_lambda_sem (env : Env) (code : BlockOfCode) (w result xmm_b n : Nat)
    (h1 : n ≠ result) (h2 : n ≠ xmm_b) (m : Machine) :
    ∃ m1, execList env code (PairedAddLower.lambda w result xmm_b n) m = some m1 ∧
      m1.xmm result =
        haddp w (env.addp w) (m.xmm result % 2 ^ 64 + (m.xmm xmm_b % 2 ^ 64) * 2 ^ 64) 0 := by
  refine ⟨_, rfl, ?_⟩
  simp [Machine.setXmm, Machine.operand, sseSem, h1, h2, Ne.symm h1, Ne.symm h2]

theorem PairedAddLower.lanes32 (add : Nat → Nat → Nat) (a b i : Nat) (hi : i < 4) :
    ∃ p q, PairedLowerIndexer i (toLanes 32 a) (toLanes 32 b) = some [p, q] ∧
      lane 32 i (haddp 32 add (a % 2 ^ 64 + (b % 2 ^ 64) * 2 ^ 64) 0) = add p q % 2 ^ 32 := by
  have hl : ∀ v j, j < 4 → (toLanes 32 v)[j]? = some (lane 32 j v) :=
    fun v j hj => toLanes_getElem? 32 v j (by simpa using hj)
  have hlen : ∀ v, (toLanes 32 v).length = 4 := fun v => by simp [toLanes]
  have hi4 : i = 0 ∨ i = 1 ∨ i = 2 ∨ i = 3 := by omega
  have e0 : lane 32 0 (a % 2 ^ 64 + (b % 2 ^ 64) * 2 ^ 64) = lane 32 0 a := by
    simp only [lane, Nat.shiftRight_eq_div_pow]; omega
  have e1 : lane 32 1 (a % 2 ^ 64 + (b % 2 ^ 64) * 2 ^ 64) = lane 32 1 a := by
    simp only [lane, Nat.shiftRight_eq_div_pow]; omega
  have e2 : lane 32 2 (a % 2 ^ 64 + (b % 2 ^ 64) * 2 ^ 64) = lane 32 0 b := by
    simp only [lane, Nat.shiftRight_eq_div_pow]; omega
  have e3 : lane 32 3 (a % 2 ^ 64 + (b % 2 ^ 64) * 2 ^ 64) = lane 32 1 b := by
    simp only [lane, Nat.shiftRight_eq_div_pow]; omega
  have z : ∀ j, lane 32 j 0 = 0 := fun j => by simp [lane]
  norm_num at e0 e1 e2 e3
  rcases hi4 with rfl | rfl | rfl | rfl
  · refine ⟨lane 32 0 a, lane 32 1 a, ?_, ?_⟩
    · simp [PairedLowerIndexer, hlen, hl]
    · rw [haddp, lane_ofLanes _ _ _ _ (by decide)]; simp [e0, e1]
  · refine ⟨lane 32 0 b, lane 32 1 b, ?_, ?_⟩
    · simp [PairedLowerIndexer, hlen, hl]
    · rw [haddp, lane_ofLanes _ _ _ _ (by decide)]; simp [e2, e3]
  · refine ⟨0, 0, ?_, ?_⟩
    · simp [PairedLowerIndexer, hlen]
    · rw [haddp, lane_ofLanes _ _ _ _ (by decide)]; simp [z]
  · refine ⟨0, 0, ?_, ?_⟩
    · simp [PairedLowerIndexer, hlen]
    · rw [haddp, lane_ofLanes _ _ _ _ (by decide)]; simp [z]

theorem PairedAddLower.lanes64 (add : Nat → Nat → Nat) (a b i : Nat) (hi : i < 2) :
    ∃ p q, PairedLowerIndexer i (toLanes 64 a) (toLanes 64 b) = some [p, q] ∧
      lane 64 i (haddp 64 add (a % 2 ^ 64 + (b % 2 ^ 64) * 2 ^ 64) 0) = add p q % 2 ^ 64 := by
  have hl : ∀ v j, j < 2 → (toLanes 64 v)[j]? = some (lane 64 j v) :=
    fun v j hj => toLanes_getElem? 64 v j (by simpa using hj)
  have hlen : ∀ v, (toLanes 64 v).length = 2 := fun v => by simp [toLanes]
  have hi2 : i = 0 ∨ i = 1 := by omega
  have e0 : lane 64 0 (a % 2 ^ 64 + (b % 2 ^ 64) * 2 ^ 64) = lane 64 0 a := by
    simp only [lane, Nat.shiftRight_eq_div_pow]; omega
  have e1 : lane 64 1 (a % 2 ^ 64 + (b % 2 ^ 64) * 2 ^ 64) = lane 64 0 b := by
    simp only [lane, Nat.shiftRight_eq_div_pow]; omega
  have z : ∀ j, lane 64 j 0 = 0 := fun j => by simp [lane]
  norm_num at e0 e1
  rcases hi2 with rfl | rfl
  · refine ⟨lane 64 0 a, lane 64 0 b, ?_, ?_⟩
    · simp [PairedLowerIndexer, hlen, hl]
    · rw [haddp, lane_ofLanes _ _ _ _ (by decide)]; simp [e0, e1]
  · refine ⟨0, 0, ?_, ?_⟩
    · simp [PairedLowerIndexer, hlen]
    · rw [haddp, lane_ofLanes _ _ _ _ (by decide)]; simp [z]

theorem PairedAddLower.lanes (add : Nat → Nat → Nat) (w : Nat) (hw : w = 32 ∨ w = 64)
    (a b i : Nat) (hi : i < 128 / w) :
    ∃ p q, PairedLowerIndexer i (toLanes w a) (toLanes w b) = some [p, q] ∧
      lane w i (haddp w add (a % 2 ^ 64 + (b % 2 ^ 64) * 2 ^ 64) 0) = add p q % 2 ^ w := by
  rcases hw with rfl | rfl
  · exact PairedAddLower.lanes32 add a b i (by simpa using hi)
  · exact PairedAddLower.lanes64 add a b i (by simpa using hi)

theorem toLanes32_eq (v : Nat) :
    toLanes 32 v = [lane 32 0 v, lane 32 1 v, lane 32 2 v, lane 32 3 v] := rfl

theorem toLanes64_eq (v : Nat) : toLanes 64 v = [lane 64 0 v, lane 64 1 v] := rfl

theorem PairedAddLower.state_near (op : ThreeOpOpcode) (code : BlockOfCode) (ctx : EmitContext)
    (hop : op = .FPVectorPairedAddLower32 ∨ op = .FPVectorPairedAddLower64) :
    ∃ result xmm_b n pre post, n ≠ result ∧ n ≠ xmm_b ∧
      (op.state code ctx).near =
        pre ++ PairedAddLower.lambda op.fsize result xmm_b n ++ post := by
  have hF : ∀ r b n, op.F r b n = PairedAddLower.lambda op.fsize r b n := by
    rcases hop with rfl | rfl <;> intro r b n <;> rfl
  unfold ThreeOpOpcode.state EmitThreeOpVectorOperation.state
  by_cases hs : (!ctx.AccurateNaN || ctx.FPSCR_DN) = true
  · rw [if_pos hs]
    exact ⟨0, 1, 2, _, _, by decide, by decide, by rw [hF, List.append_assoc _ _ [_]]⟩
  · rw [if_neg hs]
    refine ⟨0, 2, 4, [Instr.UseXmm 1 0, Instr.UseXmm 2 1, Instr.sse .movaps 3 (.xmm 2),
      Instr.sse .movaps 0 (.xmm 1), Instr.sse (.cmpunordp op.fsize) 3 (.xmm 1)],
      [Instr.sse (.cmpunordp op.fsize) 3 (.xmm 0)] ++ HandleNaNs.near code 3 0 0 ++
        [Instr.DefineValue 0], by decide, by decide, ?_⟩
    simp only [hF, List.append_assoc]

/-- C15: `EmitFPVectorPairedAddLower32/64`, for any host (any lane-wise addition `env.addp`).
The lambda zeroes a scratch register, packs the low halves of the operands with `punpcklqdq`
and adds horizontally against the zero register. Run from any state with the scratch register
distinct from the operand registers, the sequence leaves in every lane `i` of the result
register `add(p, q)` (as a lane of `fsize` bits), where `(p, q)` is the pair
`PairedLowerIndexer` returns for `i` on the lanes of the two operands: the lanes are
`[add(a0,a1), add(b0,b1), add(0,0), add(0,0)]` at 32 bits and `[add(a0,b0), add(0,0)]` at 64
bits. Every emitted block contains the sequence, and with `DN` clear and `AccurateNaN` off the
block defines exactly that register. -/
theorem EmitFPVectorPairedAddLower_spec (env : Env) (code : BlockOfCode) (ctx : EmitContext)
    (op : ThreeOpOpcode)
    (hop : op = .FPVectorPairedAddLower32 ∨ op = .FPVectorPairedAddLower64) :
    (∀ (result xmm_b n : Nat) (m : Machine), n ≠ result → n ≠ xmm_b →
      ∃ m1, execList env code (PairedAddLower.lambda op.fsize result xmm_b n) m = some m1 ∧
        (∀ i, i < 128 / op.fsize → ∃ p q,
          PairedLowerIndexer i (toLanes op.fsize (m.xmm result))
            (toLanes op.fsize (m.xmm xmm_b)) = some [p, q] ∧
          lane op.fsize i (m1.xmm result) = env.addp op.fsize p q % 2 ^ op.fsize) ∧
        (op.fsize = 32 → toLanes 32 (m1.xmm result) =
          [env.addp 32 (lane 32 0 (m.xmm result)) (lane 32 1 (m.xmm result)) % 2 ^ 32,
           env.addp 32 (lane 32 0 (m.xmm xmm_b)) (lane 32 1 (m.xmm xmm_b)) % 2 ^ 32,
           env.addp 32 0 0 % 2 ^ 32, env.addp 32 0 0 % 2 ^ 32]) ∧
        (op.fsize = 64 → toLanes 64 (m1.xmm result) =
          [env.addp 64 (lane 64 0 (m.xmm result)) (lane 64 0 (m.xmm xmm_b)) % 2 ^ 64,
           env.addp 64 0 0 % 2 ^ 64])) ∧
    ∃ s, emitted (op.emit code ctx) = .ok s ∧
      (∃ result xmm_b n pre post, n ≠ result ∧ n ≠ xmm_b ∧
        s.near = pre ++ PairedAddLower.lambda op.fsize result xmm_b n ++ post) ∧
      (ctx.FPSCR_DN = false → ctx.AccurateNaN = false → ∀ m : Machine,
        ∃ m1 v, runBlock env code s m = some m1 ∧ m1.defined = some v ∧
          ∀ i, i < 128 / op.fsize → ∃ p q,
            PairedLowerIndexer i (toLanes op.fsize (m.args 0))
              (toLanes op.fsize (m.args 1)) = some [p, q] ∧
            lane op.fsize i v = env.addp op.fsize p q % 2 ^ op.fsize) := by
  have hF : ∀ r b n, op.F r b n = PairedAddLower.lambda op.fsize r b n := by
    rcases hop with rfl | rfl <;> intro r b n <;> rfl
  have hseq : ∀ (result xmm_b n : Nat) (m : Machine), n ≠ result → n ≠ xmm_b →
      ∃ m1, execList env code (PairedAddLower.lambda op.fsize result xmm_b n) m = some m1 ∧
        ∀ i, i < 128 / op.fsize → ∃ p q,
          PairedLowerIndexer i (toLanes op.fsize (m.xmm result))
            (toLanes op.fsize (m.xmm xmm_b)) = some [p, q] ∧
          lane op.fsize i (m1.xmm result) = env.addp op.fsize p q % 2 ^ op.fsize := by
    intro result xmm_b n m h1 h2
    obtain ⟨m1, hm1, hx⟩ := PairedAddLower_lambda_sem env code op.fsize result xmm_b n h1 h2 m
    refine ⟨m1, hm1, fun i hi => ?_⟩
    rw [hx]
    exact PairedAddLower.lanes (env.addp op.fsize) op.fsize op.fsize_cases _ _ i hi
  refine ⟨?_, _, ThreeOpOpcode_emitted_eq op code ctx,
    PairedAddLower.state_near op code ctx hop, ?_⟩
  · intro result xmm_b n m h1 h2
    obtain ⟨m1, hm1, hl⟩ := hseq result xmm_b n m h1 h2
    refine ⟨m1, hm1, hl, ?_, ?_⟩
    · intro h32
      rw [h32] at hl
      obtain ⟨p0, q0, hi0, hl0⟩ := hl 0 (by decide)
      obtain ⟨p1, q1, hi1, hl1⟩ := hl 1 (by decide)
      obtain ⟨p2, q2, hi2, hl2⟩ := hl 2 (by decide)
      obtain ⟨p3, q3, hi3, hl3⟩ := hl 3 (by decide)
      simp only [PairedLowerIndexer, toLanes32_eq] at hi0 hi1 hi2 hi3
      simp at hi0 hi1 hi2 hi3
      rw [toLanes32_eq, hl0, hl1, hl2, hl3, ← hi0.1, ← hi0.2, ← hi1.1, ← hi1.2, ← hi2.1,
        ← hi2.2, ← hi3.1, ← hi3.2]
    · intro h64
      rw [h64] at hl
      obtain ⟨p0, q0, hi0, hl0⟩ := hl 0 (by decide)
      obtain ⟨p1, q1, hi1, hl1⟩ := hl 1 (by decide)
      simp only [PairedLowerIndexer, toLanes64_eq] at hi0 hi1
      simp at hi0 hi1
      rw [toLanes64_eq, hl0, hl1, ← hi0.1, ← hi0.2, ← hi1.1, ← hi1.2]
  · intro hdn hacc m
    have hs : (!ctx.AccurateNaN || ctx.FPSCR_DN) = true := by simp [hacc]
    obtain ⟨mF, m1, hmF, hrun, -, v, hv, hl⟩ :=
      EmitThreeOpVectorOperation_simple_run env code op.fsize ctx op.F op.k
        (NaNHandler.GetDefault op.fsize op.indexer 3) op.fsize_cases hs
        (fun i hi => (ThreeOpOpcode.F_xmmOnly op 0 1 2 i hi).imp fun _ h => h.1) m
    obtain ⟨m2, hm2, hl2⟩ := hseq 0 1 2 ((m.setXmm 0 (m.args 0)).setXmm 1 (m.args 1))
      (by decide) (by decide)
    rw [hF, hm2] at hmF
    cases hmF
    refine ⟨m1, v, hrun, hv, fun i hi => ?_⟩
    obtain ⟨p, q, hpq, hlane⟩ := hl2 i hi
    refine ⟨p, q, hpq, ?_⟩
    rw [hl i hi, hdn]
    exact hlane

theorem EmitFPVectorPairedAddLower_spec_witness :
    ∃ m1, execList (x86Env .ToNearest_TieEven) .sse2
        (PairedAddLower.lambda ThreeOpOpcode.FPVectorPairedAddLower64.fsize 0 1 2)
        (Machine.init []) = some m1 ∧
      (ThreeOpOpcode.FPVectorPairedAddLower64.fsize = 64 → toLanes 64 (m1.xmm 0) =
        [(x86Env .ToNearest_TieEven).addp 64 (lane 64 0 ((Machine.init []).xmm 0))
            (lane 64 0 ((Machine.init []).xmm 1)) % 2 ^ 64,
          (x86Env .ToNearest_TieEven).addp 64 0 0 % 2 ^ 64]) :=
  let ⟨m1, h1, _, _, h3⟩ := (EmitFPVectorPairedAddLower_spec (x86Env .ToNearest_TieEven) .sse2
    ⟨false, false, .ToNearest_TieEven, false⟩ .FPVectorPairedAddLower64 (Or.inr rfl)).1
    0 1 2 (Machine.init []) (by decide) (by decide)
  ⟨m1, h1, h3⟩

/-! ## The software fallbacks -/

set_option maxHeartbeats 4000000 in
theorem Fallback_emitted_eq (sh : Fallback) (code : BlockOfCode) (fn : Callee) :
    emitted (sh.emit code fn) = .ok (sh.state code fn) := by
  obtain ⟨sse41, avx, fma, vl, dq, win⟩ := code
  cases sh
  · rfl
  · cases win
    · rfl
    · rfl
  · cases win
    · rfl
    · rfl

theorem callMem_isHelper (env : Env) (code : BlockOfCode) (m : Machine) (fn : Callee)
    (h : fn.isHelper = true) : ∃ mem, callMem env code m fn = some mem := by
  cases fn <;> first | exact ⟨_, rfl⟩ | exact absurd h (by simp [Callee.isHelper])

theorem Fallback.tail_sem (env : Env) (code : BlockOfCode) (fn : Callee) (mC : Machine)
    (mem : Int → Nat) (off K : Int) (hcall : callMem env code mC fn = some mem) :
    ∃ m1, execList env code [Instr.CallFunction fn, Instr.movaps_load xmm0 ⟨.rsp, off⟩,
        Instr.add .rsp K, Instr.DefineValue xmm0] mC = some m1 ∧
      m1.defined = some (mem (mC.gpr .rsp + off) % 2 ^ 128) ∧ m1.calls = mC.calls ++ [fn] := by
  simp [execList, step, hcall, Machine.setXmm, Machine.setGpr, Machine.ea]

theorem atCall_append (env : Env) (code : BlockOfCode) (fn : Callee) (pre post : List Instr)
    (m mC : Machine) (hpre : execList env code pre m = some mC)
    (hc : ∀ i ∈ pre, i.isCall = false) :
    atCall env code (pre ++ Instr.CallFunction fn :: post) m = some (mC, fn) := by
  induction pre generalizing m with
  | nil =>
    simp only [execList, Option.some.injEq] at hpre
    subst hpre
    rfl
  | cons i pre ih =>
    have hi : i.isCall = false := hc i (List.mem_cons_self _ _)
    simp only [execList] at hpre
    cases hs : step env code i m with
    | none => simp [hs] at hpre
    | some m2 =>
      rw [hs, Option.some_bind] at hpre
      have := ih m2 hpre (fun j hj => hc j (List.mem_cons_of_mem _ hj))
      cases i <;> first
        | (simp only [List.cons_append, atCall, hs, Option.some_bind]; exact this)
        | (simp [Instr.isCall] at hi)

theorem Fallback.setup_sem (env : Env) (code : BlockOfCode) (sh : Fallback) (m : Machine) :
    ∃ mC, execList env code (sh.setup code) m = some mC ∧
      mC.gpr .rsp + sh.resultSlot code = abiParam code mC 1 ∧
      (∀ k, k < sh.operands → mC.mem (abiParam code mC (k + 2)) = m.args k % 2 ^ 128) ∧
      abiParam code mC (sh.operands + 2) = (env.FPCR : Int) ∧
      (abiParam code mC (sh.operands + 3)).toNat =
        (m.gpr .r15 + env.offsetof_fpsr_exc).toNat ∧
      mC.calls = m.calls := by
  cases sh <;> cases hw : code.win32 <;>
    simp only [Fallback.setup, Fallback.resultSlot, Fallback.operands, hw, if_true,
      Bool.false_eq_true, if_false, List.append_assoc, List.cons_append, List.nil_append] <;>
    refine ⟨_, rfl, ?_, ?_, ?_, ?_, rfl⟩
  all_goals first
    | (intro k hk
       have hk3 : k = 0 ∨ k = 1 ∨ k = 2 := by omega
       rcases hk3 with rfl | rfl | rfl <;>
         simp [abiParam, hw, ABI_SHADOW_SPACE, Machine.setGpr, Machine.setMem, Machine.ea,
           Machine.setXmm] at hk ⊢)
    | (simp [abiParam, hw, ABI_SHADOW_SPACE, Machine.setGpr, Machine.setMem, Machine.ea,
         Machine.setXmm]
       try omega)

/-- C19: the software fallbacks `EmitTwoOpFallback`, `EmitThreeOpFallback` and
`EmitFourOpFallback`, on both ABIs (`code.win32` or not), for any helper `fn`. At the call of
the helper its integer parameters are, in order: the pointer to the result slot, one pointer
per vector operand in IR argument order, `fpcr`, and the pointer `r15 + offsetof_fpsr_exc` to
the FPSR exception bits. The slot each operand pointer addresses holds, at the call, the
register of that operand. The block runs to its end, calls `fn` once, and the value it defines
is what the call left in the slot the first parameter addresses. -/
theorem Fallback_spec (env : Env) (code : BlockOfCode) (sh : Fallback) (fn : Callee)
    (hfn : fn.isHelper = true) (m : Machine) :
    ∃ s, emitted (sh.emit code fn) = .ok s ∧
      ∃ mC, atCall env code s.near m = some (mC, fn) ∧
        (∀ k, k < sh.operands → mC.mem (abiParam code mC (k + 2)) = m.args k % 2 ^ 128) ∧
        abiParam code mC (sh.operands + 2) = (env.FPCR : Int) ∧
        (abiParam code mC (sh.operands + 3)).toNat =
          (m.gpr .r15 + env.offsetof_fpsr_exc).toNat ∧
        ∃ mem, callMem env code mC fn = some mem ∧
          ∃ m1, runBlock env code s m = some m1 ∧ m1.calls = m.calls ++ [fn] ∧
            m1.defined = some (mem (abiParam code mC 1) % 2 ^ 128) := by
  obtain ⟨mC, hpre, hres, hops, hfpcr, hfpsr, hcalls⟩ := Fallback.setup_sem env code sh m
  obtain ⟨mem, hmem⟩ := callMem_isHelper env code mC fn hfn
  obtain ⟨m1, htail, hdef, hc1⟩ :=
    Fallback.tail_sem env code fn mC mem (sh.resultSlot code) (sh.stackSpace code) hmem
  have hnc : ∀ i ∈ sh.setup code, i.isCall = false := by
    intro i hi
    cases sh <;> cases hw : code.win32 <;>
      simp only [Fallback.setup, hw, if_true, Bool.false_eq_true, if_false, List.append_assoc,
        List.cons_append, List.nil_append, List.mem_cons, List.mem_singleton,
        List.not_mem_nil, or_false] at hi <;>
      rcases hi with rfl | rfl | rfl | rfl | rfl | rfl | rfl | rfl | rfl | rfl | rfl | rfl |
        rfl | rfl | rfl | rfl <;> rfl
  refine ⟨_, Fallback_emitted_eq sh code fn, mC,
    atCall_append env code fn _ _ m mC hpre hnc, hops, hfpcr, hfpsr, mem, hmem, m1, ?_, ?_, ?_⟩
  · rw [runBlock_straight]
    · show execList env code (sh.setup code ++ _) m = some m1
      rw [execList_append, hpre, Option.some_bind]
      exact htail
    · intro i hi
      change i ∈ sh.setup code ++ _ at hi
      rcases List.mem_append.1 hi with h | h
      · cases sh <;> cases hw : code.win32 <;>
          simp only [Fallback.setup, hw, if_true, Bool.false_eq_true, if_false,
            List.append_assoc, List.cons_append, List.nil_append, List.mem_cons,
            List.mem_singleton, List.not_mem_nil, or_false] at h <;>
          rcases h with rfl | rfl | rfl | rfl | rfl | rfl | rfl | rfl | rfl | rfl | rfl | rfl |
            rfl | rfl | rfl | rfl <;> rfl
      · simp only [List.mem_cons, List.mem_singleton, List.not_mem_nil, or_false] at h
        rcases h with rfl | rfl | rfl | rfl <;> rfl
  · rw [hc1, hcalls]
  · rw [hdef, hres]

theorem Fallback_spec_witness :
    ∃ s, emitted (Fallback.ThreeOp.emit ⟨false, false, false, false, false, true⟩
        (.FPRecipStepFused 32)) = .ok s ∧
      ∃ mC, atCall (x86Env .ToNearest_TieEven) ⟨false, false, false, false, false, true⟩ s.near
          (Machine.init [5, 7]) = some (mC, .FPRecipStepFused 32) ∧
        abiParam ⟨false, false, false, false, false, true⟩ mC (Fallback.ThreeOp.operands + 2) =
          ((x86Env .ToNearest_TieEven).FPCR : Int) :=
  let ⟨s, hs, mC, hC, _, h2, _⟩ := Fallback_spec (x86Env .ToNearest_TieEven)
    ⟨false, false, false, false, false, true⟩ .ThreeOp (.FPRecipStepFused 32) rfl
    (Machine.init [5, 7])
  ⟨s, hs, mC, hC, h2⟩

/-! ## Registers read after `EndOfAllocScope` -/

theorem eq_of_emitted {e : Emit Unit} {s0 s : EmitState} (h0 : emitted e = .ok s0)
    (h : emitted e = .ok s) : s = s0 := by
  rw [h0] at h
  exact (Except.ok.inj h).symm

theorem noScopeEnd_ok {r : Except EmitError EmitState} {s : EmitState}
    (h0 : noScopeEnd r = true) (h : r = .ok s) :
    Instr.EndOfAllocScope ∉ s.near ∧ Instr.EndOfAllocScope ∉ s.far := by
  subst h
  simpa [noScopeEnd] using h0

theorem scopeOk_ok {alt : EmitState} {r : Except EmitError EmitState} {s : EmitState}
    (h0 : scopeOk alt r = true) (h : r = .ok s) :
    (Instr.EndOfAllocScope ∉ s.near ∧ Instr.EndOfAllocScope ∉ s.far) ∨ s = alt := by
  subst h
  simpa [scopeOk] using h0

theorem afterScope_of_not_mem (l : List Instr) (h : Instr.EndOfAllocScope ∉ l) :
    afterScope l = [] := by
  induction l with
  | nil => rfl
  | cons i l ih =>
    have h1 : i ≠ Instr.EndOfAllocScope := fun e => h (e ▸ List.mem_cons_self _ _)
    have h2 : Instr.EndOfAllocScope ∉ l := fun e => h (List.mem_cons_of_mem _ e)
    cases i <;> first | exact absurd rfl h1 | exact ih h2

theorem readsAfterScope_of_not_mem (l : List Instr) (h : Instr.EndOfAllocScope ∉ l) :
    readsAfterScope l = [] := by
  simp [readsAfterScope, afterScope_of_not_mem l h]

theorem ThreeOpOpcode_noScope (op : ThreeOpOpcode) (code : BlockOfCode) (ctx : EmitContext) :
    Instr.EndOfAllocScope ∉ (op.state code ctx).near ∧
      Instr.EndOfAllocScope ∉ (op.state code ctx).far := by
  have h : ∀ (op : ThreeOpOpcode) (sse41 win dn acc : Bool),
      Instr.EndOfAllocScope ∉ (op.state ⟨sse41, false, false, false, false, win⟩
        ⟨dn, false, .ToNearest_TieEven, acc⟩).near ∧
      Instr.EndOfAllocScope ∉ (op.state ⟨sse41, false, false, false, false, win⟩
        ⟨dn, false, .ToNearest_TieEven, acc⟩).far := by decide!
  obtain ⟨sse41, avx, fma, vl, dq, win⟩ := code
  obtain ⟨dn, ftz, rm, acc⟩ := ctx
  exact h op sse41 win dn acc

theorem MinMax_noScope (isMax : Bool) (fsize : Nat) (hf : fsize = 32 ∨ fsize = 64)
    (code : BlockOfCode) (ctx : EmitContext) :
    Instr.EndOfAllocScope ∉ (MinMax.state isMax fsize code ctx).near ∧
      Instr.EndOfAllocScope ∉ (MinMax.state isMax fsize code ctx).far := by
  have h : ∀ fsize ∈ [32, 64], ∀ (isMax sse41 avx win dn ftz acc : Bool) (rm : RoundingMode),
      Instr.EndOfAllocScope ∉ (MinMax.state isMax fsize ⟨sse41, avx, false, false, false, win⟩
        ⟨dn, ftz, rm, acc⟩).near ∧
      Instr.EndOfAllocScope ∉ (MinMax.state isMax fsize ⟨sse41, avx, false, false, false, win⟩
        ⟨dn, ftz, rm, acc⟩).far := by decide!
  obtain ⟨sse41, avx, fma, vl, dq, win⟩ := code
  obtain ⟨dn, ftz, rm, acc⟩ := ctx
  rcases hf with rfl | rfl
  · exact h 32 (by simp) isMax sse41 avx win dn ftz acc rm
  · exact h 64 (by simp) isMax sse41 avx win dn ftz acc rm

theorem EmitFPVectorMulAdd_scope (fsize : Nat) (code : BlockOfCode) :
    (Instr.EndOfAllocScope ∉ (EmitFPVectorMulAdd.state fsize code).near ∧
      Instr.EndOfAllocScope ∉ (EmitFPVectorMulAdd.state fsize code).far) ∨
    EmitFPVectorMulAdd.state fsize code = Fallback.FourOp.state code (.FPMulAdd fsize) := by
  obtain ⟨sse41, avx, fma, vl, dq, win⟩ := code
  cases fma <;> cases avx <;> cases win <;>
    first
      | (right; rfl)
      | (left
         simp [EmitFPVectorMulAdd.state, BlockOfCode.DoesCpuSupport,
           EmitFourOpFallbackWithoutRegAlloc.code])

theorem EmitFPVectorRoundInt_scope (fsize : Nat) (hf : fsize = 32 ∨ fsize = 64)
    (code : BlockOfCode) (ctx : EmitContext) (rounding : RoundingMode) (exact : Bool) :
    scopeOk (Fallback.TwoOp.state code (.FPRoundInt fsize rounding exact))
      (emitted (EmitFPVectorRoundInt fsize code ctx rounding exact)) = true := by
  have h : ∀ fsize ∈ [32, 64], ∀ (sse41 avx win dn acc exact : Bool) (rounding : RoundingMode),
      scopeOk (Fallback.TwoOp.state ⟨sse41, avx, false, false, false, win⟩
          (.FPRoundInt fsize rounding exact))
        (emitted (EmitFPVectorRoundInt fsize ⟨sse41, avx, false, false, false, win⟩
          ⟨dn, false, .ToNearest_TieEven, acc⟩ rounding exact)) = true := by
    decide!
  obtain ⟨sse41, avx, fma, vl, dq, win⟩ := code
  obtain ⟨dn, ftz, rm, acc⟩ := ctx
  rcases hf with rfl | rfl
  · exact h 32 (by simp) sse41 avx win dn acc exact rounding
  · exact h 64 (by simp) sse41 avx win dn acc exact rounding

theorem conversions_noScope (code : BlockOfCode) (ctx : EmitContext) :
    noScopeEnd (emitted EmitFPVectorS32ToSingle) = true ∧
    noScopeEnd (emitted (EmitFPVectorS64ToDouble code)) = true ∧
    noScopeEnd (emitted (EmitFPVectorU32ToSingle code ctx)) = true ∧
    noScopeEnd (emitted (EmitFPVectorU64ToDouble code ctx)) = true := by
  have h : ∀ (sse41 avx vl dq : Bool) (rm : RoundingMode),
      noScopeEnd (emitted EmitFPVectorS32ToSingle) = true ∧
      noScopeEnd (emitted (EmitFPVectorS64ToDouble ⟨sse41, avx, false, vl, dq, false⟩)) = true ∧
      noScopeEnd (emitted (EmitFPVectorU32ToSingle ⟨sse41, avx, false, vl, dq, false⟩
        ⟨false, false, rm, false⟩)) = true ∧
      noScopeEnd (emitted (EmitFPVectorU64ToDouble ⟨sse41, avx, false, vl, dq, false⟩
        ⟨false, false, rm, false⟩)) = true := by decide!
  obtain ⟨sse41, avx, fma, vl, dq, win⟩ := code
  obtain ⟨dn, ftz, rm, acc⟩ := ctx
  exact h sse41 avx vl dq rm

theorem simple_noScope :
    noScopeEnd (emitted EmitFPVectorAbs16) = true ∧
    noScopeEnd (emitted EmitFPVectorAbs32) = true ∧
    noScopeEnd (emitted EmitFPVectorAbs64) = true ∧
    noScopeEnd (emitted EmitFPVectorNeg16) = true ∧
    noScopeEnd (emitted EmitFPVectorNeg32) = true ∧
    noScopeEnd (emitted EmitFPVectorNeg64) = true ∧
    ∀ op : CompareOpcode, noScopeEnd (emitted op.emit) = true := by
  refine ⟨by decide!, by decide!, by decide!, by decide!, by decide!, by decide!, ?_⟩
  intro op
  cases op <;> decide!

theorem EmitFPVectorToFixed_scope (fsize : Nat) (unsigned_ : Bool) (code : BlockOfCode)
    (fbits : Nat) (rounding : RoundingMode) (s : EmitState)
    (h : emitted (EmitFPVectorToFixed fsize unsigned_ code fbits rounding) = .ok s) :
    s = Fallback.TwoOp.state code (.FPToFixed fsize unsigned_ fbits rounding) := by
  by_cases hb : fbits < fsize
  · rw [EmitFPVectorToFixed_eq fsize unsigned_ code fbits rounding hb] at h
    exact eq_of_emitted (Fallback_emitted_eq .TwoOp code _) h
  · have he := EmitFPVectorToFixed_error fsize unsigned_ code fbits rounding (by omega) {}
    simp [emitted, StateT.run, he] at h
    cases h

theorem Opcode_scope (op : Opcode) (code : BlockOfCode) (ctx : EmitContext) (s : EmitState)
    (h : emitted (op.emit code ctx) = .ok s) :
    (Instr.EndOfAllocScope ∉ s.near ∧ Instr.EndOfAllocScope ∉ s.far) ∨
      ∃ sh fn, s = Fallback.state sh code fn := by
  have hc := conversions_noScope code ctx
  have hsimple := simple_noScope
  cases op
  case FPVectorAbs16 => exact Or.inl (noScopeEnd_ok hsimple.1 h)
  case FPVectorAbs32 => exact Or.inl (noScopeEnd_ok hsimple.2.1 h)
  case FPVectorAbs64 => exact Or.inl (noScopeEnd_ok hsimple.2.2.1 h)
  case FPVectorNeg16 => exact Or.inl (noScopeEnd_ok hsimple.2.2.2.1 h)
  case FPVectorNeg32 => exact Or.inl (noScopeEnd_ok hsimple.2.2.2.2.1 h)
  case FPVectorNeg64 => exact Or.inl (noScopeEnd_ok hsimple.2.2.2.2.2.1 h)
  case FPVectorEqual32 => exact Or.inl (noScopeEnd_ok (hsimple.2.2.2.2.2.2 .FPVectorEqual32) h)
  case FPVectorEqual64 => exact Or.inl (noScopeEnd_ok (hsimple.2.2.2.2.2.2 .FPVectorEqual64) h)
  case FPVectorGreater32 =>
    exact Or.inl (noScopeEnd_ok (hsimple.2.2.2.2.2.2 .FPVectorGreater32) h)
  case FPVectorGreater64 =>
    exact Or.inl (noScopeEnd_ok (hsimple.2.2.2.2.2.2 .FPVectorGreater64) h)
  case FPVectorGreaterEqual32 =>
    exact Or.inl (noScopeEnd_ok (hsimple.2.2.2.2.2.2 .FPVectorGreaterEqual32) h)
  case FPVectorGreaterEqual64 =>
    exact Or.inl (noScopeEnd_ok (hsimple.2.2.2.2.2.2 .FPVectorGreaterEqual64) h)
  case FPVectorAdd32 =>
    obtain rfl := eq_of_emitted (ThreeOpOpcode_emitted_eq .FPVectorAdd32 code ctx) h
    exact Or.inl (ThreeOpOpcode_noScope _ code ctx)
  case FPVectorAdd64 =>
    obtain rfl := eq_of_emitted (ThreeOpOpcode_emitted_eq .FPVectorAdd64 code ctx) h
    exact Or.inl (ThreeOpOpcode_noScope _ code ctx)
  case FPVectorDiv32 =>
    obtain rfl := eq_of_emitted (ThreeOpOpcode_emitted_eq .FPVectorDiv32 code ctx) h
    exact Or.inl (ThreeOpOpcode_noScope _ code ctx)
  case FPVectorDiv64 =>
    obtain rfl := eq_of_emitted (ThreeOpOpcode_emitted_eq .FPVectorDiv64 code ctx) h
    exact Or.inl (ThreeOpOpcode_noScope _ code ctx)
  case FPVectorMul32 =>
    obtain rfl := eq_of_emitted (ThreeOpOpcode_emitted_eq .FPVectorMul32 code ctx) h
    exact Or.inl (ThreeOpOpcode_noScope _ code ctx)
  case FPVectorMul64 =>
    obtain rfl := eq_of_emitted (ThreeOpOpcode_emitted_eq .FPVectorMul64 code ctx) h
    exact Or.inl (ThreeOpOpcode_noScope _ code ctx)
  case FPVectorSub32 =>
    obtain rfl := eq_of_emitted (ThreeOpOpcode_emitted_eq .FPVectorSub32 code ctx) h
    exact Or.inl (ThreeOpOpcode_noScope _ code ctx)
  case FPVectorSub64 =>
    obtain rfl := eq_of_emitted (ThreeOpOpcode_emitted_eq .FPVectorSub64 code ctx) h
    exact Or.inl (ThreeOpOpcode_noScope _ code ctx)
  case FPVectorPairedAdd32 =>
    obtain rfl := eq_of_emitted (ThreeOpOpcode_emitted_eq .FPVectorPairedAdd32 code ctx) h
    exact Or.inl (ThreeOpOpcode_noScope _ code ctx)
  case FPVectorPairedAdd64 =>
    obtain rfl := eq_of_emitted (ThreeOpOpcode_emitted_eq .FPVectorPairedAdd64 code ctx) h
    exact Or.inl (ThreeOpOpcode_noScope _ code ctx)
  case FPVectorPairedAddLower32 =>
    obtain rfl := eq_of_emitted (ThreeOpOpcode_emitted_eq .FPVectorPairedAddLower32 code ctx) h
    exact Or.inl (ThreeOpOpcode_noScope _ code ctx)
  case FPVectorPairedAddLower64 =>
    obtain rfl := eq_of_emitted (ThreeOpOpcode_emitted_eq .FPVectorPairedAddLower64 code ctx) h
    exact Or.inl (ThreeOpOpcode_noScope _ code ctx)
  case FPVectorMax32 =>
    obtain rfl := eq_of_emitted (MinMax.emitted_max 32 (Or.inl rfl) code ctx) h
    exact Or.inl (MinMax_noScope true 32 (Or.inl rfl) code ctx)
  case FPVectorMax64 =>
    obtain rfl := eq_of_emitted (MinMax.emitted_max 64 (Or.inr rfl) code ctx) h
    exact Or.inl (MinMax_noScope true 64 (Or.inr rfl) code ctx)
  case FPVectorMin32 =>
    obtain rfl := eq_of_emitted (MinMax.emitted_min 32 (Or.inl rfl) code ctx) h
    exact Or.inl (MinMax_noScope false 32 (Or.inl rfl) code ctx)
  case FPVectorMin64 =>
    obtain rfl := eq_of_emitted (MinMax.emitted_min 64 (Or.inr rfl) code ctx) h
    exact Or.inl (MinMax_noScope false 64 (Or.inr rfl) code ctx)
  case FPVectorMulAdd32 =>
    obtain rfl := eq_of_emitted (EmitFPVectorMulAdd_emitted_eq 32 (Or.inl rfl) code ctx) h
    exact (EmitFPVectorMulAdd_scope 32 code).imp id (fun e => ⟨_, _, e⟩)
  case FPVectorMulAdd64 =>
    obtain rfl := eq_of_emitted (EmitFPVectorMulAdd_emitted_eq 64 (Or.inr rfl) code ctx) h
    exact (EmitFPVectorMulAdd_scope 64 code).imp id (fun e => ⟨_, _, e⟩)
  case FPVectorRecipEstimate32 =>
    exact Or.inr ⟨.TwoOp, _, eq_of_emitted (Fallback_emitted_eq .TwoOp code _) h⟩
  case FPVectorRecipEstimate64 =>
    exact Or.inr ⟨.TwoOp, _, eq_of_emitted (Fallback_emitted_eq .TwoOp code _) h⟩
  case FPVectorRSqrtEstimate32 =>
    exact Or.inr ⟨.TwoOp, _, eq_of_emitted (Fallback_emitted_eq .TwoOp code _) h⟩
  case FPVectorRSqrtEstimate64 =>
    exact Or.inr ⟨.TwoOp, _, eq_of_emitted (Fallback_emitted_eq .TwoOp code _) h⟩
  case FPVectorRecipStepFused32 =>
    exact Or.inr ⟨.ThreeOp, _, eq_of_emitted (Fallback_emitted_eq .ThreeOp code _) h⟩
  case FPVectorRecipStepFused64 =>
    exact Or.inr ⟨.ThreeOp, _, eq_of_emitted (Fallback_emitted_eq .ThreeOp code _) h⟩
  case FPVectorRSqrtStepFused32 =>
    exact Or.inr ⟨.ThreeOp, _, eq_of_emitted (Fallback_emitted_eq .ThreeOp code _) h⟩
  case FPVectorRSqrtStepFused64 =>
    exact Or.inr ⟨.ThreeOp, _, eq_of_emitted (Fallback_emitted_eq .ThreeOp code _) h⟩
  case FPVectorRoundInt32 rounding exact =>
    exact (scopeOk_ok (EmitFPVectorRoundInt_scope 32 (Or.inl rfl) code ctx rounding exact)
      h).imp id (fun e => ⟨_, _, e⟩)
  case FPVectorRoundInt64 rounding exact =>
    exact (scopeOk_ok (EmitFPVectorRoundInt_scope 64 (Or.inr rfl) code ctx rounding exact)
      h).imp id (fun e => ⟨_, _, e⟩)
  case FPVectorS32ToSingle => exact Or.inl (noScopeEnd_ok hc.1 h)
  case FPVectorS64ToDouble => exact Or.inl (noScopeEnd_ok hc.2.1 h)
  case FPVectorU32ToSingle => exact Or.inl (noScopeEnd_ok hc.2.2.1 h)
  case FPVectorU64ToDouble => exact Or.inl (noScopeEnd_ok hc.2.2.2 h)
  case FPVectorToSignedFixed32 fbits rounding =>
    exact Or.inr ⟨.TwoOp, _, EmitFPVectorToFixed_scope 32 false code fbits rounding s h⟩
  case FPVectorToSignedFixed64 fbits rounding =>
    exact Or.inr ⟨.TwoOp, _, EmitFPVectorToFixed_scope 64 false code fbits rounding s h⟩
  case FPVectorToUnsignedFixed32 fbits rounding =>
    exact Or.inr ⟨.TwoOp, _, EmitFPVectorToFixed_scope 32 true code fbits rounding s h⟩
  case FPVectorToUnsignedFixed64 fbits rounding =>
    exact Or.inr ⟨.TwoOp, _, EmitFPVectorToFixed_scope 64 true code fbits rounding s h⟩


theorem Fallback.state_reads (sh : Fallback) (code : BlockOfCode) (fn : Callee) :
    (sh.state code fn).far = [] ∧
    usedRegs (sh.state code fn).near = List.range sh.operands ∧
    readsAfterScope (sh.state code fn).near =
      (List.range sh.operands).map (fun k => Instr.movaps_store ⟨.ABI_PARAM (k + 2), 0⟩ k) ∧
    (∀ i ∈ readsAfterScope (sh.state code fn).near, i ∈ sh.setup code) ∧
    ∃ post, (sh.state code fn).near = sh.setup code ++ Instr.CallFunction fn :: post ∧
      ∀ i ∈ post, i.sources = [] := by
  obtain ⟨sse41, avx, fma, vl, dq, win⟩ := code
  cases sh <;> cases win <;>
    refine ⟨rfl, rfl, rfl, ?_, _, rfl, ?_⟩ <;>
    intro i hi
  all_goals first
    | (simp only [List.mem_cons, List.mem_singleton, List.not_mem_nil, or_false] at hi
       rcases hi with rfl | rfl | rfl <;> rfl)
    | (simp [readsAfterScope, afterScope, Fallback.state, Fallback.setup, usedRegs,
         Instr.sources, List.filter, xmm0] at hi ⊢
       tauto)

/-- C20: the emitters of `emit_x64_vector_floating_point.cpp` and the registers they obtain
from `UseXmm`, for every opcode of the file, every host and every guest FP control. An emitter
that does not go through a software fallback never calls `EndOfAllocScope`, so it emits nothing
after it. An emitter that goes through `EmitTwoOpFallback`, `EmitThreeOpFallback` or
`EmitFourOpFallback` calls `EndOfAllocScope` right after its `UseXmm` calls and then reads each
of those registers exactly once: as the source of the `movaps` that stores it to the slot its
pointer parameter addresses, before the call of the helper; no instruction after the call
takes an XMM register as a source. -/
theorem EndOfAllocScope_reads (op : Opcode) (code : BlockOfCode) (ctx : EmitContext)
    (s : EmitState) (h : emitted (op.emit code ctx) = .ok s) :
    (Instr.EndOfAllocScope ∉ s.near ∧ Instr.EndOfAllocScope ∉ s.far ∧
      readsAfterScope s.near = [] ∧ readsAfterScope s.far = []) ∨
    ∃ sh fn, s = Fallback.state sh code fn ∧ s.far = [] ∧
      usedRegs s.near = List.range sh.operands ∧
      readsAfterScope s.near =
        (List.range sh.operands).map (fun k => Instr.movaps_store ⟨.ABI_PARAM (k + 2), 0⟩ k) ∧
      (∀ i ∈ readsAfterScope s.near, i ∈ sh.setup code) ∧
      ∃ post, s.near = sh.setup code ++ Instr.CallFunction fn :: post ∧
        ∀ i ∈ post, i.sources = [] := by
  rcases Opcode_scope op code ctx s h with ⟨h1, h2⟩ | ⟨sh, fn, rfl⟩
  · exact Or.inl ⟨h1, h2, readsAfterScope_of_not_mem _ h1, readsAfterScope_of_not_mem _ h2⟩
  · exact Or.inr ⟨sh, fn, rfl, Fallback.state_reads sh code fn⟩

theorem EndOfAllocScope_reads_witness :
    (Instr.EndOfAllocScope ∉ (Fallback.ThreeOp.state .sse2 (.FPRecipStepFused 32)).near ∧
      Instr.EndOfAllocScope ∉ (Fallback.ThreeOp.state .sse2 (.FPRecipStepFused 32)).far ∧
      readsAfterScope (Fallback.ThreeOp.state .sse2 (.FPRecipStepFused 32)).near = [] ∧
      readsAfterScope (Fallback.ThreeOp.state .sse2 (.FPRecipStepFused 32)).far = []) ∨
    ∃ sh fn, Fallback.ThreeOp.state .sse2 (.FPRecipStepFused 32) = Fallback.state sh .sse2 fn ∧
      (Fallback.ThreeOp.state .sse2 (.FPRecipStepFused 32)).far = [] ∧
      usedRegs (Fallback.ThreeOp.state .sse2 (.FPRecipStepFused 32)).near =
        List.range sh.operands ∧
      readsAfterScope (Fallback.ThreeOp.state .sse2 (.FPRecipStepFused 32)).near =
        (List.range sh.operands).map (fun k => Instr.movaps_store ⟨.ABI_PARAM (k + 2), 0⟩ k) ∧
      (∀ i ∈ readsAfterScope (Fallback.ThreeOp.state .sse2 (.FPRecipStepFused 32)).near,
        i ∈ sh.setup .sse2) ∧
      ∃ post, (Fallback.ThreeOp.state .sse2 (.FPRecipStepFused 32)).near =
          sh.setup .sse2 ++ Instr.CallFunction fn :: post ∧
        ∀ i ∈ post, i.sources = [] :=
  EndOfAllocScope_reads .FPVectorRecipStepFused32 .sse2 .fast
    (Fallback.ThreeOp.state .sse2 (.FPRecipStepFused 32)) (by decide!)

/-- C20 as stated fails: `EmitFPVectorRecipEstimate32` is `EmitTwoOpFallback`, which obtains
register 0 from `UseXmm`, calls `EndOfAllocScope`, and then emits
`movaps xword[ABI_PARAM2], arg1`, an instruction that takes that register as its source. -/
theorem EndOfAllocScope_reads_counterexample :
    ∃ s, emitted (Opcode.FPVectorRecipEstimate32.emit .sse2 .fast) = .ok s ∧
      s.near = [Instr.UseXmm 0 0, Instr.EndOfAllocScope, Instr.HostCall,
        Instr.sub .rsp 32,
        Instr.lea (.ABI_PARAM 1) ⟨.rsp, 0⟩,
        Instr.lea (.ABI_PARAM 2) ⟨.rsp, 16⟩,
        Instr.mov_FPCR (.ABI_PARAM 3),
        Instr.lea_fpsr_exc (.ABI_PARAM 4),
        Instr.movaps_store ⟨.ABI_PARAM 2, 0⟩ 0,
        Instr.CallFunction (.FPRecipEstimate 32),
        Instr.movaps_load 0 ⟨.rsp, 0⟩,
        Instr.add .rsp 32,
        Instr.DefineValue 0] ∧
      usedRegs s.near = [0] ∧
      readsAfterScope s.near = [Instr.movaps_store ⟨.ABI_PARAM 2, 0⟩ 0] ∧
      readsAfterScope s.near ≠ [] :=
  ⟨_, rfl, by decide!, by decide!, by decide!, by decide!⟩

/-! ## The unsigned conversions -/

theorem UnsignedToFloat_emitted_eq (w : Nat) (hw : w = 32 ∨ w = 64) (code : BlockOfCode)
    (ctx : EmitContext) :
    emitted (UnsignedToFloat.emit w code ctx) = .ok (UnsignedToFloat.state w code ctx) := by
  have h : ∀ w ∈ [32, 64], ∀ (avx vl dq : Bool) (rm : RoundingMode),
      emitted (UnsignedToFloat.emit w ⟨false, avx, false, vl, dq, false⟩
        ⟨false, false, rm, false⟩) =
      .ok (UnsignedToFloat.state w ⟨false, avx, false, vl, dq, false⟩
        ⟨false, false, rm, false⟩) := by decide!
  obtain ⟨sse41, avx, fma, vl, dq, win⟩ := code
  obtain ⟨dn, ftz, rm, acc⟩ := ctx
  rcases hw with rfl | rfl
  · exact h 32 (by simp) avx vl dq rm
  · exact h 64 (by simp) avx vl dq rm

theorem UnsignedToFloat.body_xmmOnly (w : Nat) (code : BlockOfCode) :
    ∀ i ∈ UnsignedToFloat.body w code, ∃ d, i.xmmDst = some d := by
  have h : ∀ (w32 avx vl dq : Bool),
      ∀ i ∈ UnsignedToFloat.body (if w32 then 32 else 64) ⟨false, avx, false, vl, dq, false⟩,
        i.xmmDst.isSome = true := by decide!
  have hb : ∀ w32 : Bool, (if w = 32 then 32 else 64) = (if w32 then 32 else 64) →
      UnsignedToFloat.body w code = UnsignedToFloat.body (if w32 then 32 else 64) code := by
    intro w32 hw
    unfold UnsignedToFloat.body
    by_cases h32 : w = 32
    · subst h32
      cases w32
      · simp at hw
      · rfl
    · cases w32
      · simp [h32]
      · simp [h32] at hw
  obtain ⟨sse41, avx, fma, vl, dq, win⟩ := code
  intro i hi
  rw [hb (decide (w = 32)) (by by_cases h32 : w = 32 <;> simp [h32])] at hi
  exact Option.isSome_iff_exists.1 (h (decide (w = 32)) avx vl dq i hi)

theorem UnsignedToFloat.mask_sem (env : Env) (code : BlockOfCode) (w : Nat)
    (hw : w = 32 ∨ w = 64) (m0 : Machine) :
    execList env code [UnsignedToFloat.mask w, Instr.DefineValue 0] m0 =
      some { (m0.setXmm 0 (m0.xmm 0 &&& signClearMask w)) with
        defined := some (m0.xmm 0 &&& signClearMask w) } := by
  have hlt : m0.xmm 0 &&& signClearMask w < 2 ^ 128 :=
    lt_of_le_of_lt Nat.and_le_right (signClearMask_lt w)
  rcases hw with rfl | rfl
  · have hm : (0x7FFFFFFF7FFFFFFF : Nat) + 0x7FFFFFFF7FFFFFFF * 2 ^ 64 = signClearMask 32 := by
      decide
    simp only [UnsignedToFloat.mask, if_true, execList, step, Option.some_bind, sseSem,
      Machine.operand, hm, Machine.setXmm]
    rw [Nat.mod_eq_of_lt hlt]
  · have hm : (0x7FFFFFFFFFFFFFFF : Nat) + 0x7FFFFFFFFFFFFFFF * 2 ^ 64 = signClearMask 64 := by
      decide
    simp only [UnsignedToFloat.mask, (by decide : ¬ (64 = 32)), if_false, execList, step,
      Option.some_bind, sseSem, Machine.operand, hm, Machine.setXmm, if_true]
    rw [Nat.mod_eq_of_lt hlt]

theorem signBit_of_lt (w x : Nat) (hw : 0 < w) (h : x < 2 ^ (w - 1)) : signBit w x = false := by
  simp [signBit, Nat.shiftRight_eq_div_pow, Nat.div_eq_of_lt h]

/-- C11: `EmitFPVectorU32ToSingle` (`w = 32`) and `EmitFPVectorU64ToDouble` (`w = 64`), on any
host (any `code`: the AVX-512, the AVX and the SSE path) and for every input. The block is the
argument, the conversion proper (`UnsignedToFloat.body`), the sign mask when
`RMode = TowardsMinusInfinity` and only then, and the definition of the value. When
`RMode = TowardsMinusInfinity` the value defined is the converted register ANDed with the
constant that clears the top bit of every lane, so the sign bit of every lane is 0. For any
other mode the block ends with the definition right after the conversion and the value
defined is the converted register itself: no mask is applied. -/
theorem UnsignedToFloat_sign_mask (env : Env) (code : BlockOfCode) (ctx : EmitContext)
    (w : Nat) (hw : w = 32 ∨ w = 64) (m : Machine) :
    ∃ s, emitted (UnsignedToFloat.emit w code ctx) = .ok s ∧
      ∃ m0, execList env code (Instr.UseScratchXmm 0 0 :: UnsignedToFloat.body w code) m =
          some m0 ∧
        ∃ m1 v, runBlock env code s m = some m1 ∧ m1.defined = some v ∧
          (ctx.FPSCR_RMode = .TowardsMinusInfinity →
            s.near = Instr.UseScratchXmm 0 0 :: UnsignedToFloat.body w code ++
              [UnsignedToFloat.mask w, Instr.DefineValue 0] ∧
            v = m0.xmm 0 &&& signClearMask w ∧
            ∀ i, i < 128 / w → signBit w (lane w i v) = false ∧
              lane w i v = lane w i (m0.xmm 0) % 2 ^ (w - 1)) ∧
          (ctx.FPSCR_RMode ≠ .TowardsMinusInfinity →
            s.near = Instr.UseScratchXmm 0 0 :: UnsignedToFloat.body w code ++
              [Instr.DefineValue 0] ∧
            v = m0.xmm 0 % 2 ^ 128) := by
  obtain ⟨m0, hm0, -, -⟩ := execList_xmmOnly env code (UnsignedToFloat.body w code)
    (UnsignedToFloat.body_xmmOnly w code) (m.setXmm 0 (m.args 0))
  have hpre : execList env code (Instr.UseScratchXmm 0 0 :: UnsignedToFloat.body w code) m =
      some m0 := by
    simp only [execList, step, Option.some_bind]
    exact hm0
  have hw16 : w = 16 ∨ w = 32 ∨ w = 64 := Or.inr hw
  have hwpos : 0 < w := by rcases hw with rfl | rfl <;> decide
  have hjump : ∀ (tail : List Instr), (∀ i ∈ tail, i.isJump = false) →
      ∀ i ∈ Instr.UseScratchXmm 0 0 :: UnsignedToFloat.body w code ++ tail,
        i.isJump = false := by
    intro tail ht i hi
    rcases List.mem_cons.1 hi with rfl | hi
    · rfl
    · rcases List.mem_append.1 hi with hi | hi
      · obtain ⟨d, hd⟩ := UnsignedToFloat.body_xmmOnly w code i hi
        cases i <;> first | rfl | simp [Instr.xmmDst] at hd
      · exact ht i hi
  refine ⟨_, UnsignedToFloat_emitted_eq w hw code ctx, m0, hpre, ?_⟩
  by_cases hrm : ctx.FPSCR_RMode = .TowardsMinusInfinity
  · have hnear : (UnsignedToFloat.state w code ctx).near =
        Instr.UseScratchXmm 0 0 :: UnsignedToFloat.body w code ++
          [UnsignedToFloat.mask w, Instr.DefineValue 0] := by
      simp [UnsignedToFloat.state, hrm]
    refine ⟨{ (m0.setXmm 0 (m0.xmm 0 &&& signClearMask w)) with
        defined := some (m0.xmm 0 &&& signClearMask w) }, _, ?_, rfl,
      fun _ => ⟨hnear, rfl, ?_⟩, fun h => absurd hrm h⟩
    · rw [runBlock_straight, hnear]
      · rw [execList_append, hpre, Option.some_bind]
        exact UnsignedToFloat.mask_sem env code w hw m0
      · rw [hnear]
        refine hjump _ ?_
        intro i hi
        simp only [List.mem_cons, List.mem_singleton, List.not_mem_nil, or_false] at hi
        rcases hi with rfl | rfl
        · unfold UnsignedToFloat.mask
          split_ifs <;> rfl
        · rfl
    · intro i hi
      have hl : lane w i (m0.xmm 0 &&& signClearMask w) = lane w i (m0.xmm 0) % 2 ^ (w - 1) := by
        rw [lane_and, lane_signClearMask w i hw16 hi]
        exact Nat.and_pow_two_sub_one_eq_mod _ _
      refine ⟨?_, hl⟩
      rw [hl]
      exact signBit_of_lt w _ hwpos (Nat.mod_lt _ (by positivity))
  · have hnear : (UnsignedToFloat.state w code ctx).near =
        Instr.UseScratchXmm 0 0 :: UnsignedToFloat.body w code ++ [Instr.DefineValue 0] := by
      simp [UnsignedToFloat.state, hrm]
    refine ⟨{ m0 with defined := some (m0.xmm 0 % 2 ^ 128) }, _, ?_, rfl,
      fun h => absurd h hrm, fun _ => ⟨hnear, rfl⟩⟩
    rw [runBlock_straight, hnear]
    · rw [execList_append, hpre, Option.some_bind]
      rfl
    · rw [hnear]
      refine hjump _ ?_
      intro i hi
      simp only [List.mem_singleton] at hi
      subst hi
      rfl

theorem UnsignedToFloat_sign_mask_witness :
    ∃ s, emitted (UnsignedToFloat.emit 32 .sse2
        ⟨false, false, .TowardsMinusInfinity, false⟩) = .ok s ∧
      ∃ m0, execList (x86Env .TowardsMinusInfinity) .sse2
          (Instr.UseScratchXmm 0 0 :: UnsignedToFloat.body 32 .sse2)
          (Machine.init [vec32 0 1 0xFFFFFFFF 0x80000000]) = some m0 ∧
        ∃ m1 v, runBlock (x86Env .TowardsMinusInfinity) .sse2 s
            (Machine.init [vec32 0 1 0xFFFFFFFF 0x80000000]) = some m1 ∧
          m1.defined = some v ∧ v = m0.xmm 0 &&& signClearMask 32 :=
  let ⟨s, hs, m0, h0, m1, v, hr, hd, hrm, _⟩ :=
    UnsignedToFloat_sign_mask (x86Env .TowardsMinusInfinity) .sse2
      ⟨false, false, .TowardsMinusInfinity, false⟩ 32 (Or.inl rfl)
      (Machine.init [vec32 0 1 0xFFFFFFFF 0x80000000])
  ⟨s, hs, m0, h0, m1, v, hr, hd, (hrm rfl).2.1⟩

/-! ## Exact results of the host arithmetic -/

theorem bitLength_eq (fuel t b : Nat) (hf : t < 2 ^ fuel) (hb : 0 < b)
    (h1 : 2 ^ (b - 1) ≤ t) (h2 : t < 2 ^ b) : bitLength fuel t = b := by
  induction fuel generalizing t b with
  | zero =>
    have : 0 < 2 ^ (b - 1) := by positivity
    simp at hf
    omega
  | succ n ih =>
    have hpos : 0 < 2 ^ (b - 1) := by positivity
    have ht : t ≠ 0 := by omega
    simp only [bitLength, ht, if_false]
    by_cases hb1 : b = 1
    · subst hb1
      have : t = 1 := by simp at h1 h2; omega
      subst this
      cases n <;> simp [bitLength]
    · have hb2 : b = (b - 1 - 1) + 1 + 1 := by omega
      have e1 : 2 ^ (b - 1) = 2 * 2 ^ (b - 1 - 1) := by
        conv_lhs => rw [show b - 1 = (b - 1 - 1) + 1 from by omega]
        rw [pow_succ]; ring
      have e2 : 2 ^ b = 2 * 2 ^ (b - 1) := by
        conv_lhs => rw [show b = (b - 1) + 1 from by omega]
        rw [pow_succ]; ring
      have e3 : 2 ^ (n + 1) = 2 * 2 ^ n := by rw [pow_succ]; ring
      have := ih (t / 2) (b - 1) (by omega) (by omega) (by omega) (by omega)
      omega

theorem bitLength_self (t b : Nat) (hb : 0 < b) (h1 : 2 ^ (b - 1) ≤ t) (h2 : t < 2 ^ b) :
    bitLength (t + 1) t = b :=
  bitLength_eq (t + 1) t b (Nat.lt_of_lt_of_le (Nat.lt_two_pow t) (Nat.pow_le_pow_right (by decide) (Nat.le_succ t))) hb h1 h2

theorem bitLength_le (fuel t b : Nat) (h2 : t < 2 ^ b) : bitLength fuel t ≤ b := by
  induction fuel generalizing t b with
  | zero => simp [bitLength]
  | succ n ih =>
    simp only [bitLength]
    split_ifs with ht
    · omega
    · cases b with
      | zero => simp at h2; omega
      | succ b =>
        have e : 2 ^ (b + 1) = 2 * 2 ^ b := by rw [pow_succ]; ring
        have := ih (t / 2) b (by omega)
        omega

theorem roundsUp_zero (rm : RoundingMode) (sign : Bool) (q k : Nat) :
    roundsUp rm sign q 0 k = false := by
  have : 0 < 2 ^ k := by positivity
  cases rm <;> simp [roundsUp] <;> omega

theorem fpRound_scaled (w : Nat) (rm : RoundingMode) (sign : Bool) (q k : Nat)
    (h1 : 2 ^ explicit_mantissa_width w ≤ q) (h2 : q < 2 ^ (explicit_mantissa_width w + 1))
    (hfin : k * 2 ^ explicit_mantissa_width w + q < fpInf w) :
    fpRound w rm sign (q * 2 ^ k) 0 =
      withSign w sign (k * 2 ^ explicit_mantissa_width w + q) := by
  have hk : 0 < 2 ^ k := by positivity
  have hbl : bitLength (q * 2 ^ k + 1) (q * 2 ^ k) = explicit_mantissa_width w + 1 + k := by
    apply bitLength_self _ _ (by omega)
    · rw [show explicit_mantissa_width w + 1 + k - 1 = explicit_mantissa_width w + k from by omega,
        pow_add]
      exact Nat.mul_le_mul_right _ h1
    · rw [pow_add]
      exact Nat.mul_lt_mul_of_pos_right h2 hk
  unfold fpRound
  simp only [hbl]
  have hmax : max 0 (explicit_mantissa_width w + 1 + k - (explicit_mantissa_width w + 1)) = k := by
    simp
  rw [hmax, Nat.mul_div_cancel _ hk, Nat.mul_mod_left, roundsUp_zero]
  simp [hfin]

theorem fpRound_small (w : Nat) (rm : RoundingMode) (sign : Bool) (t : Nat)
    (h2 : t < 2 ^ explicit_mantissa_width w) (hfin : t < fpInf w) :
    fpRound w rm sign t 0 = withSign w sign t := by
  have hbl : bitLength (t + 1) t ≤ explicit_mantissa_width w := bitLength_le _ _ _ h2
  unfold fpRound
  have hmax : max 0 (bitLength (t + 1) t - (explicit_mantissa_width w + 1)) = 0 := by
    simp; omega
  simp only [hmax, pow_zero, Nat.div_one, Nat.mod_one, roundsUp_zero]
  simp [hfin]

theorem norm_exists (n d : Nat) (h0 : 0 < d) (h1 : d < 2 ^ (n + 1)) :
    ∃ j, j ≤ n ∧ 2 ^ n ≤ d * 2 ^ j ∧ d * 2 ^ j < 2 ^ (n + 1) := by
  induction n with
  | zero => exact ⟨0, le_refl _, by simp at h1 ⊢; omega, by simpa using h1⟩
  | succ n ih =>
    by_cases hd : 2 ^ (n + 1) ≤ d
    · exact ⟨0, Nat.zero_le _, by simpa using hd, by simpa using h1⟩
    · obtain ⟨j, hj, h2, h3⟩ := ih (by omega)
      refine ⟨j + 1, by omega, ?_, ?_⟩
      · rw [pow_succ, pow_succ, ← mul_assoc]
        exact Nat.mul_le_mul_right 2 h2
      · rw [pow_succ 2 (n + 1), pow_succ 2 j, ← mul_assoc]
        exact Nat.mul_lt_mul_of_pos_right h3 (by decide)

theorem fmt32 : explicit_mantissa_width 32 = 23 ∧ exponent_width 32 = 8 ∧
    fpInf 32 = 255 * 2 ^ 23 ∧ fpScale 32 = 149 := by decide

theorem fmt64 : explicit_mantissa_width 64 = 52 ∧ exponent_width 64 = 11 ∧
    fpInf 64 = 2047 * 2 ^ 52 ∧ fpScale 64 = 1074 := by decide

theorem fields32 (s : Bool) (e f : Nat) (he : e < 256) (hf : f < 2 ^ 23) :
    exponentField 32 (withSign 32 s (e * 2 ^ 23 + f)) = e ∧
    mantissaField 32 (withSign 32 s (e * 2 ^ 23 + f)) = f ∧
    signBit 32 (withSign 32 s (e * 2 ^ 23 + f)) = s ∧
    withSign 32 s (e * 2 ^ 23 + f) % 2 ^ 31 = e * 2 ^ 23 + f ∧
    withSign 32 s (e * 2 ^ 23 + f) < 2 ^ 32 := by
  simp only [exponentField, mantissaField, signBit, withSign, fmt32.1, fmt32.2.1,
    Nat.shiftRight_eq_div_pow]
  norm_num at hf ⊢
  cases s <;> simp <;> omega

theorem fields64 (s : Bool) (e f : Nat) (he : e < 2048) (hf : f < 2 ^ 52) :
    exponentField 64 (withSign 64 s (e * 2 ^ 52 + f)) = e ∧
    mantissaField 64 (withSign 64 s (e * 2 ^ 52 + f)) = f ∧
    signBit 64 (withSign 64 s (e * 2 ^ 52 + f)) = s ∧
    withSign 64 s (e * 2 ^ 52 + f) % 2 ^ 63 = e * 2 ^ 52 + f ∧
    withSign 64 s (e * 2 ^ 52 + f) < 2 ^ 64 := by
  simp only [exponentField, mantissaField, signBit, withSign, fmt64.1, fmt64.2.1,
    Nat.shiftRight_eq_div_pow]
  norm_num at hf ⊢
  cases s <;> simp <;> omega

theorem FpIs_pack (w : Nat) (hw : w = 32 ∨ w = 64) (s : Bool) (e f : Nat)
    (he : e < ones (exponent_width w)) (hf : f < 2 ^ explicit_mantissa_width w) :
    FpIs w (withSign w s (e * 2 ^ explicit_mantissa_width w + f)) s
      (if e = 0 then f else (2 ^ explicit_mantissa_width w + f) * 2 ^ (e - 1)) := by
  rcases hw with rfl | rfl
  · rw [fmt32.1] at hf ⊢
    have he2 : e < 255 := by simpa [ones, fmt32.2.1] using he
    obtain ⟨h1, h2, h3, h4, h5⟩ := fields32 s e f (by omega) hf
    refine ⟨?_, ?_, h3, ?_, h5⟩
    · unfold IsNaN
      rw [h1]
      have : e ≠ ones (exponent_width 32) := by omega
      simp [this]
    · simp only [isInf, h4, fmt32.2.2.1, decide_eq_false_iff_not]
      norm_num at hf ⊢
      omega
    · simp only [fpMag, h1, h2, fmt32.1]
  · rw [fmt64.1] at hf ⊢
    have he2 : e < 2047 := by simpa [ones, fmt64.2.1] using he
    obtain ⟨h1, h2, h3, h4, h5⟩ := fields64 s e f (by omega) hf
    refine ⟨?_, ?_, h3, ?_, h5⟩
    · unfold IsNaN
      rw [h1]
      have : e ≠ ones (exponent_width 64) := by omega
      simp [this]
    · simp only [isInf, h4, fmt64.2.2.1, decide_eq_false_iff_not]
      norm_num at hf ⊢
      omega
    · simp only [fpMag, h1, h2, fmt64.1]

theorem FpIs_zero (w : Nat) (hw : w = 32 ∨ w = 64) (s : Bool) : FpIs w (withSign w s 0) s 0 := by
  have h := FpIs_pack w hw s 0 0 (by rcases hw with rfl | rfl <;> decide) (by positivity)
  simpa using h

theorem fpRound_exact_of (w : Nat) (hw : w = 32 ∨ w = 64) (rm : RoundingMode) (s : Bool)
    (c : Nat) (hc : c < fpInf w) :
    (fpMag w c = 0 → c = 0) ∧
    (0 < fpMag w c → fpRound w rm s (fpMag w c) 0 = withSign w s c) := by
  rcases hw with rfl | rfl
  · have hc2 : c < 255 * 2 ^ 23 := by rw [← fmt32.2.2.1]; exact hc
    obtain ⟨h1, h2, -, -, -⟩ := fields32 false (c / 2 ^ 23) (c % 2 ^ 23) (by omega)
      (Nat.mod_lt _ (by positivity))
    have hcc : withSign 32 false (c / 2 ^ 23 * 2 ^ 23 + c % 2 ^ 23) = c := by
      simp only [withSign, Bool.false_eq_true, if_false]
      exact Nat.div_add_mod' c (2 ^ 23)
    rw [hcc] at h1 h2
    have hmag : fpMag 32 c = if c / 2 ^ 23 = 0 then c % 2 ^ 23
        else (2 ^ 23 + c % 2 ^ 23) * 2 ^ (c / 2 ^ 23 - 1) := by
      simp only [fpMag, h1, h2, fmt32.1]
    by_cases he : c / 2 ^ 23 = 0
    · rw [hmag, if_pos he]
      have hlt : c < 2 ^ 23 := by omega
      rw [Nat.mod_eq_of_lt hlt]
      refine ⟨id, fun _ => ?_⟩
      exact fpRound_small 32 rm s c (by rw [fmt32.1]; exact hlt) hc
    · rw [hmag, if_neg he]
      refine ⟨fun h => ?_, fun _ => ?_⟩
      · have : 0 < (2 ^ 23 + c % 2 ^ 23) * 2 ^ (c / 2 ^ 23 - 1) := by positivity
        omega
      · have := fpRound_scaled 32 rm s (2 ^ 23 + c % 2 ^ 23) (c / 2 ^ 23 - 1)
          (by rw [fmt32.1]; omega) (by rw [fmt32.1]; omega)
          (by rw [fmt32.1, fmt32.2.2.1]; omega)
        rw [this, fmt32.1]
        have hdm := Nat.div_add_mod c (2 ^ 23)
        have hb : (c / 2 ^ 23 - 1) * 2 ^ 23 + (2 ^ 23 + c % 2 ^ 23) = c := by
          norm_num at hdm he ⊢
          omega
        rw [hb]
  · have hc2 : c < 2047 * 2 ^ 52 := by rw [← fmt64.2.2.1]; exact hc
    obtain ⟨h1, h2, -, -, -⟩ := fields64 false (c / 2 ^ 52) (c % 2 ^ 52) (by omega)
      (Nat.mod_lt _ (by positivity))
    have hcc : withSign 64 false (c / 2 ^ 52 * 2 ^ 52 + c % 2 ^ 52) = c := by
      simp only [withSign, Bool.false_eq_true, if_false]
      exact Nat.div_add_mod' c (2 ^ 52)
    rw [hcc] at h1 h2
    have hmag : fpMag 64 c = if c / 2 ^ 52 = 0 then c % 2 ^ 52
        else (2 ^ 52 + c % 2 ^ 52) * 2 ^ (c / 2 ^ 52 - 1) := by
      simp only [fpMag, h1, h2, fmt64.1]
    by_cases he : c / 2 ^ 52 = 0
    · rw [hmag, if_pos he]
      have hlt : c < 2 ^ 52 := by omega
      rw [Nat.mod_eq_of_lt hlt]
      refine ⟨id, fun _ => ?_⟩
      exact fpRound_small 64 rm s c (by rw [fmt64.1]; exact hlt) hc
    · rw [hmag, if_neg he]
      refine ⟨fun h => ?_, fun _ => ?_⟩
      · have : 0 < (2 ^ 52 + c % 2 ^ 52) * 2 ^ (c / 2 ^ 52 - 1) := by positivity
        omega
      · have := fpRound_scaled 64 rm s (2 ^ 52 + c % 2 ^ 52) (c / 2 ^ 52 - 1)
          (by rw [fmt64.1]; omega) (by rw [fmt64.1]; omega)
          (by rw [fmt64.1, fmt64.2.2.1]; omega)
        rw [this, fmt64.1]
        have hdm := Nat.div_add_mod c (2 ^ 52)
        have hb : (c / 2 ^ 52 - 1) * 2 ^ 52 + (2 ^ 52 + c % 2 ^ 52) = c := by
          norm_num at hdm he ⊢
          omega
        rw [hb]

theorem fpRound_exact_scaled (w : Nat) (hw : w = 32 ∨ w = 64) (rm : RoundingMode) (s : Bool)
    (d K : Nat) (h0 : 0 < d) (h1 : d < 2 ^ (explicit_mantissa_width w + 1))
    (hK : explicit_mantissa_width w ≤ K) (hK2 : K + 2 < ones (exponent_width w)) :
    FpIs w (fpRound w rm s (d * 2 ^ K) 0) s (d * 2 ^ K) := by
  obtain ⟨j, hj, h2, h3⟩ := norm_exists (explicit_mantissa_width w) d h0 h1
  have hsplit : d * 2 ^ K = d * 2 ^ j * 2 ^ (K - j) := by
    rw [mul_assoc, ← pow_add, show j + (K - j) = K from by omega]
  have hpk := FpIs_pack w hw s (K - j + 1) (d * 2 ^ j - 2 ^ explicit_mantissa_width w)
    (by omega) (by rw [pow_succ] at h3; omega)
  have hbits : (K - j + 1) * 2 ^ explicit_mantissa_width w +
      (d * 2 ^ j - 2 ^ explicit_mantissa_width w) =
      (K - j) * 2 ^ explicit_mantissa_width w + d * 2 ^ j := by
    rw [add_mul, one_mul]
    omega
  have hfin : (K - j) * 2 ^ explicit_mantissa_width w + d * 2 ^ j < fpInf w := by
    have hle : (K - j + 2) * 2 ^ explicit_mantissa_width w ≤
        ones (exponent_width w) * 2 ^ explicit_mantissa_width w :=
      Nat.mul_le_mul_right _ (by omega)
    rw [add_mul] at hle
    rw [pow_succ] at h3
    unfold fpInf
    omega
  rw [hsplit, fpRound_scaled w rm s (d * 2 ^ j) (K - j) h2 h3 hfin, ← hbits]
  rw [if_neg (by omega), Nat.add_sub_cancel,
    show 2 ^ explicit_mantissa_width w + (d * 2 ^ j - 2 ^ explicit_mantissa_width w) = d * 2 ^ j
      from by omega] at hpk
  exact hpk

theorem x86add_finite (rm : RoundingMode) (w x y : Nat) (sx sy : Bool) (tx ty : Nat)
    (hx : FpIs w x sx tx) (hy : FpIs w y sy ty) :
    x86add rm w x y =
      fpOfInt w rm ((if sx then -(tx : Int) else (tx : Int)) + (if sy then -(ty : Int) else ty)) 0
        (if sx == sy then sx else rm == .TowardsMinusInfinity) := by
  obtain ⟨hx1, hx2, hx3, hx4, -⟩ := hx
  obtain ⟨hy1, hy2, hy3, hy4, -⟩ := hy
  simp [x86add, fpVal, hx1, hx2, hx3, hx4, hy1, hy2, hy3, hy4]

theorem fpOfInt_exact (w : Nat) (hw : w = 32 ∨ w = 64) (rm : RoundingMode) (zs : Bool)
    (v : Int) (K : Nat) (h1 : v.natAbs < 2 ^ (explicit_mantissa_width w + 1))
    (hK : explicit_mantissa_width w ≤ K) (hK2 : K + 2 < ones (exponent_width w)) :
    FpIs w (fpOfInt w rm (v * 2 ^ K) 0 zs) (if v = 0 then zs else decide (v < 0))
      (v.natAbs * 2 ^ K) := by
  have hp : (0 : Int) < 2 ^ K := by positivity
  by_cases hv : v = 0
  · subst hv
    simp only [fpOfInt, zero_mul, if_true, Int.natAbs_zero]
    exact FpIs_zero w hw zs
  · have hne : v * 2 ^ K ≠ 0 := mul_ne_zero hv (ne_of_gt hp)
    have hneg : decide (v * 2 ^ K < 0) = decide (v < 0) := by
      congr 1
      exact propext ⟨fun h => by
        by_contra hc
        have : 0 ≤ v * 2 ^ K := mul_nonneg (by omega) (le_of_lt hp)
        omega, fun h => mul_neg_of_neg_of_pos h hp⟩
    have habs : (v * 2 ^ K).natAbs = v.natAbs * 2 ^ K := by
      rw [Int.natAbs_mul, Int.natAbs_pow]
      rfl
    simp only [fpOfInt, hne, if_false, hv, hneg, habs]
    exact fpRound_exact_scaled w hw rm _ _ K (Int.natAbs_pos.2 hv) h1 hK hK2

theorem fpOfInt_congr (w : Nat) (rm : RoundingMode) (s s2 : Int) (zs zs2 : Bool) (hs : s = s2)
    (hz : s = 0 → zs = zs2) : fpOfInt w rm s 0 zs = fpOfInt w rm s2 0 zs2 := by
  subst hs
  unfold fpOfInt
  split_ifs with h
  · rw [hz h]
  · rfl

theorem signed_mag (v : Int) (zs : Bool) (T : Nat) :
    (if (if v = 0 then zs else decide (v < 0)) = true then -((v.natAbs * T : Nat) : Int)
      else ((v.natAbs * T : Nat) : Int)) = v * T := by
  by_cases h0 : v = 0
  · subst h0
    simp
  · by_cases hneg : v < 0
    · simp only [h0, if_false, hneg, decide_True, if_true, Nat.cast_mul, Int.natCast_natAbs]
      rw [abs_of_neg hneg]
      ring
    · simp only [h0, if_false, hneg, decide_False, Nat.cast_mul, Int.natCast_natAbs]
      rw [abs_of_nonneg (by omega)]
      simp

/-- The bit trick of `U32ToSingle` on one lane: `2^39 + hi * 2^16` minus `2^39 + 2^23` is
exact, and adding `2^23 + lo` rounds the exact value `x` once. -/
theorem u32_lane (rm : RoundingMode) (lo hi : Nat) (hlo : lo < 2 ^ 16) (hhi : hi < 2 ^ 16) :
    x86add rm 32 (x86add rm 32 (0x53000000 + hi) 0xD3000080) (0x4B000000 + lo) =
      fpOfInt 32 rm (((hi * 2 ^ 16 + lo : Nat) : Int) * 2 ^ fpScale 32) 0
        (rm == .TowardsMinusInfinity) ∧
    x86add rm 32 (0x4B000000 + lo) (x86add rm 32 (0x53000000 + hi) 0xD3000080) =
      fpOfInt 32 rm (((hi * 2 ^ 16 + lo : Nat) : Int) * 2 ^ fpScale 32) 0
        (rm == .TowardsMinusInfinity) ∧
    x86add rm 32 (0x53000000 + hi) 0xD3000080 < 2 ^ 32 := by
  have hw : (32 : Nat) = 32 ∨ (32 : Nat) = 64 := Or.inl rfl
  have hP := FpIs_pack 32 hw false 166 hi (by decide) (by rw [fmt32.1]; omega)
  have hN := FpIs_pack 32 hw true 166 128 (by decide) (by decide)
  have hB := FpIs_pack 32 hw false 150 lo (by decide) (by rw [fmt32.1]; omega)
  rw [fmt32.1] at hP hN hB
  have eP : withSign 32 false (166 * 2 ^ 23 + hi) = 0x53000000 + hi := by
    simp [withSign]
  have eN : withSign 32 true (166 * 2 ^ 23 + 128) = 0xD3000080 := by decide
  have eB : withSign 32 false (150 * 2 ^ 23 + lo) = 0x4B000000 + lo := by
    simp [withSign]
  rw [eP] at hP
  rw [eN] at hN
  rw [eB] at hB
  simp only [(by decide : ¬ (166 = 0)), (by decide : ¬ (150 = 0)), if_false] at hP hN hB
  have hA0 := x86add_finite rm 32 _ _ _ _ _ _ hP hN
  have hsum : (if false = true then -(((2 ^ 23 + hi) * 2 ^ (166 - 1) : Nat) : Int)
        else (((2 ^ 23 + hi) * 2 ^ (166 - 1) : Nat) : Int)) +
      (if true = true then -(((2 ^ 23 + 128) * 2 ^ (166 - 1) : Nat) : Int)
        else (((2 ^ 23 + 128) * 2 ^ (166 - 1) : Nat) : Int)) =
      ((hi : Int) - 128) * 2 ^ 165 := by
    simp only [Bool.false_eq_true, if_false, if_true]
    push_cast
    ring
  rw [hsum] at hA0
  have hA := fpOfInt_exact 32 hw rm
    (if false == true then false else rm == .TowardsMinusInfinity) ((hi : Int) - 128) 165
    (by rw [fmt32.1]; omega) (by decide) (by decide)
  rw [← hA0] at hA
  have h1 := x86add_finite rm 32 _ _ _ _ _ _ hA hB
  have h2 := x86add_finite rm 32 _ _ _ _ _ _ hB hA
  rw [signed_mag] at h1 h2
  have hx0 : (hi * 2 ^ 16 + lo = 0) → hi = 0 := by omega
  have hval : ((hi : Int) - 128) * ((2 ^ 165 : Nat) : Int) +
      (if false = true then -(((2 ^ 23 + lo) * 2 ^ (150 - 1) : Nat) : Int)
        else (((2 ^ 23 + lo) * 2 ^ (150 - 1) : Nat) : Int)) =
      ((hi * 2 ^ 16 + lo : Nat) : Int) * 2 ^ fpScale 32 := by
    rw [fmt32.2.2.2]
    simp only [Bool.false_eq_true, if_false]
    push_cast
    ring
  have hval2 : (if false = true then -(((2 ^ 23 + lo) * 2 ^ (150 - 1) : Nat) : Int)
        else (((2 ^ 23 + lo) * 2 ^ (150 - 1) : Nat) : Int)) +
      ((hi : Int) - 128) * ((2 ^ 165 : Nat) : Int) =
      ((hi * 2 ^ 16 + lo : Nat) : Int) * 2 ^ fpScale 32 := by
    rw [add_comm]; exact hval
  have hsz : ((hi * 2 ^ 16 + lo : Nat) : Int) * 2 ^ fpScale 32 = 0 → hi = 0 := by
    intro h
    have hp : (0 : Int) < 2 ^ fpScale 32 := by positivity
    rcases mul_eq_zero.1 h with h | h
    · exact hx0 (by exact_mod_cast h)
    · omega
  refine ⟨?_, ?_, hA.2.2.2.2⟩
  · rw [h1]
    apply fpOfInt_congr _ _ _ _ _ _ hval
    intro h
    rw [hval] at h
    have := hsz h
    subst this
    simp
  · rw [h2]
    apply fpOfInt_congr _ _ _ _ _ _ hval2
    intro h
    rw [hval2] at h
    have := hsz h
    subst this
    simp

theorem x86sub_finite (rm : RoundingMode) (w x y : Nat) (sx sy : Bool) (tx ty : Nat)
    (hx : FpIs w x sx tx) (hy : FpIs w y sy ty) :
    x86sub rm w x y = x86add rm w x (y ^^^ 2 ^ (w - 1)) := by
  simp [x86sub, hx.1, hy.1]

/-- The bit trick of `U64ToDouble` on one lane: `(2^52 + lo) - 2^52` and
`(2^84 + hi * 2^32) - 2^84` are exact, and their sum rounds the exact value `x` once. -/
theorem u64_lane (rm : RoundingMode) (lo hi : Nat) (hlo : lo < 2 ^ 32) (hhi : hi < 2 ^ 32) :
    x86add rm 64 (x86sub rm 64 (0x4330000000000000 + lo) 0x4330000000000000)
        (x86sub rm 64 (0x4530000000000000 + hi) 0x4530000000000000) =
      fpOfInt 64 rm (((hi * 2 ^ 32 + lo : Nat) : Int) * 2 ^ fpScale 64) 0
        (rm == .TowardsMinusInfinity) ∧
    x86add rm 64 (x86sub rm 64 (0x4530000000000000 + hi) 0x4530000000000000)
        (x86sub rm 64 (0x4330000000000000 + lo) 0x4330000000000000) =
      fpOfInt 64 rm (((hi * 2 ^ 32 + lo : Nat) : Int) * 2 ^ fpScale 64) 0
        (rm == .TowardsMinusInfinity) ∧
    x86sub rm 64 (0x4330000000000000 + lo) 0x4330000000000000 < 2 ^ 64 ∧
    x86sub rm 64 (0x4530000000000000 + hi) 0x4530000000000000 < 2 ^ 64 := by
  have hw : (64 : Nat) = 32 ∨ (64 : Nat) = 64 := Or.inr rfl
  have hL := FpIs_pack 64 hw false 0x433 lo (by decide) (by rw [fmt64.1]; omega)
  have hH := FpIs_pack 64 hw false 0x453 hi (by decide) (by rw [fmt64.1]; omega)
  have hS0 := FpIs_pack 64 hw false 0x433 0 (by decide) (by decide)
  have hS1 := FpIs_pack 64 hw false 0x453 0 (by decide) (by decide)
  have hN0 := FpIs_pack 64 hw true 0x433 0 (by decide) (by decide)
  have hN1 := FpIs_pack 64 hw true 0x453 0 (by decide) (by decide)
  rw [fmt64.1] at hL hH hS0 hS1 hN0 hN1
  have eL : withSign 64 false (0x433 * 2 ^ 52 + lo) = 0x4330000000000000 + lo := by
    simp [withSign]
  have eH : withSign 64 false (0x453 * 2 ^ 52 + hi) = 0x4530000000000000 + hi := by
    simp [withSign]
  have eS0 : withSign 64 false (0x433 * 2 ^ 52 + 0) = 0x4330000000000000 := by decide
  have eS1 : withSign 64 false (0x453 * 2 ^ 52 + 0) = 0x4530000000000000 := by decide
  have eN0 : withSign 64 true (0x433 * 2 ^ 52 + 0) = 0x4330000000000000 ^^^ 2 ^ (64 - 1) := by
    decide
  have eN1 : withSign 64 true (0x453 * 2 ^ 52 + 0) = 0x4530000000000000 ^^^ 2 ^ (64 - 1) := by
    decide
  rw [eL] at hL
  rw [eH] at hH
  rw [eS0] at hS0
  rw [eS1] at hS1
  rw [eN0] at hN0
  rw [eN1] at hN1
  simp only [(by decide : ¬ (0x433 = 0)), (by decide : ¬ (0x453 = 0)), if_false] at hL hH hS0 hS1 hN0 hN1
  rw [x86sub_finite rm 64 _ _ _ _ _ _ hL hS0, x86sub_finite rm 64 _ _ _ _ _ _ hH hS1]
  have hL0 := x86add_finite rm 64 _ _ _ _ _ _ hL hN0
  have hH0 := x86add_finite rm 64 _ _ _ _ _ _ hH hN1
  have hsumL : (if false = true then -(((2 ^ 52 + lo) * 2 ^ (0x433 - 1) : Nat) : Int)
        else (((2 ^ 52 + lo) * 2 ^ (0x433 - 1) : Nat) : Int)) +
      (if true = true then -(((2 ^ 52 + 0) * 2 ^ (0x433 - 1) : Nat) : Int)
        else (((2 ^ 52 + 0) * 2 ^ (0x433 - 1) : Nat) : Int)) =
      (lo : Int) * 2 ^ 1074 := by
    simp only [Bool.false_eq_true, if_false, if_true]
    push_cast
    ring
  have hsumH : (if false = true then -(((2 ^ 52 + hi) * 2 ^ (0x453 - 1) : Nat) : Int)
        else (((2 ^ 52 + hi) * 2 ^ (0x453 - 1) : Nat) : Int)) +
      (if true = true then -(((2 ^ 52 + 0) * 2 ^ (0x453 - 1) : Nat) : Int)
        else (((2 ^ 52 + 0) * 2 ^ (0x453 - 1) : Nat) : Int)) =
      (hi : Int) * 2 ^ 1106 := by
    simp only [Bool.false_eq_true, if_false, if_true]
    push_cast
    ring
  rw [hsumL] at hL0
  rw [hsumH] at hH0
  have hLf := fpOfInt_exact 64 hw rm
    (if false == true then false else rm == .TowardsMinusInfinity) (lo : Int) 1074
    (by rw [fmt64.1]; simp only [Int.natAbs_ofNat]; omega) (by decide) (by decide)
  have hHf := fpOfInt_exact 64 hw rm
    (if false == true then false else rm == .TowardsMinusInfinity) (hi : Int) 1106
    (by rw [fmt64.1]; simp only [Int.natAbs_ofNat]; omega) (by decide) (by decide)
  rw [← hL0] at hLf
  rw [← hH0] at hHf
  have h1 := x86add_finite rm 64 _ _ _ _ _ _ hLf hHf
  have h2 := x86add_finite rm 64 _ _ _ _ _ _ hHf hLf
  rw [signed_mag, signed_mag] at h1 h2
  have hval : (lo : Int) * ((2 ^ 1074 : Nat) : Int) + (hi : Int) * ((2 ^ 1106 : Nat) : Int) =
      ((hi * 2 ^ 32 + lo : Nat) : Int) * 2 ^ fpScale 64 := by
    rw [fmt64.2.2.2]
    push_cast
    ring
  have hval2 : (hi : Int) * ((2 ^ 1106 : Nat) : Int) + (lo : Int) * ((2 ^ 1074 : Nat) : Int) =
      ((hi * 2 ^ 32 + lo : Nat) : Int) * 2 ^ fpScale 64 := by
    rw [add_comm]; exact hval
  have hsz : ((hi * 2 ^ 32 + lo : Nat) : Int) * 2 ^ fpScale 64 = 0 → hi = 0 ∧ lo = 0 := by
    intro h
    have hp : (0 : Int) < 2 ^ fpScale 64 := by positivity
    rcases mul_eq_zero.1 h with h | h
    · have h3 : hi * 2 ^ 32 + lo = 0 := by exact_mod_cast h
      omega
    · omega
  refine ⟨?_, ?_, hLf.2.2.2.2, hHf.2.2.2.2⟩
  · rw [h1]
    apply fpOfInt_congr _ _ _ _ _ _ hval
    intro h
    rw [hval] at h
    obtain ⟨rfl, rfl⟩ := hsz h
    simp
  · rw [h2]
    apply fpOfInt_congr _ _ _ _ _ _ hval2
    intro h
    rw [hval2] at h
    obtain ⟨rfl, rfl⟩ := hsz h
    simp

theorem withSign_lt (w : Nat) (hw : w = 32 ∨ w = 64) (s : Bool) (b : Nat) (hb : b ≤ fpInf w) :
    withSign w s b < 2 ^ w := by
  rcases hw with rfl | rfl
  · rw [fmt32.2.2.1] at hb
    cases s <;> simp [withSign] <;> omega
  · rw [fmt64.2.2.1] at hb
    cases s <;> simp [withSign] <;> omega

theorem fpRound_lt (w : Nat) (hw : w = 32 ∨ w = 64) (rm : RoundingMode) (s : Bool) (t sh : Nat) :
    fpRound w rm s t sh < 2 ^ w := by
  have hpos : 0 < fpInf w := by rcases hw with rfl | rfl <;> decide
  unfold fpRound
  simp only
  split_ifs
  all_goals first
    | exact withSign_lt w hw s _ (le_of_lt (by assumption))
    | (cases rm <;> cases s <;>
        first
          | exact withSign_lt w hw _ _ (le_refl _)
          | exact withSign_lt w hw _ _ (Nat.sub_le _ _))

theorem fpOfInt_lt (w : Nat) (hw : w = 32 ∨ w = 64) (rm : RoundingMode) (v : Int) (sh : Nat)
    (zs : Bool) : fpOfInt w rm v sh zs < 2 ^ w := by
  unfold fpOfInt
  split_ifs
  · exact withSign_lt w hw zs 0 (Nat.zero_le _)
  · exact fpRound_lt w hw rm _ _ _

theorem lane32_const (i : Nat) (hi : i < 4) :
    lane 32 i (0x0000FFFF0000FFFF + 0x0000FFFF0000FFFF * 2 ^ 64) = 0xFFFF ∧
    lane 32 i (0x4B0000004B000000 + 0x4B0000004B000000 * 2 ^ 64) = 0x4B000000 ∧
    lane 32 i (0x5300000053000000 + 0x5300000053000000 * 2 ^ 64) = 0x53000000 ∧
    lane 32 i (0xD3000080D3000080 + 0xD3000080D3000080 * 2 ^ 64) = 0xD3000080 := by
  interval_cases i <;> decide

theorem U32_sse_run (env : Env) (code : BlockOfCode) (m : Machine) :
    ∃ m0, execList env code
        [Instr.UseScratchXmm 0 0,
         Instr.sse .movdqa 1 (.MConst 0x0000FFFF0000FFFF 0x0000FFFF0000FFFF),
         Instr.sse .pand 1 (.xmm 0),
         Instr.sse .por 1 (.MConst 0x4B0000004B000000 0x4B0000004B000000),
         Instr.psrld 0 16,
         Instr.sse .por 0 (.MConst 0x5300000053000000 0x5300000053000000),
         Instr.sse (.addp 32) 0 (.MConst 0xD3000080D3000080 0xD3000080D3000080),
         Instr.sse (.addp 32) 0 (.xmm 1)] m = some m0 ∧
      ∀ i, i < 4 → lane 32 i (m0.xmm 0) =
        env.addp 32
          (env.addp 32 (((lane 32 i (m.args 0) >>> 16) % 2 ^ 32) ||| 0x53000000) 0xD3000080
            % 2 ^ 32)
          ((0xFFFF &&& lane 32 i (m.args 0)) ||| 0x4B000000) % 2 ^ 32 := by
  refine ⟨_, rfl, ?_⟩
  intro i hi
  have hi4 : i < 128 / 32 := hi
  obtain ⟨c1, c2, c3, c4⟩ := lane32_const i hi
  simp only [Machine.setXmm, if_true, sseSem, Machine.operand,
    if_neg (by decide : (0 : Nat) ≠ 1), if_neg (by decide : (1 : Nat) ≠ 0)]
  rw [lane_mapLanes2 _ _ _ _ _ hi4, lane_mapLanes2 _ _ _ _ _ hi4, lane_or, lane_or, lane_and,
    lane_mapLanes _ _ _ _ hi4]
  norm_num at c1 c2 c3 c4 ⊢
  rw [c1, c2, c3, c4]

theorem lane32_split16 (i v : Nat) :
    lane 32 i v = lane 16 (2 * i) v + lane 16 (2 * i + 1) v * 2 ^ 16 := by
  simp only [lane, Nat.shiftRight_eq_div_pow]
  have e1 : 16 * (2 * i) = 32 * i := by ring
  have e2 : 2 ^ (16 * (2 * i + 1)) = 2 ^ (32 * i) * 2 ^ 16 := by
    rw [← pow_add]; congr 1; ring
  rw [e1, e2, ← Nat.div_div_eq_div_mul]
  generalize v / 2 ^ (32 * i) = u
  norm_num
  omega

theorem lane64_split32 (i v : Nat) :
    lane 64 i v = lane 32 (2 * i) v + lane 32 (2 * i + 1) v * 2 ^ 32 := by
  simp only [lane, Nat.shiftRight_eq_div_pow]
  have e1 : 32 * (2 * i) = 64 * i := by ring
  have e2 : 2 ^ (32 * (2 * i + 1)) = 2 ^ (64 * i) * 2 ^ 32 := by
    rw [← pow_add]; congr 1; ring
  rw [e1, e2, ← Nat.div_div_eq_div_mul]
  generalize v / 2 ^ (64 * i) = u
  norm_num
  omega

theorem lane32_blendw (i a b : Nat) (hi : i < 4) :
    lane 32 i (blendw 0b10101010 a b) = lane 32 i a % 2 ^ 16 + lane 16 (2 * i + 1) b * 2 ^ 16 := by
  have ha := lane32_split16 i a
  have h16 : lane 16 (2 * i) a < 2 ^ 16 := lane_lt _ _ _
  have h16b : lane 16 (2 * i + 1) b < 2 ^ 16 := lane_lt _ _ _
  rw [lane32_split16, blendw, lane_ofLanes _ _ _ _ (by omega : 2 * i < 8),
    lane_ofLanes _ _ _ _ (by omega : 2 * i + 1 < 8)]
  have hb0 : (0b10101010 >>> (2 * i)) % 2 = 0 := by interval_cases i <;> decide
  have hb1 : (0b10101010 >>> (2 * i + 1)) % 2 = 1 := by interval_cases i <;> decide
  rw [if_neg (by omega), if_pos hb1, Nat.mod_eq_of_lt h16, Nat.mod_eq_of_lt h16b]
  have : lane 32 i a % 2 ^ 16 = lane 16 (2 * i) a := by
    rw [ha]
    norm_num at h16 h16b ⊢
    omega
  rw [this]

theorem lane16_const (i : Nat) (hi : i < 4) :
    lane 16 (2 * i + 1) (0x4B0000004B000000 + 0x4B0000004B000000 * 2 ^ 64) = 0x4B00 ∧
    lane 16 (2 * i + 1) (0x5300000053000000 + 0x5300000053000000 * 2 ^ 64) = 0x5300 := by
  interval_cases i <;> decide

theorem U32_avx_run (env : Env) (code : BlockOfCode) (m : Machine) :
    ∃ m0, execList env code
        [Instr.UseScratchXmm 0 0,
         Instr.avx (.vpblendw 0b10101010) 1 0 (.MConst 0x4B0000004B000000 0x4B0000004B000000),
         Instr.vex2 (.vpsrld 16) 0 (.xmm 0),
         Instr.avx (.vpblendw 0b10101010) 0 0 (.MConst 0x5300000053000000 0x5300000053000000),
         Instr.avx (.vaddp 32) 0 0 (.MConst 0xD3000080D3000080 0xD3000080D3000080),
         Instr.avx (.vaddp 32) 0 1 (.xmm 0)] m = some m0 ∧
      ∀ i, i < 4 → lane 32 i (m0.xmm 0) =
        env.addp 32
          (lane 32 i (m.args 0) % 2 ^ 16 + 0x4B00 * 2 ^ 16)
          (env.addp 32 (((lane 32 i (m.args 0) >>> 16) % 2 ^ 32) % 2 ^ 16 + 0x5300 * 2 ^ 16)
            0xD3000080 % 2 ^ 32) % 2 ^ 32 := by
  refine ⟨_, rfl, ?_⟩
  intro i hi
  have hi4 : i < 128 / 32 := hi
  obtain ⟨-, -, -, c4⟩ := lane32_const i hi
  obtain ⟨d1, d2⟩ := lane16_const i hi
  simp only [Machine.setXmm, if_true, avxSem, vex2Sem, Machine.operand,
    if_neg (by decide : (0 : Nat) ≠ 1), if_neg (by decide : (1 : Nat) ≠ 0)]
  rw [lane_mapLanes2 _ _ _ _ _ hi4, lane_mapLanes2 _ _ _ _ _ hi4, lane32_blendw _ _ _ hi,
    lane32_blendw _ _ _ hi, lane_mapLanes _ _ _ _ hi4]
  norm_num at c4 d1 d2 ⊢
  rw [c4, d1, d2]

theorem lane64_unpackLow32 (j d s : Nat) (hj : j < 2) :
    lane 64 j (unpackLow32 d s) = lane 32 j d + lane 32 j s * 2 ^ 32 := by
  have h1 : lane 32 j d < 2 ^ 32 := lane_lt _ _ _
  have h2 : lane 32 j s < 2 ^ 32 := lane_lt _ _ _
  rw [lane64_split32, unpackLow32, lane_ofLanes _ _ _ _ (by omega : 2 * j < 4),
    lane_ofLanes _ _ _ _ (by omega : 2 * j + 1 < 4)]
  have e1 : 2 * j % 2 = 0 := by omega
  have e2 : 2 * j / 2 = j := by omega
  have e3 : ¬ ((2 * j + 1) % 2 = 0) := by omega
  have e4 : (2 * j + 1) / 2 = j := by omega
  rw [if_pos e1, if_neg e3, e2, e4, Nat.mod_eq_of_lt h1, Nat.mod_eq_of_lt h2]

theorem lane32_shuffle (j s : Nat) (hj : j < 4) :
    lane 32 j (shuffle32 0b01001110 s) = lane 32 ((j + 2) % 4) s := by
  rw [shuffle32, lane_ofLanes _ _ _ _ hj, Nat.mod_eq_of_lt (lane_lt _ _ _)]
  interval_cases j <;> rfl

theorem lane64_shuffle (j s : Nat) (hj : j < 2) :
    lane 64 j (shuffle32 0b01001110 s) = lane 64 (1 - j) s := by
  rw [lane64_split32, lane64_split32, lane32_shuffle _ _ (by omega), lane32_shuffle _ _ (by omega)]
  interval_cases j <;> rfl

theorem lane64_unpcklpd (d s : Nat) :
    lane 64 0 (d % 2 ^ 64 + (s % 2 ^ 64) * 2 ^ 64) = lane 64 0 d ∧
    lane 64 1 (d % 2 ^ 64 + (s % 2 ^ 64) * 2 ^ 64) = lane 64 0 s := by
  simp only [lane, Nat.shiftRight_eq_div_pow]
  norm_num
  omega

theorem lane64_haddp (add : Nat → Nat → Nat) (d s : Nat) :
    lane 64 0 (haddp 64 add d s) = add (lane 64 0 d) (lane 64 1 d) % 2 ^ 64 ∧
    lane 64 1 (haddp 64 add d s) = add (lane 64 0 s) (lane 64 1 s) % 2 ^ 64 := by
  constructor
  · rw [haddp, lane_ofLanes _ _ _ _ (by decide)]
    rfl
  · rw [haddp, lane_ofLanes _ _ _ _ (by decide)]
    rfl

theorem lane_const64 :
    lane 32 0 (0x4530000043300000 + 0 * 2 ^ 64) = 0x43300000 ∧
    lane 32 1 (0x4530000043300000 + 0 * 2 ^ 64) = 0x45300000 ∧
    lane 64 0 (0x4330000000000000 + 0x4530000000000000 * 2 ^ 64) = 0x4330000000000000 ∧
    lane 64 1 (0x4330000000000000 + 0x4530000000000000 * 2 ^ 64) = 0x4530000000000000 := by
  decide

theorem U64_avx_run (env : Env) (code : BlockOfCode) (m : Machine) :
    ∃ m0, execList env code
        [Instr.UseScratchXmm 0 0,
         Instr.vex2 .vmovapd 1 (.MConst 0x4530000043300000 0),
         Instr.vex2 .vmovapd 2 (.MConst 0x4330000000000000 0x4530000000000000),
         Instr.avx .vunpcklps 3 0 (.xmm 1),
         Instr.avx (.vsubp 64) 3 3 (.xmm 2),
         Instr.vex2 (.vpermilps 0b01001110) 0 (.xmm 0),
         Instr.avx .vunpcklps 0 0 (.xmm 1),
         Instr.avx (.vsubp 64) 0 0 (.xmm 2),
         Instr.avx (.vhaddp 64) 0 3 (.xmm 0)] m = some m0 ∧
      ∀ i, i < 2 → lane 64 i (m0.xmm 0) =
        env.addp 64 (u64Low env (m.args 0) i) (u64High env (m.args 0) i) % 2 ^ 64 := by
  refine ⟨_, rfl, ?_⟩
  intro i hi
  obtain ⟨c1, c2, c3, c4⟩ := lane_const64
  simp only [Machine.setXmm, if_true, avxSem, vex2Sem, Machine.operand,
    if_neg (by decide : (0 : Nat) ≠ 1), if_neg (by decide : (1 : Nat) ≠ 0),
    if_neg (by decide : (0 : Nat) ≠ 2), if_neg (by decide : (2 : Nat) ≠ 0),
    if_neg (by decide : (0 : Nat) ≠ 3), if_neg (by decide : (3 : Nat) ≠ 0),
    if_neg (by decide : (1 : Nat) ≠ 2), if_neg (by decide : (2 : Nat) ≠ 1),
    if_neg (by decide : (1 : Nat) ≠ 3), if_neg (by decide : (3 : Nat) ≠ 1),
    if_neg (by decide : (2 : Nat) ≠ 3), if_neg (by decide : (3 : Nat) ≠ 2)]
  have hi2 : i = 0 ∨ i = 1 := by omega
  rcases hi2 with rfl | rfl
  · rw [(lane64_haddp _ _ _).1, lane_mapLanes2 _ _ _ _ _ (by decide),
      lane_mapLanes2 _ _ _ _ _ (by decide), lane64_unpackLow32 _ _ _ (by decide),
      lane64_unpackLow32 _ _ _ (by decide), c1, c2, c3, c4]
    rfl
  · rw [(lane64_haddp _ _ _).2, lane_mapLanes2 _ _ _ _ _ (by decide),
      lane_mapLanes2 _ _ _ _ _ (by decide), lane64_unpackLow32 _ _ _ (by decide),
      lane64_unpackLow32 _ _ _ (by decide), lane32_shuffle _ _ (by decide),
      lane32_shuffle _ _ (by decide), c1, c2, c3, c4]
    rfl

theorem U64_sse_run (env : Env) (code : BlockOfCode) (m : Machine) :
    ∃ m0, execList env code
        [Instr.UseScratchXmm 0 0,
         Instr.sse .movapd 1 (.MConst 0x4530000043300000 0),
         Instr.sse .movapd 2 (.MConst 0x4330000000000000 0x4530000000000000),
         Instr.sse (.pshufd 0b01001110) 3 (.xmm 0),
         Instr.sse .punpckldq 0 (.xmm 1),
         Instr.sse (.subp 64) 0 (.xmm 2),
         Instr.sse (.pshufd 0b01001110) 4 (.xmm 0),
         Instr.sse (.addp 64) 0 (.xmm 4),
         Instr.sse .punpckldq 3 (.xmm 1),
         Instr.sse (.subp 64) 3 (.xmm 2),
         Instr.sse (.pshufd 0b01001110) 1 (.xmm 3),
         Instr.sse (.addp 64) 1 (.xmm 3),
         Instr.sse .unpcklpd 0 (.xmm 1)] m = some m0 ∧
      lane 64 0 (m0.xmm 0) =
        env.addp 64 (u64Low env (m.args 0) 0) (u64High env (m.args 0) 0) % 2 ^ 64 ∧
      lane 64 1 (m0.xmm 0) =
        env.addp 64 (u64High env (m.args 0) 1) (u64Low env (m.args 0) 1) % 2 ^ 64 := by
  refine ⟨_, rfl, ?_⟩
  obtain ⟨c1, c2, c3, c4⟩ := lane_const64
  simp only [Machine.setXmm, if_true, sseSem, Machine.operand,
    if_neg (by decide : (0 : Nat) ≠ 1), if_neg (by decide : (1 : Nat) ≠ 0),
    if_neg (by decide : (0 : Nat) ≠ 2), if_neg (by decide : (2 : Nat) ≠ 0),
    if_neg (by decide : (0 : Nat) ≠ 3), if_neg (by decide : (3 : Nat) ≠ 0),
    if_neg (by decide : (0 : Nat) ≠ 4), if_neg (by decide : (4 : Nat) ≠ 0),
    if_neg (by decide : (1 : Nat) ≠ 2), if_neg (by decide : (2 : Nat) ≠ 1),
    if_neg (by decide : (1 : Nat) ≠ 3), if_neg (by decide : (3 : Nat) ≠ 1),
    if_neg (by decide : (1 : Nat) ≠ 4), if_neg (by decide : (4 : Nat) ≠ 1),
    if_neg (by decide : (2 : Nat) ≠ 3), if_neg (by decide : (3 : Nat) ≠ 2),
    if_neg (by decide : (2 : Nat) ≠ 4), if_neg (by decide : (4 : Nat) ≠ 2),
    if_neg (by decide : (3 : Nat) ≠ 4), if_neg (by decide : (4 : Nat) ≠ 3)]
  constructor
  · rw [(lane64_unpcklpd _ _).1, lane_mapLanes2 _ _ _ _ _ (by decide),
      lane64_shuffle _ _ (by decide), lane_mapLanes2 _ _ _ _ _ (by decide),
      lane_mapLanes2 _ _ _ _ _ (by decide), lane64_unpackLow32 _ _ _ (by decide),
      lane64_unpackLow32 _ _ _ (by decide), c1, c2, c3, c4]
    rfl
  · rw [(lane64_unpcklpd _ _).2, lane_mapLanes2 _ _ _ _ _ (by decide),
      lane64_shuffle _ _ (by decide), lane_mapLanes2 _ _ _ _ _ (by decide),
      lane_mapLanes2 _ _ _ _ _ (by decide), lane64_unpackLow32 _ _ _ (by decide),
      lane64_unpackLow32 _ _ _ (by decide), lane32_shuffle _ _ (by decide),
      lane32_shuffle _ _ (by decide), c1, c2, c3, c4]
    rfl

theorem u32_bits (x : Nat) (hx : x < 2 ^ 32) :
    ((x >>> 16) % 2 ^ 32) ||| 0x53000000 = 0x53000000 + x / 2 ^ 16 ∧
    (0xFFFF &&& x) ||| 0x4B000000 = 0x4B000000 + x % 2 ^ 16 ∧
    x % 2 ^ 16 + 0x4B00 * 2 ^ 16 = 0x4B000000 + x % 2 ^ 16 ∧
    ((x >>> 16) % 2 ^ 32) % 2 ^ 16 + 0x5300 * 2 ^ 16 = 0x53000000 + x / 2 ^ 16 := by
  have hhi : x / 2 ^ 16 < 2 ^ 16 := by omega
  have hlo : x % 2 ^ 16 < 2 ^ 16 := Nat.mod_lt _ (by positivity)
  have e1 := Nat.mul_add_lt_is_or hhi 0x5300
  have e2 := Nat.mul_add_lt_is_or hlo 0x4B00
  have e3 : (0xFFFF : Nat) &&& x = x % 2 ^ 16 := by
    rw [Nat.and_comm]
    exact Nat.and_pow_two_sub_one_eq_mod x 16
  refine ⟨?_, ?_, ?_, ?_⟩
  · rw [Nat.shiftRight_eq_div_pow, Nat.mod_eq_of_lt (by omega), Nat.lor_comm, ← e1]
  · rw [e3, Nat.lor_comm, ← e2]
  · norm_num
    omega
  · rw [Nat.shiftRight_eq_div_pow]
    norm_num
    omega

theorem u64_bits (x : Nat) :
    lane 32 0 x + 0x43300000 * 2 ^ 32 = 0x4330000000000000 + lane 32 0 x ∧
    lane 32 1 x + 0x45300000 * 2 ^ 32 = 0x4530000000000000 + lane 32 1 x := by
  constructor <;> norm_num <;> omega

theorem UnsignedToFloat.body_lanes (rm : RoundingMode) (code : BlockOfCode) (w : Nat)
    (hw : w = 32 ∨ w = 64)
    (hpath : (code.DoesCpuSupport .tAVX512DQ && code.DoesCpuSupport .tAVX512VL) = false)
    (m : Machine) :
    ∃ m0, execList (x86Env rm) code
        (Instr.UseScratchXmm 0 0 :: UnsignedToFloat.body w code) m = some m0 ∧
      ∀ i, i < 128 / w → lane w i (m0.xmm 0) =
        fpOfInt w rm ((lane w i (m.args 0) : Int) * 2 ^ fpScale w) 0
          (rm == .TowardsMinusInfinity) := by
  have hadd : ∀ w, (x86Env rm).addp w = x86add rm w := fun _ => rfl
  have hsub : ∀ w, (x86Env rm).subp w = x86sub rm w := fun _ => rfl
  rcases hw with rfl | rfl
  · have hfin : ∀ x : Nat, x < 2 ^ 32 →
        ((x / 2 ^ 16 * 2 ^ 16 + x % 2 ^ 16 : Nat) : Int) = (x : Int) := by
      intro x _
      have := Nat.div_add_mod' x (2 ^ 16)
      exact_mod_cast this
    cases havx : code.DoesCpuSupport .tAVX
    · obtain ⟨m0, hm0, hl⟩ := U32_sse_run (x86Env rm) code m
      refine ⟨m0, ?_, ?_⟩
      · simpa [UnsignedToFloat.body, hpath, havx] using hm0
      · intro i hi
        have hx : lane 32 i (m.args 0) < 2 ^ 32 := lane_lt _ _ _
        obtain ⟨b1, b2, -, -⟩ := u32_bits _ hx
        obtain ⟨l1, -, l3⟩ := u32_lane rm (lane 32 i (m.args 0) % 2 ^ 16)
          (lane 32 i (m.args 0) / 2 ^ 16) (Nat.mod_lt _ (by positivity)) (by omega)
        rw [hl i (by simpa using hi), b1, b2, hadd, Nat.mod_eq_of_lt l3, l1,
          Nat.mod_eq_of_lt (fpOfInt_lt 32 (Or.inl rfl) _ _ _ _), hfin _ hx]
    · obtain ⟨m0, hm0, hl⟩ := U32_avx_run (x86Env rm) code m
      refine ⟨m0, ?_, ?_⟩
      · simpa [UnsignedToFloat.body, hpath, havx] using hm0
      · intro i hi
        have hx : lane 32 i (m.args 0) < 2 ^ 32 := lane_lt _ _ _
        obtain ⟨-, -, b3, b4⟩ := u32_bits _ hx
        obtain ⟨-, l2, l3⟩ := u32_lane rm (lane 32 i (m.args 0) % 2 ^ 16)
          (lane 32 i (m.args 0) / 2 ^ 16) (Nat.mod_lt _ (by positivity)) (by omega)
        rw [hl i (by simpa using hi), b3, b4, hadd, Nat.mod_eq_of_lt l3, l2,
          Nat.mod_eq_of_lt (fpOfInt_lt 32 (Or.inl rfl) _ _ _ _), hfin _ hx]
  · have hfin : ∀ i x : Nat,
        ((lane 32 (2 * i + 1) x * 2 ^ 32 + lane 32 (2 * i) x : Nat) : Int) =
          (lane 64 i x : Int) := by
      intro i x
      rw [lane64_split32, add_comm]
    have hterms : ∀ i : Nat,
        x86add rm 64 (u64Low (x86Env rm) (m.args 0) i) (u64High (x86Env rm) (m.args 0) i) =
          fpOfInt 64 rm ((lane 64 i (m.args 0) : Int) * 2 ^ fpScale 64) 0
            (rm == .TowardsMinusInfinity) ∧
        x86add rm 64 (u64High (x86Env rm) (m.args 0) i) (u64Low (x86Env rm) (m.args 0) i) =
          fpOfInt 64 rm ((lane 64 i (m.args 0) : Int) * 2 ^ fpScale 64) 0
            (rm == .TowardsMinusInfinity) := by
      intro i
      obtain ⟨l1, l2, l3, l4⟩ := u64_lane rm (lane 32 (2 * i) (m.args 0))
        (lane 32 (2 * i + 1) (m.args 0)) (lane_lt _ _ _) (lane_lt _ _ _)
      have e1 : lane 32 (2 * i) (m.args 0) + 0x43300000 * 2 ^ 32 =
          0x4330000000000000 + lane 32 (2 * i) (m.args 0) := by norm_num; omega
      have e2 : lane 32 (2 * i + 1) (m.args 0) + 0x45300000 * 2 ^ 32 =
          0x4530000000000000 + lane 32 (2 * i + 1) (m.args 0) := by norm_num; omega
      unfold u64Low u64High
      rw [hsub, e1, e2, Nat.mod_eq_of_lt l3, Nat.mod_eq_of_lt l4, l1, l2, hfin]
      exact ⟨rfl, rfl⟩
    cases havx : code.DoesCpuSupport .tAVX
    · obtain ⟨m0, hm0, hl0, hl1⟩ := U64_sse_run (x86Env rm) code m
      refine ⟨m0, ?_, ?_⟩
      · simpa [UnsignedToFloat.body, hpath, havx] using hm0
      · intro i hi
        have hi2 : i = 0 ∨ i = 1 := by
          have : i < 2 := by simpa using hi
          omega
        rcases hi2 with rfl | rfl
        · rw [hl0, hadd, (hterms 0).1, Nat.mod_eq_of_lt (fpOfInt_lt 64 (Or.inr rfl) _ _ _ _)]
        · rw [hl1, hadd, (hterms 1).2, Nat.mod_eq_of_lt (fpOfInt_lt 64 (Or.inr rfl) _ _ _ _)]
    · obtain ⟨m0, hm0, hl⟩ := U64_avx_run (x86Env rm) code m
      refine ⟨m0, ?_, ?_⟩
      · simpa [UnsignedToFloat.body, hpath, havx] using hm0
      · intro i hi
        rw [hl i (by simpa using hi), hadd, (hterms i).1,
          Nat.mod_eq_of_lt (fpOfInt_lt 64 (Or.inr rfl) _ _ _ _)]

/-! ## `U32ToSingle` on concrete lanes -/

theorem step_code_irrelevant (env : Env) (code code2 : BlockOfCode) (i : Instr) (m : Machine)
    (h : i.isCall = false) : step env code i m = step env code2 i m := by
  cases i <;> first | rfl | simp [Instr.isCall] at h

theorem execList_code_irrelevant (env : Env) (code code2 : BlockOfCode) (l : List Instr)
    (m : Machine) (h : ∀ i ∈ l, i.isCall = false) :
    execList env code l m = execList env code2 l m := by
  induction l generalizing m with
  | nil => rfl
  | cons i l ih =>
    simp only [execList]
    rw [step_code_irrelevant env code code2 i m (h i (List.mem_cons_self _ _))]
    cases step env code2 i m with
    | none => rfl
    | some m2 => exact ih m2 (fun j hj => h j (List.mem_cons_of_mem _ hj))

theorem UnsignedToFloat.state_straight (w : Nat) (code : BlockOfCode) (ctx : EmitContext) :
    ∀ i ∈ (UnsignedToFloat.state w code ctx).near, i.isJump = false ∧ i.isCall = false := by
  intro i hi
  have hm : i = Instr.UseScratchXmm 0 0 ∨ i ∈ UnsignedToFloat.body w code ∨
      i = UnsignedToFloat.mask w ∨ i = Instr.DefineValue 0 := by
    simp only [UnsignedToFloat.state, List.cons_append, List.mem_cons, List.mem_append,
      List.mem_singleton] at hi
    rcases hi with h | (h | h) | h
    · exact Or.inl h
    · exact Or.inr (Or.inl h)
    · split_ifs at h
      · simp only [List.mem_singleton] at h
        exact Or.inr (Or.inr (Or.inl h))
      · simp at h
    · exact Or.inr (Or.inr (Or.inr (by simpa using h)))
  rcases hm with rfl | h | rfl | rfl
  · exact ⟨rfl, rfl⟩
  · obtain ⟨d, hd⟩ := UnsignedToFloat.body_xmmOnly w code i h
    cases i <;> first | exact ⟨rfl, rfl⟩ | simp [Instr.xmmDst] at hd
  · unfold UnsignedToFloat.mask
    split_ifs <;> exact ⟨rfl, rfl⟩
  · exact ⟨rfl, rfl⟩

theorem UnsignedToFloat.definedBy_eq (env : Env) (w : Nat) (hw : w = 32 ∨ w = 64)
    (code code2 : BlockOfCode) (ctx ctx2 : EmitContext) (m : Machine)
    (hs : UnsignedToFloat.state w code ctx = UnsignedToFloat.state w code2 ctx2) :
    definedBy env code (UnsignedToFloat.emit w code ctx) m =
      (execList env code2 (UnsignedToFloat.state w code2 ctx2).near m).bind
        (fun m1 => m1.defined) := by
  unfold definedBy
  rw [UnsignedToFloat_emitted_eq w hw code ctx]
  simp only
  rw [runBlock_straight env code _ m
    (fun i hi => (UnsignedToFloat.state_straight w code ctx i hi).1)]
  rw [execList_code_irrelevant env code code2 _ m
    (fun i hi => (UnsignedToFloat.state_straight w code ctx i hi).2), hs]

/-- C13, as amended: `EmitFPVectorU32ToSingle` with `RMode = TowardsMinusInfinity`, on every
host path (AVX-512, AVX, SSE), on the input lanes `[0, 1, 0xFFFFFFFF, 0x80000000]`. With the
host rounding towards minus infinity as the guest does, the block defines the lanes
`[0.0, 1.0, 4294967040.0, 2147483648.0]` (bit patterns `0`, `0x3F800000`, `0x4F7FFFFF`,
`0x4F000000`), each with its sign bit clear: `0xFFFFFFFF` is not representable and rounds
down to the largest float below `2^32`. The lane `4.2949673e9` (`2^32`, `0x4F800000`) is what
the same block gives when the host rounds to nearest. On the bit-trick paths the conversion
proper leaves `-0.0` (`0x80000000`) in lane 0 under that host rounding, which is the sign the
mask of this mode clears. -/
theorem EmitFPVectorU32ToSingle_lanes (code : BlockOfCode) (ctx : EmitContext)
    (hrm : ctx.FPSCR_RMode = .TowardsMinusInfinity) :
    definedBy (hostOf ctx) code (EmitFPVectorU32ToSingle code ctx)
        (Machine.init [vec32 0 1 0xFFFFFFFF 0x80000000]) =
      some (vec32 0 0x3F800000 0x4F7FFFFF 0x4F000000) ∧
    definedBy (x86Env .ToNearest_TieEven) code (EmitFPVectorU32ToSingle code ctx)
        (Machine.init [vec32 0 1 0xFFFFFFFF 0x80000000]) =
      some (vec32 0 0x3F800000 0x4F800000 0x4F000000) ∧
    (∀ i, i < 4 → signBit 32 (lane 32 i (vec32 0 0x3F800000 0x4F7FFFFF 0x4F000000)) = false) ∧
    ((code.DoesCpuSupport .tAVX512DQ && code.DoesCpuSupport .tAVX512VL) = false →
      ∃ m0, execList (hostOf ctx) code
          (Instr.UseScratchXmm 0 0 :: UnsignedToFloat.body 32 code)
          (Machine.init [vec32 0 1 0xFFFFFFFF 0x80000000]) = some m0 ∧
        lane 32 0 (m0.xmm 0) = 0x80000000) ∧
    fpVal 32 0x3F800000 = 1 * 2 ^ fpScale 32 ∧
    fpVal 32 0x4F7FFFFF = 4294967040 * 2 ^ fpScale 32 ∧
    fpVal 32 0x4F800000 = 4294967296 * 2 ^ fpScale 32 ∧
    fpVal 32 0x4F000000 = 2147483648 * 2 ^ fpScale 32 := by
  have h : ∀ (avx vl dq : Bool),
      (execList (x86Env .TowardsMinusInfinity) ⟨false, avx, false, vl, dq, false⟩
          (UnsignedToFloat.state 32 ⟨false, avx, false, vl, dq, false⟩
            ⟨false, false, .TowardsMinusInfinity, false⟩).near
          (Machine.init [vec32 0 1 0xFFFFFFFF 0x80000000])).bind (fun m1 => m1.defined) =
        some (vec32 0 0x3F800000 0x4F7FFFFF 0x4F000000) ∧
      (execList (x86Env .ToNearest_TieEven) ⟨false, avx, false, vl, dq, false⟩
          (UnsignedToFloat.state 32 ⟨false, avx, false, vl, dq, false⟩
            ⟨false, false, .TowardsMinusInfinity, false⟩).near
          (Machine.init [vec32 0 1 0xFFFFFFFF 0x80000000])).bind (fun m1 => m1.defined) =
        some (vec32 0 0x3F800000 0x4F800000 0x4F000000) := by decide!
  obtain ⟨sse41, avx, fma, vl, dq, win⟩ := code
  obtain ⟨dn, ftz, rm, acc⟩ := ctx
  simp only at hrm
  subst hrm
  have e1 := UnsignedToFloat.definedBy_eq (x86Env .TowardsMinusInfinity) 32 (Or.inl rfl)
    ⟨sse41, avx, fma, vl, dq, win⟩ ⟨false, avx, false, vl, dq, false⟩
    ⟨dn, ftz, .TowardsMinusInfinity, acc⟩ ⟨false, false, .TowardsMinusInfinity, false⟩
    (Machine.init [vec32 0 1 0xFFFFFFFF 0x80000000]) rfl
  have e2 := UnsignedToFloat.definedBy_eq (x86Env .ToNearest_TieEven) 32 (Or.inl rfl)
    ⟨sse41, avx, fma, vl, dq, win⟩ ⟨false, avx, false, vl, dq, false⟩
    ⟨dn, ftz, .TowardsMinusInfinity, acc⟩ ⟨false, false, .TowardsMinusInfinity, false⟩
    (Machine.init [vec32 0 1 0xFFFFFFFF 0x80000000]) rfl
  refine ⟨?_, ?_, by decide, ?_, by decide!, by decide!, by decide!, by decide!⟩
  · exact e1.trans (h avx vl dq).1
  · exact e2.trans (h avx vl dq).2
  · intro hpath
    obtain ⟨m0, hm0, hl⟩ := UnsignedToFloat.body_lanes .TowardsMinusInfinity
      ⟨sse41, avx, fma, vl, dq, win⟩ 32 (Or.inl rfl) hpath
      (Machine.init [vec32 0 1 0xFFFFFFFF 0x80000000])
    refine ⟨m0, hm0, ?_⟩
    rw [hl 0 (by decide)]
    decide!

theorem EmitFPVectorU32ToSingle_lanes_witness :
    definedBy (hostOf ⟨false, false, .TowardsMinusInfinity, false⟩) .sse2
        (EmitFPVectorU32ToSingle .sse2 ⟨false, false, .TowardsMinusInfinity, false⟩)
        (Machine.init [vec32 0 1 0xFFFFFFFF 0x80000000]) =
      some (vec32 0 0x3F800000 0x4F7FFFFF 0x4F000000) :=
  (EmitFPVectorU32ToSingle_lanes .sse2 ⟨false, false, .TowardsMinusInfinity, false⟩ rfl).1

/-- C13 as stated fails: with `RMode = TowardsMinusInfinity`, and the host rounding as the
guest does, the SSE block of `EmitFPVectorU32ToSingle` maps the lane `0xFFFFFFFF` to
`0x4F7FFFFF`, the float `4294967040.0`, and not to `0x4F800000`, the float `2^32` that
`4.2949673e9` denotes (the float nearest to `4294967300`). -/
theorem EmitFPVectorU32ToSingle_lanes_counterexample :
    ∃ v, definedBy (hostOf ⟨false, false, .TowardsMinusInfinity, false⟩) .sse2
        (EmitFPVectorU32ToSingle .sse2 ⟨false, false, .TowardsMinusInfinity, false⟩)
        (Machine.init [vec32 0 1 0xFFFFFFFF 0x80000000]) = some v ∧
      lane 32 2 v = 0x4F7FFFFF ∧
      fpVal 32 (lane 32 2 v) = 4294967040 * 2 ^ fpScale 32 ∧
      fpOfInt 32 .ToNearest_TieEven (4294967300 * 2 ^ fpScale 32) 0 false = 0x4F800000 ∧
      lane 32 2 v ≠ 0x4F800000 :=
  ⟨vec32 0 0x3F800000 0x4F7FFFFF 0x4F000000, by decide!, by decide!, by decide!, by decide!,
    by decide!⟩

/-! ## The bit tricks of `U32ToSingle` and `U64ToDouble` round once -/

/-- C12: the bit-trick (non-AVX-512) sequences of `EmitFPVectorU32ToSingle` (`w = 32`) and
`EmitFPVectorU64ToDouble` (`w = 64`), on the AVX and on the SSE path, under round to nearest
even (guest and host). For every input the block defines a value, and every lane of it is the
one rounding of the exact unsigned value `x` of the input lane: the biased halves are formed
and the bias removed without rounding error. Hence for every `x` that is exactly
representable, that is for every finite sign-clear float `c` whose value is `x`, the result
lane is `c`, and its value is `x` again. -/
theorem UnsignedToFloat_exact (code : BlockOfCode) (ctx : EmitContext) (w : Nat)
    (hw : w = 32 ∨ w = 64)
    (hpath : (code.DoesCpuSupport .tAVX512DQ && code.DoesCpuSupport .tAVX512VL) = false)
    (hrm : ctx.FPSCR_RMode = .ToNearest_TieEven) (m : Machine) :
    ∃ v, definedBy (hostOf ctx) code (UnsignedToFloat.emit w code ctx) m = some v ∧
      ∀ i, i < 128 / w →
        lane w i v = fpOfInt w .ToNearest_TieEven
          ((lane w i (m.args 0) : Int) * 2 ^ fpScale w) 0 false ∧
        ∀ c, c < fpInf w → fpMag w c = lane w i (m.args 0) * 2 ^ fpScale w →
          lane w i v = c ∧ fpMag w (lane w i v) = lane w i (m.args 0) * 2 ^ fpScale w := by
  obtain ⟨m0, hm0, hl⟩ := UnsignedToFloat.body_lanes .ToNearest_TieEven code w hw hpath m
  have hnear : (UnsignedToFloat.state w code ctx).near =
      (Instr.UseScratchXmm 0 0 :: UnsignedToFloat.body w code) ++ [Instr.DefineValue 0] := by
    simp [UnsignedToFloat.state, hrm]
  have hdef : definedBy (hostOf ctx) code (UnsignedToFloat.emit w code ctx) m =
      some (m0.xmm 0 % 2 ^ 128) := by
    rw [UnsignedToFloat.definedBy_eq (hostOf ctx) w hw code code ctx ctx m rfl, hnear,
      execList_append]
    unfold hostOf
    rw [hrm, hm0]
    rfl
  refine ⟨_, hdef, ?_⟩
  intro i hi
  have hlane : lane w i (m0.xmm 0 % 2 ^ 128) = lane w i (m0.xmm 0) :=
    lane_mod128 _ _ _ (lane_mul_le _ i hi)
  have hres := hl i hi
  have hz : (RoundingMode.ToNearest_TieEven == RoundingMode.TowardsMinusInfinity) = false := by
    decide
  rw [hz] at hres
  rw [hlane, hres]
  refine ⟨rfl, ?_⟩
  intro c hc hmag
  obtain ⟨h0, h1⟩ := fpRound_exact_of w hw .ToNearest_TieEven false c hc
  have hpos : (0 : Int) < 2 ^ fpScale w := by positivity
  have hc2 : fpOfInt w .ToNearest_TieEven ((lane w i (m.args 0) : Int) * 2 ^ fpScale w) 0
      false = c := by
    by_cases hx : lane w i (m.args 0) = 0
    · rw [hx] at hmag ⊢
      have : c = 0 := h0 (by simpa using hmag)
      subst this
      simp [fpOfInt, withSign]
    · have hne : (lane w i (m.args 0) : Int) * 2 ^ fpScale w ≠ 0 :=
        mul_ne_zero (by exact_mod_cast hx) (ne_of_gt hpos)
      have hnn : ¬ ((lane w i (m.args 0) : Int) * 2 ^ fpScale w < 0) :=
        not_lt.2 (mul_nonneg (by positivity) (le_of_lt hpos))
      have habs : ((lane w i (m.args 0) : Int) * 2 ^ fpScale w).natAbs = fpMag w c := by
        rw [hmag, Int.natAbs_mul, Int.natAbs_pow]
        rfl
      have hmpos : 0 < fpMag w c := by
        rw [hmag]
        exact Nat.mul_pos (Nat.pos_of_ne_zero hx) (by positivity)
      simp only [fpOfInt, hne, if_false, hnn, decide_False, habs]
      rw [h1 hmpos]
      simp [withSign]
  rw [hc2]
  exact ⟨rfl, hmag⟩

theorem UnsignedToFloat_exact_witness :
    ∃ v, definedBy (hostOf ⟨false, false, .ToNearest_TieEven, false⟩) .sse2
        (UnsignedToFloat.emit 32 .sse2 ⟨false, false, .ToNearest_TieEven, false⟩)
        (Machine.init [vec32 0 1 0xFFFFFF00 0x80000000]) = some v ∧
      ∀ i, i < 128 / 32 →
        lane 32 i v = fpOfInt 32 .ToNearest_TieEven
          ((lane 32 i ((Machine.init [vec32 0 1 0xFFFFFF00 0x80000000]).args 0) : Int) *
            2 ^ fpScale 32) 0 false :=
  let ⟨v, hv, hl⟩ := UnsignedToFloat_exact .sse2 ⟨false, false, .ToNearest_TieEven, false⟩ 32
    (Or.inl rfl) rfl rfl (Machine.init [vec32 0 1 0xFFFFFF00 0x80000000])
  ⟨v, hv, fun i hi => (hl i hi).1⟩

/-! ## Every emitter of the file -/

theorem okAnd_ok {p : EmitState → Bool} {r : Except EmitError EmitState} {s : EmitState}
    (h0 : okAnd p r = true) (h : r = .ok s) : p s = true := by
  subst h
  exact h0

/-- A check that holds of the blocks of each family of emitters holds of the block of every
opcode. -/
theorem Opcode_forall (chk : Bool → EmitState → Bool)
    (h3 : ∀ (op : ThreeOpOpcode) (code : BlockOfCode) (ctx : EmitContext),
      chk ctx.simple (op.state code ctx) = true)
    (hmm : ∀ (isMax : Bool) (fsize : Nat), fsize = 32 ∨ fsize = 64 →
      ∀ (code : BlockOfCode) (ctx : EmitContext),
        chk ctx.simple (MinMax.state isMax fsize code ctx) = true)
    (hma : ∀ (fsize : Nat) (code : BlockOfCode),
      chk false (EmitFPVectorMulAdd.state fsize code) = true)
    (hfb : ∀ (b : Bool) (sh : Fallback) (code : BlockOfCode) (fn : Callee),
      chk b (sh.state code fn) = true)
    (hri : ∀ (fsize : Nat), fsize = 32 ∨ fsize = 64 →
      ∀ (code : BlockOfCode) (ctx : EmitContext) (rounding : RoundingMode) (exact : Bool),
        okAnd (chk ctx.simple) (emitted (EmitFPVectorRoundInt fsize code ctx rounding exact))
          = true)
    (hcv : ∀ (b : Bool) (code : BlockOfCode) (ctx : EmitContext),
      okAnd (chk b) (emitted EmitFPVectorS32ToSingle) = true ∧
      okAnd (chk b) (emitted (EmitFPVectorS64ToDouble code)) = true ∧
      okAnd (chk b) (emitted (EmitFPVectorU32ToSingle code ctx)) = true ∧
      okAnd (chk b) (emitted (EmitFPVectorU64ToDouble code ctx)) = true)
    (hs : ∀ b : Bool,
      okAnd (chk b) (emitted EmitFPVectorAbs16) = true ∧
      okAnd (chk b) (emitted EmitFPVectorAbs32) = true ∧
      okAnd (chk b) (emitted EmitFPVectorAbs64) = true ∧
      okAnd (chk b) (emitted EmitFPVectorNeg16) = true ∧
      okAnd (chk b) (emitted EmitFPVectorNeg32) = true ∧
      okAnd (chk b) (emitted EmitFPVectorNeg64) = true ∧
      ∀ op : CompareOpcode, okAnd (chk b) (emitted op.emit) = true)
    (op : Opcode) (code : BlockOfCode) (ctx : EmitContext) (s : EmitState)
    (h : emitted (op.emit code ctx) = .ok s) :
    chk (op.simplePath ctx) s = true := by
  have hc := hcv ctx.simple code ctx
  have hsimple := hs ctx.simple
  cases op
  case FPVectorAbs16 => exact okAnd_ok hsimple.1 h
  case FPVectorAbs32 => exact okAnd_ok hsimple.2.1 h
  case FPVectorAbs64 => exact okAnd_ok hsimple.2.2.1 h
  case FPVectorNeg16 => exact okAnd_ok hsimple.2.2.2.1 h
  case FPVectorNeg32 => exact okAnd_ok hsimple.2.2.2.2.1 h
  case FPVectorNeg64 => exact okAnd_ok hsimple.2.2.2.2.2.1 h
  case FPVectorEqual32 => exact okAnd_ok (hsimple.2.2.2.2.2.2 .FPVectorEqual32) h
  case FPVectorEqual64 => exact okAnd_ok (hsimple.2.2.2.2.2.2 .FPVectorEqual64) h
  case FPVectorGreater32 => exact okAnd_ok (hsimple.2.2.2.2.2.2 .FPVectorGreater32) h
  case FPVectorGreater64 => exact okAnd_ok (hsimple.2.2.2.2.2.2 .FPVectorGreater64) h
  case FPVectorGreaterEqual32 => exact okAnd_ok (hsimple.2.2.2.2.2.2 .FPVectorGreaterEqual32) h
  case FPVectorGreaterEqual64 => exact okAnd_ok (hsimple.2.2.2.2.2.2 .FPVectorGreaterEqual64) h
  case FPVectorAdd32 =>
    obtain rfl := eq_of_emitted (ThreeOpOpcode_emitted_eq .FPVectorAdd32 code ctx) h
    exact h3 _ code ctx
  case FPVectorAdd64 =>
    obtain rfl := eq_of_emitted (ThreeOpOpcode_emitted_eq .FPVectorAdd64 code ctx) h
    exact h3 _ code ctx
  case FPVectorDiv32 =>
    obtain rfl := eq_of_emitted (ThreeOpOpcode_emitted_eq .FPVectorDiv32 code ctx) h
    exact h3 _ code ctx
  case FPVectorDiv64 =>
    obtain rfl := eq_of_emitted (ThreeOpOpcode_emitted_eq .FPVectorDiv64 code ctx) h
    exact h3 _ code ctx
  case FPVectorMul32 =>
    obtain rfl := eq_of_emitted (ThreeOpOpcode_emitted_eq .FPVectorMul32 code ctx) h
    exact h3 _ code ctx
  case FPVectorMul64 =>
    obtain rfl := eq_of_emitted (ThreeOpOpcode_emitted_eq .FPVectorMul64 code ctx) h
    exact h3 _ code ctx
  case FPVectorSub32 =>
    obtain rfl := eq_of_emitted (ThreeOpOpcode_emitted_eq .FPVectorSub32 code ctx) h
    exact h3 _ code ctx
  case FPVectorSub64 =>
    obtain rfl := eq_of_emitted (ThreeOpOpcode_emitted_eq .FPVectorSub64 code ctx) h
    exact h3 _ code ctx
  case FPVectorPairedAdd32 =>
    obtain rfl := eq_of_emitted (ThreeOpOpcode_emitted_eq .FPVectorPairedAdd32 code ctx) h
    exact h3 _ code ctx
  case FPVectorPairedAdd64 =>
    obtain rfl := eq_of_emitted (ThreeOpOpcode_emitted_eq .FPVectorPairedAdd64 code ctx) h
    exact h3 _ code ctx
  case FPVectorPairedAddLower32 =>
    obtain rfl := eq_of_emitted (ThreeOpOpcode_emitted_eq .FPVectorPairedAddLower32 code ctx) h
    exact h3 _ code ctx
  case FPVectorPairedAddLower64 =>
    obtain rfl := eq_of_emitted (ThreeOpOpcode_emitted_eq .FPVectorPairedAddLower64 code ctx) h
    exact h3 _ code ctx
  case FPVectorMax32 =>
    obtain rfl := eq_of_emitted (MinMax.emitted_max 32 (Or.inl rfl) code ctx) h
    exact hmm true 32 (Or.inl rfl) code ctx
  case FPVectorMax64 =>
    obtain rfl := eq_of_emitted (MinMax.emitted_max 64 (Or.inr rfl) code ctx) h
    exact hmm true 64 (Or.inr rfl) code ctx
  case FPVectorMin32 =>
    obtain rfl := eq_of_emitted (MinMax.emitted_min 32 (Or.inl rfl) code ctx) h
    exact hmm false 32 (Or.inl rfl) code ctx
  case FPVectorMin64 =>
    obtain rfl := eq_of_emitted (MinMax.emitted_min 64 (Or.inr rfl) code ctx) h
    exact hmm false 64 (Or.inr rfl) code ctx
  case FPVectorMulAdd32 =>
    obtain rfl := eq_of_emitted (EmitFPVectorMulAdd_emitted_eq 32 (Or.inl rfl) code ctx) h
    exact hma 32 code
  case FPVectorMulAdd64 =>
    obtain rfl := eq_of_emitted (EmitFPVectorMulAdd_emitted_eq 64 (Or.inr rfl) code ctx) h
    exact hma 64 code
  case FPVectorRecipEstimate32 =>
    obtain rfl := eq_of_emitted (Fallback_emitted_eq .TwoOp code _) h
    exact hfb _ _ _ _
  case FPVectorRecipEstimate64 =>
    obtain rfl := eq_of_emitted (Fallback_emitted_eq .TwoOp code _) h
    exact hfb _ _ _ _
  case FPVectorRSqrtEstimate32 =>
    obtain rfl := eq_of_emitted (Fallback_emitted_eq .TwoOp code _) h
    exact hfb _ _ _ _
  case FPVectorRSqrtEstimate64 =>
    obtain rfl := eq_of_emitted (Fallback_emitted_eq .TwoOp code _) h
    exact hfb _ _ _ _
  case FPVectorRecipStepFused32 =>
    obtain rfl := eq_of_emitted (Fallback_emitted_eq .ThreeOp code _) h
    exact hfb _ _ _ _
  case FPVectorRecipStepFused64 =>
    obtain rfl := eq_of_emitted (Fallback_emitted_eq .ThreeOp code _) h
    exact hfb _ _ _ _
  case FPVectorRSqrtStepFused32 =>
    obtain rfl := eq_of_emitted (Fallback_emitted_eq .ThreeOp code _) h
    exact hfb _ _ _ _
  case FPVectorRSqrtStepFused64 =>
    obtain rfl := eq_of_emitted (Fallback_emitted_eq .ThreeOp code _) h
    exact hfb _ _ _ _
  case FPVectorRoundInt32 rounding exact =>
    exact okAnd_ok (hri 32 (Or.inl rfl) code ctx rounding exact) h
  case FPVectorRoundInt64 rounding exact =>
    exact okAnd_ok (hri 64 (Or.inr rfl) code ctx rounding exact) h
  case FPVectorS32ToSingle => exact okAnd_ok hc.1 h
  case FPVectorS64ToDouble => exact okAnd_ok hc.2.1 h
  case FPVectorU32ToSingle => exact okAnd_ok hc.2.2.1 h
  case FPVectorU64ToDouble => exact okAnd_ok hc.2.2.2 h
  case FPVectorToSignedFixed32 fbits rounding =>
    obtain rfl := EmitFPVectorToFixed_scope 32 false code fbits rounding s h
    exact hfb _ _ _ _
  case FPVectorToSignedFixed64 fbits rounding =>
    obtain rfl := EmitFPVectorToFixed_scope 64 false code fbits rounding s h
    exact hfb _ _ _ _
  case FPVectorToUnsignedFixed32 fbits rounding =>
    obtain rfl := EmitFPVectorToFixed_scope 32 true code fbits rounding s h
    exact hfb _ _ _ _
  case FPVectorToUnsignedFixed64 fbits rounding =>
    obtain rfl := EmitFPVectorToFixed_scope 64 true code fbits rounding s h
    exact hfb _ _ _ _

theorem ThreeOpOpcode_blockShape (op : ThreeOpOpcode) (code : BlockOfCode) (ctx : EmitContext) :
    blockShape ctx.simple (op.state code ctx) = true := by
  have h : ∀ (op : ThreeOpOpcode) (sse41 win dn acc : Bool),
      blockShape (!acc || dn) (op.state ⟨sse41, false, false, false, false, win⟩
        ⟨dn, false, .ToNearest_TieEven, acc⟩) = true := by decide!
  obtain ⟨sse41, avx, fma, vl, dq, win⟩ := code
  obtain ⟨dn, ftz, rm, acc⟩ := ctx
  exact h op sse41 win dn acc

theorem MinMax_blockShape (isMax : Bool) (fsize : Nat) (hf : fsize = 32 ∨ fsize = 64)
    (code : BlockOfCode) (ctx : EmitContext) :
    blockShape ctx.simple (MinMax.state isMax fsize code ctx) = true := by
  have h : ∀ fsize ∈ [32, 64], ∀ (isMax sse41 avx win dn ftz acc : Bool) (rm : RoundingMode),
      blockShape (!acc || dn) (MinMax.state isMax fsize ⟨sse41, avx, false, false, false, win⟩
        ⟨dn, ftz, rm, acc⟩) = true := by decide!
  obtain ⟨sse41, avx, fma, vl, dq, win⟩ := code
  obtain ⟨dn, ftz, rm, acc⟩ := ctx
  rcases hf with rfl | rfl
  · exact h 32 (by simp) isMax sse41 avx win dn ftz acc rm
  · exact h 64 (by simp) isMax sse41 avx win dn ftz acc rm

theorem EmitFPVectorMulAdd_blockShape (fsize : Nat) (code : BlockOfCode) :
    blockShape false (EmitFPVectorMulAdd.state fsize code) = true := by
  obtain ⟨sse41, avx, fma, vl, dq, win⟩ := code
  cases fma <;> cases avx <;> cases win <;> rfl

theorem Fallback_blockShape (b : Bool) (sh : Fallback) (code : BlockOfCode) (fn : Callee) :
    blockShape b (sh.state code fn) = true := by
  obtain ⟨sse41, avx, fma, vl, dq, win⟩ := code
  cases b <;> cases sh <;> cases win <;> rfl

theorem EmitFPVectorRoundInt_blockShape (fsize : Nat) (hf : fsize = 32 ∨ fsize = 64)
    (code : BlockOfCode) (ctx : EmitContext) (rounding : RoundingMode) (exact : Bool) :
    okAnd (blockShape ctx.simple)
      (emitted (EmitFPVectorRoundInt fsize code ctx rounding exact)) = true := by
  have h : ∀ fsize ∈ [32, 64], ∀ (sse41 avx win dn acc exact : Bool) (rounding : RoundingMode),
      okAnd (blockShape (!acc || dn))
        (emitted (EmitFPVectorRoundInt fsize ⟨sse41, avx, false, false, false, win⟩
          ⟨dn, false, .ToNearest_TieEven, acc⟩ rounding exact)) = true := by
    decide!
  obtain ⟨sse41, avx, fma, vl, dq, win⟩ := code
  obtain ⟨dn, ftz, rm, acc⟩ := ctx
  rcases hf with rfl | rfl
  · exact h 32 (by simp) sse41 avx win dn acc exact rounding
  · exact h 64 (by simp) sse41 avx win dn acc exact rounding

theorem conversions_blockShape (b : Bool) (code : BlockOfCode) (ctx : EmitContext) :
    okAnd (blockShape b) (emitted EmitFPVectorS32ToSingle) = true ∧
    okAnd (blockShape b) (emitted (EmitFPVectorS64ToDouble code)) = true ∧
    okAnd (blockShape b) (emitted (EmitFPVectorU32ToSingle code ctx)) = true ∧
    okAnd (blockShape b) (emitted (EmitFPVectorU64ToDouble code ctx)) = true := by
  have h : ∀ (b sse41 avx vl dq : Bool) (rm : RoundingMode),
      okAnd (blockShape b) (emitted EmitFPVectorS32ToSingle) = true ∧
      okAnd (blockShape b)
        (emitted (EmitFPVectorS64ToDouble ⟨sse41, avx, false, vl, dq, false⟩)) = true ∧
      okAnd (blockShape b) (emitted (EmitFPVectorU32ToSingle ⟨sse41, avx, false, vl, dq, false⟩
        ⟨false, false, rm, false⟩)) = true ∧
      okAnd (blockShape b) (emitted (EmitFPVectorU64ToDouble ⟨sse41, avx, false, vl, dq, false⟩
        ⟨false, false, rm, false⟩)) = true := by decide!
  obtain ⟨sse41, avx, fma, vl, dq, win⟩ := code
  obtain ⟨dn, ftz, rm, acc⟩ := ctx
  exact h b sse41 avx vl dq rm

theorem simple_blockShape (b : Bool) :
    okAnd (blockShape b) (emitted EmitFPVectorAbs16) = true ∧
    okAnd (blockShape b) (emitted EmitFPVectorAbs32) = true ∧
    okAnd (blockShape b) (emitted EmitFPVectorAbs64) = true ∧
    okAnd (blockShape b) (emitted EmitFPVectorNeg16) = true ∧
    okAnd (blockShape b) (emitted EmitFPVectorNeg32) = true ∧
    okAnd (blockShape b) (emitted EmitFPVectorNeg64) = true ∧
    ∀ op : CompareOpcode, okAnd (blockShape b) (emitted op.emit) = true := by
  cases b <;>
    refine ⟨by decide!, by decide!, by decide!, by decide!, by decide!, by decide!, ?_⟩ <;>
    intro op <;> cases op <;> decide!

/-- The block of every opcode has the shape `blockShape` checks. -/
theorem Opcode_blockShape (op : Opcode) (code : BlockOfCode) (ctx : EmitContext) (s : EmitState)
    (h : emitted (op.emit code ctx) = .ok s) : blockShape (op.simplePath ctx) s = true :=
  Opcode_forall blockShape ThreeOpOpcode_blockShape MinMax_blockShape
    EmitFPVectorMulAdd_blockShape Fallback_blockShape EmitFPVectorRoundInt_blockShape
    conversions_blockShape simple_blockShape op code ctx s h

/-! ## Jumps and the cursor -/

theorem mem_zip_tail {α : Type} (a b : α) (l : List α) (h : (a, b) ∈ l.zip l.tail) :
    ∃ pre post, l = pre ++ [a, b] ++ post := by
  induction l with
  | nil => simp at h
  | cons x l ih =>
    cases l with
    | nil => simp at h
    | cons y l =>
      simp only [List.tail_cons, List.zip_cons_cons, List.mem_cons, Prod.mk.injEq] at h
      rcases h with ⟨rfl, rfl⟩ | h
      · exact ⟨[], l, rfl⟩
      · obtain ⟨pre, post, e⟩ := ih (by simpa using h)
        exact ⟨x :: pre, post, by rw [e]; rfl⟩

theorem jumpShape_spec (s : EmitState) (h : jumpShape s = true) :
    (s.far = [] ∧ jumps_of s.near = []) ∨
    ∃ lf le pre post body,
      s.near = pre ++ [Instr.jnz lf, Instr.L le] ++ post ∧
      jumps_of s.near = [Instr.jnz lf] ∧
      s.far = Instr.L lf :: body ++ [Instr.jmp le] ∧
      jumps_of s.far = [Instr.jmp le] := by
  unfold jumpShape at h
  split at h
  · next hfar => exact Or.inl ⟨hfar, by simpa using h⟩
  · next lf rest hfar =>
    split at h
    · next le hlast =>
      simp only [Bool.and_eq_true, decide_eq_true_eq] at h
      obtain ⟨⟨h1, h2⟩, h3⟩ := h
      obtain ⟨pre, post, e⟩ := mem_zip_tail _ _ _ h3
      obtain ⟨body, hb⟩ := List.getLast?_eq_some_iff.mp hlast
      exact Or.inr ⟨lf, le, pre, post, body, e, h1, by rw [hfar, hb]; rfl, h2⟩
    · exact absurd h (by simp)
  · exact absurd h (by simp)

theorem blockShape_spec (b : Bool) (s : EmitState) (h : blockShape b s = true) :
    jumpShape s = true ∧ (b = true → s.far = []) ∧ s.inFar = false ∧
      cursorRun false s.switches = some false ∧
      (s.switches = [] ∨ s.switches = [true, false]) ∧ (s.switches = [] ↔ s.far = []) := by
  simp only [blockShape, Bool.and_eq_true, decide_eq_true_eq, Bool.or_eq_true,
    Bool.not_eq_true', List.isEmpty_iff] at h
  obtain ⟨⟨⟨⟨⟨h1, h2⟩, h3⟩, h4⟩, h5⟩, h6⟩ := h
  refine ⟨h1, ?_, h3, h4, h5, h6⟩
  intro hb
  rcases h2 with h2 | h2
  · rw [hb] at h2; cases h2
  · exact h2

/-- C21: the jumps of the block of every opcode of `emit_x64_vector_floating_point.cpp`, for
every host and every guest FP control. A block with an empty far region has no jump at all,
and on a simple path (`!AccurateNaN || DN`, the opcode not a fused multiply-add) the far
region is empty. A block that uses the far region (through `HandleNaNs` or the fast path of
`MulAdd`) has in its near region exactly one jump, a conditional `jnz lf`; the label `lf` is
bound by the first instruction of the far region; the far region ends with an unconditional
`jmp le`, its only jump; and `le` is bound by the instruction right after the `jnz`. -/
theorem far_region_jumps (op : Opcode) (code : BlockOfCode) (ctx : EmitContext)
    (s : EmitState) (h : emitted (op.emit code ctx) = .ok s) :
    (op.simplePath ctx = true → s.far = []) ∧
    ((s.far = [] ∧ jumps_of s.near = []) ∨
      ∃ lf le pre post body,
        s.near = pre ++ [Instr.jnz lf, Instr.L le] ++ post ∧
        jumps_of s.near = [Instr.jnz lf] ∧
        s.far = Instr.L lf :: body ++ [Instr.jmp le] ∧
        jumps_of s.far = [Instr.jmp le]) := by
  have hb := blockShape_spec _ s (Opcode_blockShape op code ctx s h)
  exact ⟨hb.2.1, jumpShape_spec s hb.1⟩

theorem far_region_jumps_witness :
    (Opcode.FPVectorAdd32.simplePath .accurate = true →
      (ThreeOpOpcode.FPVectorAdd32.state .sse2 .accurate).far = []) ∧
    (((ThreeOpOpcode.FPVectorAdd32.state .sse2 .accurate).far = [] ∧
        jumps_of (ThreeOpOpcode.FPVectorAdd32.state .sse2 .accurate).near = []) ∨
      ∃ lf le pre post body,
        (ThreeOpOpcode.FPVectorAdd32.state .sse2 .accurate).near =
          pre ++ [Instr.jnz lf, Instr.L le] ++ post ∧
        jumps_of (ThreeOpOpcode.FPVectorAdd32.state .sse2 .accurate).near = [Instr.jnz lf] ∧
        (ThreeOpOpcode.FPVectorAdd32.state .sse2 .accurate).far =
          Instr.L lf :: body ++ [Instr.jmp le] ∧
        jumps_of (ThreeOpOpcode.FPVectorAdd32.state .sse2 .accurate).far = [Instr.jmp le]) :=
  far_region_jumps .FPVectorAdd32 .sse2 .accurate
    (ThreeOpOpcode.FPVectorAdd32.state .sse2 .accurate) (by decide!)

/-- C22: the cursor of the assembler over the emission of every opcode of
`emit_x64_vector_floating_point.cpp`, for every host and every guest FP control. Started in
Near (a fresh block), the emitter ends in Near; its switches, in order, are a run of the cursor
state machine in which `SwitchToFarCode` is only issued in Near and `SwitchToNearCode` only in
Far; there is no switch at all, or one `SwitchToFarCode` followed by one `SwitchToNearCode`,
the latter exactly when the block has a far region. -/
theorem cursor_near_far (op : Opcode) (code : BlockOfCode) (ctx : EmitContext)
    (s : EmitState) (h : emitted (op.emit code ctx) = .ok s) :
    s.inFar = false ∧ cursorRun false s.switches = some false ∧
      (s.switches = [] ∨ s.switches = [true, false]) ∧ (s.switches = [] ↔ s.far = []) :=
  (blockShape_spec _ s (Opcode_blockShape op code ctx s h)).2.2

theorem cursor_near_far_witness :
    (EmitFPVectorMulAdd.state 32 .avx).inFar = false ∧
      cursorRun false (EmitFPVectorMulAdd.state 32 .avx).switches = some false ∧
      ((EmitFPVectorMulAdd.state 32 .avx).switches = [] ∨
        (EmitFPVectorMulAdd.state 32 .avx).switches = [true, false]) ∧
      ((EmitFPVectorMulAdd.state 32 .avx).switches = [] ↔
        (EmitFPVectorMulAdd.state 32 .avx).far = []) :=
  cursor_near_far .FPVectorMulAdd32 .avx .fast (EmitFPVectorMulAdd.state 32 .avx) (by decide!)

/-! ## The IR emitter of the A32 front end -/

theorem emitIR_Inst (op : IR.Opcode) (args : List IR.Value) (b : IR.Block) :
    emitIR (IR.IREmitter.Inst op args) b = (.ok (.inst b.length), b ++ [IR.Inst.mk op args]) :=
  rfl

theorem emitIR_pure {α : Type} (a : α) (b : IR.Block) :
    emitIR (pure a : IREmit α) b = (.ok a, b) := rfl

theorem emitIR_throw {α : Type} (e : IRError) (b : IR.Block) :
    emitIR (throw e : IREmit α) b = (.error e, b) := rfl

theorem emitIR_bind {α β : Type} (x : IREmit α) (f : α → IREmit β) (b : IR.Block) :
    emitIR (x >>= f) b =
      match emitIR x b with
      | (.ok a, b1) => emitIR (f a) b1
      | (.error e, b1) => (.error e, b1) := by
  simp only [emitIR, ExceptT.run, bind, ExceptT.bind, ExceptT.mk, ExceptT.bindCont, StateT.bind,
    StateT.run, Id.run]
  rcases x b with ⟨_ | _, b1⟩ <;> rfl

theorem emitIR_map {α β : Type} (f : α → β) (x : IREmit α) (b : IR.Block) :
    emitIR (f <$> x) b =
      match emitIR x b with
      | (.ok a, b1) => (.ok (f a), b1)
      | (.error e, b1) => (.error e, b1) := by
  simp only [emitIR, ExceptT.run, Functor.map, ExceptT.map, ExceptT.mk, StateT.map, StateT.bind,
    StateT.run, Id.run, bind, pure]
  rcases x b with ⟨_ | _, b1⟩ <;> rfl

theorem emitIR_ASSERT (c : Bool) (b : IR.Block) :
    emitIR (ASSERT c) b = if c then (.ok (), b) else (.error .assertion, b) := by
  cases c <;> rfl

/-- C23: `IREmitter::PC()` is the `PC` of the current location plus 4 when its `T` flag is
set and plus 8 when it is clear, modulo 2^32, for every current location; the sum wraps
around at 2^32 (a location at `0xFFFFFFFC` in ARM state gives 4). -/
theorem IREmitter_PC (pc : Nat) (e : Bool) :
    A32.IREmitter.PC ⟨pc, true, e⟩ = (pc + 4) % 2 ^ 32 ∧
    A32.IREmitter.PC ⟨pc, false, e⟩ = (pc + 8) % 2 ^ 32 ∧
    (∀ loc : A32.LocationDescriptor,
      A32.IREmitter.PC loc = (loc.PC + (if loc.TFlag then 4 else 8)) % 2 ^ 32 ∧
      A32.IREmitter.PC loc < 2 ^ 32) ∧
    A32.IREmitter.PC ⟨0xFFFFFFFC, false, e⟩ = 4 :=
  ⟨rfl, rfl, fun loc => ⟨rfl, Nat.mod_lt _ (by norm_num)⟩, by norm_num [A32.IREmitter.PC]⟩

theorem IREmitter_PC_lt (loc : A32.LocationDescriptor) : A32.IREmitter.PC loc < 2 ^ 32 :=
  Nat.mod_lt _ (by norm_num)

/-- C24: for every alignment `n ≥ 1` and every current location, `IREmitter::AlignPC(n)`
returns `PC() - PC() mod n`, where neither the subtraction nor the cast to `u32` wraps
around; the result is a multiple of `n`, at most `PC()` and greater than `PC() - n`. -/
theorem IREmitter_AlignPC (loc : A32.LocationDescriptor) (n : Nat) (hn : 1 ≤ n) :
    ∃ r, A32.IREmitter.AlignPC loc n = some r ∧
      r + A32.IREmitter.PC loc % n = A32.IREmitter.PC loc ∧
      r = A32.IREmitter.PC loc - A32.IREmitter.PC loc % n ∧
      n ∣ r ∧ r ≤ A32.IREmitter.PC loc ∧ A32.IREmitter.PC loc < r + n := by
  have hpc := IREmitter_PC_lt loc
  have hm := Nat.mod_le (A32.IREmitter.PC loc) n
  have hl := Nat.mod_lt (A32.IREmitter.PC loc) (show 0 < n by omega)
  have hd : n ∣ A32.IREmitter.PC loc - A32.IREmitter.PC loc % n := Nat.dvd_sub_mod _
  refine ⟨A32.IREmitter.PC loc - A32.IREmitter.PC loc % n, ?_, by omega, rfl, hd, by omega,
    by omega⟩
  have h0 : n ≠ 0 := by omega
  simp only [A32.IREmitter.AlignPC, h0, if_false]
  congr 1
  generalize A32.IREmitter.PC loc % n = m at hm hl ⊢
  generalize A32.IREmitter.PC loc = p at hpc hm ⊢
  norm_num at hpc ⊢
  omega

theorem IREmitter_AlignPC_witness :
    ∃ r, A32.IREmitter.AlignPC ⟨0x1002, true, false⟩ 4 = some r ∧
      r + A32.IREmitter.PC ⟨0x1002, true, false⟩ % 4 = A32.IREmitter.PC ⟨0x1002, true, false⟩ ∧
      r = A32.IREmitter.PC ⟨0x1002, true, false⟩ - A32.IREmitter.PC ⟨0x1002, true, false⟩ % 4 ∧
      4 ∣ r ∧ r ≤ A32.IREmitter.PC ⟨0x1002, true, false⟩ ∧
      A32.IREmitter.PC ⟨0x1002, true, false⟩ < r + 4 :=
  IREmitter_AlignPC ⟨0x1002, true, false⟩ 4 (by decide)

theorem eval_inst (σ : IR.State) (i : Nat) : (IR.Value.inst i).eval σ = σ.results[i]? := rfl

theorem eval_imm32 (σ : IR.State) (v : Nat) : (IR.Value.imm32 v).eval σ = some v := rfl

theorem Imm32_of_lt (v : Nat) (h : v < 2 ^ 32) : IR.IREmitter.Imm32 v = .imm32 v := by
  rw [IR.IREmitter.Imm32, Nat.mod_eq_of_lt h]

theorem testBit_and_mask (v k : Nat) (hv : v < 2 ^ 32) (hk : k ≤ 32) (i : Nat) :
    (v &&& (2 ^ 32 - 2 ^ k)).testBit i = (v.testBit i && decide (k ≤ i)) := by
  rw [Nat.testBit_and]
  by_cases hi : i < 32
  · have : (2 ^ 32 - 2 ^ k).testBit i = decide (k ≤ i) := by
      have hk2 : k ≤ 32 := hk
      interval_cases k <;> interval_cases i <;> decide
    rw [this]
  · have h1 : v.testBit i = false :=
      Nat.testBit_eq_false_of_lt (lt_of_lt_of_le hv (Nat.pow_le_pow_right (by norm_num)
        (by omega)))
    simp [h1]

/-- C25: `BranchWritePC(value)` appends an `And32` node of `value` and the immediate
`0xFFFFFFFE` (`T` set) or `0xFFFFFFFC` (`T` clear), then an `A32SetRegister` node that writes
the result of that node to `PC`. Run after the block it is appended to, from a state in which
`value` is the 32-bit number `v`, the two nodes leave `v AND mask` in `PC` and the other
registers as they were; bit 0 (Thumb) or bits 0 and 1 (ARM) of the written value are zero and
every other bit is that of `v`. `ALUWritePC` is the same constructor. -/
theorem BranchWritePC_spec (loc : A32.LocationDescriptor) (value : IR.Value) (b : IR.Block)
    (σ : IR.State) (v : Nat) (hσ : σ.results.length = b.length)
    (hv : value.eval σ = some v) (hv32 : v < 2 ^ 32) :
    ∃ σ1,
      emitIR (A32.IREmitter.BranchWritePC loc value) b =
        (.ok (), b ++ [IR.Inst.mk .And32
            [value, .imm32 (if loc.TFlag then 0xFFFFFFFE else 0xFFFFFFFC)],
          IR.Inst.mk .A32SetRegister [.reg A32.Reg.PC, .inst b.length]]) ∧
      IR.Block.exec [IR.Inst.mk .And32
            [value, .imm32 (if loc.TFlag then 0xFFFFFFFE else 0xFFFFFFFC)],
          IR.Inst.mk .A32SetRegister [.reg A32.Reg.PC, .inst b.length]] σ = some σ1 ∧
      σ1.regs A32.Reg.PC = v &&& (if loc.TFlag then 0xFFFFFFFE else 0xFFFFFFFC) ∧
      (∀ r, r ≠ A32.Reg.PC → σ1.regs r = σ.regs r) ∧
      (∀ i, (σ1.regs A32.Reg.PC).testBit i =
        (v.testBit i && decide ((if loc.TFlag then 1 else 2) ≤ i))) ∧
      A32.IREmitter.ALUWritePC loc value = A32.IREmitter.BranchWritePC loc value := by
  obtain ⟨pc, t, e⟩ := loc
  have hget : (σ.results ++ [v &&& (if t then 0xFFFFFFFE else 0xFFFFFFFC)])[b.length]? =
      some (v &&& (if t then 0xFFFFFFFE else 0xFFFFFFFC)) := by
    rw [← hσ]
    simp
  refine ⟨{ regs := Function.update σ.regs A32.Reg.PC
              (v &&& (if t then 0xFFFFFFFE else 0xFFFFFFFC)),
            results := σ.results ++ [v &&& (if t then 0xFFFFFFFE else 0xFFFFFFFC)] ++ [0] },
    ?_, ?_, ?_, ?_, ?_, rfl⟩
  · cases t
    · simp [A32.IREmitter.BranchWritePC, Imm32_of_lt 0xFFFFFFFC (by norm_num), emitIR_bind,
        emitIR_map, emitIR_Inst, emitIR_pure, IR.IREmitter.And]
    · simp [A32.IREmitter.BranchWritePC, Imm32_of_lt 0xFFFFFFFE (by norm_num), emitIR_bind,
        emitIR_map, emitIR_Inst, emitIR_pure, IR.IREmitter.And]
  · simp only [IR.Block.exec, IR.Inst.exec, hv, eval_inst, eval_imm32, Option.bind_some,
      Option.some_bind, hget]
  · simp
  · intro r hr
    simp [Function.update, hr]
  · intro i
    simp only [Function.update_same]
    cases t
    · exact testBit_and_mask v 2 hv32 (by norm_num) i
    · exact testBit_and_mask v 1 hv32 (by norm_num) i

theorem BranchWritePC_spec_witness :
    ∃ σ1,
      emitIR (A32.IREmitter.BranchWritePC ⟨0, true, false⟩ (.imm32 0x8007)) [] =
        (.ok (), [] ++ [IR.Inst.mk .And32
            [.imm32 0x8007, .imm32 (if (⟨0, true, false⟩ : A32.LocationDescriptor).TFlag
              then 0xFFFFFFFE else 0xFFFFFFFC)],
          IR.Inst.mk .A32SetRegister [.reg A32.Reg.PC, .inst ([] : IR.Block).length]]) ∧
      IR.Block.exec [IR.Inst.mk .And32
            [.imm32 0x8007, .imm32 (if (⟨0, true, false⟩ : A32.LocationDescriptor).TFlag
              then 0xFFFFFFFE else 0xFFFFFFFC)],
          IR.Inst.mk .A32SetRegister [.reg A32.Reg.PC, .inst ([] : IR.Block).length]]
          ⟨fun _ => 0, []⟩ = some σ1 ∧
      σ1.regs A32.Reg.PC = 0x8007 &&& (if (⟨0, true, false⟩ : A32.LocationDescriptor).TFlag
        then 0xFFFFFFFE else 0xFFFFFFFC) ∧
      (∀ r, r ≠ A32.Reg.PC → σ1.regs r = (⟨fun _ => 0, []⟩ : IR.State).regs r) ∧
      (∀ i, (σ1.regs A32.Reg.PC).testBit i =
        (Nat.testBit 0x8007 i &&
          decide ((if (⟨0, true, false⟩ : A32.LocationDescriptor).TFlag then 1 else 2) ≤ i))) ∧
      A32.IREmitter.ALUWritePC ⟨0, true, false⟩ (.imm32 0x8007) =
        A32.IREmitter.BranchWritePC ⟨0, true, false⟩ (.imm32 0x8007) :=
  BranchWritePC_spec ⟨0, true, false⟩ (.imm32 0x8007) [] ⟨fun _ => 0, []⟩ 0x8007 rfl rfl
    (by norm_num)

/-- C27: the nodes the memory reads append to a block `b`, for every address and every
current location. `ReadMemory8` appends the read node and returns its handle. `ReadMemory16`,
`ReadMemory32` and `ReadMemory64` append the read node; with the `E` flag clear they append
nothing else and return the handle of the read node; with `E` set they append one
`ByteReverseHalf`, `ByteReverseWord` or `ByteReverseDual` node whose operand is the handle of
the read node, and return the handle of that node. Nothing else is appended: the choice is
made when the IR is emitted. -/
theorem ReadMemory_spec (loc : A32.LocationDescriptor) (vaddr : IR.Value) (b : IR.Block) :
    emitIR (A32.IREmitter.ReadMemory8 vaddr) b =
      (.ok (.inst b.length), b ++ [IR.Inst.mk .A32ReadMemory8 [vaddr]]) ∧
    emitIR (A32.IREmitter.ReadMemory16 loc vaddr) b =
      (if loc.EFlag then
        (.ok (.inst (b.length + 1)), b ++ [IR.Inst.mk .A32ReadMemory16 [vaddr],
          IR.Inst.mk .ByteReverseHalf [.inst b.length]])
       else (.ok (.inst b.length), b ++ [IR.Inst.mk .A32ReadMemory16 [vaddr]])) ∧
    emitIR (A32.IREmitter.ReadMemory32 loc vaddr) b =
      (if loc.EFlag then
        (.ok (.inst (b.length + 1)), b ++ [IR.Inst.mk .A32ReadMemory32 [vaddr],
          IR.Inst.mk .ByteReverseWord [.inst b.length]])
       else (.ok (.inst b.length), b ++ [IR.Inst.mk .A32ReadMemory32 [vaddr]])) ∧
    emitIR (A32.IREmitter.ReadMemory64 loc vaddr) b =
      (if loc.EFlag then
        (.ok (.inst (b.length + 1)), b ++ [IR.Inst.mk .A32ReadMemory64 [vaddr],
          IR.Inst.mk .ByteReverseDual [.inst b.length]])
       else (.ok (.inst b.length), b ++ [IR.Inst.mk .A32ReadMemory64 [vaddr]])) := by
  obtain ⟨pc, t, e⟩ := loc
  cases e <;>
    simp [A32.IREmitter.ReadMemory8, A32.IREmitter.ReadMemory16, A32.IREmitter.ReadMemory32,
      A32.IREmitter.ReadMemory64, IR.IREmitter.ByteReverseHalf, IR.IREmitter.ByteReverseWord,
      IR.IREmitter.ByteReverseDual, emitIR_bind, emitIR_map, emitIR_Inst, emitIR_pure]

/-- C28: the nodes the memory writes append to a block `b`, for every address, every value
and every current location. With the `E` flag set, `WriteMemory16/32/64` and
`ExclusiveWriteMemory16/32` append a byte-reverse node of the matching width whose operand is
the value, then the write node, whose data operand is the handle of the byte-reverse node;
with `E` clear they append the write node alone, whose data operand is the value. The
address operand of the write node is `vaddr` in every case. `WriteMemory8` and
`ExclusiveWriteMemory8` append the write node alone whatever `E` is. The exclusive writes
return the handle of the write node. -/
theorem WriteMemory_spec (loc : A32.LocationDescriptor) (vaddr value : IR.Value)
    (b : IR.Block) :
    emitIR (A32.IREmitter.WriteMemory8 vaddr value) b =
      (.ok (), b ++ [IR.Inst.mk .A32WriteMemory8 [vaddr, value]]) ∧
    emitIR (A32.IREmitter.WriteMemory16 loc vaddr value) b =
      (.ok (), b ++ (if loc.EFlag then
        [IR.Inst.mk .ByteReverseHalf [value],
         IR.Inst.mk .A32WriteMemory16 [vaddr, .inst b.length]]
       else [IR.Inst.mk .A32WriteMemory16 [vaddr, value]])) ∧
    emitIR (A32.IREmitter.WriteMemory32 loc vaddr value) b =
      (.ok (), b ++ (if loc.EFlag then
        [IR.Inst.mk .ByteReverseWord [value],
         IR.Inst.mk .A32WriteMemory32 [vaddr, .inst b.length]]
       else [IR.Inst.mk .A32WriteMemory32 [vaddr, value]])) ∧
    emitIR (A32.IREmitter.WriteMemory64 loc vaddr value) b =
      (.ok (), b ++ (if loc.EFlag then
        [IR.Inst.mk .ByteReverseDual [value],
         IR.Inst.mk .A32WriteMemory64 [vaddr, .inst b.length]]
       else [IR.Inst.mk .A32WriteMemory64 [vaddr, value]])) ∧
    emitIR (A32.IREmitter.ExclusiveWriteMemory8 vaddr value) b =
      (.ok (.inst b.length), b ++ [IR.Inst.mk .A32ExclusiveWriteMemory8 [vaddr, value]]) ∧
    emitIR (A32.IREmitter.ExclusiveWriteMemory16 loc vaddr value) b =
      (if loc.EFlag then
        (.ok (.inst (b.length + 1)), b ++ [IR.Inst.mk .ByteReverseHalf [value],
          IR.Inst.mk .A32ExclusiveWriteMemory16 [vaddr, .inst b.length]])
       else
        (.ok (.inst b.length), b ++ [IR.Inst.mk .A32ExclusiveWriteMemory16 [vaddr, value]])) ∧
    emitIR (A32.IREmitter.ExclusiveWriteMemory32 loc vaddr value) b =
      (if loc.EFlag then
        (.ok (.inst (b.length + 1)), b ++ [IR.Inst.mk .ByteReverseWord [value],
          IR.Inst.mk .A32ExclusiveWriteMemory32 [vaddr, .inst b.length]])
       else
        (.ok (.inst b.length), b ++ [IR.Inst.mk .A32ExclusiveWriteMemory32 [vaddr, value]])) := by
  obtain ⟨pc, t, e⟩ := loc
  cases e <;>
    simp [A32.IREmitter.WriteMemory8, A32.IREmitter.WriteMemory16, A32.IREmitter.WriteMemory32,
      A32.IREmitter.WriteMemory64, A32.IREmitter.ExclusiveWriteMemory8,
      A32.IREmitter.ExclusiveWriteMemory16, A32.IREmitter.ExclusiveWriteMemory32,
      IR.IREmitter.ByteReverseHalf, IR.IREmitter.ByteReverseWord,
      IR.IREmitter.ByteReverseDual, emitIR_bind, emitIR_map, emitIR_Inst, emitIR_pure]

theorem emitIR_SetExclusive (vaddr : IR.Value) (byte_size : Nat) (b : IR.Block) :
    emitIR (A32.IREmitter.SetExclusive vaddr byte_size) b =
      (if byte_size ∈ [1, 2, 4, 8, 16] then
        (.ok (), b ++ [IR.Inst.mk .A32SetExclusive [vaddr, .imm8 byte_size]])
       else (.error .assertion, b)) := by
  by_cases hb : byte_size ∈ [1, 2, 4, 8, 16]
  · rw [if_pos hb]
    simp only [List.mem_cons, List.mem_singleton, List.not_mem_nil, or_false] at hb
    rcases hb with rfl | rfl | rfl | rfl | rfl <;> rfl
  · rw [if_neg hb]
    simp only [List.mem_cons, List.mem_singleton, List.not_mem_nil, or_false, not_or] at hb
    obtain ⟨h1, h2, h4, h8, h16⟩ := hb
    simp [A32.IREmitter.SetExclusive, emitIR_bind, emitIR_ASSERT, h1, h2, h4, h8, h16]

/-- C30: `SetExclusive(vaddr, byte_size)` on a block `b`. When `byte_size` is one of 1, 2, 4,
8 and 16 the call succeeds and appends one `A32SetExclusive` node whose operands are `vaddr`
and the 8-bit immediate `byte_size`; for every other `byte_size` the assertion fails and the
block is left as it was. So the call succeeds exactly for these five sizes. -/
theorem SetExclusive_spec (vaddr : IR.Value) (byte_size : Nat) (b : IR.Block) :
    emitIR (A32.IREmitter.SetExclusive vaddr byte_size) b =
      (if byte_size ∈ [1, 2, 4, 8, 16] then
        (.ok (), b ++ [IR.Inst.mk .A32SetExclusive [vaddr, .imm8 byte_size]])
       else (.error .assertion, b)) ∧
    ((emitIR (A32.IREmitter.SetExclusive vaddr byte_size) b).1 = .ok () ↔
      byte_size ∈ [1, 2, 4, 8, 16]) := by
  have h := emitIR_SetExclusive vaddr byte_size b
  refine ⟨h, ?_⟩
  rw [h]
  by_cases hb : byte_size ∈ [1, 2, 4, 8, 16]
  · simp [hb]
  · rw [if_neg hb]
    simp [hb]

theorem u8_lt (v : Nat) : u8 v < 256 := Nat.mod_lt _ (by norm_num)

theorem emitIR_CoprocInternalOperation (coproc_no : Nat) (two : Bool) (opc1 CRd CRn CRm opc2 : Nat)
    (b : IR.Block) :
    emitIR (A32.IREmitter.CoprocInternalOperation coproc_no two opc1 CRd CRn CRm opc2) b =
      if coproc_no ≤ 15 then
        (.ok (()), b ++ [IR.Inst.mk .A32CoprocInternalOperation
          [.coproc [u8 coproc_no, u8 (if two then 1 else 0), u8 opc1, u8 CRd, u8 CRn, u8 CRm,
          u8 opc2]]])
      else (.error .assertion, b) := by
  by_cases h : coproc_no ≤ 15 <;>
  simp only [A32.IREmitter.CoprocInternalOperation, emitIR_bind, emitIR_ASSERT, h, decide_True, decide_False,
    if_true, if_false, emitIR_Inst, emitIR_pure, Bool.false_eq_true]

theorem emitIR_CoprocSendOneWord (coproc_no : Nat) (two : Bool) (opc1 CRn CRm opc2 : Nat) (word : IR.Value)
    (b : IR.Block) :
    emitIR (A32.IREmitter.CoprocSendOneWord coproc_no two opc1 CRn CRm opc2 word) b =
      if coproc_no ≤ 15 then
        (.ok (()), b ++ [IR.Inst.mk .A32CoprocSendOneWord
          [.coproc [u8 coproc_no, u8 (if two then 1 else 0), u8 opc1, u8 CRn, u8 CRm, u8 opc2], word]])
      else (.error .assertion, b) := by
  by_cases h : coproc_no ≤ 15 <;>
  simp only [A32.IREmitter.CoprocSendOneWord, emitIR_bind, emitIR_ASSERT, h, decide_True, decide_False,
    if_true, if_false, emitIR_Inst, emitIR_pure, Bool.false_eq_true]

theorem emitIR_CoprocSendTwoWords (coproc_no : Nat) (two : Bool) (opc CRm : Nat) (word1 word2 : IR.Value)
    (b : IR.Block) :
    emitIR (A32.IREmitter.CoprocSendTwoWords coproc_no two opc CRm word1 word2) b =
      if coproc_no ≤ 15 then
        (.ok (()), b ++ [IR.Inst.mk .A32CoprocSendTwoWords
          [.coproc [u8 coproc_no, u8 (if two then 1 else 0), u8 opc, u8 CRm], word1, word2]])
      else (.error .assertion, b) := by
  by_cases h : coproc_no ≤ 15 <;>
  simp only [A32.IREmitter.CoprocSendTwoWords, emitIR_bind, emitIR_ASSERT, h, decide_True, decide_False,
    if_true, if_false, emitIR_Inst, emitIR_pure, Bool.false_eq_true]

theorem emitIR_CoprocGetOneWord (coproc_no : Nat) (two : Bool) (opc1 CRn CRm opc2 : Nat)
    (b : IR.Block) :
    emitIR (A32.IREmitter.CoprocGetOneWord coproc_no two opc1 CRn CRm opc2) b =
      if coproc_no ≤ 15 then
        (.ok (.inst b.length), b ++ [IR.Inst.mk .A32CoprocGetOneWord
          [.coproc [u8 coproc_no, u8 (if two then 1 else 0), u8 opc1, u8 CRn, u8 CRm, u8 opc2]]])
      else (.error .assertion, b) := by
  by_cases h : coproc_no ≤ 15 <;>
  simp only [A32.IREmitter.CoprocGetOneWord, emitIR_bind, emitIR_ASSERT, h, decide_True, decide_False,
    if_true, if_false, emitIR_Inst, emitIR_pure, Bool.false_eq_true]

theorem emitIR_CoprocGetTwoWords (coproc_no : Nat) (two : Bool) (opc CRm : Nat)
    (b : IR.Block) :
    emitIR (A32.IREmitter.CoprocGetTwoWords coproc_no two opc CRm) b =
      if coproc_no ≤ 15 then
        (.ok (.inst b.length), b ++ [IR.Inst.mk .A32CoprocGetTwoWords
          [.coproc [u8 coproc_no, u8 (if two then 1 else 0), u8 opc, u8 CRm]]])
      else (.error .assertion, b) := by
  by_cases h : coproc_no ≤ 15 <;>
  simp only [A32.IREmitter.CoprocGetTwoWords, emitIR_bind, emitIR_ASSERT, h, decide_True, decide_False,
    if_true, if_false, emitIR_Inst, emitIR_pure, Bool.false_eq_true]

theorem emitIR_CoprocLoadWords (coproc_no : Nat) (two long_transfer : Bool) (CRd : Nat) (address : IR.Value)
    (has_option : Bool) (option : Nat)
    (b : IR.Block) :
    emitIR (A32.IREmitter.CoprocLoadWords coproc_no two long_transfer CRd address has_option option) b =
      if coproc_no ≤ 15 then
        (.ok (()), b ++ [IR.Inst.mk .A32CoprocLoadWords
          [.coproc [u8 coproc_no, u8 (if two then 1 else 0),
          u8 (if long_transfer then 1 else 0), u8 CRd, u8 (if has_option then 1 else 0),
          u8 option], address]])
      else (.error .assertion, b) := by
  by_cases h : coproc_no ≤ 15 <;>
  simp only [A32.IREmitter.CoprocLoadWords, emitIR_bind, emitIR_ASSERT, h, decide_True, decide_False,
    if_true, if_false, emitIR_Inst, emitIR_pure, Bool.false_eq_true]

theorem emitIR_CoprocStoreWords (coproc_no : Nat) (two long_transfer : Bool) (CRd : Nat) (address : IR.Value)
    (has_option : Bool) (option : Nat)
    (b : IR.Block) :
    emitIR (A32.IREmitter.CoprocStoreWords coproc_no two long_transfer CRd address has_option option) b =
      if coproc_no ≤ 15 then
        (.ok (()), b ++ [IR.Inst.mk .A32CoprocStoreWords
          [.coproc [u8 coproc_no, u8 (if two then 1 else 0),
          u8 (if long_transfer then 1 else 0), u8 CRd, u8 (if has_option then 1 else 0),
          u8 option], address]])
      else (.error .assertion, b) := by
  by_cases h : coproc_no ≤ 15 <;>
  simp only [A32.IREmitter.CoprocStoreWords, emitIR_bind, emitIR_ASSERT, h, decide_True, decide_False,
    if_true, if_false, emitIR_Inst, emitIR_pure, Bool.false_eq_true]

/-- C26: what a call of a constructor of `frontend/A32/ir_emitter.cpp` does to a
block `b`, for every constructor, every argument and every current location. A call whose
assertions hold succeeds and appends `nodes` nodes after `b`: one node, except that
`GetRegister(PC)` appends none, `BranchWritePC` and `ALUWritePC` append two, and with the `E`
flag set `ReadMemory16/32/64`, `WriteMemory16/32/64` and `ExclusiveWriteMemory16/32` append
two and `ExclusiveWriteMemory64` three. A constructor that returns a value returns the handle
of the last node it appended (for `GetRegister(PC)`, which appends none, the immediate
`PC()`). A call whose assertion fails leaves the block as it was. -/
theorem facade_nodes (loc : A32.LocationDescriptor) (c : A32.Call) (b : IR.Block) :
    match emitIR (c.run loc) b with
    | (.ok r, b1) =>
      c.asserted = true ∧ ∃ new, b1 = b ++ new ∧ new.length = c.nodes loc ∧
        r = (if c.hasResult then
              some (match c.nodes loc with
                | 0 => IR.IREmitter.Imm32 (A32.IREmitter.PC loc)
                | n + 1 => .inst (b.length + n))
             else none)
    | (.error _, b1) => c.asserted = false ∧ b1 = b := by
  obtain ⟨pc, t, e⟩ := loc
  cases c
  case GetRegister reg =>
    by_cases h : reg = A32.Reg.PC <;>
      simp [A32.Call.run, withResult, A32.IREmitter.GetRegister, h, emitIR_bind, emitIR_map,
        emitIR_Inst, emitIR_pure, A32.Call.asserted, A32.Call.nodes, A32.Call.hasResult]
  case GetExtendedRegister reg =>
    by_cases h1 : A32.IsSingleExtReg reg = true <;> by_cases h2 : A32.IsDoubleExtReg reg = true <;>
      simp [A32.Call.run, withResult, A32.IREmitter.GetExtendedRegister, h1, h2, emitIR_bind,
        emitIR_map, emitIR_Inst, emitIR_pure, emitIR_throw, A32.Call.asserted, A32.Call.nodes,
        A32.Call.hasResult]
  case SetRegister reg value =>
    by_cases h : reg = A32.Reg.PC <;>
      simp [A32.Call.run, noResult, A32.IREmitter.SetRegister, h, emitIR_bind, emitIR_map,
        emitIR_Inst, emitIR_pure, emitIR_ASSERT, A32.Call.asserted, A32.Call.nodes,
        A32.Call.hasResult]
  case SetExtendedRegister reg value =>
    by_cases h1 : A32.IsSingleExtReg reg = true <;> by_cases h2 : A32.IsDoubleExtReg reg = true <;>
      simp [A32.Call.run, noResult, A32.IREmitter.SetExtendedRegister, h1, h2, emitIR_bind,
        emitIR_map, emitIR_Inst, emitIR_pure, emitIR_throw, A32.Call.asserted, A32.Call.nodes,
        A32.Call.hasResult]
  case SetExclusive vaddr byte_size =>
    have h := emitIR_SetExclusive vaddr byte_size b
    by_cases hb : byte_size ∈ [1, 2, 4, 8, 16]
    · rw [if_pos hb] at h
      simp [A32.Call.run, noResult, emitIR_bind, emitIR_map, emitIR_pure, h, A32.Call.asserted,
        A32.Call.nodes, A32.Call.hasResult, hb]
    · rw [if_neg hb] at h
      simp [A32.Call.run, noResult, emitIR_bind, emitIR_map, emitIR_pure, h, A32.Call.asserted,
        A32.Call.nodes, A32.Call.hasResult, hb]
  case BXWritePC =>
    simp [A32.IREmitter.BXWritePC, A32.Call.run, withResult, noResult, emitIR_bind, emitIR_map, emitIR_Inst, emitIR_pure,
      A32.Call.asserted, A32.Call.nodes, A32.Call.hasResult]
  case CallSupervisor =>
    simp [A32.IREmitter.CallSupervisor, A32.Call.run, withResult, noResult, emitIR_bind, emitIR_map, emitIR_Inst, emitIR_pure,
      A32.Call.asserted, A32.Call.nodes, A32.Call.hasResult]
  case ExceptionRaised =>
    simp [A32.IREmitter.ExceptionRaised, A32.Call.run, withResult, noResult, emitIR_bind, emitIR_map, emitIR_Inst, emitIR_pure,
      A32.Call.asserted, A32.Call.nodes, A32.Call.hasResult]
  case GetCpsr =>
    simp [A32.IREmitter.GetCpsr, A32.Call.run, withResult, noResult, emitIR_bind, emitIR_map, emitIR_Inst, emitIR_pure,
      A32.Call.asserted, A32.Call.nodes, A32.Call.hasResult]
  case SetCpsr =>
    simp [A32.IREmitter.SetCpsr, A32.Call.run, withResult, noResult, emitIR_bind, emitIR_map, emitIR_Inst, emitIR_pure,
      A32.Call.asserted, A32.Call.nodes, A32.Call.hasResult]
  case SetCpsrNZCV =>
    simp [A32.IREmitter.SetCpsrNZCV, A32.Call.run, withResult, noResult, emitIR_bind, emitIR_map, emitIR_Inst, emitIR_pure,
      A32.Call.asserted, A32.Call.nodes, A32.Call.hasResult]
  case SetCpsrNZCVQ =>
    simp [A32.IREmitter.SetCpsrNZCVQ, A32.Call.run, withResult, noResult, emitIR_bind, emitIR_map, emitIR_Inst, emitIR_pure,
      A32.Call.asserted, A32.Call.nodes, A32.Call.hasResult]
  case GetCFlag =>
    simp [A32.IREmitter.GetCFlag, A32.Call.run, withResult, noResult, emitIR_bind, emitIR_map, emitIR_Inst, emitIR_pure,
      A32.Call.asserted, A32.Call.nodes, A32.Call.hasResult]
  case SetNFlag =>
    simp [A32.IREmitter.SetNFlag, A32.Call.run, withResult, noResult, emitIR_bind, emitIR_map, emitIR_Inst, emitIR_pure,
      A32.Call.asserted, A32.Call.nodes, A32.Call.hasResult]
  case SetZFlag =>
    simp [A32.IREmitter.SetZFlag, A32.Call.run, withResult, noResult, emitIR_bind, emitIR_map, emitIR_Inst, emitIR_pure,
      A32.Call.asserted, A32.Call.nodes, A32.Call.hasResult]
  case SetCFlag =>
    simp [A32.IREmitter.SetCFlag, A32.Call.run, withResult, noResult, emitIR_bind, emitIR_map, emitIR_Inst, emitIR_pure,
      A32.Call.asserted, A32.Call.nodes, A32.Call.hasResult]
  case SetVFlag =>
    simp [A32.IREmitter.SetVFlag, A32.Call.run, withResult, noResult, emitIR_bind, emitIR_map, emitIR_Inst, emitIR_pure,
      A32.Call.asserted, A32.Call.nodes, A32.Call.hasResult]
  case OrQFlag =>
    simp [A32.IREmitter.OrQFlag, A32.Call.run, withResult, noResult, emitIR_bind, emitIR_map, emitIR_Inst, emitIR_pure,
      A32.Call.asserted, A32.Call.nodes, A32.Call.hasResult]
  case GetGEFlags =>
    simp [A32.IREmitter.GetGEFlags, A32.Call.run, withResult, noResult, emitIR_bind, emitIR_map, emitIR_Inst, emitIR_pure,
      A32.Call.asserted, A32.Call.nodes, A32.Call.hasResult]
  case SetGEFlags =>
    simp [A32.IREmitter.SetGEFlags, A32.Call.run, withResult, noResult, emitIR_bind, emitIR_map, emitIR_Inst, emitIR_pure,
      A32.Call.asserted, A32.Call.nodes, A32.Call.hasResult]
  case SetGEFlagsCompressed =>
    simp [A32.IREmitter.SetGEFlagsCompressed, A32.Call.run, withResult, noResult, emitIR_bind, emitIR_map, emitIR_Inst, emitIR_pure,
      A32.Call.asserted, A32.Call.nodes, A32.Call.hasResult]
  case GetFpscr =>
    simp [A32.IREmitter.GetFpscr, A32.Call.run, withResult, noResult, emitIR_bind, emitIR_map, emitIR_Inst, emitIR_pure,
      A32.Call.asserted, A32.Call.nodes, A32.Call.hasResult]
  case SetFpscr =>
    simp [A32.IREmitter.SetFpscr, A32.Call.run, withResult, noResult, emitIR_bind, emitIR_map, emitIR_Inst, emitIR_pure,
      A32.Call.asserted, A32.Call.nodes, A32.Call.hasResult]
  case GetFpscrNZCV =>
    simp [A32.IREmitter.GetFpscrNZCV, A32.Call.run, withResult, noResult, emitIR_bind, emitIR_map, emitIR_Inst, emitIR_pure,
      A32.Call.asserted, A32.Call.nodes, A32.Call.hasResult]
  case SetFpscrNZCV =>
    simp [A32.IREmitter.SetFpscrNZCV, A32.Call.run, withResult, noResult, emitIR_bind, emitIR_map, emitIR_Inst, emitIR_pure,
      A32.Call.asserted, A32.Call.nodes, A32.Call.hasResult]
  case ClearExclusive =>
    simp [A32.IREmitter.ClearExclusive, A32.Call.run, withResult, noResult, emitIR_bind, emitIR_map, emitIR_Inst, emitIR_pure,
      A32.Call.asserted, A32.Call.nodes, A32.Call.hasResult]
  case ReadMemory8 =>
    simp [A32.IREmitter.ReadMemory8, A32.Call.run, withResult, noResult, emitIR_bind, emitIR_map, emitIR_Inst, emitIR_pure,
      A32.Call.asserted, A32.Call.nodes, A32.Call.hasResult]
  case WriteMemory8 =>
    simp [A32.IREmitter.WriteMemory8, A32.Call.run, withResult, noResult, emitIR_bind, emitIR_map, emitIR_Inst, emitIR_pure,
      A32.Call.asserted, A32.Call.nodes, A32.Call.hasResult]
  case ExclusiveWriteMemory8 =>
    simp [A32.IREmitter.ExclusiveWriteMemory8, A32.Call.run, withResult, noResult, emitIR_bind, emitIR_map, emitIR_Inst, emitIR_pure,
      A32.Call.asserted, A32.Call.nodes, A32.Call.hasResult]
  case LoadWritePC =>
    simp [A32.IREmitter.LoadWritePC, A32.IREmitter.BXWritePC, A32.Call.run, withResult, noResult, emitIR_bind, emitIR_map, emitIR_Inst, emitIR_pure,
      A32.Call.asserted, A32.Call.nodes, A32.Call.hasResult]
  case BranchWritePC =>
    cases t <;>
    simp [A32.IREmitter.BranchWritePC, IR.IREmitter.And, A32.Call.run, withResult, noResult, emitIR_bind, emitIR_map, emitIR_Inst, emitIR_pure,
      A32.Call.asserted, A32.Call.nodes, A32.Call.hasResult]
  case ALUWritePC =>
    cases t <;>
    simp [A32.IREmitter.ALUWritePC, A32.IREmitter.BranchWritePC, IR.IREmitter.And, A32.Call.run, withResult, noResult, emitIR_bind, emitIR_map, emitIR_Inst, emitIR_pure,
      A32.Call.asserted, A32.Call.nodes, A32.Call.hasResult]
  case ReadMemory16 =>
    cases e <;>
    simp [A32.IREmitter.ReadMemory16, IR.IREmitter.ByteReverseHalf, A32.Call.run, withResult, noResult, emitIR_bind, emitIR_map, emitIR_Inst, emitIR_pure,
      A32.Call.asserted, A32.Call.nodes, A32.Call.hasResult]
  case ReadMemory32 =>
    cases e <;>
    simp [A32.IREmitter.ReadMemory32, IR.IREmitter.ByteReverseWord, A32.Call.run, withResult, noResult, emitIR_bind, emitIR_map, emitIR_Inst, emitIR_pure,
      A32.Call.asserted, A32.Call.nodes, A32.Call.hasResult]
  case ReadMemory64 =>
    cases e <;>
    simp [A32.IREmitter.ReadMemory64, IR.IREmitter.ByteReverseDual, A32.Call.run, withResult, noResult, emitIR_bind, emitIR_map, emitIR_Inst, emitIR_pure,
      A32.Call.asserted, A32.Call.nodes, A32.Call.hasResult]
  case WriteMemory16 =>
    cases e <;>
    simp [A32.IREmitter.WriteMemory16, IR.IREmitter.ByteReverseHalf, A32.Call.run, withResult, noResult, emitIR_bind, emitIR_map, emitIR_Inst, emitIR_pure,
      A32.Call.asserted, A32.Call.nodes, A32.Call.hasResult]
  case WriteMemory32 =>
    cases e <;>
    simp [A32.IREmitter.WriteMemory32, IR.IREmitter.ByteReverseWord, A32.Call.run, withResult, noResult, emitIR_bind, emitIR_map, emitIR_Inst, emitIR_pure,
      A32.Call.asserted, A32.Call.nodes, A32.Call.hasResult]
  case WriteMemory64 =>
    cases e <;>
    simp [A32.IREmitter.WriteMemory64, IR.IREmitter.ByteReverseDual, A32.Call.run, withResult, noResult, emitIR_bind, emitIR_map, emitIR_Inst, emitIR_pure,
      A32.Call.asserted, A32.Call.nodes, A32.Call.hasResult]
  case ExclusiveWriteMemory16 =>
    cases e <;>
    simp [A32.IREmitter.ExclusiveWriteMemory16, IR.IREmitter.ByteReverseHalf, A32.Call.run, withResult, noResult, emitIR_bind, emitIR_map, emitIR_Inst, emitIR_pure,
      A32.Call.asserted, A32.Call.nodes, A32.Call.hasResult]
  case ExclusiveWriteMemory32 =>
    cases e <;>
    simp [A32.IREmitter.ExclusiveWriteMemory32, IR.IREmitter.ByteReverseWord, A32.Call.run, withResult, noResult, emitIR_bind, emitIR_map, emitIR_Inst, emitIR_pure,
      A32.Call.asserted, A32.Call.nodes, A32.Call.hasResult]
  case ExclusiveWriteMemory64 =>
    cases e <;>
    simp [A32.IREmitter.ExclusiveWriteMemory64, IR.IREmitter.ByteReverseWord, A32.Call.run, withResult, noResult, emitIR_bind, emitIR_map, emitIR_Inst, emitIR_pure,
      A32.Call.asserted, A32.Call.nodes, A32.Call.hasResult]
  case CoprocInternalOperation coproc_no two opc1 CRd CRn CRm opc2 =>
    simp only [A32.Call.run, withResult, noResult, emitIR_bind, emitIR_CoprocInternalOperation,
      A32.Call.asserted, A32.Call.nodes, A32.Call.hasResult]
    by_cases h : coproc_no ≤ 15
    · simp only [h, if_true, emitIR_pure, decide_True, true_and]
      exact ⟨_, rfl, rfl, rfl⟩
    · simp only [h, if_false, decide_False, and_self]
  case CoprocSendOneWord coproc_no two opc1 CRn CRm opc2 word =>
    simp only [A32.Call.run, withResult, noResult, emitIR_bind, emitIR_CoprocSendOneWord,
      A32.Call.asserted, A32.Call.nodes, A32.Call.hasResult]
    by_cases h : coproc_no ≤ 15
    · simp only [h, if_true, emitIR_pure, decide_True, true_and]
      exact ⟨_, rfl, rfl, rfl⟩
    · simp only [h, if_false, decide_False, and_self]
  case CoprocSendTwoWords coproc_no two opc CRm word1 word2 =>
    simp only [A32.Call.run, withResult, noResult, emitIR_bind, emitIR_CoprocSendTwoWords,
      A32.Call.asserted, A32.Call.nodes, A32.Call.hasResult]
    by_cases h : coproc_no ≤ 15
    · simp only [h, if_true, emitIR_pure, decide_True, true_and]
      exact ⟨_, rfl, rfl, rfl⟩
    · simp only [h, if_false, decide_False, and_self]
  case CoprocGetOneWord coproc_no two opc1 CRn CRm opc2 =>
    simp only [A32.Call.run, withResult, noResult, emitIR_bind, emitIR_CoprocGetOneWord,
      A32.Call.asserted, A32.Call.nodes, A32.Call.hasResult]
    by_cases h : coproc_no ≤ 15
    · simp only [h, if_true, emitIR_pure, decide_True, true_and]
      exact ⟨_, rfl, rfl, rfl⟩
    · simp only [h, if_false, decide_False, and_self]
  case CoprocGetTwoWords coproc_no two opc CRm =>
    simp only [A32.Call.run, withResult, noResult, emitIR_bind, emitIR_CoprocGetTwoWords,
      A32.Call.asserted, A32.Call.nodes, A32.Call.hasResult]
    by_cases h : coproc_no ≤ 15
    · simp only [h, if_true, emitIR_pure, decide_True, true_and]
      exact ⟨_, rfl, rfl, rfl⟩
    · simp only [h, if_false, decide_False, and_self]
  case CoprocLoadWords coproc_no two long_transfer CRd address has_option option =>
    simp only [A32.Call.run, withResult, noResult, emitIR_bind, emitIR_CoprocLoadWords,
      A32.Call.asserted, A32.Call.nodes, A32.Call.hasResult]
    by_cases h : coproc_no ≤ 15
    · simp only [h, if_true, emitIR_pure, decide_True, true_and]
      exact ⟨_, rfl, rfl, rfl⟩
    · simp only [h, if_false, decide_False, and_self]
  case CoprocStoreWords coproc_no two long_transfer CRd address has_option option =>
    simp only [A32.Call.run, withResult, noResult, emitIR_bind, emitIR_CoprocStoreWords,
      A32.Call.asserted, A32.Call.nodes, A32.Call.hasResult]
    by_cases h : coproc_no ≤ 15
    · simp only [h, if_true, emitIR_pure, decide_True, true_and]
      exact ⟨_, rfl, rfl, rfl⟩
    · simp only [h, if_false, decide_False, and_self]

/-- C26 as stated fails: with the `E` flag set, `ReadMemory16` appends two nodes to the empty
block, the read and the byte reverse, not exactly one. -/
theorem facade_nodes_counterexample :
    emitIR (A32.Call.run ⟨0, false, true⟩ (.ReadMemory16 (.imm32 0))) [] =
      (.ok (some (.inst 1)),
        [IR.Inst.mk .A32ReadMemory16 [.imm32 0], IR.Inst.mk .ByteReverseHalf [.inst 0]]) ∧
    (emitIR (A32.Call.run ⟨0, false, true⟩ (.ReadMemory16 (.imm32 0))) []).2.length = 2 ∧
    ¬ ∃ n, (emitIR (A32.Call.run ⟨0, false, true⟩ (.ReadMemory16 (.imm32 0))) []).2 =
      [] ++ [n] := by
  refine ⟨rfl, rfl, ?_⟩
  rintro ⟨n, h⟩
  have h2 : (emitIR (A32.Call.run ⟨0, false, true⟩ (.ReadMemory16 (.imm32 0))) []).2.length =
      1 := by rw [h]; rfl
  exact absurd h2 (by decide)

/-- C29: the `CoprocessorInfo` a coprocessor constructor packs, for every argument
with `coproc_no ≤ 15`. The call appends one node, whose first operand is the
`CoprocessorInfo`; the byte fields packed in it number seven for `CoprocInternalOperation`, six for
`CoprocSendOneWord`, `CoprocGetOneWord`, `CoprocLoadWords` and `CoprocStoreWords`, and four for
`CoprocSendTwoWords` and `CoprocGetTwoWords`: at most seven. Each field is a byte. -/
theorem CoprocessorInfo_fields (loc : A32.LocationDescriptor) (c : A32.Call) (b : IR.Block)
    (hc : c.isCoproc = true) (ha : c.asserted = true) :
    ∃ r i info, emitIR (c.run loc) b = (.ok r, b ++ [i]) ∧
      i.args.head? = some (.coproc info) ∧
      info.length = c.packed ∧ c.packed ∈ [4, 6, 7] ∧ info.length ≤ 7 ∧
      ∀ x ∈ info, x < 256 := by
  have hmem : ∀ (l : List Nat), (∀ x ∈ l, ∃ v, x = u8 v) → ∀ x ∈ l, x < 256 := by
    intro l hl x hx
    obtain ⟨v, rfl⟩ := hl x hx
    exact u8_lt v
  cases c <;> simp only [A32.Call.isCoproc] at hc <;> try exact absurd hc (by decide)
  case CoprocInternalOperation coproc_no two opc1 CRd CRn CRm opc2 =>
    simp only [A32.Call.asserted, decide_eq_true_eq] at ha
    refine ⟨none, IR.Inst.mk .A32CoprocInternalOperation [.coproc
      [u8 coproc_no, u8 (if two then 1 else 0), u8 opc1, u8 CRd, u8 CRn, u8 CRm,
        u8 opc2]],
      [u8 coproc_no, u8 (if two then 1 else 0), u8 opc1, u8 CRd, u8 CRn, u8 CRm,
        u8 opc2],
      ?_, rfl, rfl, by simp [A32.Call.packed], by simp, ?_⟩
    · simp only [A32.Call.run, withResult, noResult, emitIR_bind, emitIR_CoprocInternalOperation, ha, if_true,
        emitIR_pure]
    · exact hmem _ (by simp)
  case CoprocSendOneWord coproc_no two opc1 CRn CRm opc2 word =>
    simp only [A32.Call.asserted, decide_eq_true_eq] at ha
    refine ⟨none, IR.Inst.mk .A32CoprocSendOneWord [.coproc
      [u8 coproc_no, u8 (if two then 1 else 0), u8 opc1, u8 CRn, u8 CRm, u8 opc2], word],
      [u8 coproc_no, u8 (if two then 1 else 0), u8 opc1, u8 CRn, u8 CRm, u8 opc2],
      ?_, rfl, rfl, by simp [A32.Call.packed], by simp, ?_⟩
    · simp only [A32.Call.run, withResult, noResult, emitIR_bind, emitIR_CoprocSendOneWord, ha, if_true,
        emitIR_pure]
    · exact hmem _ (by simp)
  case CoprocSendTwoWords coproc_no two opc CRm word1 word2 =>
    simp only [A32.Call.asserted, decide_eq_true_eq] at ha
    refine ⟨none, IR.Inst.mk .A32CoprocSendTwoWords [.coproc
      [u8 coproc_no, u8 (if two then 1 else 0), u8 opc, u8 CRm], word1, word2],
      [u8 coproc_no, u8 (if two then 1 else 0), u8 opc, u8 CRm],
      ?_, rfl, rfl, by simp [A32.Call.packed], by simp, ?_⟩
    · simp only [A32.Call.run, withResult, noResult, emitIR_bind, emitIR_CoprocSendTwoWords, ha, if_true,
        emitIR_pure]
    · exact hmem _ (by simp)
  case CoprocGetOneWord coproc_no two opc1 CRn CRm opc2 =>
    simp only [A32.Call.asserted, decide_eq_true_eq] at ha
    refine ⟨some (.inst b.length), IR.Inst.mk .A32CoprocGetOneWord [.coproc
      [u8 coproc_no, u8 (if two then 1 else 0), u8 opc1, u8 CRn, u8 CRm, u8 opc2]],
      [u8 coproc_no, u8 (if two then 1 else 0), u8 opc1, u8 CRn, u8 CRm, u8 opc2],
      ?_, rfl, rfl, by simp [A32.Call.packed], by simp, ?_⟩
    · simp only [A32.Call.run, withResult, noResult, emitIR_bind, emitIR_CoprocGetOneWord, ha, if_true,
        emitIR_pure]
    · exact hmem _ (by simp)
  case CoprocGetTwoWords coproc_no two opc CRm =>
    simp only [A32.Call.asserted, decide_eq_true_eq] at ha
    refine ⟨some (.inst b.length), IR.Inst.mk .A32CoprocGetTwoWords [.coproc
      [u8 coproc_no, u8 (if two then 1 else 0), u8 opc, u8 CRm]],
      [u8 coproc_no, u8 (if two then 1 else 0), u8 opc, u8 CRm],
      ?_, rfl, rfl, by simp [A32.Call.packed], by simp, ?_⟩
    · simp only [A32.Call.run, withResult, noResult, emitIR_bind, emitIR_CoprocGetTwoWords, ha, if_true,
        emitIR_pure]
    · exact hmem _ (by simp)
  case CoprocLoadWords coproc_no two long_transfer CRd address has_option option =>
    simp only [A32.Call.asserted, decide_eq_true_eq] at ha
    refine ⟨none, IR.Inst.mk .A32CoprocLoadWords [.coproc
      [u8 coproc_no, u8 (if two then 1 else 0),
        u8 (if long_transfer then 1 else 0), u8 CRd, u8 (if has_option then 1 else 0),
        u8 option], address],
      [u8 coproc_no, u8 (if two then 1 else 0),
        u8 (if long_transfer then 1 else 0), u8 CRd, u8 (if has_option then 1 else 0),
        u8 option],
      ?_, rfl, rfl, by simp [A32.Call.packed], by simp, ?_⟩
    · simp only [A32.Call.run, withResult, noResult, emitIR_bind, emitIR_CoprocLoadWords, ha, if_true,
        emitIR_pure]
    · exact hmem _ (by simp)
  case CoprocStoreWords coproc_no two long_transfer CRd address has_option option =>
    simp only [A32.Call.asserted, decide_eq_true_eq] at ha
    refine ⟨none, IR.Inst.mk .A32CoprocStoreWords [.coproc
      [u8 coproc_no, u8 (if two then 1 else 0),
        u8 (if long_transfer then 1 else 0), u8 CRd, u8 (if has_option then 1 else 0),
        u8 option], address],
      [u8 coproc_no, u8 (if two then 1 else 0),
        u8 (if long_transfer then 1 else 0), u8 CRd, u8 (if has_option then 1 else 0),
        u8 option],
      ?_, rfl, rfl, by simp [A32.Call.packed], by simp, ?_⟩
    · simp only [A32.Call.run, withResult, noResult, emitIR_bind, emitIR_CoprocStoreWords, ha, if_true,
        emitIR_pure]
    · exact hmem _ (by simp)

theorem CoprocessorInfo_fields_witness :
    ∃ r i info, emitIR (A32.Call.run ⟨0, false, false⟩
        (.CoprocSendTwoWords 15 false 3 7 (.imm32 1) (.imm32 2))) [] = (.ok r, [] ++ [i]) ∧
      i.args.head? = some (.coproc info) ∧
      info.length = (A32.Call.CoprocSendTwoWords 15 false 3 7 (.imm32 1) (.imm32 2)).packed ∧
      (A32.Call.CoprocSendTwoWords 15 false 3 7 (.imm32 1) (.imm32 2)).packed ∈ [4, 6, 7] ∧
      info.length ≤ 7 ∧ ∀ x ∈ info, x < 256 :=
  CoprocessorInfo_fields ⟨0, false, false⟩
    (.CoprocSendTwoWords 15 false 3 7 (.imm32 1) (.imm32 2)) [] rfl rfl

/-- C29 as stated fails: `CoprocInternalOperation` packs seven byte fields into its
`CoprocessorInfo` (`coproc_no`, `two`, `opc1`, `CRd`, `CRn`, `CRm`, `opc2`), not at most
six. -/
theorem CoprocessorInfo_fields_counterexample :
    ∃ i info, emitIR (A32.IREmitter.CoprocInternalOperation 15 true 1 2 3 4 5) [] =
        (.ok (), [i]) ∧
      i = IR.Inst.mk .A32CoprocInternalOperation [.coproc [15, 1, 1, 2, 3, 4, 5]] ∧
      i.args.head? = some (.coproc info) ∧ info.length = 7 ∧ ¬ info.length ≤ 6 :=
  ⟨_, _, rfl, rfl, rfl, rfl, by decide⟩

/-! ## The IR emitter: the 64-bit exclusive write and the register accessors -/

/-- C37: `ExclusiveWriteMemory64(vaddr, value_lo, value_hi)` on a block `b`, for every address,
every pair of values and every current location. With the `E` flag set it appends
`ByteReverseWord(value_lo)`, then `ByteReverseWord(value_hi)`, then one
`A32ExclusiveWriteMemory64` node whose operands are `vaddr`, the handle of the first
byte-reverse node and the handle of the second, in that order: each word is reversed and the
halves keep their places. With `E` clear it appends the one node with operands `vaddr`,
`value_lo`, `value_hi`. It returns the handle of the write node. -/
theorem ExclusiveWriteMemory64_spec (loc : A32.LocationDescriptor)
    (vaddr value_lo value_hi : IR.Value) (b : IR.Block) :
    emitIR (A32.IREmitter.ExclusiveWriteMemory64 loc vaddr value_lo value_hi) b =
      (if loc.EFlag then
        (.ok (.inst (b.length + 2)),
          b ++ [IR.Inst.mk .ByteReverseWord [value_lo],
            IR.Inst.mk .ByteReverseWord [value_hi],
            IR.Inst.mk .A32ExclusiveWriteMemory64
              [vaddr, .inst b.length, .inst (b.length + 1)]])
       else
        (.ok (.inst b.length),
          b ++ [IR.Inst.mk .A32ExclusiveWriteMemory64 [vaddr, value_lo, value_hi]])) := by
  obtain ⟨pc, t, e⟩ := loc
  cases e <;>
    simp [A32.IREmitter.ExclusiveWriteMemory64, IR.IREmitter.ByteReverseWord, emitIR_bind,
      emitIR_map, emitIR_Inst, emitIR_pure]

/-- C38: `SetRegister` and `GetRegister` on a block `b`, for every register, value and current
location. `SetRegister(reg, value)` fails its assertion, leaving the block as it was, exactly
when `reg` is `PC`; for any other register it appends one `A32SetRegister` node with operands
`reg` and `value`. `GetRegister(PC)` appends nothing and returns the 32-bit immediate `PC()`,
which is the `PC` of the current location plus 4 in Thumb state and plus 8 in ARM state
(modulo 2^32); `GetRegister` of any other register appends one `A32GetRegister` node for it
and returns its handle. -/
theorem register_accessors (loc : A32.LocationDescriptor) (reg : A32.Reg) (value : IR.Value)
    (b : IR.Block) :
    emitIR (A32.IREmitter.SetRegister reg value) b =
      (if reg = A32.Reg.PC then (.error .assertion, b)
       else (.ok (), b ++ [IR.Inst.mk .A32SetRegister [.reg reg, value]])) ∧
    ((emitIR (A32.IREmitter.SetRegister reg value) b).1 = .error .assertion ↔
      reg = A32.Reg.PC) ∧
    emitIR (A32.IREmitter.GetRegister loc reg) b =
      (if reg = A32.Reg.PC then
        (.ok (.imm32 ((loc.PC + (if loc.TFlag then 4 else 8)) % 2 ^ 32)), b)
       else (.ok (.inst b.length), b ++ [IR.Inst.mk .A32GetRegister [.reg reg]])) ∧
    IR.IREmitter.Imm32 (A32.IREmitter.PC loc) =
      .imm32 ((loc.PC + (if loc.TFlag then 4 else 8)) % 2 ^ 32) := by
  have hset : emitIR (A32.IREmitter.SetRegister reg value) b =
      (if reg = A32.Reg.PC then (.error .assertion, b)
       else (.ok (), b ++ [IR.Inst.mk .A32SetRegister [.reg reg, value]])) := by
    by_cases h : reg = A32.Reg.PC <;>
      simp [A32.IREmitter.SetRegister, h, emitIR_bind, emitIR_map, emitIR_Inst, emitIR_pure,
        emitIR_ASSERT]
  have himm : IR.IREmitter.Imm32 (A32.IREmitter.PC loc) =
      .imm32 ((loc.PC + (if loc.TFlag then 4 else 8)) % 2 ^ 32) := by
    rw [Imm32_of_lt _ (IREmitter_PC_lt loc)]
    rfl
  refine ⟨hset, ?_, ?_, himm⟩
  · rw [hset]
    by_cases h : reg = A32.Reg.PC <;> simp [h]
  · by_cases h : reg = A32.Reg.PC
    · simp only [A32.IREmitter.GetRegister, h, if_true, emitIR_pure, himm]
    · simp [A32.IREmitter.GetRegister, h, emitIR_Inst]

/-! ## PairedAdd -/

theorem PairedAdd.haddp_lanes32 (add : Nat → Nat → Nat) (a b i : Nat) (hi : i < 4) :
    ∃ p q, PairedIndexer i (toLanes 32 a) (toLanes 32 b) = some [p, q] ∧
      lane 32 i (haddp 32 add a b) = add p q % 2 ^ 32 := by
  have hi4 : i = 0 ∨ i = 1 ∨ i = 2 ∨ i = 3 := by omega
  rcases hi4 with rfl | rfl | rfl | rfl
  · exact ⟨lane 32 0 a, lane 32 1 a, by simp [PairedIndexer, toLanes32_eq],
      by rw [haddp, lane_ofLanes _ _ _ _ (by decide)]; rfl⟩
  · exact ⟨lane 32 2 a, lane 32 3 a, by simp [PairedIndexer, toLanes32_eq],
      by rw [haddp, lane_ofLanes _ _ _ _ (by decide)]; rfl⟩
  · exact ⟨lane 32 0 b, lane 32 1 b, by simp [PairedIndexer, toLanes32_eq],
      by rw [haddp, lane_ofLanes _ _ _ _ (by decide)]; rfl⟩
  · exact ⟨lane 32 2 b, lane 32 3 b, by simp [PairedIndexer, toLanes32_eq],
      by rw [haddp, lane_ofLanes _ _ _ _ (by decide)]; rfl⟩

theorem PairedAdd.haddp_lanes64 (add : Nat → Nat → Nat) (a b i : Nat) (hi : i < 2) :
    ∃ p q, PairedIndexer i (toLanes 64 a) (toLanes 64 b) = some [p, q] ∧
      lane 64 i (haddp 64 add a b) = add p q % 2 ^ 64 := by
  have hi2 : i = 0 ∨ i = 1 := by omega
  rcases hi2 with rfl | rfl
  · exact ⟨lane 64 0 a, lane 64 1 a, by simp [PairedIndexer, toLanes64_eq],
      (lane64_haddp add a b).1⟩
  · exact ⟨lane 64 0 b, lane 64 1 b, by simp [PairedIndexer, toLanes64_eq],
      (lane64_haddp add a b).2⟩

theorem PairedAdd.haddp_lanes (add : Nat → Nat → Nat) (w : Nat) (hw : w = 32 ∨ w = 64)
    (a b i : Nat) (hi : i < 128 / w) :
    ∃ p q, PairedIndexer i (toLanes w a) (toLanes w b) = some [p, q] ∧
      lane w i (haddp w add a b) = add p q % 2 ^ w := by
  rcases hw with rfl | rfl
  · exact PairedAdd.haddp_lanes32 add a b i (by simpa using hi)
  · exact PairedAdd.haddp_lanes64 add a b i (by simpa using hi)

theorem GetDefaultImpl_paired (fsize : Nat) (hw : fsize = 32 ∨ fsize = 64) (x a b : Nat) :
    ∃ r, GetDefaultImpl fsize .Paired [toLanes fsize x, toLanes fsize a, toLanes fsize b] =
        some [r, toLanes fsize a, toLanes fsize b] ∧
      ∀ i, i < 128 / fsize → ∀ cur,
        PairedIndexer i (toLanes fsize a) (toLanes fsize b) = some cur →
          r.getD i 0 = handlerLane fsize cur (lane fsize i x) := by
  have hix : ∀ i, i < (toLanes fsize x).length →
      ∃ cur, Indexer.apply .Paired i [toLanes fsize a, toLanes fsize b] = some cur := by
    intro i hi
    rw [toLanes_length] at hi
    obtain ⟨p, q, hpq, -⟩ := PairedAdd.haddp_lanes (fun _ _ => 0) fsize hw a b i hi
    exact ⟨[p, q], hpq⟩
  obtain ⟨r, hr, -, hlt, -⟩ := GetDefaultImpl.loop_spec fsize .Paired
    [toLanes fsize a, toLanes fsize b] (toLanes fsize x) (toLanes fsize x).length (le_refl _) hix
  refine ⟨r, by simp [GetDefaultImpl, hr], ?_⟩
  intro i hi cur hcur
  have h := hlt i (by rw [toLanes_length]; exact hi) cur hcur
  simp [List.getD_eq_getElem?_getD, h, toLanes_getElem? _ _ _ hi]

/-- C33: `EmitFPVectorPairedAdd32/64`, for any host (any lane-wise addition `env.addp`). The
opcode is emitted as the host `haddp` on the operand registers, and for all operand vectors
`a`, `b` every lane `i` of `haddp(a, b)` is `add(p, q)` (as a lane of `fsize` bits) where
`(p, q)` is the pair `PairedIndexer` returns for `i` on the lanes of `a` and `b`. With `DN`
clear and `AccurateNaN` off the block defines exactly that register. With `DN` clear and
`AccurateNaN` on the one function the far region calls is the default NaN handler
instantiated with `PairedIndexer`, and that handler run on the arrays of a result `x`, `a`
and `b` decides every lane `i` of its result from the lane `i` of `x` and that same pair
`(p, q)`. -/
theorem EmitFPVectorPairedAdd_spec (env : Env) (code : BlockOfCode) (ctx : EmitContext)
    (op : ThreeOpOpcode) (hop : op = .FPVectorPairedAdd32 ∨ op = .FPVectorPairedAdd64) :
    (∀ a b i, i < 128 / op.fsize → ∃ p q,
      PairedIndexer i (toLanes op.fsize a) (toLanes op.fsize b) = some [p, q] ∧
      lane op.fsize i (sseSem env (.haddp op.fsize) a b) = env.addp op.fsize p q % 2 ^ op.fsize) ∧
    (∀ result xmm_b n, op.F result xmm_b n = [Instr.sse (.haddp op.fsize) result (.xmm xmm_b)]) ∧
    (∃ s, emitted (op.emit code ctx) = .ok s ∧
      (ctx.FPSCR_DN = false → ctx.AccurateNaN = false → ∀ m : Machine,
        ∃ m1 v, runBlock env code s m = some m1 ∧ m1.defined = some v ∧
          ∀ i, i < 128 / op.fsize → ∃ p q,
            PairedIndexer i (toLanes op.fsize (m.args 0))
              (toLanes op.fsize (m.args 1)) = some [p, q] ∧
            lane op.fsize i v = env.addp op.fsize p q % 2 ^ op.fsize) ∧
      (ctx.FPSCR_DN = false → ctx.AccurateNaN = true →
        calls_of s.far = [.NaNHandler op.fsize .Paired 3] ∧ calls_of s.near = [])) ∧
    (∀ x a b, ∃ r,
      GetDefaultImpl op.fsize .Paired
          [toLanes op.fsize x, toLanes op.fsize a, toLanes op.fsize b] =
        some [r, toLanes op.fsize a, toLanes op.fsize b] ∧
      ∀ i, i < 128 / op.fsize → ∃ p q,
        PairedIndexer i (toLanes op.fsize a) (toLanes op.fsize b) = some [p, q] ∧
        Indexer.apply .Paired i [toLanes op.fsize a, toLanes op.fsize b] = some [p, q] ∧
        r.getD i 0 = handlerLane op.fsize [p, q] (lane op.fsize i x)) := by
  have hF : ∀ r b n, op.F r b n = [Instr.sse (.haddp op.fsize) r (.xmm b)] := by
    rcases hop with rfl | rfl <;> intro r b n <;> rfl
  have hix : op.indexer = .Paired := by rcases hop with rfl | rfl <;> rfl
  have hlanes : ∀ a b i, i < 128 / op.fsize → ∃ p q,
      PairedIndexer i (toLanes op.fsize a) (toLanes op.fsize b) = some [p, q] ∧
      lane op.fsize i (sseSem env (.haddp op.fsize) a b) =
        env.addp op.fsize p q % 2 ^ op.fsize :=
    fun a b i hi => PairedAdd.haddp_lanes (env.addp op.fsize) op.fsize op.fsize_cases a b i hi
  refine ⟨hlanes, hF, ⟨_, ThreeOpOpcode_emitted_eq op code ctx, ?_, ?_⟩, ?_⟩
  · intro hdn hacc m
    have hs : (!ctx.AccurateNaN || ctx.FPSCR_DN) = true := by simp [hacc]
    obtain ⟨mF, m1, hmF, hrun, -, v, hv, hl⟩ :=
      EmitThreeOpVectorOperation_simple_run env code op.fsize ctx op.F op.k
        (NaNHandler.GetDefault op.fsize op.indexer 3) op.fsize_cases hs
        (fun i hi => (ThreeOpOpcode.F_xmmOnly op 0 1 2 i hi).imp fun _ h => h.1) m
    rw [hF] at hmF
    simp only [execList, step, Option.some_bind, Option.bind_eq_bind, Option.some.injEq] at hmF
    subst hmF
    refine ⟨m1, v, hrun, hv, fun i hi => ?_⟩
    obtain ⟨p, q, hpq, hlane⟩ := hlanes (m.args 0) (m.args 1) i hi
    refine ⟨p, q, hpq, ?_⟩
    rw [hl i hi, hdn]
    simpa [Machine.setXmm, Machine.operand] using hlane
  · intro hdn hacc
    have hs : (!ctx.AccurateNaN || ctx.FPSCR_DN) = false := by simp [hacc, hdn]
    have hfar : (op.state code ctx).far =
        HandleNaNs.far code [0, 1, 2] (NaNHandler.GetDefault op.fsize op.indexer 3) 0 := by
      simp [ThreeOpOpcode.state, EmitThreeOpVectorOperation.state, hs]
    have hnear : (op.state code ctx).near =
        [Instr.UseXmm 1 0, Instr.UseXmm 2 1, Instr.sse .movaps 3 (.xmm 2),
          Instr.sse .movaps 0 (.xmm 1), Instr.sse (.cmpunordp op.fsize) 3 (.xmm 1)]
        ++ op.F 0 2 4 ++ [Instr.sse (.cmpunordp op.fsize) 3 (.xmm 0)]
        ++ HandleNaNs.near code 3 0 0 ++ [Instr.DefineValue 0] := by
      simp [ThreeOpOpcode.state, EmitThreeOpVectorOperation.state, hs]
    refine ⟨?_, ?_⟩
    · rw [hfar, HandleNaNs.far_calls, hix]
      rfl
    · rw [hnear, hF]
      simp only [calls_of_append, (HandleNaNs.near_jumps code 3 0 0).2]
      rfl
  · intro x a b
    obtain ⟨r, hr, hrl⟩ := GetDefaultImpl_paired op.fsize op.fsize_cases x a b
    refine ⟨r, hr, fun i hi => ?_⟩
    obtain ⟨p, q, hpq, -⟩ := hlanes a b i hi
    exact ⟨p, q, hpq, hpq, hrl i hi _ hpq⟩

theorem EmitFPVectorPairedAdd_spec_witness :
    ∃ p q,
      PairedIndexer 0
        (toLanes ThreeOpOpcode.FPVectorPairedAdd32.fsize
          (vec32 0x3F800000 0x40000000 0x40400000 0x40800000))
        (toLanes ThreeOpOpcode.FPVectorPairedAdd32.fsize 0) = some [p, q] ∧
      lane ThreeOpOpcode.FPVectorPairedAdd32.fsize 0
          (sseSem (x86Env .ToNearest_TieEven) (.haddp ThreeOpOpcode.FPVectorPairedAdd32.fsize)
            (vec32 0x3F800000 0x40000000 0x40400000 0x40800000) 0) =
        (x86Env .ToNearest_TieEven).addp ThreeOpOpcode.FPVectorPairedAdd32.fsize p q %
          2 ^ ThreeOpOpcode.FPVectorPairedAdd32.fsize :=
  (EmitFPVectorPairedAdd_spec (x86Env .ToNearest_TieEven) .sse2 .fast .FPVectorPairedAdd32
    (Or.inl rfl)).1 (vec32 0x3F800000 0x40000000 0x40400000 0x40800000) 0 0 (by decide)

/-! ## The two halves of `U64ToDouble` -/

theorem fpVal_of_FpIs (w x : Nat) (s : Bool) (t : Nat) (h : FpIs w x s t) :
    fpVal w x = if s then -(t : Int) else (t : Int) := by
  obtain ⟨-, -, h3, h4, -⟩ := h
  simp [fpVal, h3, h4]

theorem signed_scaled (s : Bool) (n e : Nat) (h : n ≠ 0 → s = false) :
    (if s = true then -((n * 2 ^ e : Nat) : Int) else ((n * 2 ^ e : Nat) : Int)) =
      (n : Int) * 2 ^ e := by
  by_cases hn : n = 0
  · subst hn
    cases s <;> simp
  · rw [h hn]
    simp

/-- The two doubles of the `U64ToDouble` bit trick on one lane: the words `0x43300000:lo` and
`0x45300000:hi` are the numbers `2^52 + lo` and `2^84 + hi * 2^32`, and the differences with
`2^52` and `2^84` are exactly `lo` and `hi * 2^32`. -/
theorem u64_halves (rm : RoundingMode) (lo hi : Nat) (hlo : lo < 2 ^ 32) (hhi : hi < 2 ^ 32) :
    ∃ sl sh,
      FpIs 64 (0x4330000000000000 + lo) false ((2 ^ 52 + lo) * 2 ^ 1074) ∧
      FpIs 64 (0x4530000000000000 + hi) false ((2 ^ 52 + hi) * 2 ^ 1106) ∧
      FpIs 64 (x86sub rm 64 (0x4330000000000000 + lo) 0x4330000000000000) sl (lo * 2 ^ 1074) ∧
      FpIs 64 (x86sub rm 64 (0x4530000000000000 + hi) 0x4530000000000000) sh
        (hi * 2 ^ 1106) ∧
      (lo ≠ 0 → sl = false) ∧ (hi ≠ 0 → sh = false) := by
  have hw : (64 : Nat) = 32 ∨ (64 : Nat) = 64 := Or.inr rfl
  have hL := FpIs_pack 64 hw false 0x433 lo (by decide) (by rw [fmt64.1]; omega)
  have hH := FpIs_pack 64 hw false 0x453 hi (by decide) (by rw [fmt64.1]; omega)
  have hS0 := FpIs_pack 64 hw false 0x433 0 (by decide) (by decide)
  have hS1 := FpIs_pack 64 hw false 0x453 0 (by decide) (by decide)
  have hN0 := FpIs_pack 64 hw true 0x433 0 (by decide) (by decide)
  have hN1 := FpIs_pack 64 hw true 0x453 0 (by decide) (by decide)
  rw [fmt64.1] at hL hH hS0 hS1 hN0 hN1
  have eL : withSign 64 false (0x433 * 2 ^ 52 + lo) = 0x4330000000000000 + lo := by
    simp [withSign]
  have eH : withSign 64 false (0x453 * 2 ^ 52 + hi) = 0x4530000000000000 + hi := by
    simp [withSign]
  have eS0 : withSign 64 false (0x433 * 2 ^ 52 + 0) = 0x4330000000000000 := by decide
  have eS1 : withSign 64 false (0x453 * 2 ^ 52 + 0) = 0x4530000000000000 := by decide
  have eN0 : withSign 64 true (0x433 * 2 ^ 52 + 0) = 0x4330000000000000 ^^^ 2 ^ (64 - 1) := by
    decide
  have eN1 : withSign 64 true (0x453 * 2 ^ 52 + 0) = 0x4530000000000000 ^^^ 2 ^ (64 - 1) := by
    decide
  rw [eL] at hL
  rw [eH] at hH
  rw [eS0] at hS0
  rw [eS1] at hS1
  rw [eN0] at hN0
  rw [eN1] at hN1
  simp only [(by decide : ¬ (0x433 = 0)), (by decide : ¬ (0x453 = 0)), if_false]
    at hL hH hS0 hS1 hN0 hN1
  have hL0 := x86add_finite rm 64 _ _ _ _ _ _ hL hN0
  have hH0 := x86add_finite rm 64 _ _ _ _ _ _ hH hN1
  have hsumL : (if false = true then -(((2 ^ 52 + lo) * 2 ^ (0x433 - 1) : Nat) : Int)
        else (((2 ^ 52 + lo) * 2 ^ (0x433 - 1) : Nat) : Int)) +
      (if true = true then -(((2 ^ 52 + 0) * 2 ^ (0x433 - 1) : Nat) : Int)
        else (((2 ^ 52 + 0) * 2 ^ (0x433 - 1) : Nat) : Int)) =
      (lo : Int) * 2 ^ 1074 := by
    simp only [Bool.false_eq_true, if_false, if_true]
    push_cast
    ring
  have hsumH : (if false = true then -(((2 ^ 52 + hi) * 2 ^ (0x453 - 1) : Nat) : Int)
        else (((2 ^ 52 + hi) * 2 ^ (0x453 - 1) : Nat) : Int)) +
      (if true = true then -(((2 ^ 52 + 0) * 2 ^ (0x453 - 1) : Nat) : Int)
        else (((2 ^ 52 + 0) * 2 ^ (0x453 - 1) : Nat) : Int)) =
      (hi : Int) * 2 ^ 1106 := by
    simp only [Bool.false_eq_true, if_false, if_true]
    push_cast
    ring
  rw [hsumL] at hL0
  rw [hsumH] at hH0
  have hLf := fpOfInt_exact 64 hw rm
    (if false == true then false else rm == .TowardsMinusInfinity) (lo : Int) 1074
    (by rw [fmt64.1]; simp only [Int.natAbs_ofNat]; omega) (by decide) (by decide)
  have hHf := fpOfInt_exact 64 hw rm
    (if false == true then false else rm == .TowardsMinusInfinity) (hi : Int) 1106
    (by rw [fmt64.1]; simp only [Int.natAbs_ofNat]; omega) (by decide) (by decide)
  rw [← hL0, ← x86sub_finite rm 64 _ _ _ _ _ _ hL hS0] at hLf
  rw [← hH0, ← x86sub_finite rm 64 _ _ _ _ _ _ hH hS1] at hHf
  simp only [Int.natAbs_ofNat] at hLf hHf
  refine ⟨_, _, hL, hH, hLf, hHf, ?_, ?_⟩
  · intro h
    have h1 : ¬ ((lo : Int) = 0) := by exact_mod_cast h
    have h2 : ¬ ((lo : Int) < 0) := by omega
    simp [h1, h2]
  · intro h
    have h1 : ¬ ((hi : Int) = 0) := by exact_mod_cast h
    have h2 : ¬ ((hi : Int) < 0) := by omega
    simp [h1, h2]

/-- C35: the bit trick of `EmitFPVectorU64ToDouble` (the AVX and the SSE sequence, taken when
the host lacks AVX-512), run on the IEEE host in any rounding mode, for every input vector
`x` and each lane `i` of the two. With `lo` and `hi` the 32-bit halves of lane `i`, the two
doubles formed for the lane, `0x43300000:lo` and `0x45300000:hi`, are the numbers `2^52 + lo`
and `2^84 + hi * 2^32`; after the subtraction of `2^52` and `2^84` they are finite doubles of
value exactly `lo` and `hi * 2^32` (values in units of the smallest subnormal, `2^-1074`).
Lane `i` of the result is the host sum of these two doubles of lane `i`, on both paths and
in either order of the operands, and that sum is the input lane rounded once. -/
theorem EmitFPVectorU64ToDouble_halves (rm : RoundingMode) (code : BlockOfCode)
    (hpath : (code.DoesCpuSupport .tAVX512DQ && code.DoesCpuSupport .tAVX512VL) = false)
    (m : Machine) :
    ∃ m0, execList (x86Env rm) code
        (Instr.UseScratchXmm 0 0 :: UnsignedToFloat.body 64 code) m = some m0 ∧
      ∀ i, i < 2 →
        lane 64 i (m.args 0) =
          lane 32 (2 * i) (m.args 0) + lane 32 (2 * i + 1) (m.args 0) * 2 ^ 32 ∧
        fpVal 64 (lane 32 (2 * i) (m.args 0) + 0x43300000 * 2 ^ 32) =
          (2 ^ 52 + (lane 32 (2 * i) (m.args 0) : Int)) * 2 ^ fpScale 64 ∧
        fpVal 64 (lane 32 (2 * i + 1) (m.args 0) + 0x45300000 * 2 ^ 32) =
          (2 ^ 84 + (lane 32 (2 * i + 1) (m.args 0) : Int) * 2 ^ 32) * 2 ^ fpScale 64 ∧
        fpVal 64 0x4330000000000000 = 2 ^ 52 * 2 ^ fpScale 64 ∧
        fpVal 64 0x4530000000000000 = 2 ^ 84 * 2 ^ fpScale 64 ∧
        u64Low (x86Env rm) (m.args 0) i =
          x86sub rm 64 (lane 32 (2 * i) (m.args 0) + 0x43300000 * 2 ^ 32) 0x4330000000000000 ∧
        u64High (x86Env rm) (m.args 0) i =
          x86sub rm 64 (lane 32 (2 * i + 1) (m.args 0) + 0x45300000 * 2 ^ 32)
            0x4530000000000000 ∧
        IsNaN 64 (u64Low (x86Env rm) (m.args 0) i) = false ∧
        isInf 64 (u64Low (x86Env rm) (m.args 0) i) = false ∧
        fpVal 64 (u64Low (x86Env rm) (m.args 0) i) =
          (lane 32 (2 * i) (m.args 0) : Int) * 2 ^ fpScale 64 ∧
        IsNaN 64 (u64High (x86Env rm) (m.args 0) i) = false ∧
        isInf 64 (u64High (x86Env rm) (m.args 0) i) = false ∧
        fpVal 64 (u64High (x86Env rm) (m.args 0) i) =
          (lane 32 (2 * i + 1) (m.args 0) : Int) * 2 ^ 32 * 2 ^ fpScale 64 ∧
        lane 64 i (m0.xmm 0) =
          x86add rm 64 (u64Low (x86Env rm) (m.args 0) i) (u64High (x86Env rm) (m.args 0) i) ∧
        lane 64 i (m0.xmm 0) =
          x86add rm 64 (u64High (x86Env rm) (m.args 0) i) (u64Low (x86Env rm) (m.args 0) i) ∧
        lane 64 i (m0.xmm 0) =
          fpOfInt 64 rm ((lane 64 i (m.args 0) : Int) * 2 ^ fpScale 64) 0
            (rm == .TowardsMinusInfinity) := by
  have hsub : ∀ w, (x86Env rm).subp w = x86sub rm w := fun _ => rfl
  obtain ⟨m1, hm1, hfin⟩ := UnsignedToFloat.body_lanes rm code 64 (Or.inr rfl) hpath m
  refine ⟨m1, hm1, ?_⟩
  intro i hi
  obtain ⟨sl, sh, hL, hH, hLf, hHf, hsl, hsh⟩ := u64_halves rm (lane 32 (2 * i) (m.args 0))
    (lane 32 (2 * i + 1) (m.args 0)) (lane_lt _ _ _) (lane_lt _ _ _)
  obtain ⟨l1, l2, l3, l4⟩ := u64_lane rm (lane 32 (2 * i) (m.args 0))
    (lane 32 (2 * i + 1) (m.args 0)) (lane_lt _ _ _) (lane_lt _ _ _)
  have e1 : lane 32 (2 * i) (m.args 0) + 0x43300000 * 2 ^ 32 =
      0x4330000000000000 + lane 32 (2 * i) (m.args 0) := by norm_num; omega
  have e2 : lane 32 (2 * i + 1) (m.args 0) + 0x45300000 * 2 ^ 32 =
      0x4530000000000000 + lane 32 (2 * i + 1) (m.args 0) := by norm_num; omega
  have hlow : u64Low (x86Env rm) (m.args 0) i =
      x86sub rm 64 (lane 32 (2 * i) (m.args 0) + 0x43300000 * 2 ^ 32) 0x4330000000000000 := by
    unfold u64Low
    rw [hsub, e1, Nat.mod_eq_of_lt l3]
  have hhigh : u64High (x86Env rm) (m.args 0) i =
      x86sub rm 64 (lane 32 (2 * i + 1) (m.args 0) + 0x45300000 * 2 ^ 32)
        0x4530000000000000 := by
    unfold u64High
    rw [hsub, e2, Nat.mod_eq_of_lt l4]
  have hvl : fpVal 64 (x86sub rm 64 (0x4330000000000000 + lane 32 (2 * i) (m.args 0))
      0x4330000000000000) = (lane 32 (2 * i) (m.args 0) : Int) * 2 ^ fpScale 64 := by
    rw [fpVal_of_FpIs _ _ _ _ hLf, fmt64.2.2.2]
    exact signed_scaled _ _ _ hsl
  have hvh : fpVal 64 (x86sub rm 64 (0x4530000000000000 + lane 32 (2 * i + 1) (m.args 0))
      0x4530000000000000) =
      (lane 32 (2 * i + 1) (m.args 0) : Int) * 2 ^ 32 * 2 ^ fpScale 64 := by
    rw [fpVal_of_FpIs _ _ _ _ hHf, fmt64.2.2.2, signed_scaled _ _ _ hsh]
    ring
  have hS0 : fpVal 64 0x4330000000000000 = 2 ^ 52 * 2 ^ fpScale 64 := by
    have h := FpIs_pack 64 (Or.inr rfl) false 0x433 0 (by decide) (by decide)
    rw [fmt64.1] at h
    have e : withSign 64 false (0x433 * 2 ^ 52 + 0) = 0x4330000000000000 := by decide
    rw [e] at h
    rw [fpVal_of_FpIs _ _ _ _ h, fmt64.2.2.2]
    simp only [Bool.false_eq_true, if_false, (by decide : ¬ (0x433 = 0))]
    push_cast
    ring
  have hS1 : fpVal 64 0x4530000000000000 = 2 ^ 84 * 2 ^ fpScale 64 := by
    have h := FpIs_pack 64 (Or.inr rfl) false 0x453 0 (by decide) (by decide)
    rw [fmt64.1] at h
    have e : withSign 64 false (0x453 * 2 ^ 52 + 0) = 0x4530000000000000 := by decide
    rw [e] at h
    rw [fpVal_of_FpIs _ _ _ _ h, fmt64.2.2.2]
    simp only [Bool.false_eq_true, if_false, (by decide : ¬ (0x453 = 0))]
    push_cast
    ring
  have hres := hfin i (by simpa using hi)
  refine ⟨lane64_split32 i _, ?_, ?_, hS0, hS1, hlow, hhigh, ?_, ?_, ?_, ?_, ?_, ?_, ?_, ?_,
    hres⟩
  · rw [e1, fpVal_of_FpIs _ _ _ _ hL, fmt64.2.2.2]
    simp only [Bool.false_eq_true, if_false]
    push_cast
    ring
  · rw [e2, fpVal_of_FpIs _ _ _ _ hH, fmt64.2.2.2]
    simp only [Bool.false_eq_true, if_false]
    push_cast
    ring
  · rw [hlow, e1]
    exact hLf.1
  · rw [hlow, e1]
    exact hLf.2.1
  · rw [hlow, e1]
    exact hvl
  · rw [hhigh, e2]
    exact hHf.1
  · rw [hhigh, e2]
    exact hHf.2.1
  · rw [hhigh, e2]
    exact hvh
  · rw [hres, hlow, hhigh, e1, e2, l1, lane64_split32,
      add_comm (lane 32 (2 * i) (m.args 0))]
  · rw [hres, hlow, hhigh, e1, e2, l2, lane64_split32,
      add_comm (lane 32 (2 * i) (m.args 0))]

theorem EmitFPVectorU64ToDouble_halves_witness :
    ∃ m0, execList (x86Env .ToNearest_TieEven) .sse2
        (Instr.UseScratchXmm 0 0 :: UnsignedToFloat.body 64 .sse2) (Machine.init [5]) =
          some m0 ∧
      lane 64 0 (m0.xmm 0) =
        fpOfInt 64 .ToNearest_TieEven
          ((lane 64 0 ((Machine.init [5]).args 0) : Int) * 2 ^ fpScale 64) 0
          (RoundingMode.ToNearest_TieEven == .TowardsMinusInfinity) := by
  obtain ⟨m0, h0, h⟩ := EmitFPVectorU64ToDouble_halves .ToNearest_TieEven .sse2 rfl
    (Machine.init [5])
  exact ⟨m0, h0, (h 0 (by decide)).2.2.2.2.2.2.2.2.2.2.2.2.2.2.2⟩

/-! ## The operands of `U32ToSingle` on the two paths -/

/-- Two 128-bit values with the same lanes are the same value. -/
theorem lanes_ext (w : Nat) (hw : w = 32 ∨ w = 64) (a b : Nat) (ha : a < 2 ^ 128)
    (hb : b < 2 ^ 128) (h : ∀ i, i < 128 / w → lane w i a = lane w i b) : a = b := by
  rcases hw with rfl | rfl
  · have h0 := h 0 (by decide)
    have h1 := h 1 (by decide)
    have h2 := h 2 (by decide)
    have h3 := h 3 (by decide)
    simp only [lane, Nat.shiftRight_eq_div_pow] at h0 h1 h2 h3
    norm_num at h0 h1 h2 h3 ha hb
    omega
  · have h0 := h 0 (by decide)
    have h1 := h 1 (by decide)
    simp only [lane, Nat.shiftRight_eq_div_pow] at h0 h1
    norm_num at h0 h1 ha hb
    omega

theorem or_lt_128 (a b : Nat) (ha : a < 2 ^ 128) (hb : b < 2 ^ 128) : a ||| b < 2 ^ 128 :=
  Nat.or_lt_two_pow ha hb

theorem and_lt_128 (a b : Nat) (ha : a < 2 ^ 128) : a &&& b < 2 ^ 128 :=
  lt_of_le_of_lt Nat.and_le_left ha

theorem blendw_lt (imm a b : Nat) : blendw imm a b < 2 ^ 128 := ofLanes_lt 16 _ 8

theorem mapLanes32_lt (f : Nat → Nat) (a : Nat) : mapLanes 32 f a < 2 ^ 128 := ofLanes_lt 32 _ 4

/-- The operand-building prefix of the AVX sequence of `EmitFPVectorU32ToSingle`. -/
theorem U32_avx_build (env : Env) (code : BlockOfCode) (m : Machine) :
    ∃ m0, execList env code
        [Instr.UseScratchXmm 0 0,
         Instr.avx (.vpblendw 0b10101010) 1 0 (.MConst 0x4B0000004B000000 0x4B0000004B000000),
         Instr.vex2 (.vpsrld 16) 0 (.xmm 0),
         Instr.avx (.vpblendw 0b10101010) 0 0 (.MConst 0x5300000053000000 0x5300000053000000)]
        m = some m0 ∧
      m0.xmm 0 < 2 ^ 128 ∧ m0.xmm 1 < 2 ^ 128 ∧
      ∀ i, i < 4 →
        lane 32 i (m0.xmm 1) = (lane 32 i (m.args 0) &&& 0xFFFF) ||| 0x4B000000 ∧
        lane 32 i (m0.xmm 0) = (lane 32 i (m.args 0) >>> 16) ||| 0x53000000 := by
  refine ⟨_, rfl, blendw_lt _ _ _, blendw_lt _ _ _, ?_⟩
  intro i hi
  have hi4 : i < 128 / 32 := hi
  obtain ⟨d1, d2⟩ := lane16_const i hi
  have hx : lane 32 i (m.args 0) < 2 ^ 32 := lane_lt _ _ _
  obtain ⟨b1, b2, b3, b4⟩ := u32_bits (lane 32 i (m.args 0)) hx
  have hs : (lane 32 i (m.args 0) >>> 16) % 2 ^ 32 = lane 32 i (m.args 0) >>> 16 := by
    rw [Nat.shiftRight_eq_div_pow]
    exact Nat.mod_eq_of_lt (by omega)
  rw [hs] at b1 b4
  simp only [Machine.setXmm, if_true, avxSem, vex2Sem, Machine.operand,
    if_neg (by decide : (0 : Nat) ≠ 1), if_neg (by decide : (1 : Nat) ≠ 0)]
  rw [lane32_blendw _ _ _ hi, lane32_blendw _ _ _ hi, lane_mapLanes _ _ _ _ hi4, d1, d2, hs,
    Nat.and_comm, b2, b1, ← b3, ← b4]
  exact ⟨rfl, rfl⟩

/-- The operand-building prefix of the SSE sequence of `EmitFPVectorU32ToSingle`. -/
theorem U32_sse_build (env : Env) (code : BlockOfCode) (m : Machine) :
    ∃ m0, execList env code
        [Instr.UseScratchXmm 0 0,
         Instr.sse .movdqa 1 (.MConst 0x0000FFFF0000FFFF 0x0000FFFF0000FFFF),
         Instr.sse .pand 1 (.xmm 0),
         Instr.sse .por 1 (.MConst 0x4B0000004B000000 0x4B0000004B000000),
         Instr.psrld 0 16,
         Instr.sse .por 0 (.MConst 0x5300000053000000 0x5300000053000000)] m = some m0 ∧
      m0.xmm 0 < 2 ^ 128 ∧ m0.xmm 1 < 2 ^ 128 ∧
      ∀ i, i < 4 →
        lane 32 i (m0.xmm 1) = (lane 32 i (m.args 0) &&& 0xFFFF) ||| 0x4B000000 ∧
        lane 32 i (m0.xmm 0) = (lane 32 i (m.args 0) >>> 16) ||| 0x53000000 := by
  refine ⟨_, rfl, ?_, ?_, ?_⟩
  · simp only [Machine.setXmm, if_true, sseSem, Machine.operand,
      if_neg (by decide : (0 : Nat) ≠ 1), if_neg (by decide : (1 : Nat) ≠ 0)]
    exact or_lt_128 _ _ (mapLanes32_lt _ _) (by norm_num)
  · simp only [Machine.setXmm, if_true, sseSem, Machine.operand,
      if_neg (by decide : (0 : Nat) ≠ 1), if_neg (by decide : (1 : Nat) ≠ 0)]
    exact or_lt_128 _ _ (and_lt_128 _ _ (by norm_num)) (by norm_num)
  intro i hi
  have hi4 : i < 128 / 32 := hi
  obtain ⟨c1, c2, c3, -⟩ := lane32_const i hi
  have hx : lane 32 i (m.args 0) < 2 ^ 32 := lane_lt _ _ _
  have hs : (lane 32 i (m.args 0) >>> 16) % 2 ^ 32 = lane 32 i (m.args 0) >>> 16 := by
    rw [Nat.shiftRight_eq_div_pow]
    exact Nat.mod_eq_of_lt (by omega)
  simp only [Machine.setXmm, if_true, sseSem, Machine.operand,
    if_neg (by decide : (0 : Nat) ≠ 1), if_neg (by decide : (1 : Nat) ≠ 0)]
  rw [lane_or, lane_or, lane_and, lane_mapLanes _ _ _ _ hi4, c1, c2, c3, hs, Nat.and_comm]
  exact ⟨rfl, rfl⟩

/-- C34: in `EmitFPVectorU32ToSingle` on a host without AVX-512, the AVX sequence
(`vpblendw`, `vpsrld`, `vpblendw`) and the SSE sequence (`movdqa`, `pand`, `por`, `psrld`,
`por`) leave the same two operand registers, bit for bit, for every input vector: lane `i`
of register `1` is `(x AND 0xFFFF) OR 0x4B000000` and lane `i` of register `0` is
`(x >> 16) OR 0x53000000`, with `x` lane `i` of the input. The next instruction of either
sequence adds the constant vector of `0xD3000080` to register `0`, and the two sums are
again the same register value. -/
theorem EmitFPVectorU32ToSingle_operands (env : Env) (codeA codeS : BlockOfCode)
    (hA512 : (codeA.DoesCpuSupport .tAVX512DQ && codeA.DoesCpuSupport .tAVX512VL) = false)
    (hA : codeA.DoesCpuSupport .tAVX = true)
    (hS512 : (codeS.DoesCpuSupport .tAVX512DQ && codeS.DoesCpuSupport .tAVX512VL) = false)
    (hS : codeS.DoesCpuSupport .tAVX = false) (m : Machine) :
    ∃ buildA buildS mA mS mA1 mS1,
      buildA =
        [Instr.avx (.vpblendw 0b10101010) 1 0 (.MConst 0x4B0000004B000000 0x4B0000004B000000),
         Instr.vex2 (.vpsrld 16) 0 (.xmm 0),
         Instr.avx (.vpblendw 0b10101010) 0 0
           (.MConst 0x5300000053000000 0x5300000053000000)] ∧
      buildS =
        [Instr.sse .movdqa 1 (.MConst 0x0000FFFF0000FFFF 0x0000FFFF0000FFFF),
         Instr.sse .pand 1 (.xmm 0),
         Instr.sse .por 1 (.MConst 0x4B0000004B000000 0x4B0000004B000000),
         Instr.psrld 0 16,
         Instr.sse .por 0 (.MConst 0x5300000053000000 0x5300000053000000)] ∧
      UnsignedToFloat.body 32 codeA = buildA ++
        [Instr.avx (.vaddp 32) 0 0 (.MConst 0xD3000080D3000080 0xD3000080D3000080),
         Instr.avx (.vaddp 32) 0 1 (.xmm 0)] ∧
      UnsignedToFloat.body 32 codeS = buildS ++
        [Instr.sse (.addp 32) 0 (.MConst 0xD3000080D3000080 0xD3000080D3000080),
         Instr.sse (.addp 32) 0 (.xmm 1)] ∧
      execList env codeA (Instr.UseScratchXmm 0 0 :: buildA) m = some mA ∧
      execList env codeS (Instr.UseScratchXmm 0 0 :: buildS) m = some mS ∧
      (∀ i, i < 4 →
        lane 32 i (mA.xmm 1) = (lane 32 i (m.args 0) &&& 0xFFFF) ||| 0x4B000000 ∧
        lane 32 i (mA.xmm 0) = (lane 32 i (m.args 0) >>> 16) ||| 0x53000000 ∧
        lane 32 i (mS.xmm 1) = (lane 32 i (m.args 0) &&& 0xFFFF) ||| 0x4B000000 ∧
        lane 32 i (mS.xmm 0) = (lane 32 i (m.args 0) >>> 16) ||| 0x53000000) ∧
      mA.xmm 0 = mS.xmm 0 ∧ mA.xmm 1 = mS.xmm 1 ∧
      execList env codeA
        [Instr.avx (.vaddp 32) 0 0 (.MConst 0xD3000080D3000080 0xD3000080D3000080)] mA =
          some mA1 ∧
      execList env codeS
        [Instr.sse (.addp 32) 0 (.MConst 0xD3000080D3000080 0xD3000080D3000080)] mS =
          some mS1 ∧
      mA1.xmm 0 = mS1.xmm 0 ∧ mA1.xmm 1 = mS1.xmm 1 ∧
      ∀ i, i < 4 → lane 32 i (mA1.xmm 0) =
        env.addp 32 ((lane 32 i (m.args 0) >>> 16) ||| 0x53000000) 0xD3000080 % 2 ^ 32 := by
  obtain ⟨mA, hmA, a0, a1, hlA⟩ := U32_avx_build env codeA m
  obtain ⟨mS, hmS, s0, s1, hlS⟩ := U32_sse_build env codeS m
  have e0 : mA.xmm 0 = mS.xmm 0 := lanes_ext 32 (Or.inl rfl) _ _ a0 s0 (fun i hi => by
    rw [(hlA i hi).2, (hlS i hi).2])
  have e1 : mA.xmm 1 = mS.xmm 1 := lanes_ext 32 (Or.inl rfl) _ _ a1 s1 (fun i hi => by
    rw [(hlA i hi).1, (hlS i hi).1])
  refine ⟨_, _, mA, mS, _, _, rfl, rfl, ?_, ?_, hmA, hmS, ?_, e0, e1, rfl, rfl, ?_, ?_, ?_⟩
  · simp [UnsignedToFloat.body, hA512, hA]
  · simp [UnsignedToFloat.body, hS512, hS]
  · intro i hi
    exact ⟨(hlA i hi).1, (hlA i hi).2, (hlS i hi).1, (hlS i hi).2⟩
  · simp only [Machine.setXmm, if_true, avxSem, sseSem, Machine.operand, e0]
  · simp only [Machine.setXmm, if_neg (by decide : (1 : Nat) ≠ 0), e1]
  · intro i hi
    have hi4 : i < 128 / 32 := hi
    obtain ⟨-, -, -, c4⟩ := lane32_const i hi
    simp only [Machine.setXmm, if_true, avxSem, Machine.operand]
    rw [lane_mapLanes2 _ _ _ _ _ hi4, c4, (hlA i hi).2]

theorem EmitFPVectorU32ToSingle_operands_witness :
    ∃ mA mS,
      execList (x86Env .ToNearest_TieEven) .avx
        (Instr.UseScratchXmm 0 0 :: (UnsignedToFloat.body 32 .avx).take 3)
        (Machine.init [0x12345678]) = some mA ∧
      execList (x86Env .ToNearest_TieEven) .sse2
        (Instr.UseScratchXmm 0 0 :: (UnsignedToFloat.body 32 .sse2).take 5)
        (Machine.init [0x12345678]) = some mS ∧
      mA.xmm 0 = mS.xmm 0 ∧ mA.xmm 1 = mS.xmm 1 := by
  obtain ⟨bA, bS, mA, mS, mA1, mS1, rfl, rfl, -, -, hA, hS, -, e0, e1, -⟩ :=
    EmitFPVectorU32ToSingle_operands (x86Env .ToNearest_TieEven) .avx .sse2 rfl rfl rfl rfl
      (Machine.init [0x12345678])
  exact ⟨mA, mS, hA, hS, e0, e1⟩

/-! ## Max and Min: the AVX and the SSE sequence -/

/-- No instruction defines a value wider than 128 bits. -/
theorem step_defined_lt (env : Env) (code : BlockOfCode) (i : Instr) (m m1 : Machine)
    (h : step env code i m = some m1) (hm : ∀ v, m.defined = some v → v < 2 ^ 128) :
    ∀ v, m1.defined = some v → v < 2 ^ 128 := by
  cases i
  case CallFunction fn =>
    simp only [step, Option.map_eq_some'] at h
    obtain ⟨mem, -, rfl⟩ := h
    exact hm
  case ABI_PopCallerSaveRegistersAndAdjustStackExcept e =>
    simp only [step] at h
    split at h
    · cases h
    · cases h
      exact hm
  case DefineValue r =>
    cases h
    intro v hv
    cases hv
    exact Nat.mod_lt _ (by positivity)
  all_goals
    cases h
    exact hm

theorem run_defined_lt (env : Env) (code : BlockOfCode) (near far : List Instr) (fuel : Nat) :
    ∀ (inFar : Bool) (rest : List Instr) (m m1 : Machine),
      run env code near far fuel inFar rest m = some m1 →
      (∀ v, m.defined = some v → v < 2 ^ 128) → ∀ v, m1.defined = some v → v < 2 ^ 128 := by
  induction fuel with
  | zero =>
    intro inFar rest m m1 h
    cases h
  | succ fuel ih =>
    intro inFar rest m m1 h hm
    cases rest with
    | nil =>
      simp only [run] at h
      split at h
      · cases h
      · cases h
        exact hm
    | cons i rest =>
      have hgoto : ∀ l, (match afterLabel l near with
          | some r => run env code near far fuel false r m
          | none =>
            match afterLabel l far with
            | some r => run env code near far fuel true r m
            | none => none) = some m1 → ∀ v, m1.defined = some v → v < 2 ^ 128 := by
        intro l hl
        split at hl
        · exact ih _ _ _ _ hl hm
        · split at hl
          · exact ih _ _ _ _ hl hm
          · cases hl
      have hgen : ∀ j, run env code near far (fuel + 1) inFar (j :: rest) m =
          (step env code j m).bind (run env code near far fuel inFar rest) →
          run env code near far (fuel + 1) inFar (j :: rest) m = some m1 →
          ∀ v, m1.defined = some v → v < 2 ^ 128 := by
        intro j hstep hr
        rw [hstep] at hr
        cases hs : step env code j m with
        | none => rw [hs] at hr; cases hr
        | some m2 =>
          rw [hs] at hr
          exact ih _ _ _ _ hr (step_defined_lt env code j m m2 hs hm)
      cases i
      case jmp l => exact hgoto l h
      case jnz l =>
        simp only [run] at h
        split at h
        · exact ih _ _ _ _ h hm
        · exact hgoto l h
      all_goals
        refine hgen _ ?_ h
        rfl

theorem runBlock_defined_lt (env : Env) (code : BlockOfCode) (s : EmitState) (m m1 : Machine)
    (h : runBlock env code s m = some m1) (hm : m.defined = none) (v : Nat)
    (hv : m1.defined = some v) : v < 2 ^ 128 :=
  run_defined_lt env code _ _ _ _ _ _ _ h (fun v hv => by rw [hm] at hv; cases hv) v hv

/-- Two registers with the same lanes hold the same 128 bits. -/
theorem lanes_ext_mod (w : Nat) (hw : w = 32 ∨ w = 64) (a b : Nat)
    (h : ∀ i, i < 128 / w → lane w i a = lane w i b) : a % 2 ^ 128 = b % 2 ^ 128 := by
  refine lanes_ext w hw _ _ (Nat.mod_lt _ (by positivity)) (Nat.mod_lt _ (by positivity)) ?_
  intro i hi
  rw [lane_mod128 _ _ _ (lane_mul_le w i hi), lane_mod128 _ _ _ (lane_mul_le w i hi), h i hi]

/-- C32: `EmitFPVectorMax` (`isMax`) and `EmitFPVectorMin`, for `fsize` 32 and 64, on a host
with AVX (`codeA`) and on one without (`codeS`). Started from the same registers, the AVX
and the SSE sequence of the DN=0 branch leave the same 128 bits in the result register, and
so do the two sequences of the DN=1 branch; each lane is the zero-corrected host maximum or
minimum of the operand lanes (under DN=1 the default NaN where an operand is a NaN), with
the same host `maxp`/`minp` on both paths. Whatever DN, FTZ and AccurateNaN are, the two
blocks, run on the same operand vectors, define the same value. -/
theorem MinMax_avx_sse (env : Env) (isMax : Bool) (fsize : Nat) (hf : fsize = 32 ∨ fsize = 64)
    (codeA codeS : BlockOfCode) (hA : codeA.DoesCpuSupport .tAVX = true)
    (hS : codeS.DoesCpuSupport .tAVX = false) (ctx : EmitContext) (m : Machine)
    (hm : m.defined = none) :
    (∀ result xmm_b mask comb, xmm_b ≠ result → mask ≠ result → comb ≠ result →
      mask ≠ xmm_b → comb ≠ xmm_b → comb ≠ mask →
      ∃ mA mS,
        execList env codeA
          (MinMax.core isMax (codeA.DoesCpuSupport .tAVX) fsize result xmm_b mask comb) m =
            some mA ∧
        execList env codeS
          (MinMax.core isMax (codeS.DoesCpuSupport .tAVX) fsize result xmm_b mask comb) m =
            some mS ∧
        mA.xmm result % 2 ^ 128 = mS.xmm result % 2 ^ 128 ∧
        ∀ i, i < 128 / fsize →
          lane fsize i (mA.xmm result) =
            minmaxLane env isMax fsize (lane fsize i (m.xmm result))
              (lane fsize i (m.xmm xmm_b)) ∧
          lane fsize i (mS.xmm result) =
            minmaxLane env isMax fsize (lane fsize i (m.xmm result))
              (lane fsize i (m.xmm xmm_b))) ∧
    (∀ result xmm_b mask comb nan_mask, xmm_b ≠ result → mask ≠ result → comb ≠ result →
      mask ≠ xmm_b → comb ≠ xmm_b → comb ≠ mask → nan_mask ≠ result → nan_mask ≠ xmm_b →
      nan_mask ≠ mask → nan_mask ≠ comb →
      ∃ mA mS,
        execList env codeA
          (MinMax.coreDN isMax (codeA.DoesCpuSupport .tAVX) fsize result xmm_b mask comb
            nan_mask) m = some mA ∧
        execList env codeS
          (MinMax.coreDN isMax (codeS.DoesCpuSupport .tAVX) fsize result xmm_b mask comb
            nan_mask) m = some mS ∧
        mA.xmm result % 2 ^ 128 = mS.xmm result % 2 ^ 128 ∧
        ∀ i, i < 128 / fsize →
          lane fsize i (mA.xmm result) =
            (if IsNaN fsize (lane fsize i (m.xmm result)) ||
                IsNaN fsize (lane fsize i (m.xmm xmm_b))
              then DefaultNaN fsize
              else minmaxLane env isMax fsize (lane fsize i (m.xmm result))
                (lane fsize i (m.xmm xmm_b))) ∧
          lane fsize i (mS.xmm result) = lane fsize i (mA.xmm result)) ∧
    ∃ sA sS mA mS v,
      emitted (if isMax then EmitFPVectorMax fsize codeA ctx
        else EmitFPVectorMin fsize codeA ctx) = .ok sA ∧
      emitted (if isMax then EmitFPVectorMax fsize codeS ctx
        else EmitFPVectorMin fsize codeS ctx) = .ok sS ∧
      runBlock env codeA sA m = some mA ∧ runBlock env codeS sS m = some mS ∧
      mA.defined = some v ∧ mS.defined = some v ∧
      ∀ i, i < 128 / fsize → lane fsize i v =
        MinMax.resultLane env ctx isMax fsize (lane fsize i (m.args 0))
          (lane fsize i (m.args 1)) := by
  refine ⟨?_, ?_, ?_⟩
  · intro result xmm_b mask comb h1 h2 h3 h4 h5 h6
    obtain ⟨mA, hmA, hlA, -, -⟩ := MinMax.core_sem env codeA isMax
      (codeA.DoesCpuSupport .tAVX) fsize result xmm_b mask comb hf h1 h2 h3 h4 h5 h6 m
    obtain ⟨mS, hmS, hlS, -, -⟩ := MinMax.core_sem env codeS isMax
      (codeS.DoesCpuSupport .tAVX) fsize result xmm_b mask comb hf h1 h2 h3 h4 h5 h6 m
    refine ⟨mA, mS, hmA, hmS, ?_, fun i hi => ⟨hlA i hi, hlS i hi⟩⟩
    exact lanes_ext_mod fsize hf _ _ (fun i hi => by rw [hlA i hi, hlS i hi])
  · intro result xmm_b mask comb nan_mask h1 h2 h3 h4 h5 h6 h7 h8 h9 h10
    obtain ⟨mA, hmA, hlA, -, -⟩ := MinMax.coreDN_sem env codeA isMax
      (codeA.DoesCpuSupport .tAVX) fsize result xmm_b mask comb nan_mask hf h1 h2 h3 h4 h5 h6
      h7 h8 h9 h10 m
    obtain ⟨mS, hmS, hlS, -, -⟩ := MinMax.coreDN_sem env codeS isMax
      (codeS.DoesCpuSupport .tAVX) fsize result xmm_b mask comb nan_mask hf h1 h2 h3 h4 h5 h6
      h7 h8 h9 h10 m
    refine ⟨mA, mS, hmA, hmS, ?_, fun i hi => ⟨hlA i hi, by rw [hlA i hi, hlS i hi]⟩⟩
    exact lanes_ext_mod fsize hf _ _ (fun i hi => by rw [hlA i hi, hlS i hi])
  · obtain ⟨mA, vA, hrA, hdA, hlA⟩ := MinMax.state_run env codeA ctx isMax fsize hf m
    obtain ⟨mS, vS, hrS, hdS, hlS⟩ := MinMax.state_run env codeS ctx isMax fsize hf m
    have hv : vA = vS := lanes_ext fsize hf _ _
      (runBlock_defined_lt env codeA _ m mA hrA hm vA hdA)
      (runBlock_defined_lt env codeS _ m mS hrS hm vS hdS)
      (fun i hi => by rw [hlA i hi, hlS i hi])
    exact ⟨_, _, mA, mS, vA, MinMax_emitted_eq isMax fsize hf codeA ctx,
      MinMax_emitted_eq isMax fsize hf codeS ctx, hrA, hrS, hdA, hv ▸ hdS, hlA⟩

theorem MinMax_avx_sse_witness :
    ∃ mA mS v,
      runBlock (x86Env .ToNearest_TieEven) .avx (MinMax.state true 32 .avx .dn)
        (Machine.init [5, 7]) = some mA ∧
      runBlock (x86Env .ToNearest_TieEven) .sse2 (MinMax.state true 32 .sse2 .dn)
        (Machine.init [5, 7]) = some mS ∧
      mA.defined = some v ∧ mS.defined = some v := by
  obtain ⟨-, -, sA, sS, mA, mS, v, hsA, hsS, hA, hS, hdA, hdS, -⟩ :=
    MinMax_avx_sse (x86Env .ToNearest_TieEven) true 32 (Or.inl rfl) .avx .sse2 rfl rfl .dn
      (Machine.init [5, 7]) rfl
  rw [MinMax_emitted_eq true 32 (Or.inl rfl)] at hsA hsS
  cases hsA
  cases hsS
  exact ⟨mA, mS, v, hA, hS, hdA, hdS⟩

/-! ## The NaN mask of the accurate path -/

theorem branchTaken_append (env : Env) (code : BlockOfCode) (l rest : List Instr)
    (hl : ∀ i ∈ l, i.isJump = false) (m : Machine) :
    branchTaken env code (l ++ rest) m =
      (execList env code l m).bind (branchTaken env code rest) := by
  induction l generalizing m with
  | nil => rfl
  | cons i l ih =>
    have hi : i.isJump = false := hl i (List.mem_cons_self _ _)
    have hstep : branchTaken env code (i :: (l ++ rest)) m =
        (step env code i m).bind (branchTaken env code (l ++ rest)) := by
      cases i <;> first | rfl | cases hi
    rw [List.cons_append, hstep]
    simp only [execList]
    cases step env code i m with
    | none => rfl
    | some m1 =>
      simp only [Option.some_bind]
      exact ih (fun j hj => hl j (List.mem_cons_of_mem _ hj)) m1

/-- The NaN mask `EmitThreeOpVectorOperation` hands to `HandleNaNs` on the accurate path, for
any function argument `F` that writes XMM registers other than the operands and the mask. -/
theorem EmitThreeOpVectorOperation.nan_mask (env : Env) (code : BlockOfCode) (fsize : Nat)
    (ctx : EmitContext) (F : Nat → Nat → Nat → List Instr) (k : Nat) (handler : Callee)
    (hf : fsize = 32 ∨ fsize = 64) (hacc : (!ctx.AccurateNaN || ctx.FPSCR_DN) = false)
    (hF : ∀ i ∈ F 0 2 4, ∃ d, i.xmmDst = some d ∧ d ≠ 1 ∧ d ≠ 2 ∧ d ≠ 3) (m : Machine) :
    ∃ m0 mF m3 b,
      (EmitThreeOpVectorOperation.state fsize code ctx F k handler).near =
        ([Instr.UseXmm 1 0, Instr.UseXmm 2 1, Instr.sse .movaps 3 (.xmm 2),
            Instr.sse .movaps 0 (.xmm 1), Instr.sse (.cmpunordp fsize) 3 (.xmm 1)]
          ++ F 0 2 4 ++ [Instr.sse (.cmpunordp fsize) 3 (.xmm 0)])
          ++ HandleNaNs.near code 3 0 0 ++ [Instr.DefineValue 0] ∧
      (EmitThreeOpVectorOperation.state fsize code ctx F k handler).far =
        HandleNaNs.far code [0, 1, 2] handler 0 ∧
      execList env code
        [Instr.UseXmm 1 0, Instr.UseXmm 2 1, Instr.sse .movaps 3 (.xmm 2),
          Instr.sse .movaps 0 (.xmm 1), Instr.sse (.cmpunordp fsize) 3 (.xmm 1)] m = some m0 ∧
      m0.xmm 0 = m.args 0 ∧ m0.xmm 2 = m.args 1 ∧
      (∀ i, i < 128 / fsize → lane fsize i (m0.xmm 3) =
        if IsNaN fsize (lane fsize i (m.args 0)) || IsNaN fsize (lane fsize i (m.args 1))
        then ones fsize else 0) ∧
      execList env code (F 0 2 4) m0 = some mF ∧
      execList env code
        ([Instr.UseXmm 1 0, Instr.UseXmm 2 1, Instr.sse .movaps 3 (.xmm 2),
            Instr.sse .movaps 0 (.xmm 1), Instr.sse (.cmpunordp fsize) 3 (.xmm 1)]
          ++ F 0 2 4 ++ [Instr.sse (.cmpunordp fsize) 3 (.xmm 0)]) m = some m3 ∧
      m3.xmm 0 = mF.xmm 0 ∧
      (∀ i, i < 128 / fsize → lane fsize i (m3.xmm 3) =
        if IsNaN fsize (lane fsize i (m.args 0)) || IsNaN fsize (lane fsize i (m.args 1)) ||
            IsNaN fsize (lane fsize i (mF.xmm 0))
        then ones fsize else 0) ∧
      IsNaN fsize (ones fsize) = true ∧ IsNaN fsize 0 = false ∧
      branchTaken env code
        (EmitThreeOpVectorOperation.state fsize code ctx F k handler).near m = some b ∧
      (b = true ↔ ∃ i, i < 128 / fsize ∧ lane fsize i (m3.xmm 3) = ones fsize) := by
  -- the prologue
  obtain ⟨m0, hpre, h00, h02, h01, h03⟩ : ∃ m0, execList env code
      [Instr.UseXmm 1 0, Instr.UseXmm 2 1, Instr.sse .movaps 3 (.xmm 2),
        Instr.sse .movaps 0 (.xmm 1), Instr.sse (.cmpunordp fsize) 3 (.xmm 1)] m = some m0 ∧
      m0.xmm 0 = m.args 0 ∧ m0.xmm 2 = m.args 1 ∧ m0.xmm 1 = m.args 0 ∧
      m0.xmm 3 = mapLanes2 fsize (fun x y => boolMask fsize (IsNaN fsize x || IsNaN fsize y))
        (m.args 1) (m.args 0) :=
    ⟨_, rfl, by simp [Machine.setXmm, sseSem, Machine.operand],
      by simp [Machine.setXmm, sseSem, Machine.operand],
      by simp [Machine.setXmm, sseSem, Machine.operand],
      by simp [Machine.setXmm, sseSem, Machine.operand]⟩
  -- the host operation
  obtain ⟨mF, hmF, -, hkF⟩ := execList_xmmOnly env code (F 0 2 4)
    (fun i hi => (hF i hi).imp (fun d h => h.1)) m0
  have hkeep : mF.xmm 3 = m0.xmm 3 := by
    apply hkF
    intro i hi
    obtain ⟨d, hd, -, -, h3⟩ := hF i hi
    rw [hd]
    intro hc
    cases hc
    exact h3 rfl
  -- the mask
  have hmask : (mF.setXmm 3 (sseSem env (.cmpunordp fsize) (mF.xmm 3) (mF.xmm 0))).xmm 3 =
      mapLanes2 fsize (fun x y => boolMask fsize (IsNaN fsize x || IsNaN fsize y))
        (mapLanes2 fsize (fun x y => boolMask fsize (IsNaN fsize x || IsNaN fsize y))
          (m.args 1) (m.args 0)) (mF.xmm 0) := by
    simp [Machine.setXmm, sseSem, hkeep, h03]
  have hm3 : execList env code
      ([Instr.UseXmm 1 0, Instr.UseXmm 2 1, Instr.sse .movaps 3 (.xmm 2),
          Instr.sse .movaps 0 (.xmm 1), Instr.sse (.cmpunordp fsize) 3 (.xmm 1)]
        ++ F 0 2 4 ++ [Instr.sse (.cmpunordp fsize) 3 (.xmm 0)]) m =
      some (mF.setXmm 3 (sseSem env (.cmpunordp fsize) (mF.xmm 3) (mF.xmm 0))) := by
    rw [execList_append, execList_append, hpre, Option.some_bind, hmF, Option.some_bind]
    rfl
  have hlane : ∀ i, i < 128 / fsize →
      lane fsize i ((mF.setXmm 3 (sseSem env (.cmpunordp fsize) (mF.xmm 3) (mF.xmm 0))).xmm 3) =
        if IsNaN fsize (lane fsize i (m.args 0)) || IsNaN fsize (lane fsize i (m.args 1)) ||
            IsNaN fsize (lane fsize i (mF.xmm 0))
        then ones fsize else 0 := by
    intro i hi
    rw [hmask, lane_mapLanes2 _ _ _ _ _ hi, lane_mapLanes2 _ _ _ _ _ hi, boolMask_mod,
      boolMask_mod, IsNaN_boolMask _ hf, Bool.or_comm (IsNaN fsize (lane fsize i (m.args 1)))]
    rfl
  have hones : IsNaN fsize (ones fsize) = true := IsNaN_boolMask fsize hf true
  have hzeroN : IsNaN fsize 0 = false := IsNaN_boolMask fsize hf false
  have hne : ones fsize ≠ 0 := by rcases hf with rfl | rfl <;> decide
  -- the test
  obtain ⟨m4, hm4, hz4, -⟩ := HandleNaNs.test_sem env code fsize hf _ _ _
    (mF.setXmm 3 (sseSem env (.cmpunordp fsize) (mF.xmm 3) (mF.xmm 0))) hmask
  have hnear : (EmitThreeOpVectorOperation.state fsize code ctx F k handler).near =
      ([Instr.UseXmm 1 0, Instr.UseXmm 2 1, Instr.sse .movaps 3 (.xmm 2),
          Instr.sse .movaps 0 (.xmm 1), Instr.sse (.cmpunordp fsize) 3 (.xmm 1)]
        ++ F 0 2 4 ++ [Instr.sse (.cmpunordp fsize) 3 (.xmm 0)])
        ++ HandleNaNs.near code 3 0 0 ++ [Instr.DefineValue 0] := by
    simp [EmitThreeOpVectorOperation.state, hacc]
  have hfar : (EmitThreeOpVectorOperation.state fsize code ctx F k handler).far =
      HandleNaNs.far code [0, 1, 2] handler 0 := by
    simp [EmitThreeOpVectorOperation.state, hacc]
  have hSj : ∀ i ∈ ([Instr.UseXmm 1 0, Instr.UseXmm 2 1, Instr.sse .movaps 3 (.xmm 2),
            Instr.sse .movaps 0 (.xmm 1), Instr.sse (.cmpunordp fsize) 3 (.xmm 1)]
          ++ F 0 2 4 ++ [Instr.sse (.cmpunordp fsize) 3 (.xmm 0)]), i.isJump = false := by
    intro i hi
    simp only [List.mem_append, List.mem_cons, List.mem_singleton, List.not_mem_nil,
      or_false] at hi
    rcases hi with (hi | hi) | rfl
    · rcases hi with rfl | rfl | rfl | rfl | rfl <;> rfl
    · obtain ⟨d, hd, -⟩ := hF i hi
      exact xmmDst_not_jump i d hd
    · rfl
  have hTj : ∀ i ∈ (if code.DoesCpuSupport .tSSE41 then [Instr.ptest 3 3]
      else [Instr.movmskps (.scratch 0) 3, Instr.cmp (.scratch 0) 0]), i.isJump = false := by
    intro i hi
    cases hs : code.DoesCpuSupport .tSSE41
    · simp [hs] at hi
      rcases hi with rfl | rfl <;> rfl
    · simp [hs] at hi
      subst hi
      rfl
  have hbr : branchTaken env code
      (EmitThreeOpVectorOperation.state fsize code ctx F k handler).near m = some (!m4.zf) := by
    rw [hnear]
    unfold HandleNaNs.near
    rw [List.append_assoc, branchTaken_append _ _ _ _ hSj, hm3, Option.some_bind,
      List.append_assoc, branchTaken_append _ _ _ _ hTj, hm4, Option.some_bind]
    rfl
  refine ⟨m0, mF, _, !m4.zf, hnear, hfar, hpre, h00, h02, ?_, hmF, hm3, ?_, hlane, hones,
    hzeroN, hbr, ?_⟩
  · intro i hi
    rw [h03, lane_mapLanes2 _ _ _ _ _ hi, boolMask_mod,
      Bool.or_comm (IsNaN fsize (lane fsize i (m.args 1)))]
    rfl
  · simp [Machine.setXmm]
  · rw [Bool.not_eq_true', ← Bool.not_eq_true, hz4]
    constructor
    · intro h
      by_contra hc
      apply h
      intro i hi
      have h1 := hlane i hi
      rw [hmask, lane_mapLanes2 _ _ _ _ _ hi, boolMask_mod] at h1
      cases hg : (IsNaN fsize (lane fsize i (mapLanes2 fsize
          (fun x y => boolMask fsize (IsNaN fsize x || IsNaN fsize y)) (m.args 1) (m.args 0))) ||
          IsNaN fsize (lane fsize i (mF.xmm 0)))
      · rfl
      · exfalso
        apply hc
        refine ⟨i, hi, ?_⟩
        rw [hmask, lane_mapLanes2 _ _ _ _ _ hi, boolMask_mod, hg]
        rfl
    · rintro ⟨i, hi, h1⟩ hall
      have h2 := hall i hi
      rw [hmask, lane_mapLanes2 _ _ _ _ _ hi, boolMask_mod, h2] at h1
      exact hne h1.symm

/-- C31: on the accurate path (DN=0, AccurateNaN=1), for every instance `e` of
`EmitThreeOpVectorOperation` (the twelve member-function and `PairedAddLower` opcodes, and
`Max`/`Min` for `fsize` 32 and 64) and every pair of operand vectors. The near region is the
prologue (operands into registers, `nan_mask := cmpunord(b, a)`), the host operation `body`,
the second `cmpunordp nan_mask, result`, then the code of `HandleNaNs`. After the first
comparison a lane of the mask is all ones where an operand lane is a NaN and zero elsewhere;
an all-ones lane is itself a NaN and a zero lane is not, so just before `HandleNaNs` lane `i`
of `nan_mask` is all ones if `a[i]`, `b[i]` or lane `i` of the host result is a NaN and all
zeros otherwise. The conditional jump to the far region (label 1, which opens the far
region) is taken if and only if some lane of the mask is all ones. -/
theorem EmitThreeOpVectorOperation_nan_mask (env : Env) (code : BlockOfCode)
    (ctx : EmitContext) (e : Emit Unit) (fsize : Nat)
    (hdn : ctx.FPSCR_DN = false) (hacc : ctx.AccurateNaN = true)
    (hinst : (∃ op : ThreeOpOpcode, e = op.emit code ctx ∧ fsize = op.fsize) ∨
      (∃ isMax : Bool, (fsize = 32 ∨ fsize = 64) ∧
        e = if isMax then EmitFPVectorMax fsize code ctx else EmitFPVectorMin fsize code ctx))
    (m : Machine) :
    ∃ s body m0 mF m3 b,
      emitted e = .ok s ∧
      s.near =
        ([Instr.UseXmm 1 0, Instr.UseXmm 2 1, Instr.sse .movaps 3 (.xmm 2),
            Instr.sse .movaps 0 (.xmm 1), Instr.sse (.cmpunordp fsize) 3 (.xmm 1)]
          ++ body ++ [Instr.sse (.cmpunordp fsize) 3 (.xmm 0)])
          ++ HandleNaNs.near code 3 0 0 ++ [Instr.DefineValue 0] ∧
      s.far.head? = some (Instr.L 1) ∧
      (Instr.jnz 1 ∈ HandleNaNs.near code 3 0 0 ∧ ∀ i ∈ body, i.isJump = false) ∧
      execList env code
        [Instr.UseXmm 1 0, Instr.UseXmm 2 1, Instr.sse .movaps 3 (.xmm 2),
          Instr.sse .movaps 0 (.xmm 1), Instr.sse (.cmpunordp fsize) 3 (.xmm 1)] m = some m0 ∧
      m0.xmm 0 = m.args 0 ∧ m0.xmm 2 = m.args 1 ∧
      (∀ i, i < 128 / fsize → lane fsize i (m0.xmm 3) =
        if IsNaN fsize (lane fsize i (m.args 0)) || IsNaN fsize (lane fsize i (m.args 1))
        then ones fsize else 0) ∧
      execList env code body m0 = some mF ∧
      execList env code
        ([Instr.UseXmm 1 0, Instr.UseXmm 2 1, Instr.sse .movaps 3 (.xmm 2),
            Instr.sse .movaps 0 (.xmm 1), Instr.sse (.cmpunordp fsize) 3 (.xmm 1)]
          ++ body ++ [Instr.sse (.cmpunordp fsize) 3 (.xmm 0)]) m = some m3 ∧
      m3.xmm 0 = mF.xmm 0 ∧
      (∀ i, i < 128 / fsize → lane fsize i (m3.xmm 3) =
        if IsNaN fsize (lane fsize i (m.args 0)) || IsNaN fsize (lane fsize i (m.args 1)) ||
            IsNaN fsize (lane fsize i (mF.xmm 0))
        then ones fsize else 0) ∧
      IsNaN fsize (ones fsize) = true ∧ IsNaN fsize 0 = false ∧
      branchTaken env code s.near m = some b ∧
      (b = true ↔ ∃ i, i < 128 / fsize ∧ lane fsize i (m3.xmm 3) = ones fsize) := by
  have hs : (!ctx.AccurateNaN || ctx.FPSCR_DN) = false := by simp [hacc, hdn]
  have hE : ∃ (F : Nat → Nat → Nat → List Instr) (k : Nat) (handler : Callee),
      (fsize = 32 ∨ fsize = 64) ∧
      (∀ i ∈ F 0 2 4, ∃ d, i.xmmDst = some d ∧ d ≠ 1 ∧ d ≠ 2 ∧ d ≠ 3) ∧
      emitted e = .ok (EmitThreeOpVectorOperation.state fsize code ctx F k handler) := by
    rcases hinst with ⟨op, rfl, rfl⟩ | ⟨isMax, hf, rfl⟩
    · refine ⟨op.F, op.k, NaNHandler.GetDefault op.fsize op.indexer 3, op.fsize_cases, ?_,
        ThreeOpOpcode_emitted_eq op code ctx⟩
      intro i hi
      obtain ⟨d, hd, h⟩ := ThreeOpOpcode.F_xmmOnly op 0 2 4 i hi
      exact ⟨d, hd, by omega, by omega, by omega⟩
    · refine ⟨MinMax.lambda isMax fsize code ctx, if ctx.FPSCR_FTZ then 3 else 2,
        NaNHandler.GetDefault fsize .Default 3, hf, ?_, ?_⟩
      · intro i hi
        obtain ⟨d, hd, h⟩ := MinMax.lambda_xmmOnly _ _ _ _ _ _ _ i hi
        exact ⟨d, hd, by omega, by omega, by omega⟩
      · rw [MinMax_emitted_eq isMax fsize hf code ctx]
        simp [MinMax.state, hdn]
  obtain ⟨F, k, handler, hf, hF, he⟩ := hE
  obtain ⟨m0, mF, m3, b, h1, h2, h3, h4, h5, h6, h7, h8, h9, h10, h11, h12, h13, h14⟩ :=
    EmitThreeOpVectorOperation.nan_mask env code fsize ctx F k handler hf hs hF m
  refine ⟨_, F 0 2 4, m0, mF, m3, b, he, h1, ?_, ⟨?_, ?_⟩, h3, h4, h5, h6, h7, h8, h9, h10,
    h11, h12, h13, h14⟩
  · rw [h2]
    rfl
  · simp [HandleNaNs.near]
  · intro i hi
    obtain ⟨d, hd, -⟩ := hF i hi
    exact xmmDst_not_jump i d hd

theorem EmitThreeOpVectorOperation_nan_mask_witness :
    ∃ s b, emitted (EmitFPVectorAdd32 .sse2 .accurate) = .ok s ∧
      s.far.head? = some (Instr.L 1) ∧
      branchTaken (x86Env .ToNearest_TieEven) .sse2 s.near
        (Machine.init [vec32 0x7FC00000 0 0 0, 0]) = some b := by
  obtain ⟨s, body, m0, mF, m3, b, h1, -, h3, -, -, -, -, -, -, -, -, -, -, -, h15, -⟩ :=
    EmitThreeOpVectorOperation_nan_mask (x86Env .ToNearest_TieEven) .sse2 .accurate
      (EmitFPVectorAdd32 .sse2 .accurate) 32 rfl rfl
      (Or.inl ⟨.FPVectorAdd32, rfl, rfl⟩) (Machine.init [vec32 0x7FC00000 0 0 0, 0])
  exact ⟨s, b, h1, h3, h15⟩

/-! ## The host stack pointer is restored -/

/-- What one instruction does to `rsp`. -/
theorem step_rsp (env : Env) (code : BlockOfCode) (i : Instr) (m m1 : Machine)
    (h : step env code i m = some m1) (hw : i.writesRsp = false) :
    m1.gpr .rsp =
      match i.stackOp with
      | some (.sub n) => m.gpr .rsp - n
      | some (.add n) => m.gpr .rsp + n
      | some (.push _) => m.gpr .rsp - env.callerSaveFrame
      | some (.pop _) => m.gpr .rsp + env.callerSaveFrame
      | none => m.gpr .rsp := by
  cases i
  case CallFunction fn =>
    simp only [step, Option.map_eq_some'] at h
    obtain ⟨mem, -, rfl⟩ := h
    simp [Instr.stackOp]
  case ABI_PopCallerSaveRegistersAndAdjustStackExcept e =>
    simp only [step] at h
    split at h
    · cases h
    · cases h
      simp [Instr.stackOp]
  case ABI_PushCallerSaveRegistersAndAdjustStackExcept e =>
    cases h
    simp [Instr.stackOp, Machine.setGpr]
  case sub r imm =>
    cases h
    cases r <;> simp [Instr.stackOp, Machine.setGpr]
  case add r imm =>
    cases h
    cases r <;> simp [Instr.stackOp, Machine.setGpr]
  case movq dst src =>
    cases h
    have hd : dst ≠ .rsp := by simpa [Instr.writesRsp] using hw
    simp [Instr.stackOp, Machine.setGpr, Ne.symm hd]
  case pextrq dst src imm =>
    cases h
    have hd : dst ≠ .rsp := by simpa [Instr.writesRsp] using hw
    simp [Instr.stackOp, Machine.setGpr, Ne.symm hd]
  case movmskps dst src =>
    cases h
    have hd : dst ≠ .rsp := by simpa [Instr.writesRsp] using hw
    simp [Instr.stackOp, Machine.setGpr, Ne.symm hd]
  case lea dst addr =>
    cases h
    have hd : dst ≠ .rsp := by simpa [Instr.writesRsp] using hw
    simp [Instr.stackOp, Machine.setGpr, Ne.symm hd]
  case lea_fpsr_exc dst =>
    cases h
    have hd : dst ≠ .rsp := by simpa [Instr.writesRsp] using hw
    simp [Instr.stackOp, Machine.setGpr, Ne.symm hd]
  case mov_FPCR dst =>
    cases h
    have hd : dst ≠ .rsp := by simpa [Instr.writesRsp] using hw
    simp [Instr.stackOp, Machine.setGpr, Ne.symm hd]
  all_goals
    cases h
    rfl

theorem nested_unique (ops : List StackOp) :
    ∀ P Q : List StackOp, nested ops P = true → nested ops Q = true → P = Q := by
  induction ops with
  | nil =>
    intro P Q hP hQ
    cases P with
    | cons a P => simp [nested] at hP
    | nil =>
      cases Q with
      | cons a Q => simp [nested] at hQ
      | nil => rfl
  | cons o ops ih =>
    intro P Q hP hQ
    cases o with
    | sub n =>
      simp only [nested] at hP hQ
      exact List.tail_eq_of_cons_eq (ih _ _ hP hQ)
    | push e =>
      simp only [nested] at hP hQ
      exact List.tail_eq_of_cons_eq (ih _ _ hP hQ)
    | add n =>
      cases P with
      | nil => simp [nested] at hP
      | cons p P =>
        cases Q with
        | nil => simp [nested] at hQ
        | cons q Q =>
          cases p <;> cases q <;>
            simp only [nested, Bool.and_eq_true, decide_eq_true_eq, Bool.false_eq_true] at hP hQ
          obtain ⟨rfl, hP⟩ := hP
          obtain ⟨rfl, hQ⟩ := hQ
          rw [ih _ _ hP hQ]
    | pop e =>
      cases P with
      | nil => simp [nested] at hP
      | cons p P =>
        cases Q with
        | nil => simp [nested] at hQ
        | cons q Q =>
          cases p <;> cases q <;>
            simp only [nested, Bool.and_eq_true, decide_eq_true_eq, Bool.false_eq_true] at hP hQ
          obtain ⟨rfl, hP⟩ := hP
          obtain ⟨rfl, hQ⟩ := hQ
          rw [ih _ _ hP hQ]

/-- One instruction of nested code: what is pending after it accounts for what it did to
`rsp`. -/
theorem nested_step (env : Env) (code : BlockOfCode) (i : Instr) (rest : List Instr)
    (P : List StackOp) (m m2 : Machine) (hn : nested (stackOps (i :: rest)) P = true)
    (hw : i.writesRsp = false) (hs : step env code i m = some m2) :
    ∃ P2, nested (stackOps rest) P2 = true ∧
      m2.gpr .rsp + pendingBytes env P2 = m.gpr .rsp + pendingBytes env P := by
  have h2 := step_rsp env code i m m2 hs hw
  cases ho : i.stackOp with
  | none =>
    rw [ho] at h2
    have hn2 : nested (stackOps rest) P = true := by
      simpa [stackOps, List.filterMap_cons, ho] using hn
    exact ⟨P, hn2, by rw [h2]⟩
  | some o =>
    rw [ho] at h2
    have hn2 : nested (o :: stackOps rest) P = true := by
      simpa [stackOps, List.filterMap_cons, ho] using hn
    cases o with
    | sub n =>
      simp only [nested] at hn2
      refine ⟨_, hn2, ?_⟩
      rw [h2]
      simp only [pendingBytes, StackOp.bytes, List.map_cons, List.sum_cons]
      ring
    | push e =>
      simp only [nested] at hn2
      refine ⟨_, hn2, ?_⟩
      rw [h2]
      simp only [pendingBytes, StackOp.bytes, List.map_cons, List.sum_cons]
      ring
    | add n =>
      cases P with
      | nil => simp [nested] at hn2
      | cons p P =>
        cases p with
        | sub k =>
          simp only [nested, Bool.and_eq_true, decide_eq_true_eq] at hn2
          obtain ⟨rfl, hn3⟩ := hn2
          refine ⟨_, hn3, ?_⟩
          rw [h2]
          simp only [pendingBytes, StackOp.bytes, List.map_cons, List.sum_cons]
          ring
        | add k => simp [nested] at hn2
        | push k => simp [nested] at hn2
        | pop k => simp [nested] at hn2
    | pop e =>
      cases P with
      | nil => simp [nested] at hn2
      | cons p P =>
        cases p with
        | push k =>
          simp only [nested, Bool.and_eq_true, decide_eq_true_eq] at hn2
          obtain ⟨rfl, hn3⟩ := hn2
          refine ⟨_, hn3, ?_⟩
          rw [h2]
          simp only [pendingBytes, StackOp.bytes, List.map_cons, List.sum_cons]
          ring
        | add k => simp [nested] at hn2
        | sub k => simp [nested] at hn2
        | pop k => simp [nested] at hn2

/-- Straight-line code whose stack adjustments are nested over the pending ones, and which
does not write `rsp` otherwise, ends with `rsp` above its start by the pending bytes. -/
theorem execList_rsp (env : Env) (code : BlockOfCode) (l : List Instr) :
    ∀ (pending : List StackOp) (m m1 : Machine),
      nested (stackOps l) pending = true → (∀ i ∈ l, i.writesRsp = false) →
      execList env code l m = some m1 →
      m1.gpr .rsp = m.gpr .rsp + pendingBytes env pending := by
  induction l with
  | nil =>
    intro pending m m1 hn _ h
    cases h
    cases pending with
    | nil => simp [pendingBytes]
    | cons a pending => simp [stackOps, nested] at hn
  | cons i l ih =>
    intro pending m m1 hn hw h
    simp only [execList] at h
    cases hs : step env code i m with
    | none => rw [hs] at h; cases h
    | some m2 =>
      rw [hs, Option.some_bind] at h
      obtain ⟨P2, hn2, he⟩ := nested_step env code i l pending m m2 hn
        (hw i (List.mem_cons_self _ _)) hs
      rw [← he, ih P2 m2 m1 hn2 (fun j hj => hw j (List.mem_cons_of_mem _ hj)) h]

theorem afterLabel_suffix (l : Nat) (L r : List Instr) (h : afterLabel l L = some r) :
    ∃ pre, L = pre ++ r := by
  induction L with
  | nil => cases h
  | cons i L ih =>
    simp only [afterLabel] at h
    split at h
    · cases h
      exact ⟨[i], rfl⟩
    · obtain ⟨pre, hp⟩ := ih h
      exact ⟨i :: pre, by rw [hp]; rfl⟩

theorem jumpsBalanced_suffix (near far pre r : List Instr)
    (h : jumpsBalanced near far (pre ++ r) = true) : jumpsBalanced near far r = true := by
  induction pre with
  | nil => exact h
  | cons i pre ih =>
    simp only [List.cons_append, jumpsBalanced, Bool.and_eq_true] at h
    exact ih h.2

/-- A block whose jumps are taken with nothing pending: whatever path the run takes, code
that is nested over the pending adjustments ends with `rsp` above its start by the pending
bytes. -/
theorem run_rsp (env : Env) (code : BlockOfCode) (near far : List Instr)
    (hwn : ∀ i ∈ near, i.writesRsp = false) (hwf : ∀ i ∈ far, i.writesRsp = false)
    (hjn : jumpsBalanced near far near = true) (hjf : jumpsBalanced near far far = true)
    (fuel : Nat) :
    ∀ (inFar : Bool) (rest : List Instr) (P : List StackOp) (m m1 : Machine),
      (∀ i ∈ rest, i.writesRsp = false) → jumpsBalanced near far rest = true →
      nested (stackOps rest) P = true →
      run env code near far fuel inFar rest m = some m1 →
      m1.gpr .rsp = m.gpr .rsp + pendingBytes env P := by
  induction fuel with
  | zero =>
    intro inFar rest P m m1 _ _ _ h
    cases h
  | succ fuel ih =>
    intro inFar rest P m m1 hw hj hn h
    cases rest with
    | nil =>
      simp only [run] at h
      split at h
      · cases h
      · cases h
        cases P with
        | nil => simp [pendingBytes]
        | cons a P => simp [stackOps, nested] at hn
    | cons i rest =>
      have hw2 : ∀ j ∈ rest, j.writesRsp = false := fun j hj => hw j (List.mem_cons_of_mem _ hj)
      have hj2 : jumpsBalanced near far rest = true := by
        simp only [jumpsBalanced, Bool.and_eq_true] at hj
        exact hj.2
      have hgoto : ∀ l, nested (stackOps rest) P = true →
          (nested (stackOps rest) [] = true ∧
            (match jumpTarget near far l with
              | some r => nested (stackOps r) []
              | none => true) = true) →
          (match afterLabel l near with
          | some r => run env code near far fuel false r m
          | none =>
            match afterLabel l far with
            | some r => run env code near far fuel true r m
            | none => none) = some m1 →
          m1.gpr .rsp = m.gpr .rsp + pendingBytes env P := by
        intro l hnP hb hl
        have hP : P = [] := nested_unique _ _ _ hnP hb.1
        subst hP
        have ht := hb.2
        unfold jumpTarget at ht
        cases hnr : afterLabel l near with
        | some r =>
          rw [hnr] at hl ht
          obtain ⟨pre, hp⟩ := afterLabel_suffix l near r hnr
          refine ih false r [] m m1 (fun j hj => hwn j (by rw [hp]; simp [hj])) ?_ ht hl
          exact jumpsBalanced_suffix near far pre r (hp ▸ hjn)
        | none =>
          rw [hnr] at hl ht
          cases hfr : afterLabel l far with
          | some r =>
            rw [hfr] at hl ht
            obtain ⟨pre, hp⟩ := afterLabel_suffix l far r hfr
            refine ih true r [] m m1 (fun j hj => hwf j (by rw [hp]; simp [hj])) ?_ ht hl
            exact jumpsBalanced_suffix near far pre r (hp ▸ hjf)
          | none =>
            rw [hfr] at hl
            cases hl
      have hgen : ∀ j, j = i →
          run env code near far (fuel + 1) inFar (j :: rest) m =
            (step env code j m).bind (run env code near far fuel inFar rest) →
          m1.gpr .rsp = m.gpr .rsp + pendingBytes env P := by
        intro j hji hstep
        subst hji
        rw [hstep] at h
        cases hs : step env code j m with
        | none => rw [hs] at h; cases h
        | some m2 =>
          rw [hs, Option.some_bind] at h
          obtain ⟨P2, hn2, he⟩ := nested_step env code j rest P m m2 hn
            (hw j (List.mem_cons_self _ _)) hs
          rw [← he, ih inFar rest P2 m2 m1 hw2 hj2 hn2 h]
      cases i
      case jmp l =>
        simp only [jumpsBalanced, Bool.and_eq_true] at hj
        exact hgoto l hn hj.1 h
      case jnz l =>
        simp only [jumpsBalanced, Bool.and_eq_true] at hj
        simp only [run] at h
        split at h
        · exact ih inFar rest P m m1 hw2 hj2 hn h
        · exact hgoto l hn hj.1 h
      all_goals
        refine hgen _ rfl ?_
        rfl

theorem stackBalanced_spec (b : Bool) (s : EmitState) (h : stackBalanced b s = true) :
    nested (stackOps s.near) [] = true ∧ nested (stackOps s.far) [] = true ∧
    (∀ i ∈ s.near, i.writesRsp = false) ∧ (∀ i ∈ s.far, i.writesRsp = false) ∧
    jumpsBalanced s.near s.far s.near = true ∧ jumpsBalanced s.near s.far s.far = true := by
  simp only [stackBalanced, Bool.and_eq_true, List.all_eq_true, Bool.not_eq_true'] at h
  obtain ⟨⟨⟨⟨⟨h1, h2⟩, h3⟩, h4⟩, h5⟩, h6⟩ := h
  exact ⟨h1, h2, h3, h4, h5, h6⟩

theorem ThreeOpOpcode_stackBalanced (op : ThreeOpOpcode) (code : BlockOfCode)
    (ctx : EmitContext) : stackBalanced ctx.simple (op.state code ctx) = true := by
  have h : ∀ (op : ThreeOpOpcode) (sse41 win dn acc : Bool),
      stackBalanced (!acc || dn) (op.state ⟨sse41, false, false, false, false, win⟩
        ⟨dn, false, .ToNearest_TieEven, acc⟩) = true := by decide!
  obtain ⟨sse41, avx, fma, vl, dq, win⟩ := code
  obtain ⟨dn, ftz, rm, acc⟩ := ctx
  exact h op sse41 win dn acc

theorem MinMax_stackBalanced (isMax : Bool) (fsize : Nat) (hf : fsize = 32 ∨ fsize = 64)
    (code : BlockOfCode) (ctx : EmitContext) :
    stackBalanced ctx.simple (MinMax.state isMax fsize code ctx) = true := by
  have h : ∀ fsize ∈ [32, 64], ∀ (isMax sse41 avx win dn ftz acc : Bool) (rm : RoundingMode),
      stackBalanced (!acc || dn)
        (MinMax.state isMax fsize ⟨sse41, avx, false, false, false, win⟩
          ⟨dn, ftz, rm, acc⟩) = true := by decide!
  obtain ⟨sse41, avx, fma, vl, dq, win⟩ := code
  obtain ⟨dn, ftz, rm, acc⟩ := ctx
  rcases hf with rfl | rfl
  · exact h 32 (by simp) isMax sse41 avx win dn ftz acc rm
  · exact h 64 (by simp) isMax sse41 avx win dn ftz acc rm

theorem EmitFPVectorMulAdd_stackBalanced (fsize : Nat) (code : BlockOfCode) :
    stackBalanced false (EmitFPVectorMulAdd.state fsize code) = true := by
  obtain ⟨sse41, avx, fma, vl, dq, win⟩ := code
  cases fma <;> cases avx <;> cases win <;> rfl

theorem Fallback_stackBalanced (b : Bool) (sh : Fallback) (code : BlockOfCode) (fn : Callee) :
    stackBalanced b (sh.state code fn) = true := by
  obtain ⟨sse41, avx, fma, vl, dq, win⟩ := code
  cases b <;> cases sh <;> cases win <;> rfl

theorem EmitFPVectorRoundInt_stackBalanced (fsize : Nat) (hf : fsize = 32 ∨ fsize = 64)
    (code : BlockOfCode) (ctx : EmitContext) (rounding : RoundingMode) (exact : Bool) :
    okAnd (stackBalanced ctx.simple)
      (emitted (EmitFPVectorRoundInt fsize code ctx rounding exact)) = true := by
  have h : ∀ fsize ∈ [32, 64], ∀ (sse41 avx win dn acc exact : Bool) (rounding : RoundingMode),
      okAnd (stackBalanced (!acc || dn))
        (emitted (EmitFPVectorRoundInt fsize ⟨sse41, avx, false, false, false, win⟩
          ⟨dn, false, .ToNearest_TieEven, acc⟩ rounding exact)) = true := by
    decide!
  obtain ⟨sse41, avx, fma, vl, dq, win⟩ := code
  obtain ⟨dn, ftz, rm, acc⟩ := ctx
  rcases hf with rfl | rfl
  · exact h 32 (by simp) sse41 avx win dn acc exact rounding
  · exact h 64 (by simp) sse41 avx win dn acc exact rounding

theorem conversions_stackBalanced (b : Bool) (code : BlockOfCode) (ctx : EmitContext) :
    okAnd (stackBalanced b) (emitted EmitFPVectorS32ToSingle) = true ∧
    okAnd (stackBalanced b) (emitted (EmitFPVectorS64ToDouble code)) = true ∧
    okAnd (stackBalanced b) (emitted (EmitFPVectorU32ToSingle code ctx)) = true ∧
    okAnd (stackBalanced b) (emitted (EmitFPVectorU64ToDouble code ctx)) = true := by
  have h : ∀ (b sse41 avx vl dq : Bool) (rm : RoundingMode),
      okAnd (stackBalanced b) (emitted EmitFPVectorS32ToSingle) = true ∧
      okAnd (stackBalanced b)
        (emitted (EmitFPVectorS64ToDouble ⟨sse41, avx, false, vl, dq, false⟩)) = true ∧
      okAnd (stackBalanced b)
        (emitted (EmitFPVectorU32ToSingle ⟨sse41, avx, false, vl, dq, false⟩
          ⟨false, false, rm, false⟩)) = true ∧
      okAnd (stackBalanced b)
        (emitted (EmitFPVectorU64ToDouble ⟨sse41, avx, false, vl, dq, false⟩
          ⟨false, false, rm, false⟩)) = true := by decide!
  obtain ⟨sse41, avx, fma, vl, dq, win⟩ := code
  obtain ⟨dn, ftz, rm, acc⟩ := ctx
  exact h b sse41 avx vl dq rm

theorem simple_stackBalanced (b : Bool) :
    okAnd (stackBalanced b) (emitted EmitFPVectorAbs16) = true ∧
    okAnd (stackBalanced b) (emitted EmitFPVectorAbs32) = true ∧
    okAnd (stackBalanced b) (emitted EmitFPVectorAbs64) = true ∧
    okAnd (stackBalanced b) (emitted EmitFPVectorNeg16) = true ∧
    okAnd (stackBalanced b) (emitted EmitFPVectorNeg32) = true ∧
    okAnd (stackBalanced b) (emitted EmitFPVectorNeg64) = true ∧
    ∀ op : CompareOpcode, okAnd (stackBalanced b) (emitted op.emit) = true := by
  cases b <;>
    refine ⟨by decide!, by decide!, by decide!, by decide!, by decide!, by decide!, ?_⟩ <;>
    intro op <;> cases op <;> decide!

/-- The block of every opcode keeps the stack discipline `stackBalanced` checks. -/
theorem Opcode_stackBalanced (op : Opcode) (code : BlockOfCode) (ctx : EmitContext)
    (s : EmitState) (h : emitted (op.emit code ctx) = .ok s) :
    stackBalanced (op.simplePath ctx) s = true :=
  Opcode_forall stackBalanced ThreeOpOpcode_stackBalanced MinMax_stackBalanced
    EmitFPVectorMulAdd_stackBalanced Fallback_stackBalanced EmitFPVectorRoundInt_stackBalanced
    conversions_stackBalanced simple_stackBalanced op code ctx s h

theorem stackOps_stores (f : Nat → Instr) (hf : ∀ i, (f i).stackOp = none) (n : Nat) :
    stackOps ((List.range n).map f) = [] := by
  unfold stackOps
  rw [List.filterMap_eq_nil_iff]
  intro i hi
  obtain ⟨k, -, rfl⟩ := List.mem_map.mp hi
  exact hf k

theorem HandleNaNs.far_stackOps (code : BlockOfCode) (xmms : List Nat) (handler : Callee)
    (lbl : Nat) :
    stackOps (HandleNaNs.far code xmms handler lbl) =
      [.sub 8, .push (xmms.headD 0),
        .sub ((xmms.length : Int) * 16 + ABI_SHADOW_SPACE code),
        .add ((xmms.length : Int) * 16 + ABI_SHADOW_SPACE code),
        .pop (xmms.headD 0), .add 8] := by
  have h := stackOps_stores (fun (i : Nat) =>
    Instr.movaps_store ⟨.rsp, ABI_SHADOW_SPACE code + i * 16⟩ (xmms.getD i 0)) (fun _ => rfl)
    xmms.length
  unfold stackOps at h ⊢
  unfold HandleNaNs.far
  rw [List.filterMap_append, List.filterMap_append, h]
  rfl

/-- C36: for every opcode, host (either ABI) and guest FP control, the block `s` the
emitter leaves. In each region the adjustments of `rsp` are nested: every `add rsp, n`
undoes the latest pending `sub rsp, n` of the same amount and every caller-save pop the
latest pending caller-save push with the same excepted register, nothing stays pending, and
no other instruction writes `rsp`. Hence each region run straight through, and the block run
along whatever path its jumps take, ends with `rsp` equal to `rsp` at the start. The
adjustments of the spans are spelled out: the far span of `HandleNaNs`
(`sub 8`, push, `sub n*16+shadow`, `add n*16+shadow`, pop, `add 8`), the far span of
`MulAdd`, the four-operand fallback without register allocation and the two-, three- and
four-operand fallbacks (`sub stack_space+shadow`, `add stack_space+shadow`). -/
theorem stack_pointer_restored (op : Opcode) (code : BlockOfCode) (ctx : EmitContext)
    (s : EmitState) (h : emitted (op.emit code ctx) = .ok s) :
    nested (stackOps s.near) [] = true ∧ nested (stackOps s.far) [] = true ∧
    (∀ i ∈ s.near ++ s.far, i.writesRsp = false) ∧
    (∀ (env : Env) (m m1 : Machine), execList env code s.near m = some m1 →
      m1.gpr .rsp = m.gpr .rsp) ∧
    (∀ (env : Env) (m m1 : Machine), execList env code s.far m = some m1 →
      m1.gpr .rsp = m.gpr .rsp) ∧
    (∀ (env : Env) (m m1 : Machine), runBlock env code s m = some m1 →
      m1.gpr .rsp = m.gpr .rsp) ∧
    (∀ (xmms : List Nat) (handler : Callee) (lbl : Nat),
      stackOps (HandleNaNs.far code xmms handler lbl) =
        [.sub 8, .push (xmms.headD 0),
          .sub ((xmms.length : Int) * 16 + ABI_SHADOW_SPACE code),
          .add ((xmms.length : Int) * 16 + ABI_SHADOW_SPACE code),
          .pop (xmms.headD 0), .add 8]) ∧
    (∀ fsize : Nat, (code.DoesCpuSupport .tFMA && code.DoesCpuSupport .tAVX) = true →
      stackOps (EmitFPVectorMulAdd.state fsize code).far =
        [.sub 8, .push 0,
          .sub ((if code.win32 then 5 else 4) * 16 + ABI_SHADOW_SPACE code),
          .add ((if code.win32 then 5 else 4) * 16 + ABI_SHADOW_SPACE code),
          .pop 0, .add 8]) ∧
    (∀ (result arg1 arg2 arg3 : Nat) (fn : Callee),
      stackOps (EmitFourOpFallbackWithoutRegAlloc.code code result arg1 arg2 arg3 fn) =
        [.sub ((if code.win32 then 5 else 4) * 16 + ABI_SHADOW_SPACE code),
          .add ((if code.win32 then 5 else 4) * 16 + ABI_SHADOW_SPACE code)]) ∧
    (∀ (sh : Fallback) (fn : Callee),
      emitted (sh.emit code fn) = .ok (sh.state code fn) ∧
      (sh.state code fn).far = [] ∧
      stackOps (sh.state code fn).near =
        [.sub (sh.stackSpace code), .add (sh.stackSpace code)]) := by
  obtain ⟨h1, h2, h3, h4, h5, h6⟩ :=
    stackBalanced_spec _ s (Opcode_stackBalanced op code ctx s h)
  refine ⟨h1, h2, ?_, ?_, ?_, ?_, HandleNaNs.far_stackOps code, ?_, ?_, ?_⟩
  · intro i hi
    rcases List.mem_append.mp hi with hi | hi
    · exact h3 i hi
    · exact h4 i hi
  · intro env m m1 hr
    have := execList_rsp env code s.near [] m m1 h1 h3 hr
    simpa [pendingBytes] using this
  · intro env m m1 hr
    have := execList_rsp env code s.far [] m m1 h2 h4 hr
    simpa [pendingBytes] using this
  · intro env m m1 hr
    have := run_rsp env code s.near s.far h3 h4 h5 h6 _ false s.near [] m m1 h3 h5 h1 hr
    simpa [pendingBytes] using this
  · intro fsize hfma
    obtain ⟨sse41, avx, fma, vl, dq, win⟩ := code
    simp only [BlockOfCode.DoesCpuSupport, Bool.and_eq_true] at hfma
    obtain ⟨rfl, rfl⟩ := hfma
    cases win <;> rfl
  · intro result arg1 arg2 arg3 fn
    obtain ⟨sse41, avx, fma, vl, dq, win⟩ := code
    cases win <;> rfl
  · intro sh fn
    refine ⟨Fallback_emitted_eq sh code fn, rfl, ?_⟩
    obtain ⟨sse41, avx, fma, vl, dq, win⟩ := code
    cases sh <;> cases win <;> rfl

theorem stack_pointer_restored_witness :
    ∃ s m1, emitted (Opcode.emit .FPVectorAdd32 .sse2 .accurate) = .ok s ∧
      stackOps s.far = [.sub 8, .push 0, .sub 48, .add 48, .pop 0, .add 8] ∧
      runBlock (x86Env .ToNearest_TieEven) .sse2 s
        (Machine.init [vec32 0x7FC00000 0 0 0, 0]) = some m1 ∧
      m1.calls = [.NaNHandler 32 .Default 3] ∧
      m1.gpr .rsp = (Machine.init [vec32 0x7FC00000 0 0 0, 0]).gpr .rsp := by
  have he : emitted (Opcode.emit .FPVectorAdd32 .sse2 .accurate) =
      .ok (ThreeOpOpcode.state .FPVectorAdd32 .sse2 .accurate) :=
    ThreeOpOpcode_emitted_eq .FPVectorAdd32 .sse2 .accurate
  have hc : (runBlock (x86Env .ToNearest_TieEven) .sse2
      (ThreeOpOpcode.state .FPVectorAdd32 .sse2 .accurate)
      (Machine.init [vec32 0x7FC00000 0 0 0, 0])).map (fun m1 => m1.calls) =
      some [.NaNHandler 32 .Default 3] := by decide!
  obtain ⟨m1, hm1, hcalls⟩ := Option.map_eq_some'.mp hc
  exact ⟨_, m1, he, by decide!, hm1, hcalls,
    (stack_pointer_restored .FPVectorAdd32 .sse2 .accurate _ he).2.2.2.2.2.1 _ _ _ hm1⟩

end Dynarmic
